import Mathlib

/-!
# Instruction lowering of the shading-language back end (`src/liboslexec/llvm_gen.cpp`)

The lowering routines of `llvm_gen.cpp` emit straight-line IR through a builder.
The embedding below runs every emitted instruction at the point where it is
emitted, against an explicit run-time store: a load reads the store, a store
writes it, an arithmetic instruction computes on the loaded values, and a call
into the runtime library is appended to the list of emitted calls and handed to
an arbitrary model of that library.  For straight-line code this is exactly the
execution of the emitted block, in emission order.

Floating-point values are exact rationals, with one further value for a float
that is not a number (NaN); integers are 32-bit two's complement.
An `ASSERT` that fails, or an operand that is absent, aborts the lowering
(`none`).  The value returned to the caller (`true`/`false`) is the `Bool`
component of the result.  Every symbol has storage (§3), so a load always
yields a value: the exits `if (!a || !b) return false` of the source are never
taken and have no counterpart below.
-/

namespace OSL

/-! ## Data model -/

/-- Modelled from the spec: the base category of a TypeDescriptor (§3),
`int`, `float`, `string`, `matrix`, `triple`, `closure` or structure. -/
inductive BaseCategory
  | int | float | string | matrix | triple | closure | struct
  deriving DecidableEq, Repr

/-- Modelled from the spec: the geometric-semantics tag of a triple (§3). -/
inductive VecSemantics
  | color | point | vector | normal
  deriving DecidableEq, Repr

/-- Modelled from the spec: TypeDescriptor (§3).  The declaration of `TypeSpec`
and `TypeDesc` is not part of the source file; the aggregate component count is
determined by the base category (1 scalar, 3 triple, 16 matrix) and an array
length of 0 means "not an array". -/
structure TypeSpec where
  base : BaseCategory
  vecsemantics : VecSemantics
  arraylen : Nat
  deriving DecidableEq, Repr

namespace TypeSpec

/-- Modelled from the spec: aggregate component count, 1 for a scalar, 3 for a
triple, 16 for a matrix (§3). -/
def aggregate (t : TypeSpec) : Nat :=
  match t.base with
  | .triple => 3
  | .matrix => 16
  | _ => 1

/-- Modelled from the spec: `simpletype()` of the absent `TypeSpec` class; the
descriptor itself. -/
def simpletype (t : TypeSpec) : TypeSpec := t

/-- Modelled from the spec: array length, 0 when the type is not an array. -/
def arraylength (t : TypeSpec) : Nat := t.arraylen

/-- Modelled from the spec: number of array elements (1 when not an array). -/
def numelements (t : TypeSpec) : Nat := if t.arraylen = 0 then 1 else t.arraylen

def is_array (t : TypeSpec) : Bool := t.arraylen != 0

def is_closure_based (t : TypeSpec) : Bool := t.base == .closure

def is_closure (t : TypeSpec) : Bool := t.base == .closure && t.arraylen == 0

/-- Modelled from the spec: float-based types are float, triple and matrix
(arrays of them included). -/
def is_floatbased (t : TypeSpec) : Bool :=
  t.base == .float || t.base == .triple || t.base == .matrix

def is_float (t : TypeSpec) : Bool := t.base == .float && t.arraylen == 0

def is_int (t : TypeSpec) : Bool := t.base == .int && t.arraylen == 0

def is_string (t : TypeSpec) : Bool := t.base == .string && t.arraylen == 0

def is_triple (t : TypeSpec) : Bool := t.base == .triple && t.arraylen == 0

def is_matrix (t : TypeSpec) : Bool := t.base == .matrix && t.arraylen == 0

end TypeSpec

/-- Run-time scalar held in a slot or in an IR value: an exact float, a 32-bit
integer, a string, an opaque pointer (closures), or the float that is not a
number, which the float comparisons see as unordered with every float. -/
inductive Value
  | f (q : ℚ)
  | i (n : Int)
  | s (u : String)
  | p (n : Nat)
  | nan
  deriving DecidableEq, Repr

namespace Value

/-- Whether the value is the float that is not a number. -/
def is_nan (v : Value) : Bool := v == .nan

/-- The number denoted by a value read as a float. -/
def toRat : Value → ℚ
  | .f q => q
  | .i n => (n : ℚ)
  | _ => 0

/-- The number denoted by a value read as an integer (a float is truncated
toward zero). -/
def toInt : Value → Int
  | .i n => n
  | .f q => Int.tdiv q.num (q.den : Int)
  | _ => 0

end Value

/-- Modelled from the spec: storage role of a Symbol (§3). -/
inductive SymType
  | temp | param | global | const
  deriving DecidableEq, Repr

/-- Modelled from the spec: value-source tag of a Symbol (§3). -/
inductive ValueSource
  | DefaultVal | ConnectedVal
  deriving DecidableEq, Repr

/-- Modelled from the spec: Symbol (§3), a named operand with its type, storage
role, derivative capability, literal value (constants) and value source.  The
declaration of `Symbol` is not part of the source file. -/
structure Symbol where
  name : String
  typespec : TypeSpec
  symtype : SymType
  has_derivs : Bool
  data : List Value
  valuesource : ValueSource
  deriving DecidableEq, Repr

namespace Symbol

def is_constant (s : Symbol) : Bool := s.symtype == .const

/-- The C++ expression `*(int *)sym.data()`: the first literal, read as int. -/
def int_data (s : Symbol) : Int := (s.data.headD (.i 0)).toInt

end Symbol

/-- Modelled from the spec: Instruction (§3): operator name, resolved operand
symbols and source location. -/
structure Opcode where
  opname : String
  args : List Symbol
  sourcefile : String
  sourceline : Int
  deriving DecidableEq, Repr

namespace Opcode

def nargs (op : Opcode) : Nat := op.args.length

end Opcode

/-- A storage slot: symbol, derivative index (0 value, 1 dx, 2 dy), array
element and aggregate component. -/
structure Slot where
  sym : Symbol
  deriv : Nat
  arrayindex : Int
  component : Int
  deriving DecidableEq, Repr

/-- The run-time store. -/
abbrev Memory := Slot → Value

/-- The store with one slot overwritten. -/
def Memory.write (m : Memory) (x : Slot) (v : Value) : Memory :=
  fun y => if y = x then v else m y

/-- Argument of an emitted runtime-library call. -/
inductive Arg
  | val (v : Value)
  | sg
  | ptr (sym : Symbol) (deriv : Nat)
  | sym (s : Symbol)
  deriving DecidableEq, Repr

/-- An emitted call into the runtime library; `deriv_ptrs` is the last argument
of the `Symbol`-array overload of `llvm_call_function`. -/
structure Call where
  name : String
  args : List Arg
  deriv_ptrs : Bool
  deriving DecidableEq, Repr

/-- Code-generation state: the store the emitted code runs on and the runtime
calls emitted so far, oldest first. -/
structure CodeGen where
  mem : Memory
  calls : List Call

/-- The code generator's context.  The runtime library is an external
collaborator of which only names and argument order are known (§6), so its
effect is a parameter; so are the renderer-defined results of a safe division
or modulo by zero (§9), as functions of the numerator. -/
structure RuntimeOptimizer where
  range_checking : Bool
  runtime : Call → Memory → Value × Memory
  div_by_zero : ℚ → ℚ
  mod_by_zero : ℚ → ℚ

/-! ## Loops -/

/-- The loop `for (i = 0; i < n; ++i) body`. -/
def forLoop {σ : Type} : Nat → (Nat → σ → σ) → σ → σ
  | 0, _, s => s
  | n + 1, body, s => body n (forLoop n body s)

/-- The loop `for (i = 0; i < n; ++i) body` whose body may abort. -/
def forLoopM {σ : Type} : Nat → (Nat → σ → Option σ) → σ → Option σ
  | 0, _, s => some s
  | n + 1, body, s => (forLoopM n body s).bind (body n)

/-- The loop `for (d = lo; d < lo + n; ++d) { body; if (stop) break; }` with a
loop-invariant break condition. -/
def forBreak {σ : Type} (stop : Bool) : Nat → Nat → (Nat → σ → σ) → σ → σ
  | _, 0, _, s => s
  | lo, n + 1, body, s =>
    if stop then body lo s else forBreak stop (lo + 1) n body (body lo s)

/-! ## IR builder instructions (exact arithmetic)

The instructions created through `rop.builder()`.  Float instructions compute on
the rational a value denotes, integer instructions on the integer it denotes,
wrapped to 32 bits.  An "unordered or ..." float comparison holds when one of
its operands is a NaN, and is the comparison of the two numbers otherwise.
Float arithmetic is modelled on numbers only: it reads a NaN operand as 0 and
never yields a NaN.  A one-bit result is a `Bool`. -/

/-- Wrap an integer into the 32-bit two's-complement range. -/
def wrap32 (n : Int) : Int := (n + 2147483648) % 4294967296 - 2147483648

def CreateFSub (a b : Value) : Value := .f (a.toRat - b.toRat)

def CreateFMul (a b : Value) : Value := .f (a.toRat * b.toRat)

def CreateAdd (a b : Value) : Value := .i (wrap32 (a.toInt + b.toInt))

def CreateMul (a b : Value) : Value := .i (wrap32 (a.toInt * b.toInt))

/-- The comparison `FCmpULT`: unordered or less than. -/
def CreateFCmpULT (a b : Value) : Bool :=
  a.is_nan || b.is_nan || decide (a.toRat < b.toRat)

/-- The comparison `FCmpULE`: unordered or less or equal. -/
def CreateFCmpULE (a b : Value) : Bool :=
  a.is_nan || b.is_nan || decide (a.toRat ≤ b.toRat)

/-- The comparison `FCmpUGT`: unordered or greater than. -/
def CreateFCmpUGT (a b : Value) : Bool :=
  a.is_nan || b.is_nan || decide (a.toRat > b.toRat)

/-- The comparison `FCmpUGE`: unordered or greater or equal. -/
def CreateFCmpUGE (a b : Value) : Bool :=
  a.is_nan || b.is_nan || decide (a.toRat ≥ b.toRat)

/-- The comparison `FCmpUEQ`: unordered or equal. -/
def CreateFCmpUEQ (a b : Value) : Bool :=
  a.is_nan || b.is_nan || decide (a.toRat = b.toRat)

/-- The comparison `FCmpUNE`: unordered or not equal. -/
def CreateFCmpUNE (a b : Value) : Bool :=
  a.is_nan || b.is_nan || decide (a.toRat ≠ b.toRat)

def CreateICmpSLT (a b : Value) : Bool := decide (a.toInt < b.toInt)

def CreateICmpSLE (a b : Value) : Bool := decide (a.toInt ≤ b.toInt)

def CreateICmpSGT (a b : Value) : Bool := decide (a.toInt > b.toInt)

def CreateICmpSGE (a b : Value) : Bool := decide (a.toInt ≥ b.toInt)

def CreateICmpEQ (a b : Value) : Bool := decide (a = b)

def CreateICmpNE (a b : Value) : Bool := decide (a ≠ b)

def CreateSelect (cond : Bool) (a b : Value) : Value := if cond then a else b

def CreateAnd (a b : Bool) : Bool := a && b

def CreateOr (a b : Bool) : Bool := a || b

def CreateZExt (b : Bool) : Value := .i (if b then 1 else 0)

/-! ## Helpers of the code generator that live outside the source file -/

/-- The null `llvm::Value*`, held by a variable that is never assigned. -/
def NULL : Value := .p 0

/-- The IR constant `llvm_constant (x)` of a float. -/
def llvm_constant (q : ℚ) : Value := .f q

/-- Modelled from the spec: `llvm_int_to_float`, the int to float promotion of
§4.1. -/
def llvm_int_to_float (v : Value) : Value := .f v.toRat

/-- Modelled from the spec: `llvm_float_to_int`, the float to int conversion of
§4.1. -/
def llvm_float_to_int (v : Value) : Value := .i v.toInt

/-- Modelled from the spec: type promotion float↔int per the destination's base
type (§4.1), applied by a load that is given a cast type. -/
def llvm_cast (t : TypeSpec) (cast : Option TypeSpec) (v : Value) : Value :=
  match cast with
  | none => v
  | some c =>
    if t.is_floatbased && c.base == .int then llvm_float_to_int v
    else if t.base == .int && c.is_floatbased then llvm_int_to_float v
    else v

/-- Array element addressed by an optional run-time index (element 0 when the
symbol is not indexed). -/
def elem_index (arrayindex : Option Value) : Int :=
  match arrayindex with
  | none => 0
  | some v => v.toInt

/-- Component addressed in a symbol: a scalar has the single component 0. -/
def comp_index (sym : Symbol) (component : Nat) : Int :=
  if sym.typespec.aggregate > 1 then (component : Int) else 0

/-- Modelled from the spec: `llvm_load_value`, absent from the source file.  A
symbol without derivative capability holds one slot per component, so its
derivatives read as zero; a non-array constant reads its literal; a scalar
supplies its single component to every component of an aggregate; the value is
promoted to the cast type (§3, §4.1). -/
def llvm_load_value (st : CodeGen) (sym : Symbol) (deriv : Nat)
    (arrayindex : Option Value) (component : Nat) (cast : Option TypeSpec) : Value :=
  if !sym.has_derivs && deriv != 0 then .f 0
  else if sym.is_constant && !sym.typespec.is_array && arrayindex.isNone then
    llvm_cast sym.typespec cast
      (sym.data.getD (if sym.typespec.aggregate > 1 then component else 0) (.f 0))
  else
    llvm_cast sym.typespec cast
      (st.mem ⟨sym, deriv, elem_index arrayindex, comp_index sym component⟩)

/-- Modelled from the spec: `loadLLVMValue`, the older spelling of
`llvm_load_value` with the component before the derivative. -/
def loadLLVMValue (st : CodeGen) (sym : Symbol) (component : Nat) (deriv : Nat)
    (cast : Option TypeSpec) : Value :=
  llvm_load_value st sym deriv none component cast

/-- Modelled from the spec: `llvm_store_value`, absent from the source file.  A
store into a derivative slot of a symbol that has none is dropped (§3). -/
def llvm_store_value (st : CodeGen) (v : Value) (sym : Symbol) (deriv : Nat)
    (arrayindex : Option Value) (component : Nat) : CodeGen :=
  if !sym.has_derivs && deriv != 0 then st
  else { st with mem := st.mem.write ⟨sym, deriv, elem_index arrayindex, comp_index sym component⟩ v }

/-- Modelled from the spec: `storeLLVMValue`, the older spelling of
`llvm_store_value` with the component before the derivative. -/
def storeLLVMValue (st : CodeGen) (v : Value) (sym : Symbol) (component : Nat)
    (deriv : Nat) : CodeGen :=
  llvm_store_value st v sym deriv none component

/-- Modelled from the spec: `llvm_zero_derivs`, absent from the source file:
zero-fill every derivative slot of a derivative-capable symbol (§4.1). -/
def llvm_zero_derivs (st : CodeGen) (sym : Symbol) : CodeGen :=
  if sym.has_derivs then
    { st with mem := fun x =>
        if x.sym = sym ∧ (x.deriv = 1 ∨ x.deriv = 2) then .f 0 else st.mem x }
  else st

/-- Modelled from the spec: `llvm_call_function`, absent from the source file:
emit a call into the runtime library (§6).  The call is recorded and run. -/
def llvm_call_function (rop : RuntimeOptimizer) (st : CodeGen) (name : String)
    (args : List Arg) (deriv_ptrs : Bool) : Value × CodeGen :=
  let call : Call := { name := name, args := args, deriv_ptrs := deriv_ptrs }
  let r := rop.runtime call st.mem
  (r.1, { mem := r.2, calls := st.calls ++ [call] })

/-- Modelled from the spec: the safe quotient of two exact numbers: the
quotient when the denominator is not zero, the renderer-defined result when it
is (§4.1, §9). -/
def safe_quotient (rop : RuntimeOptimizer) (a b : ℚ) : ℚ :=
  if b = 0 then rop.div_by_zero a else a / b

/-- Modelled from the spec: `llvm_make_safe_div`, absent from the source file:
the safe division primitive on IR values of the given type (§4.1). -/
def llvm_make_safe_div (rop : RuntimeOptimizer) (type : TypeSpec) (a b : Value) : Value :=
  if type.is_floatbased then .f (safe_quotient rop a.toRat b.toRat)
  else
    .i (if b.toInt = 0 then (Value.f (rop.div_by_zero a.toRat)).toInt
        else wrap32 (Int.tdiv a.toInt b.toInt))

/-- The operand `i` of an instruction (`rop.opargsym (op, i)`). -/
def opargsym (op : Opcode) (i : Nat) : Option Symbol := op.args.get? i

/-! ## Binary arithmetic -/

/-- The source function `llvm_gen_div` (lines 515-588). -/
def llvm_gen_div (rop : RuntimeOptimizer) (op : Opcode) (st : CodeGen) :
    Option (Bool × CodeGen) :=
  match opargsym op 0, opargsym op 1, opargsym op 2 with
  | some Result, some A, some B =>
    let type := Result.typespec.simpletype
    let is_float := Result.typespec.is_floatbased
    let num_components := type.aggregate
    if Result.typespec.is_closure_based then none
    else if Result.typespec.is_matrix then
      let called : Option CodeGen :=
        if A.typespec.is_float then
          if B.typespec.is_float then
            some (llvm_call_function rop st "osl_div_m_ff" [.sym Result, .sym A, .sym B] false).2
          else if B.typespec.is_matrix then
            some (llvm_call_function rop st "osl_div_fm" [.sym Result, .sym A, .sym B] false).2
          else none
        else if A.typespec.is_matrix then
          if B.typespec.is_float then
            some (llvm_call_function rop st "osl_div_mf" [.sym Result, .sym A, .sym B] false).2
          else if B.typespec.is_matrix then
            some (llvm_call_function rop st "osl_div_mm" [.sym Result, .sym A, .sym B] false).2
          else none
        else none
      called.bind (fun st =>
        if Result.has_derivs then some (true, llvm_zero_derivs st Result)
        else some (true, st))
    else
      let deriv := Result.has_derivs && (A.has_derivs || B.has_derivs)
      (forLoopM num_components (fun i st =>
        let a := llvm_load_value st A 0 none i (some type)
        let b := llvm_load_value st B 0 none i (some type)
        let a_div_b := llvm_make_safe_div rop type a b
        if deriv then
          if !is_float then none
          else
            let binv := llvm_make_safe_div rop type (llvm_constant 1) b
            let ax := llvm_load_value st A 1 none i (some type)
            let bx := llvm_load_value st B 1 none i (some type)
            let a_div_b_mul_bx := CreateFMul a_div_b bx
            let ax_minus_a_div_b_mul_bx := CreateFSub ax a_div_b_mul_bx
            let rx := CreateFMul binv ax_minus_a_div_b_mul_bx
            let ay := llvm_load_value st A 2 none i (some type)
            let by_ := llvm_load_value st B 2 none i (some type)
            let a_div_b_mul_by := CreateFMul a_div_b by_
            let ay_minus_a_div_b_mul_by := CreateFSub ay a_div_b_mul_by
            let ry := CreateFMul binv ay_minus_a_div_b_mul_by
            let st := llvm_store_value st a_div_b Result 0 none i
            let st := llvm_store_value st rx Result 1 none i
            some (llvm_store_value st ry Result 2 none i)
        else some (llvm_store_value st a_div_b Result 0 none i)) st).bind (fun st =>
      if Result.has_derivs && !(A.has_derivs || B.has_derivs) then
        some (true, llvm_zero_derivs st Result)
      else some (true, st))
  | _, _, _ => none

/-- The source function `llvm_gen_clamp` (lines 659-702). -/
def llvm_gen_clamp (_rop : RuntimeOptimizer) (op : Opcode) (st : CodeGen) :
    Option (Bool × CodeGen) :=
  match opargsym op 0, opargsym op 1, opargsym op 2, opargsym op 3 with
  | some Result, some X, some Min, some Max =>
    let type := Result.typespec.simpletype
    let is_float := Result.typespec.is_floatbased
    let num_components := type.aggregate
    some (true, forLoop num_components (fun i st =>
      -- First do the lower bound
      let val := llvm_load_value st X 0 none i (some type)
      let min := llvm_load_value st Min 0 none i (some type)
      let cond := if is_float then CreateFCmpULT val min else CreateICmpSLT val min
      let val := CreateSelect cond min val
      let valdx := if Result.has_derivs then
          CreateSelect cond (llvm_load_value st Min 1 none i (some type))
            (llvm_load_value st X 1 none i (some type))
        else NULL
      let valdy := if Result.has_derivs then
          CreateSelect cond (llvm_load_value st Min 2 none i (some type))
            (llvm_load_value st X 2 none i (some type))
        else NULL
      -- Now do the upper bound
      let max := llvm_load_value st Max 0 none i (some type)
      let cond := if is_float then CreateFCmpUGT val max else CreateICmpSGT val max
      let val := CreateSelect cond max val
      let valdx := if Result.has_derivs then
          CreateSelect cond (llvm_load_value st Max 1 none i (some type)) valdx
        else valdx
      let valdy := if Result.has_derivs then
          CreateSelect cond (llvm_load_value st Max 2 none i (some type)) valdy
        else valdy
      let st := llvm_store_value st val Result 0 none i
      let st := llvm_store_value st valdx Result 1 none i
      llvm_store_value st valdy Result 2 none i) st)
  | _, _, _, _ => none

/-- The source function `llvm_gen_minmax` (lines 707-745). -/
def llvm_gen_minmax (_rop : RuntimeOptimizer) (op : Opcode) (st : CodeGen) :
    Option (Bool × CodeGen) :=
  match opargsym op 0, opargsym op 1, opargsym op 2 with
  | some Result, some x, some y =>
    let type := Result.typespec.simpletype
    let is_float := Result.typespec.is_floatbased
    let num_components := type.aggregate
    some (true, forLoop num_components (fun i st =>
      let x_val := llvm_load_value st x 0 none i (some type)
      let y_val := llvm_load_value st y 0 none i (some type)
      let cond :=
        if op.opname = "min" then
          (if is_float then CreateFCmpULE x_val y_val else CreateICmpSLE x_val y_val)
        else
          (if is_float then CreateFCmpUGT x_val y_val else CreateICmpSGT x_val y_val)
      let res_val := CreateSelect cond x_val y_val
      let st := llvm_store_value st res_val Result 0 none i
      if Result.has_derivs then
        let x_dx := llvm_load_value st x 1 none i (some type)
        let x_dy := llvm_load_value st x 2 none i (some type)
        let y_dx := llvm_load_value st y 1 none i (some type)
        let y_dy := llvm_load_value st y 2 none i (some type)
        let st := llvm_store_value st (CreateSelect cond x_dx y_dx) Result 1 none i
        llvm_store_value st (CreateSelect cond x_dy y_dy) Result 2 none i
      else st) st)
  | _, _, _ => none

/-! ## Comparison -/

/-- The block "Perform the op" of `llvm_gen_compare_op` (lines 1461-1479): the
comparison of one pair of components; an unknown operator fails the `ASSERT`. -/
def compare_component (opname : String) (float_based : Bool) (a b : Value) : Option Bool :=
  if opname = "lt" then
    some (if float_based then CreateFCmpULT a b else CreateICmpSLT a b)
  else if opname = "le" then
    some (if float_based then CreateFCmpULE a b else CreateICmpSLE a b)
  else if opname = "eq" then
    some (if float_based then CreateFCmpUEQ a b else CreateICmpEQ a b)
  else if opname = "ge" then
    some (if float_based then CreateFCmpUGE a b else CreateICmpSGE a b)
  else if opname = "gt" then
    some (if float_based then CreateFCmpUGT a b else CreateICmpSGT a b)
  else if opname = "neq" then
    some (if float_based then CreateFCmpUNE a b else CreateICmpNE a b)
  else none

/-- The operands of component `i` in `llvm_gen_compare_op` (lines 1447-1459):
both loads, then the substitution of zero off the diagonal when a matrix is
compared with a scalar. -/
def compare_operands (st : CodeGen) (A B : Symbol) (cast : Option TypeSpec) (i : Nat) :
    Value × Value :=
  let a := loadLLVMValue st A i 0 cast
  let b := loadLLVMValue st B i 0 cast
  let b := if A.typespec.is_matrix && !B.typespec.is_matrix then
      (if i / 4 ≠ i % 4 then llvm_constant 0 else b) else b
  let a := if !A.typespec.is_matrix && B.typespec.is_matrix then
      (if i / 4 ≠ i % 4 then llvm_constant 0 else a) else a
  (a, b)

/-- The block "Combine the component bool based on the op" of
`llvm_gen_compare_op` (lines 1481-1489). -/
def combine_component (opname : String) (final_result : Option Bool) (result : Bool) : Bool :=
  match final_result with
  | some fr =>
    if opname ≠ "neq" then CreateAnd fr result
    else CreateOr fr result
  | none => result

/-- The source function `llvm_gen_compare_op` (lines 1429-1497). -/
def llvm_gen_compare_op (_rop : RuntimeOptimizer) (op : Opcode) (st : CodeGen) :
    Option (Bool × CodeGen) :=
  match opargsym op 0, opargsym op 1, opargsym op 2 with
  | some Result, some A, some B =>
    if !(Result.typespec.is_int && !Result.has_derivs) then none
    else
      let num_components := max A.typespec.aggregate B.typespec.aggregate
      let float_based := A.typespec.is_floatbased || B.typespec.is_floatbased
      let cast : Option TypeSpec :=
        if float_based then some ⟨.float, .color, 0⟩ else none
      let opname := op.opname
      (forLoopM num_components (fun i (final_result : Option Bool) =>
        let ab := compare_operands st A B cast i
        (compare_component opname float_based ab.1 ab.2).bind (fun result =>
          some (some (combine_component opname final_result result)))) none).bind
      (fun final_result =>
        final_result.bind (fun fr =>
          let fin := CreateZExt fr
          some (true, storeLLVMValue st fin Result 0 0)))
  | _, _, _ => none

/-! ## Generic dispatch -/

/-- The non-differentiable operators of `llvm_gen_generic` (lines 1577-1580). -/
def no_deriv_op (opname : String) : Bool :=
  opname = "floor" || opname = "ceil" || opname = "round" || opname = "step" ||
  opname = "trunc" || opname = "cellnoise" || opname = "sign"

/-- The first loop of `llvm_gen_generic` (lines 1568-1573): does an operand
other than the result carry derivatives and is not a matrix. -/
def generic_any_deriv_args (op : Opcode) : Bool :=
  forLoop op.nargs (fun i any_deriv_args =>
    match opargsym op i with
    | some s => any_deriv_args || (decide (i > 0) && s.has_derivs && !s.typespec.is_matrix)
    | none => any_deriv_args) false

/-- The name built by `llvm_gen_generic` (lines 1583-1599) given the final
value of `any_deriv_args`; an operand of another type fails the `ASSERT`. -/
def generic_name (op : Opcode) (Result : Symbol) (any_deriv_args : Bool) : Option String :=
  forLoopM op.nargs (fun i name =>
    match opargsym op i with
    | none => none
    | some s =>
      let name := if any_deriv_args && Result.has_derivs && s.has_derivs &&
          !s.typespec.is_matrix then name ++ "d" else name
      if s.typespec.is_float then some (name ++ "f")
      else if s.typespec.is_triple then some (name ++ "v")
      else if s.typespec.is_matrix then some (name ++ "m")
      else if s.typespec.is_string then some (name ++ "s")
      else if s.typespec.is_int then some (name ++ "i")
      else none) ("osl_" ++ op.opname ++ "_")

/-- The source function `llvm_gen_generic` (lines 1563-1617). -/
def llvm_gen_generic (rop : RuntimeOptimizer) (op : Opcode) (st : CodeGen) :
    Option (Bool × CodeGen) :=
  match opargsym op 0 with
  | some Result =>
    let args := op.args
    let any_deriv_args := generic_any_deriv_args op
    let any_deriv_args :=
      if any_deriv_args then
        (if no_deriv_op op.opname then false else any_deriv_args)
      else any_deriv_args
    (generic_name op Result any_deriv_args).bind (fun name =>
      if !Result.has_derivs || !any_deriv_args then
        let st :=
          if Result.typespec.aggregate = 1 then
            let r := llvm_call_function rop st name ((args.drop 1).map Arg.sym) false
            llvm_store_value r.2 r.1 Result 0 none 0
          else
            (llvm_call_function rop st name (args.map Arg.sym) false).2
        some (true, llvm_zero_derivs st Result)
      else
        some (true, (llvm_call_function rop st name (args.map Arg.sym) true).2))
  | none => none

/-! ## Indexed access -/

/-- Modelled from the spec: `llvm_load_component_value`, absent from the source
file: load the component selected by a run-time index. -/
def llvm_load_component_value (st : CodeGen) (sym : Symbol) (deriv : Nat)
    (component : Value) : Value :=
  if !sym.has_derivs && deriv != 0 then .f 0
  else st.mem ⟨sym, deriv, 0, component.toInt⟩

/-- Modelled from the spec: `llvm_store_component_value`, absent from the source
file: store into the component selected by a run-time index. -/
def llvm_store_component_value (st : CodeGen) (v : Value) (sym : Symbol) (deriv : Nat)
    (component : Value) : CodeGen :=
  if !sym.has_derivs && deriv != 0 then st
  else { st with mem := st.mem.write ⟨sym, deriv, 0, component.toInt⟩ v }

/-- The function `Imath::clamp (i, lo, hi)` on integers. -/
def Imath_clamp (a lo hi : Int) : Int := if a < lo then lo else if a > hi then hi else a

/-- The arguments of an `osl_range_check` call (lines 872-875). -/
def range_check_args (op : Opcode) (index : Value) (bound : Int) : List Arg :=
  [.val index, .val (.i bound), .sg, .val (.s op.sourcefile), .val (.i op.sourceline)]

/-- The source function `llvm_gen_compref` (lines 861-895). -/
def llvm_gen_compref (rop : RuntimeOptimizer) (op : Opcode) (st : CodeGen) :
    Option (Bool × CodeGen) :=
  match opargsym op 0, opargsym op 1, opargsym op 2 with
  | some Result, some Val, some Index =>
    let c := llvm_load_value st Index 0 none 0 none
    let cst : Value × CodeGen :=
      if rop.range_checking then
        if !(Index.is_constant && decide (Index.int_data ≥ 0) && decide (Index.int_data < 3)) then
          llvm_call_function rop st "osl_range_check" (range_check_args op c 3) false
        else (c, st)
      else (c, st)
    let c := cst.1
    some (true, forBreak (!Result.has_derivs) 0 3 (fun d st =>
      let val :=
        if Index.is_constant then
          let i := Index.int_data
          let i := Imath_clamp i 0 2
          llvm_load_value st Val d none i.toNat none
        else llvm_load_component_value st Val d c
      llvm_store_value st val Result d none 0) cst.2)
  | _, _, _ => none

/-- The source function `llvm_gen_compassign` (lines 900-932). -/
def llvm_gen_compassign (rop : RuntimeOptimizer) (op : Opcode) (st : CodeGen) :
    Option (Bool × CodeGen) :=
  match opargsym op 0, opargsym op 1, opargsym op 2 with
  | some Result, some Index, some Val =>
    let c := llvm_load_value st Index 0 none 0 none
    let cst : Value × CodeGen :=
      if rop.range_checking then
        if !(Index.is_constant && decide (Index.int_data ≥ 0) && decide (Index.int_data < 3)) then
          llvm_call_function rop st "osl_range_check" (range_check_args op c 3) false
        else (c, st)
      else (c, st)
    let c := cst.1
    some (true, forBreak (!Result.has_derivs) 0 3 (fun d st =>
      let val := llvm_load_value st Val d none 0 (some ⟨.float, .color, 0⟩)
      if Index.is_constant then
        let i := Index.int_data
        let i := Imath_clamp i 0 2
        llvm_store_value st val Result d none i.toNat
      else llvm_store_component_value st val Result d c) cst.2)
  | _, _, _ => none

/-- The source function `llvm_gen_aref` (lines 1030-1064). -/
def llvm_gen_aref (rop : RuntimeOptimizer) (op : Opcode) (st : CodeGen) :
    Option (Bool × CodeGen) :=
  match opargsym op 0, opargsym op 1, opargsym op 2 with
  | some Result, some Src, some Index =>
    let index := loadLLVMValue st Index 0 0 none
    let ist : Value × CodeGen :=
      if rop.range_checking then
        if !(Index.is_constant && decide (Index.int_data ≥ 0) &&
            decide (Index.int_data < (Src.typespec.arraylength : Int))) then
          llvm_call_function rop st "osl_range_check"
            (range_check_args op index Src.typespec.arraylength) false
        else (index, st)
      else (index, st)
    let index := ist.1
    let num_components := Src.typespec.simpletype.aggregate
    some (true, forBreak (!Result.has_derivs) 0 3 (fun d st =>
      forLoop num_components (fun c st =>
        let val := llvm_load_value st Src d (some index) c none
        storeLLVMValue st val Result c d) st) ist.2)
  | _, _, _ => none

/-- The source function `llvm_gen_aassign` (lines 1069-1103). -/
def llvm_gen_aassign (rop : RuntimeOptimizer) (op : Opcode) (st : CodeGen) :
    Option (Bool × CodeGen) :=
  match opargsym op 0, opargsym op 1, opargsym op 2 with
  | some Result, some Index, some Src =>
    let index := loadLLVMValue st Index 0 0 none
    let ist : Value × CodeGen :=
      if rop.range_checking then
        if !(Index.is_constant && decide (Index.int_data ≥ 0) &&
            decide (Index.int_data < (Result.typespec.arraylength : Int))) then
          llvm_call_function rop st "osl_range_check"
            (range_check_args op index Result.typespec.arraylength) false
        else (index, st)
      else (index, st)
    let index := ist.1
    let num_components := Result.typespec.simpletype.aggregate
    some (true, forBreak (!Result.has_derivs) 0 3 (fun d st =>
      forLoop num_components (fun c st =>
        let val := loadLLVMValue st Src c d none
        llvm_store_value st val Result d (some index) c) st) ist.2)
  | _, _, _ => none

/-! ## Definitions used by the statements and proofs -/

/-- Two states hold the same value in every slot outside `E`. -/
def AgreeOff (E : Slot → Prop) (st st' : CodeGen) : Prop :=
  ∀ x, ¬ E x → st.mem x = st'.mem x

/-- The slots of the components of `Result` other than component `i`. -/
def others (Result : Symbol) (i : Nat) (x : Slot) : Prop :=
  x.sym = Result ∧ x.arrayindex = 0 ∧ x.component ≠ comp_index Result i

/-- The slots (value and derivatives) of component `i` of `Result`. -/
def row (Result : Symbol) (i : Nat) (x : Slot) : Prop :=
  x.sym = Result ∧ x.arrayindex = 0 ∧ x.component = comp_index Result i

/-- The derivative of a quotient as the spec words it: `(da - (a/b)·db) / b`
with both divisions made by the safe division primitive. -/
def spec_quotient_deriv (rop : RuntimeOptimizer) (a b da db : ℚ) : ℚ :=
  safe_quotient rop (da - safe_quotient rop a b * db) b

/-- Every derivative slot of `R` holds zero. -/
def DerivsZeroed (R : Symbol) (st : CodeGen) : Prop :=
  ∀ x : Slot, x.sym = R → (x.deriv = 1 ∨ x.deriv = 2) → st.mem x = .f 0

/-- The test made on one pair of components by a known comparison operator. -/
def component_test (opname : String) (float_based : Bool) (a b : Value) : Bool :=
  (compare_component opname float_based a b).getD false

/-- The base-type letter of an operand in the naming protocol of the spec:
`f` float, `v` triple, `m` matrix, `s` string, `i` int. -/
def spec_type_letter (s : Symbol) : String :=
  if s.typespec.is_float then "f"
  else if s.typespec.is_triple then "v"
  else if s.typespec.is_matrix then "m"
  else if s.typespec.is_string then "s"
  else "i"

/-- The signature of the naming protocol of the spec: one base-type letter per
operand, in operand order, preceded by `d` for the marked operands. -/
def spec_signature (marks : Symbol → Bool) : List Symbol → String
  | [] => ""
  | s :: rest =>
    ((if marks s then "d" else "") ++ spec_type_letter s) ++ spec_signature marks rest

/-- The operand types handled by the generic dispatch. -/
def generic_type (s : Symbol) : Bool :=
  s.typespec.is_float || s.typespec.is_triple || s.typespec.is_matrix ||
  s.typespec.is_string || s.typespec.is_int

/-- The final value of `any_deriv_args` in `llvm_gen_generic` (lines 1568-1581). -/
def generic_deriv_mode (op : Opcode) : Bool :=
  generic_any_deriv_args op && !no_deriv_op op.opname

def ex_float : TypeSpec := ⟨.float, .color, 0⟩

def ex_int : TypeSpec := ⟨.int, .color, 0⟩

def ex_float3 : TypeSpec := ⟨.float, .color, 3⟩

/-- Scalar float `A` with derivatives. -/
def ex_A : Symbol := ⟨"A", ex_float, .temp, true, [], .DefaultVal⟩

/-- Scalar float `B` with derivatives. -/
def ex_B : Symbol := ⟨"B", ex_float, .temp, true, [], .DefaultVal⟩

/-- Scalar float `Result` with derivatives. -/
def ex_R : Symbol := ⟨"Result", ex_float, .temp, true, [], .DefaultVal⟩

/-- Scalar float `A` without derivatives. -/
def ex_A0 : Symbol := ⟨"A", ex_float, .temp, false, [], .DefaultVal⟩

/-- Scalar float `Max` with derivatives. -/
def ex_Max : Symbol := ⟨"Max", ex_float, .temp, true, [], .DefaultVal⟩

/-- Scalar float `Min` with derivatives. -/
def ex_Min : Symbol := ⟨"Min", ex_float, .temp, true, [], .DefaultVal⟩

/-- Scalar float `X` with derivatives. -/
def ex_X : Symbol := ⟨"X", ex_float, .temp, true, [], .DefaultVal⟩

/-- Integer result of a comparison. -/
def ex_C : Symbol := ⟨"C", ex_int, .temp, false, [], .DefaultVal⟩

/-- The array `float a[3]`. -/
def ex_arr : Symbol := ⟨"a", ex_float3, .temp, false, [], .DefaultVal⟩

/-- The integer constant 2. -/
def ex_two : Symbol := ⟨"$const2", ex_int, .const, false, [.i 2], .DefaultVal⟩

/-- Scalar float that receives an array element. -/
def ex_elem : Symbol := ⟨"x", ex_float, .temp, false, [], .DefaultVal⟩

/-- A context with range checking enabled, a runtime library that returns 0 and
leaves the store alone, and 0 as the result of a division or modulo by zero. -/
def ex_rop : RuntimeOptimizer := ⟨true, fun _ m => (.i 0, m), fun _ => 0, fun _ => 0⟩

/-- A store with A = (2,1,0), B = (3,0,1), X = (5,1,1), Min = (0,0,0),
Max = (3,4,6), listed as (value, dx, dy), and 7 everywhere else. -/
def ex_mem : Memory := fun x =>
  if x.sym.name = "A" then (match x.deriv with | 0 => .f 2 | 1 => .f 1 | _ => .f 0)
  else if x.sym.name = "B" then (match x.deriv with | 0 => .f 3 | 1 => .f 0 | _ => .f 1)
  else if x.sym.name = "X" then (match x.deriv with | 0 => .f 5 | _ => .f 1)
  else if x.sym.name = "Min" then .f 0
  else if x.sym.name = "Max" then (match x.deriv with | 0 => .f 3 | 1 => .f 4 | _ => .f 6)
  else .f 7

def ex_st : CodeGen := ⟨ex_mem, []⟩

/-- A binary instruction on `Result`, `A`, `B`, all with derivatives. -/
def ex_binop : Opcode := ⟨"add", [ex_R, ex_A, ex_B], "test.osl", 1⟩

/-- The instruction `Result = clamp (X, Min, Max)`. -/
def ex_clamp : Opcode := ⟨"clamp", [ex_R, ex_X, ex_Min, ex_Max], "test.osl", 2⟩

/-- The instruction `Result = min (A, B)`. -/
def ex_min : Opcode := ⟨"min", [ex_R, ex_A, ex_B], "test.osl", 3⟩

/-- A comparison of `A` with `B` into `C`. -/
def ex_cmp : Opcode := ⟨"lt", [ex_C, ex_A, ex_B], "test.osl", 4⟩

/-- The instruction `Result = sin (A)`. -/
def ex_sin : Opcode := ⟨"sin", [ex_R, ex_A], "test.osl", 5⟩

/-- The instruction `Result = floor (A)`. -/
def ex_floor : Opcode := ⟨"floor", [ex_R, ex_A], "test.osl", 6⟩

/-- The instruction `x = a[2]`. -/
def ex_aref : Opcode := ⟨"aref", [ex_elem, ex_arr, ex_two], "test.osl", 7⟩

/-- A context whose safe division returns 1 for a zero denominator. -/
def cex_rop : RuntimeOptimizer := ⟨true, fun _ m => (.i 0, m), fun _ => 1, fun _ => 0⟩

/-- A store that holds zero everywhere. -/
def cex_st : CodeGen := ⟨fun _ => .f 0, []⟩

/-! ## Matrix element access -/

/-- The range checks of `llvm_gen_mxcompref` and `llvm_gen_mxcompassign` (lines
947-955 and 987-995): with range checking enabled, the row and then the column
go through `osl_range_check` with bound 4. -/
def mx_range_check (rop : RuntimeOptimizer) (op : Opcode) (row col : Value) (st : CodeGen) :
    (Value × Value) × CodeGen :=
  if rop.range_checking then
    let r := llvm_call_function rop st "osl_range_check" (range_check_args op row 4) false
    let c := llvm_call_function rop r.2 "osl_range_check" (range_check_args op col 4) false
    ((r.1, c.1), c.2)
  else ((row, col), st)

/-- The source function `llvm_gen_mxcompref` (lines 937-972). -/
def llvm_gen_mxcompref (rop : RuntimeOptimizer) (op : Opcode) (st : CodeGen) :
    Option (Bool × CodeGen) :=
  match opargsym op 0, opargsym op 1, opargsym op 2, opargsym op 3 with
  | some Result, some M, some Row, some Col =>
    let row := llvm_load_value st Row 0 none 0 none
    let col := llvm_load_value st Col 0 none 0 none
    let rcs := mx_range_check rop op row col st
    let row := rcs.1.1
    let col := rcs.1.2
    let st := rcs.2
    let val :=
      if Row.is_constant && Col.is_constant then
        let r := Imath_clamp Row.int_data 0 3
        let c := Imath_clamp Col.int_data 0 3
        let comp := 4 * r + c
        llvm_load_value st M 0 none comp.toNat none
      else
        let comp := CreateMul row (.i 4)
        let comp := CreateAdd comp col
        llvm_load_component_value st M 0 comp
    let st := llvm_store_value st val Result 0 none 0
    some (true, llvm_zero_derivs st Result)
  | _, _, _, _ => none

/-- The source function `llvm_gen_mxcompassign` (lines 977-1010). -/
def llvm_gen_mxcompassign (rop : RuntimeOptimizer) (op : Opcode) (st : CodeGen) :
    Option (Bool × CodeGen) :=
  match opargsym op 0, opargsym op 1, opargsym op 2, opargsym op 3 with
  | some Result, some Row, some Col, some Val =>
    let row := llvm_load_value st Row 0 none 0 none
    let col := llvm_load_value st Col 0 none 0 none
    let rcs := mx_range_check rop op row col st
    let row := rcs.1.1
    let col := rcs.1.2
    let st := rcs.2
    let val := llvm_load_value st Val 0 none 0 (some ⟨.float, .color, 0⟩)
    if Row.is_constant && Col.is_constant then
      let r := Imath_clamp Row.int_data 0 3
      let c := Imath_clamp Col.int_data 0 3
      let comp := 4 * r + c
      some (true, llvm_store_value st val Result 0 none comp.toNat)
    else
      let comp := CreateMul row (.i 4)
      let comp := CreateAdd comp col
      some (true, llvm_store_component_value st val Result 0 comp)
  | _, _, _, _ => none

/-! ## Definitions for the claims on indexed access -/

/-- The `osl_range_check` call emitted for an index value and a bound. -/
def range_check_call (op : Opcode) (index : Value) (bound : Int) : Call :=
  ⟨"osl_range_check", range_check_args op index bound, false⟩

/-- The calls emitted for a constant index `i` into a container of `n`
elements: one range check when range checking is enabled and `i` is out of
range, none otherwise. -/
def constant_index_calls (rop : RuntimeOptimizer) (op : Opcode) (st : CodeGen)
    (Index : Symbol) (n : Int) : List Call :=
  if rop.range_checking = true ∧ ¬ (0 ≤ Index.int_data ∧ Index.int_data < n) then
    [range_check_call op (llvm_load_value st Index 0 none 0 none) n]
  else []

/-- The index returned by the emitted `osl_range_check` call and the state after
the call. -/
def range_checked (rop : RuntimeOptimizer) (op : Opcode) (st : CodeGen) (index : Value)
    (bound : Int) : Value × CodeGen :=
  llvm_call_function rop st "osl_range_check" (range_check_args op index bound) false

/-- The slots of element `e` of `Result` in the components other than `i`. -/
def othersE (Result : Symbol) (e : Int) (i : Nat) (x : Slot) : Prop :=
  x.sym = Result ∧ x.arrayindex = e ∧ x.component ≠ comp_index Result i

/-- The slots (value and derivatives) of component `i` of element `e` of
`Result`. -/
def rowE (Result : Symbol) (e : Int) (i : Nat) (x : Slot) : Prop :=
  x.sym = Result ∧ x.arrayindex = e ∧ x.component = comp_index Result i

/-- The derivative slots an indexed access copies: the value, and the two
derivatives when the destination has them. -/
def copied_deriv (Result : Symbol) (d : Nat) : Prop :=
  d = 0 ∨ (Result.has_derivs = true ∧ (d = 1 ∨ d = 2))

/-- A context like `ex_rop` with range checking disabled. -/
def ex_rop_off : RuntimeOptimizer := ⟨false, fun _ m => (.i 0, m), fun _ => 0, fun _ => 0⟩

def ex_triple : TypeSpec := ⟨.triple, .color, 0⟩

def ex_matrix : TypeSpec := ⟨.matrix, .color, 0⟩

/-- The integer constant 5. -/
def ex_five : Symbol := ⟨"$const5", ex_int, .const, false, [.i 5], .DefaultVal⟩

/-- The integer constant 1. -/
def ex_one : Symbol := ⟨"$const1", ex_int, .const, false, [.i 1], .DefaultVal⟩

/-- A run-time integer index. -/
def ex_idx : Symbol := ⟨"i", ex_int, .temp, false, [], .DefaultVal⟩

/-- A triple without derivatives. -/
def ex_vec : Symbol := ⟨"v", ex_triple, .temp, false, [], .DefaultVal⟩

/-- A matrix. -/
def ex_mx : Symbol := ⟨"m", ex_matrix, .temp, false, [], .DefaultVal⟩

/-- A store in which element `k` of every array holds the float `k`. -/
def ex_arr_st : CodeGen := ⟨fun x => .f (x.arrayindex : ℚ), []⟩

/-- The instruction `x = v[5]` on a triple. -/
def ex_compref5 : Opcode := ⟨"compref", [ex_elem, ex_vec, ex_five], "test.osl", 8⟩

/-- The instruction `x = a[5]` on the array `float a[3]`. -/
def ex_aref5 : Opcode := ⟨"aref", [ex_elem, ex_arr, ex_five], "test.osl", 9⟩

/-- The instruction `x = a[i]` with a run-time index. -/
def ex_aref_i : Opcode := ⟨"aref", [ex_elem, ex_arr, ex_idx], "test.osl", 10⟩

/-- The instruction `x = m[1][2]`. -/
def ex_mxcompref : Opcode := ⟨"mxcompref", [ex_elem, ex_mx, ex_one, ex_two], "test.osl", 11⟩

/-! ## Diagnostics and the shader instance

Messages handed to `shadingsys().error` and `shadingsys().warning` are recorded
with their format string and arguments, oldest first. -/

/-- Severity of a recorded message. -/
inductive Severity
  | error | warning
  deriving DecidableEq, Repr

/-- An argument of a message: a string, an integer, or a type printed by name. -/
inductive DiagArg
  | str (u : String)
  | int (n : Int)
  | type (t : TypeSpec)
  deriving DecidableEq, Repr

/-- A message of the shading system: severity, format string and arguments. -/
structure Diagnostic where
  severity : Severity
  format : String
  args : List DiagArg
  deriving DecidableEq, Repr

/-- The C++ expression `*(ustring *)sym.data()`: the first literal, read as a
string (empty when the symbol holds none). -/
def Symbol.string_data (s : Symbol) : String :=
  match s.data.headD (.s "") with
  | .s u => u
  | _ => ""

/-- Modelled from the spec: one end of a connection, the index of a parameter in
the symbol table of its layer. -/
structure ConnectedParam where
  param : Int
  deriving DecidableEq, Repr

/-- Modelled from the spec: a connection of the layer, from a parameter of the
earlier layer `srclayer` to the parameter `dst` of this layer. -/
structure Connection where
  srclayer : Int
  src : ConnectedParam
  dst : ConnectedParam
  deriving DecidableEq, Repr

/-- Modelled from the spec: the shader instance (layer) being compiled: its name
and id, whether it is unused, its connections, its symbol table, the operand
table `arg` (symbol index of every operand slot) and the symbol index of the
global `P`.  The declaration of `ShaderInstance` is not part of the source
file. -/
structure ShaderInstance where
  layername : String
  id : Int
  unused : Bool
  connections : List Connection
  symbols : List Symbol
  args : List Int
  Psym : Int

namespace ShaderInstance

/-- The call `inst()->symbol(i)`. -/
def symbol (inst : ShaderInstance) (i : Int) : Option Symbol :=
  if i < 0 then none else inst.symbols.get? i.toNat

/-- The call `inst()->arg(k)`. -/
def arg (inst : ShaderInstance) (k : Nat) : Int := inst.args.getD k (-1)

def nconnections (inst : ShaderInstance) : Nat := inst.connections.length

end ShaderInstance

/-! ## Texture option records -/

/-- The texture system's decoders of string enumerations, external to the source
file: `TextureOpt::decode_wrapmode` and `tex_interp_to_code` (negative when the
name is not an interpolation mode). -/
structure TextureSystem where
  decode_wrapmode : String → Int
  tex_interp_to_code : String → Int

/-- State of option parsing: the code-generation state, the messages reported,
and the pointers captured for the `alpha` option (`none` is the C++ `NULL`). -/
structure TextureOptions where
  st : CodeGen
  errors : List Diagnostic
  alpha : Option Arg
  dalphadx : Option Arg
  dalphady : Option Arg

/-- The type descriptor `TypeDesc::FLOAT`. -/
def TypeDesc_FLOAT : TypeSpec := ⟨.float, .color, 0⟩

/-- The stack block reserved for the `TextureOpt` record (lines 1785-1788). -/
def texture_opt_alloca : Value := .p 1

/-- The overload `llvm_call_function (name, opt, val)` with the result dropped. -/
def llvm_call_function2 (rop : RuntimeOptimizer) (st : CodeGen) (name : String)
    (a b : Value) : CodeGen :=
  (llvm_call_function rop st name [.val a, .val b] false).2

/-- The test of lines 1809-1813: an int value passed to one of the
float-expecting options that are converted automatically. -/
def int_to_float_option (name : String) (valtype : TypeSpec) : Bool :=
  valtype.is_int &&
    (name == "width" || name == "swidth" || name == "twidth" || name == "rwidth" ||
     name == "blur" || name == "sblur" || name == "tblur" || name == "rblur")

/-- The two arms of a single-direction wrap option (lines 1856-1876): a
constant wrap mode is decoded at compile time and passed as a code. -/
def texture_set_wrap (ts : TextureSystem) (rop : RuntimeOptimizer) (opt : Value)
    (Val : Symbol) (val : Value) (code_call name_call : String) (st : CodeGen) : CodeGen :=
  if Val.is_constant then
    let mode := ts.decode_wrapmode Val.string_data
    llvm_call_function2 rop st code_call opt (.i mode)
  else llvm_call_function2 rop st name_call opt val

/-- The body of the loop of `llvm_gen_texture_options` after the two assertions
(lines 1799-1911): dispatch of one name/value pair. -/
def texture_option (ts : TextureSystem) (rop : RuntimeOptimizer) (op : Opcode)
    (tex3d : Bool) (opt : Value) (Name Val : Symbol) (s : TextureOptions) : TextureOptions :=
  let name := Name.string_data
  let valtype := Val.typespec.simpletype
  if name = "" then s
  else
    let val := llvm_load_value s.st Val 0 none 0 none
    let promoted := int_to_float_option name valtype
    let val := if promoted then llvm_int_to_float val else val
    let valtype := if promoted then TypeDesc_FLOAT else valtype
    if name = "width" ∧ valtype.is_float then
      let st := llvm_call_function2 rop s.st "osl_texture_set_swidth" opt val
      let st := llvm_call_function2 rop st "osl_texture_set_twidth" opt val
      { s with st := if tex3d then llvm_call_function2 rop st "osl_texture_set_rwidth" opt val
                     else st }
    else if name = "swidth" ∧ valtype.is_float then
      { s with st := llvm_call_function2 rop s.st "osl_texture_set_swidth" opt val }
    else if name = "twidth" ∧ valtype.is_float then
      { s with st := llvm_call_function2 rop s.st "osl_texture_set_twidth" opt val }
    else if name = "rwidth" ∧ valtype.is_float then
      { s with st := llvm_call_function2 rop s.st "osl_texture_set_rwidth" opt val }
    else if name = "blur" ∧ valtype.is_float then
      let st := llvm_call_function2 rop s.st "osl_texture_set_sblur" opt val
      let st := llvm_call_function2 rop st "osl_texture_set_tblur" opt val
      { s with st := if tex3d then llvm_call_function2 rop st "osl_texture_set_rblur" opt val
                     else st }
    else if name = "sblur" ∧ valtype.is_float then
      { s with st := llvm_call_function2 rop s.st "osl_texture_set_sblur" opt val }
    else if name = "tblur" ∧ valtype.is_float then
      { s with st := llvm_call_function2 rop s.st "osl_texture_set_tblur" opt val }
    else if name = "rblur" ∧ valtype.is_float then
      { s with st := llvm_call_function2 rop s.st "osl_texture_set_rblur" opt val }
    else if name = "wrap" ∧ valtype.is_string then
      if Val.is_constant then
        let val := Value.i (ts.decode_wrapmode Val.string_data)
        let st := llvm_call_function2 rop s.st "osl_texture_set_swrap_code" opt val
        let st := llvm_call_function2 rop st "osl_texture_set_twrap_code" opt val
        { s with st := if tex3d then
                         llvm_call_function2 rop st "osl_texture_set_rwrap_code" opt val
                       else st }
      else
        let st := llvm_call_function2 rop s.st "osl_texture_set_swrap" opt val
        let st := llvm_call_function2 rop st "osl_texture_set_twrap" opt val
        { s with st := if tex3d then llvm_call_function2 rop st "osl_texture_set_rwrap" opt val
                       else st }
    else if name = "swrap" ∧ valtype.is_string then
      { s with st := (texture_set_wrap ts rop opt Val val
          "osl_texture_set_swrap_code" "osl_texture_set_swrap" s.st) }
    else if name = "twrap" ∧ valtype.is_string then
      { s with st := (texture_set_wrap ts rop opt Val val
          "osl_texture_set_twrap_code" "osl_texture_set_twrap" s.st) }
    else if name = "rwrap" ∧ valtype.is_string then
      { s with st := (texture_set_wrap ts rop opt Val val
          "osl_texture_set_rwrap_code" "osl_texture_set_rwrap" s.st) }
    else if name = "firstchannel" ∧ valtype.is_int then
      { s with st := llvm_call_function2 rop s.st "osl_texture_set_firstchannel" opt val }
    else if name = "fill" ∧ valtype.is_float then
      { s with st := llvm_call_function2 rop s.st "osl_texture_set_fill" opt val }
    else if name = "time" ∧ valtype.is_float then
      { s with st := llvm_call_function2 rop s.st "osl_texture_set_time" opt val }
    else if name = "interp" ∧ valtype.is_string then
      let mode : Int := if Val.is_constant then ts.tex_interp_to_code Val.string_data else -1
      if mode ≥ 0 then
        { s with st := llvm_call_function2 rop s.st "osl_texture_set_interp_code" opt (.i mode) }
      else
        { s with st := llvm_call_function2 rop s.st "osl_texture_set_interp_name" opt val }
    else if name = "alpha" ∧ valtype.is_float then
      if Val.has_derivs then
        { s with alpha := some (.ptr Val 0), dalphadx := some (.ptr Val 1),
                 dalphady := some (.ptr Val 2) }
      else { s with alpha := some (.ptr Val 0) }
    else
      { s with errors := s.errors ++ [⟨.error,
          "Unknown texture%s optional argument: \"%s\", <%s> (%s:%d)",
          [.str (if tex3d then "3d" else ""), .str name, .type valtype,
           .str op.sourcefile, .int op.sourceline]⟩] }

/-- The loop of `llvm_gen_texture_options` (lines 1792-1912) over the operands
from `first_optional_arg` on, two at a time; a name that is not a string or a
name without a value fails an assertion. -/
def texture_options_loop (ts : TextureSystem) (rop : RuntimeOptimizer) (op : Opcode)
    (tex3d : Bool) (opt : Value) : List Symbol → TextureOptions → Option TextureOptions
  | [], s => some s
  | [_], _ => none
  | Name :: Val :: rest, s =>
    if Name.typespec.is_string then
      texture_options_loop ts rop op tex3d opt rest (texture_option ts rop op tex3d opt Name Val s)
    else none

/-- The source function `llvm_gen_texture_options` (lines 1778-1915): the option
record and the state after filling it. -/
def llvm_gen_texture_options (ts : TextureSystem) (rop : RuntimeOptimizer) (op : Opcode)
    (first_optional_arg : Nat) (tex3d : Bool) (st : CodeGen) :
    Option (Value × TextureOptions) :=
  let opt := texture_opt_alloca
  let st := (llvm_call_function rop st "osl_texture_clear" [.val opt] false).2
  (texture_options_loop ts rop op tex3d opt (op.args.drop first_optional_arg)
    ⟨st, [], none, none, none⟩).map (fun s => (opt, s))

/-- The C++ expression `p ? p : llvm_void_ptr_null()`. -/
def ptr_or_null (p : Option Arg) : Arg := p.getD (.val NULL)

/-- The source function `llvm_gen_texture` (lines 1919-1975).  The result
carries the messages reported while lowering; the debug-only `DASSERT`s are not
modelled. -/
def llvm_gen_texture (ts : TextureSystem) (rop : RuntimeOptimizer) (op : Opcode)
    (st : CodeGen) : Option (Bool × CodeGen × List Diagnostic) :=
  match opargsym op 0, opargsym op 1, opargsym op 2, opargsym op 3 with
  | some Result, some Filename, some S, some T =>
    let user_derivs := decide (op.nargs > 4) &&
      (match opargsym op 4 with | some D => D.typespec.is_float | none => false)
    let first_optional_arg := if user_derivs then 8 else 4
    match llvm_gen_texture_options ts rop op first_optional_arg false st with
    | none => none
    | some (opt, o) =>
      let st := o.st
      let args : List Arg := [.sg, .val (llvm_load_value st Filename 0 none 0 none), .val opt,
        .val (llvm_load_value st S 0 none 0 none), .val (llvm_load_value st T 0 none 0 none)]
      let derivs : Option (List Arg) :=
        if user_derivs then
          match opargsym op 4, opargsym op 5, opargsym op 6, opargsym op 7 with
          | some a, some b, some c, some d =>
            some [.val (llvm_load_value st a 0 none 0 none),
                  .val (llvm_load_value st b 0 none 0 none),
                  .val (llvm_load_value st c 0 none 0 none),
                  .val (llvm_load_value st d 0 none 0 none)]
          | _, _, _, _ => none
        else
          some [.val (llvm_load_value st S 1 none 0 none),
                .val (llvm_load_value st T 1 none 0 none),
                .val (llvm_load_value st S 2 none 0 none),
                .val (llvm_load_value st T 2 none 0 none)]
      match derivs with
      | none => none
      | some derivs =>
        let args := args ++ derivs ++ [.val (.i Result.typespec.aggregate),
          .ptr Result 0, .ptr Result 1, .ptr Result 2]
        match o.alpha with
        | some alpha =>
          let args := args ++ [alpha, ptr_or_null o.dalphadx, ptr_or_null o.dalphady]
          some (true, (llvm_call_function rop st "osl_texture_alpha" args false).2, o.errors)
        | none =>
          some (true, (llvm_call_function rop st "osl_texture" args false).2, o.errors)
  | _, _, _, _ => none

/-- The zero triple allocated for `dPdz` (lines 2015-2019). -/
def vzero : Symbol := ⟨"$vzero", ⟨.triple, .vector, 0⟩, .temp, false, [], .DefaultVal⟩

/-- The source function `llvm_gen_texture3d` (lines 1979-2043); `inst` is the
layer being compiled, read for the symbol of the global `P`. -/
def llvm_gen_texture3d (ts : TextureSystem) (rop : RuntimeOptimizer) (inst : ShaderInstance)
    (op : Opcode) (st : CodeGen) : Option (Bool × CodeGen × List Diagnostic) :=
  match opargsym op 0, opargsym op 1, opargsym op 2 with
  | some Result, some Filename, some P =>
    let user_derivs := decide (op.nargs > 3) &&
      (match opargsym op 3 with | some D => D.typespec.is_triple | none => false)
    let first_optional_arg := if user_derivs then 6 else 4
    match llvm_gen_texture_options ts rop op first_optional_arg true st with
    | none => none
    | some (opt, o) =>
      let st := o.st
      let args : List Arg := [.sg, .val (llvm_load_value st Filename 0 none 0 none), .val opt,
        .ptr P 0]
      let derivs : Option (List Arg × CodeGen) :=
        if user_derivs then
          match opargsym op 3, opargsym op 4, opargsym op 5 with
          | some a, some b, some c => some ([.ptr a 0, .ptr b 0, .ptr c 0], st)
          | _, _, _ => none
        else if inst.symbol inst.Psym = some P then
          some ([.ptr P 1, .ptr P 2, .ptr P 3], st)
        else
          let fzero := llvm_constant 0
          let st := forLoop 3 (fun i st => llvm_store_value st fzero vzero 0 none i) st
          some ([.ptr P 1, .ptr P 2, .ptr vzero 0], st)
      match derivs with
      | none => none
      | some (derivs, st) =>
        let args := args ++ derivs ++ [.val (.i Result.typespec.aggregate),
          .ptr Result 0, .ptr Result 1, .ptr Result 2, .val NULL]
        match o.alpha with
        | some alpha =>
          let args := args ++ [alpha, ptr_or_null o.dalphadx, ptr_or_null o.dalphady,
            .val NULL]
          some (true, (llvm_call_function rop st "osl_texture3d_alpha" args false).2, o.errors)
        | none =>
          some (true, (llvm_call_function rop st "osl_texture3d" args false).2, o.errors)
  | _, _, _ => none

/-- The source function `llvm_gen_environment` (lines 2047-2097). -/
def llvm_gen_environment (ts : TextureSystem) (rop : RuntimeOptimizer) (op : Opcode)
    (st : CodeGen) : Option (Bool × CodeGen × List Diagnostic) :=
  match opargsym op 0, opargsym op 1, opargsym op 2 with
  | some Result, some Filename, some R =>
    let user_derivs := decide (op.nargs > 3) &&
      (match opargsym op 3 with | some D => D.typespec.is_triple | none => false)
    let first_optional_arg := if user_derivs then 5 else 3
    match llvm_gen_texture_options ts rop op first_optional_arg false st with
    | none => none
    | some (opt, o) =>
      let st := o.st
      let args : List Arg := [.sg, .val (llvm_load_value st Filename 0 none 0 none), .val opt,
        .ptr R 0]
      let derivs : Option (List Arg) :=
        if user_derivs then
          match opargsym op 3, opargsym op 4 with
          | some a, some b => some [.ptr a 0, .ptr b 0]
          | _, _ => none
        else some [.ptr R 1, .ptr R 2]
      match derivs with
      | none => none
      | some derivs =>
        let args := args ++ derivs ++ [.val (.i Result.typespec.aggregate),
          .ptr Result 0, .ptr Result 1, .ptr Result 2]
        let args := args ++ (match o.alpha with
          | some alpha => [alpha, ptr_or_null o.dalphadx, ptr_or_null o.dalphady]
          | none => [.val NULL, .val NULL, .val NULL])
        some (true, (llvm_call_function rop st "osl_environment" args false).2, o.errors)
  | _, _, _ => none

/-! ## Definitions for the claims on texture options -/

/-- The float-expecting options for which an int value is converted. -/
def promoted_options : List String :=
  ["width", "swidth", "twidth", "rwidth", "blur", "sblur", "tblur", "rblur"]

/-- The runtime set calls of a float-valued numeric option, in order. -/
def float_option_calls (tex3d : Bool) (name : String) : List String :=
  if name = "width" then
    ["osl_texture_set_swidth", "osl_texture_set_twidth"] ++
      (if tex3d then ["osl_texture_set_rwidth"] else [])
  else if name = "swidth" then ["osl_texture_set_swidth"]
  else if name = "twidth" then ["osl_texture_set_twidth"]
  else if name = "rwidth" then ["osl_texture_set_rwidth"]
  else if name = "blur" then
    ["osl_texture_set_sblur", "osl_texture_set_tblur"] ++
      (if tex3d then ["osl_texture_set_rblur"] else [])
  else if name = "sblur" then ["osl_texture_set_sblur"]
  else if name = "tblur" then ["osl_texture_set_tblur"]
  else if name = "rblur" then ["osl_texture_set_rblur"]
  else if name = "fill" then ["osl_texture_set_fill"]
  else if name = "time" then ["osl_texture_set_time"]
  else []

/-- The state after the calls `names`, each on the option record and `val`. -/
def emit_set_calls (rop : RuntimeOptimizer) (opt val : Value) (names : List String)
    (st : CodeGen) : CodeGen :=
  names.foldl (fun st n => llvm_call_function2 rop st n opt val) st

/-- The message reported for an option that is not recognised. -/
def unknown_option (op : Opcode) (tex3d : Bool) (name : String) (valtype : TypeSpec) :
    Diagnostic :=
  ⟨.error, "Unknown texture%s optional argument: \"%s\", <%s> (%s:%d)",
    [.str (if tex3d then "3d" else ""), .str name, .type valtype,
     .str op.sourcefile, .int op.sourceline]⟩

/-- A texture system whose decoders know no mode. -/
def ex_ts : TextureSystem := ⟨fun _ => 0, fun _ => -1⟩

def ex_string : TypeSpec := ⟨.string, .color, 0⟩

/-- The constant string `"fill"`. -/
def ex_name_fill : Symbol := ⟨"$const_fill", ex_string, .const, false, [.s "fill"], .DefaultVal⟩

/-- The constant string `"blur"`. -/
def ex_name_blur : Symbol := ⟨"$const_blur", ex_string, .const, false, [.s "blur"], .DefaultVal⟩

/-- The constant string `"tex.tx"`. -/
def ex_filename : Symbol :=
  ⟨"$const_file", ex_string, .const, false, [.s "tex.tx"], .DefaultVal⟩

/-- A float constant 1/2. -/
def ex_half : Symbol := ⟨"$const_half", ex_float, .const, false, [.f (1 / 2)], .DefaultVal⟩

/-- A point `P`. -/
def ex_P : Symbol := ⟨"P", ⟨.triple, .point, 0⟩, .global, true, [], .DefaultVal⟩

/-- A color result with derivatives. -/
def ex_Cout : Symbol := ⟨"Cout", ex_triple, .temp, true, [], .DefaultVal⟩

/-- The instruction `Cout = texture ("tex.tx", A, B, "fill", 5)`. -/
def ex_texture_fill : Opcode :=
  ⟨"texture", [ex_Cout, ex_filename, ex_A, ex_B, ex_name_fill, ex_five], "test.osl", 12⟩

/-- The instruction `Cout = texture ("tex.tx", A, B, "blur", 5)`. -/
def ex_texture_blur : Opcode :=
  ⟨"texture", [ex_Cout, ex_filename, ex_A, ex_B, ex_name_blur, ex_five], "test.osl", 13⟩

/-- The instruction `Cout = texture3d ("tex.tx", P, "blur", 0.5)`. -/
def ex_texture3d : Opcode :=
  ⟨"texture3d", [ex_Cout, ex_filename, ex_P, ex_name_blur, ex_half], "test.osl", 14⟩

/-- The instruction `Cout = environment ("tex.tx", P, "blur", 0.5)`. -/
def ex_environment : Opcode :=
  ⟨"environment", [ex_Cout, ex_filename, ex_P, ex_name_blur, ex_half], "test.osl", 15⟩

/-- A layer `layer1` with id 7, no connections and the symbol table `[P]`. -/
def ex_inst : ShaderInstance := ⟨"layer1", 7, false, [], [ex_P], [], 0⟩

/-! ## Closure records

A closure record is raw memory behind the pointer that
`osl_allocate_closure_component` returns, so the instructions that fill it are
recorded symbolically, oldest first, next to the code-generation state. -/

/-- Modelled from the spec: a parameter of a closure descriptor: its type, its byte
offset in the record and, for a keyword parameter, its name (`none` is the C++
`NULL` key of a positional parameter). -/
structure ClosureParam where
  type : TypeSpec
  offset : Int
  key : Option String
  deriving DecidableEq, Repr

/-- Modelled from the spec: a registered closure descriptor
(`ClosureRegistry::ClosureEntry`); `prepare` and `setup` are the optional
callbacks (`none` is `NULL`). -/
structure ClosureEntry where
  id : Int
  nformal : Nat
  nkeyword : Nat
  struct_size : Int
  params : List ClosureParam
  prepare : Option Nat
  setup : Option Nat
  deriving DecidableEq, Repr

/-- The collaborators of closure lowering that are external to the source file:
the closure registry, the renderer pointer and `TypeDesc::size`. -/
structure ShadingSystem where
  find_closure : String → Option ClosureEntry
  renderer : Value
  type_size : TypeSpec → Int

/-- A pointer into a closure record. -/
inductive RecordPtr
  | base (v : Value)
  | field (p : RecordPtr) (i : Int) (f : Int)
  | offset (p : RecordPtr) (off : Int)
  deriving DecidableEq, Repr

/-- An instruction that fills a closure record: `llvm_memset`, `llvm_memcpy`,
`CreateStore`, or a call of the `prepare` or `setup` callback. -/
inductive RecordOp
  | memset (dst : RecordPtr) (val : Int) (len : Int) (align : Int)
  | memcpy (dst : RecordPtr) (src : Arg) (len : Int) (align : Int)
  | store (val : Value) (dst : RecordPtr)
  | callback (fn : Nat) (renderer : Value) (id : Value) (mem : RecordPtr)
  deriving DecidableEq, Repr

/-- State of closure lowering: the code-generation state, the instructions that
fill the record, and the messages reported. -/
structure ClosureGen where
  st : CodeGen
  record : List RecordOp
  messages : List Diagnostic

def TypeSpec.is_structure (t : TypeSpec) : Bool := t.base == .struct

/-- The inner loop of `llvm_gen_keyword_fill` (lines 2594-2600): some keyword
parameter of the descriptor has the name and the type. -/
def keyword_legal (clentry : ClosureEntry) (key : String) (ValueType : TypeSpec) : Bool :=
  forLoop clentry.nkeyword (fun t legal =>
    match clentry.params.get? (clentry.nformal + t) with
    | some param => if param.type = ValueType ∧ param.key = some key then true else legal
    | none => legal) false

/-- The body of the loop of `llvm_gen_keyword_fill` (lines 2583-2612). -/
def keyword_fill_pair (ss : ShadingSystem) (op : Opcode) (clentry : ClosureEntry)
    (clname : String) (attr_p : RecordPtr) (argsoffset : Nat) (attr_i : Nat)
    (g : ClosureGen) : Option ClosureGen :=
  let argno := attr_i * 2 + argsoffset
  match opargsym op argno, opargsym op (argno + 1) with
  | some Key, some Val =>
    if !Key.typespec.is_string then none
    else if !Key.is_constant then none
    else
      let key := Key.string_data
      let ValueType := Val.typespec.simpletype
      let legal := keyword_legal clentry key ValueType
      if !legal then
        some { g with messages := g.messages ++ [⟨.warning,
          "Unsupported closure keyword arg \"%s\" for %s (%s:%d)",
          [.str key, .str clname, .str op.sourcefile, .int op.sourceline]⟩] }
      else
        let key_to := RecordPtr.field attr_p attr_i 0
        let key_const := Value.s key
        let value_to := RecordPtr.field attr_p attr_i 1
        let value_from := Arg.ptr Val 0
        some { g with record := g.record ++
          [.store key_const key_to, .memcpy value_to value_from (ss.type_size ValueType) 4] }
  | _, _ => none

/-- The source function `llvm_gen_keyword_fill` (lines 2574-2614); the
debug-only `DASSERT` on the parity of the operand count is not modelled. -/
def llvm_gen_keyword_fill (ss : ShadingSystem) (op : Opcode) (clentry : ClosureEntry)
    (clname : String) (attr_p : RecordPtr) (argsoffset : Nat) (g : ClosureGen) :
    Option ClosureGen :=
  let Nattrs := (op.nargs - argsoffset) / 2
  forLoopM Nattrs (keyword_fill_pair ss op clentry clname attr_p argsoffset) g

/-- The type compared with the descriptor (lines 2671-2673): a normal or a point
counts as a vector. -/
def formal_type (sym : Symbol) : TypeSpec :=
  let t := sym.typespec.simpletype
  if t.vecsemantics = .normal ∨ t.vecsemantics = .point then { t with vecsemantics := .vector }
  else t

/-- The loop over the positional parameters in `llvm_gen_closure` (lines
2666-2684), from parameter `carg` on; it stops at the first keyword parameter. -/
def closure_formals (ss : ShadingSystem) (op : Opcode) (clentry : ClosureEntry)
    (closure_name : String) (mem_void_ptr : RecordPtr) :
    List ClosureParam → Nat → ClosureGen → Option ClosureGen
  | [], _, g => some g
  | p :: ps, carg, g =>
    if p.key.isSome then some g
    else if ¬ (p.offset < clentry.struct_size) then none
    else
      match opargsym op (carg + 2) with
      | none => none
      | some sym =>
        let t := formal_type sym
        if !sym.typespec.is_closure_based && !sym.typespec.is_structure && decide (t = p.type)
        then
          let dst := RecordPtr.offset mem_void_ptr p.offset
          let src := Arg.ptr sym 0
          closure_formals ss op clentry closure_name mem_void_ptr ps (carg + 1)
            { g with record := g.record ++ [.memcpy dst src (ss.type_size p.type) 4] }
        else
          closure_formals ss op clentry closure_name mem_void_ptr ps (carg + 1)
            { g with messages := g.messages ++ [⟨.error,
              "Incompatible formal argument %d to '%s' closure. Prototypes don't match renderer registry.",
              [.int (carg + 1), .str closure_name]⟩] }

/-- The call of the `prepare` callback, or the zero fill of the parameter block
when the descriptor has none (lines 2653-2663). -/
def closure_prepare (clentry : ClosureEntry) (render_ptr id_int : Value)
    (mem_void_ptr : RecordPtr) (st : CodeGen) : ClosureGen :=
  match clentry.prepare with
  | some f => ⟨st, [.callback f render_ptr id_int mem_void_ptr], []⟩
  | none => ⟨st, [.memset mem_void_ptr 0 clentry.struct_size 4], []⟩

/-- The call of the `setup` callback when the descriptor has one (lines
2686-2693). -/
def closure_setup (clentry : ClosureEntry) (render_ptr id_int : Value)
    (mem_void_ptr : RecordPtr) (g : ClosureGen) : ClosureGen :=
  match clentry.setup with
  | some f => { g with record := g.record ++ [.callback f render_ptr id_int mem_void_ptr] }
  | none => g

/-- The source function `llvm_gen_closure` (lines 2618-2700).  The result
carries the instructions that fill the record and the messages reported; the
debug-only `DASSERT`s are not modelled. -/
def llvm_gen_closure (ss : ShadingSystem) (rop : RuntimeOptimizer) (op : Opcode)
    (st : CodeGen) : Option (Bool × ClosureGen) :=
  if op.nargs < 2 then none
  else
    match opargsym op 0, opargsym op 1 with
    | some Result, some Id =>
      let closure_name := Id.string_data
      match ss.find_closure closure_name with
      | none =>
        some (false, ⟨st, [], [⟨.error,
          "Closure '%s' is not supported by the current renderer, called from (%s:%d)",
          [.str closure_name, .str op.sourcefile, .int op.sourceline]⟩]⟩)
      | some clentry =>
        if op.nargs < 2 + clentry.nformal then none
        else
          let nattrs := (op.nargs - (2 + clentry.nformal)) / 2
          let render_ptr := ss.renderer
          let id_int := Value.i clentry.id
          let size_int := Value.i clentry.struct_size
          let nattrs_int := Value.i nattrs
          let r := llvm_call_function rop st "osl_allocate_closure_component"
            [.sg, .val id_int, .val size_int, .val nattrs_int] false
          let comp_void_ptr := r.1
          let st := llvm_store_value r.2 comp_void_ptr Result 0 none 0
          let mem_void_ptr := RecordPtr.field (.base comp_void_ptr) 0 4
          let g := closure_prepare clentry render_ptr id_int mem_void_ptr st
          (closure_formals ss op clentry closure_name mem_void_ptr
              (clentry.params.take clentry.nformal) 0 g).bind (fun g =>
            let g := closure_setup clentry render_ptr id_int mem_void_ptr g
            let attrs_ptr := RecordPtr.offset mem_void_ptr clentry.struct_size
            (llvm_gen_keyword_fill ss op clentry closure_name attrs_ptr
              (clentry.nformal + 2) g).map (fun g => (true, g)))
    | _, _ => none

/-! ## Definitions for the claims on closure records -/

/-- The instruction writes slot `i` of the attribute array at `attr_p`. -/
def writes_attr (attr_p : RecordPtr) (i : Nat) : RecordOp → Prop
  | .memset dst _ _ _ => ∃ f, dst = .field attr_p i f
  | .memcpy dst _ _ _ => ∃ f, dst = .field attr_p i f
  | .store _ dst => ∃ f, dst = .field attr_p i f
  | .callback _ _ _ _ => False

/-- The message reported for a keyword pair that the descriptor does not
declare. -/
def unsupported_keyword (op : Opcode) (clname key : String) : Diagnostic :=
  ⟨.warning, "Unsupported closure keyword arg \"%s\" for %s (%s:%d)",
    [.str key, .str clname, .str op.sourcefile, .int op.sourceline]⟩

/-- The message reported for a positional argument whose type differs from the
descriptor. -/
def incompatible_formal (closure_name : String) (carg : Nat) : Diagnostic :=
  ⟨.error,
    "Incompatible formal argument %d to '%s' closure. Prototypes don't match renderer registry.",
    [.int (carg + 1), .str closure_name]⟩

/-- The record of a closure component: its primitive buffer is the fifth field
(line 2649). -/
def closure_mem (comp : Value) : RecordPtr := .field (.base comp) 0 4

/-- The attribute array of a closure component, behind the parameter block. -/
def closure_attrs (comp : Value) (clentry : ClosureEntry) : RecordPtr :=
  .offset (closure_mem comp) clentry.struct_size

/-- The call that allocates a closure component with `nattrs` attributes. -/
def allocate_call (clentry : ClosureEntry) (nattrs : Int) : Call :=
  ⟨"osl_allocate_closure_component",
    [.sg, .val (.i clentry.id), .val (.i clentry.struct_size), .val (.i nattrs)], false⟩

/-- The number of keyword pairs of a closure instruction that the descriptor
declares. -/
def valid_pairs (op : Opcode) (clentry : ClosureEntry) : Nat :=
  ((List.range ((op.nargs - (2 + clentry.nformal)) / 2)).filter (fun i =>
    match opargsym op (i * 2 + (clentry.nformal + 2)),
        opargsym op (i * 2 + (clentry.nformal + 2) + 1) with
    | some Key, some Val => keyword_legal clentry Key.string_data Val.typespec.simpletype
    | _, _ => false)).length

def ex_vector : TypeSpec := ⟨.triple, .vector, 0⟩

/-- The descriptor of `diffuse (normal N, "label", string)`: one positional
vector at offset 0 and one keyword parameter `label` of type string. -/
def ex_diffuse : ClosureEntry :=
  ⟨1, 1, 1, 12, [⟨ex_vector, 0, none⟩, ⟨ex_string, 0, some "label"⟩], none, none⟩

/-- A renderer that registers only `diffuse`; a string takes 8 bytes, any other
type 4 bytes per component. -/
def ex_ss : ShadingSystem :=
  ⟨fun name => if name = "diffuse" then some ex_diffuse else none, .p 9,
    fun t => if t.base = .string then 8 else 4 * t.aggregate⟩

/-- The closure variable `Ci`. -/
def ex_Ci : Symbol := ⟨"Ci", ⟨.closure, .color, 0⟩, .global, false, [], .DefaultVal⟩

/-- The shading normal `N`. -/
def ex_N : Symbol := ⟨"N", ⟨.triple, .normal, 0⟩, .global, true, [], .DefaultVal⟩

def ex_name_diffuse : Symbol :=
  ⟨"$const_diffuse", ex_string, .const, false, [.s "diffuse"], .DefaultVal⟩

def ex_name_glass : Symbol :=
  ⟨"$const_glass", ex_string, .const, false, [.s "glass"], .DefaultVal⟩

def ex_key_label : Symbol :=
  ⟨"$const_label", ex_string, .const, false, [.s "label"], .DefaultVal⟩

def ex_key_bogus : Symbol :=
  ⟨"$const_bogus", ex_string, .const, false, [.s "bogus"], .DefaultVal⟩

def ex_val_x : Symbol := ⟨"$const_x", ex_string, .const, false, [.s "x"], .DefaultVal⟩

/-- The instruction `Ci = diffuse (A)` with the float `A` in place of a normal. -/
def ex_closure_mismatch : Opcode :=
  ⟨"closure", [ex_Ci, ex_name_diffuse, ex_A0], "test.osl", 16⟩

/-- The instruction `Ci = glass (N)` for a closure that is not registered. -/
def ex_closure_unknown : Opcode :=
  ⟨"closure", [ex_Ci, ex_name_glass, ex_N], "test.osl", 17⟩

/-- The instruction `Ci = diffuse (N, "bogus", 0.5, "label", "x")`. -/
def ex_closure_keywords : Opcode :=
  ⟨"closure", [ex_Ci, ex_name_diffuse, ex_N, ex_key_bogus, ex_half, ex_key_label, ex_val_x],
    "test.osl", 18⟩

/-! ## Emitted control flow

A layer call is lowered to a load, a comparison and a branch, so its lowering is
embedded at the level of the emitted instructions: the builder holds the basic
blocks created so far and its insertion point, and a small machine runs the
blocks on the has-run flags of the group data. -/

/-- A pointer operand of an emitted load or store: `layer_run_ptr (k)`, the
address of the has-run flag `groupdata->run[k]`. -/
inductive Pointer
  | layer_run (k : Int)
  deriving DecidableEq, Repr

/-- A value operand of an emitted instruction. -/
inductive Operand
  | reg (n : Nat)
  | const_bool (b : Bool)
  | sg_ptr
  | groupdata_ptr
  deriving DecidableEq, Repr

/-- An emitted instruction; `load` and `icmp_ne` define the register `dst`. -/
inductive Instr
  | load (dst : Nat) (ptr : Pointer)
  | icmp_ne (dst : Nat) (a b : Operand)
  | store (v : Operand) (ptr : Pointer)
  | call (name : String) (args : List Operand)
  | condbr (cond : Operand) (then_block after_block : Nat)
  | br (target : Nat)
  deriving DecidableEq, Repr

/-- The IR builder: the instructions of every basic block, the number of blocks
and registers created so far, and the block at whose end instructions are
inserted. -/
structure Builder where
  blocks : Nat → List Instr
  nblocks : Nat
  nregs : Nat
  cur : Nat

namespace Builder

/-- Append an instruction at the insertion point. -/
def emit (b : Builder) (i : Instr) : Builder :=
  { b with blocks := Function.update b.blocks b.cur (b.blocks b.cur ++ [i]) }

def CreateLoad (b : Builder) (ptr : Pointer) : Operand × Builder :=
  (.reg b.nregs, { b.emit (.load b.nregs ptr) with nregs := b.nregs + 1 })

def CreateICmpNE (b : Builder) (x y : Operand) : Operand × Builder :=
  (.reg b.nregs, { b.emit (.icmp_ne b.nregs x y) with nregs := b.nregs + 1 })

def CreateStore (b : Builder) (v : Operand) (ptr : Pointer) : Builder := b.emit (.store v ptr)

def CreateCondBr (b : Builder) (cond : Operand) (t f : Nat) : Builder :=
  b.emit (.condbr cond t f)

def CreateBr (b : Builder) (t : Nat) : Builder := b.emit (.br t)

def SetInsertPoint (b : Builder) (block : Nat) : Builder := { b with cur := block }

/-- The call `llvm_call_function (name, args, n)` at the insertion point. -/
def llvm_call_function (b : Builder) (name : String) (args : List Operand) : Builder :=
  b.emit (.call name args)

/-- The call `llvm_new_basic_block ("")`: a new empty block. -/
def llvm_new_basic_block (b : Builder) : Nat × Builder :=
  (b.nblocks, { b with blocks := Function.update b.blocks b.nblocks [],
                       nblocks := b.nblocks + 1 })

end Builder

/-- The part of the `RuntimeOptimizer` that layer calls read: the layer being
compiled, the layers of the group by index, and the renumbering `layer_remap`
of the has-run flags. -/
structure LayerContext where
  inst : ShaderInstance
  group : Int → ShaderInstance
  layer_remap : Int → Int

/-- The name `Strutil::format ("%s_%d", layername, id)` of the entry function of
a layer. -/
def layer_function_name (parent : ShaderInstance) : String :=
  parent.layername ++ "_" ++ toString parent.id

/-- The source function `RuntimeOptimizer::llvm_call_layer` (lines 111-153).
The calling convention set on the call is not modelled. -/
def llvm_call_layer (rop : LayerContext) (layer : Int) (unconditional : Bool)
    (b : Builder) : Builder :=
  let args : List Operand := [.sg_ptr, .groupdata_ptr]
  let parent := rop.group layer
  let trueval := Operand.const_bool true
  let layerfield := Pointer.layer_run (rop.layer_remap layer)
  let guard : Option Nat × Builder :=
    if !unconditional then
      let executed := b.CreateLoad layerfield
      let executed := executed.2.CreateICmpNE executed.1 trueval
      let then_block := executed.2.llvm_new_basic_block
      let after_block := then_block.2.llvm_new_basic_block
      let b := after_block.2.CreateCondBr executed.1 then_block.1 after_block.1
      (some after_block.1, b.SetInsertPoint then_block.1)
    else (none, b)
  let b := guard.2.CreateStore trueval layerfield
  let name := layer_function_name parent
  let b := b.llvm_call_function name args
  match guard.1 with
  | some after_block => (b.CreateBr after_block).SetInsertPoint after_block
  | none => b

/-- The state of the machine that runs emitted code: the has-run flags, the
registers, and the entry functions invoked so far, oldest first. -/
structure Machine where
  run : Int → Bool
  regs : Nat → Bool
  invoked : List String

/-- The boolean an operand denotes. -/
def Machine.eval (m : Machine) : Operand → Bool
  | .reg n => m.regs n
  | .const_bool b => b
  | _ => false

/-- One instruction that is not a branch.  A call invokes the entry function
`name`, whose effect on the has-run flags is the parameter `callee`. -/
def Machine.step (callee : String → (Int → Bool) → (Int → Bool)) (m : Machine) :
    Instr → Machine
  | .load dst (.layer_run k) => { m with regs := Function.update m.regs dst (m.run k) }
  | .icmp_ne dst a b => { m with regs := Function.update m.regs dst (m.eval a != m.eval b) }
  | .store v (.layer_run k) => { m with run := Function.update m.run k (m.eval v) }
  | .call name _ => { m with run := callee name m.run, invoked := m.invoked ++ [name] }
  | _ => m

/-- The builder after guarded calls of the layers `ls`, in order. -/
def call_layers (rop : LayerContext) (ls : List Int) (b : Builder) : Builder :=
  ls.foldl (fun b l => llvm_call_layer rop l false b) b

/-- Modelled from the spec: `llvm_assign_zero`, absent from the source file:
zero-fill the value and every derivative slot of a symbol (§4.1). -/
def llvm_assign_zero (st : CodeGen) (sym : Symbol) : CodeGen :=
  { st with mem := fun x =>
      if x.sym = sym ∧ (x.deriv = 0 ∨ (sym.has_derivs = true ∧ (x.deriv = 1 ∨ x.deriv = 2)))
      then (if sym.typespec.base = .int then .i 0 else .f 0)
      else st.mem x }

/-- Modelled from the spec: `llvm_assign_impl`, absent from the source file:
copy the value of `Src` to `Result` component by component, promoted to the type
of `Result`, with the derivative slots when `Result` has them (§4.1). -/
def llvm_assign_impl (st : CodeGen) (Result Src : Symbol) : CodeGen :=
  forBreak (!Result.has_derivs) 0 3 (fun d st =>
    forLoop Result.typespec.aggregate (fun i st =>
      llvm_store_value st (llvm_load_value st Src d none i (some Result.typespec))
        Result d none i) st) st

/-- The source function `llvm_gen_Dz` (lines 1375-1395); `inst` is the layer
being compiled, read for the symbol of the global `P`. -/
def llvm_gen_Dz (_rop : RuntimeOptimizer) (inst : ShaderInstance) (op : Opcode)
    (st : CodeGen) : Option (Bool × CodeGen) :=
  match opargsym op 0, opargsym op 1 with
  | some Result, some Src =>
    if inst.symbol inst.Psym = some Src then
      let deriv := 3
      let st := forLoop Result.typespec.aggregate (fun i st =>
        let src_val := llvm_load_value st Src deriv none i none
        storeLLVMValue st src_val Result i 0) st
      some (true, llvm_zero_derivs st Result)
    else
      some (true, llvm_assign_zero st Result)
  | _, _ => none

/-- The source function `llvm_gen_filterwidth` (lines 1399-1424). -/
def llvm_gen_filterwidth (rop : RuntimeOptimizer) (op : Opcode) (st : CodeGen) :
    Option (Bool × CodeGen) :=
  match opargsym op 0, opargsym op 1 with
  | some Result, some Src =>
    if !(Src.typespec.is_float || Src.typespec.is_triple) then none
    else if Src.has_derivs then
      let st :=
        if Src.typespec.is_float then
          let r := llvm_call_function rop st "osl_filterwidth_fdf" [.ptr Src 0] false
          llvm_store_value r.2 r.1 Result 0 none 0
        else
          (llvm_call_function rop st "osl_filterwidth_vdv" [.ptr Result 0, .ptr Src 0] false).2
      some (true, llvm_zero_derivs st Result)
    else
      some (true, llvm_assign_zero st Src)
  | _, _ => none

/-- The collaborators of `llvm_gen_transform` that are external to the source
file: the synonym of the common space, the renderer's answer whether a
transformation between two named spaces may be nonlinear, and the integer code
of a geometric-semantics tag. -/
structure TransformServices where
  commonspace_synonym : String
  transform_points : String → String → VecSemantics → Bool
  vectype_code : VecSemantics → Int

/-- The IR constant `llvm_constant (b)` of a bool. -/
def llvm_constant_bool (b : Bool) : Value := .i (if b then 1 else 0)

/-- The source function `llvm_gen_transform` (lines 1291-1349).  `From` is
`none` for the null pointer; loading `*From` then has no defined behaviour. -/
def llvm_gen_transform (ts : TransformServices) (rop : RuntimeOptimizer) (op : Opcode)
    (st : CodeGen) : Option (Bool × CodeGen) :=
  let nargs := op.nargs
  let From : Option Symbol := if nargs = 3 then none else opargsym op 1
  match opargsym op 0, opargsym op (if nargs = 3 then 1 else 2),
      opargsym op (if nargs = 3 then 2 else 3) with
  | some Result, some To, some P =>
    if To.typespec.is_matrix then
      (llvm_gen_generic rop op st).map (fun r => (true, r.2))
    else
      let known : Bool :=
        (match From with | none => true | some f => f.is_constant) && To.is_constant
      let from_ : String :=
        if known then
          let from_ := match From with | some f => f.string_data | none => "common"
          if from_ = ts.commonspace_synonym then "common" else from_
        else ""
      let to_ : String :=
        if known then
          if To.string_data = ts.commonspace_synonym then "common" else To.string_data
        else ""
      if known && decide (from_ = to_) then
        some (true, if Result ≠ P then llvm_assign_impl st Result P else st)
      else
        let vectype : VecSemantics :=
          if op.opname = "transformv" then .vector
          else if op.opname = "transformn" then .normal
          else .point
        match From with
        | none => none
        | some f =>
          let args : List Arg := [.sg, .ptr P 0, .val (llvm_constant_bool P.has_derivs),
            .ptr Result 0, .val (llvm_constant_bool Result.has_derivs),
            .val (llvm_load_value st f 0 none 0 none),
            .val (llvm_load_value st To 0 none 0 none), .val (.i (ts.vectype_code vectype))]
          if ts.transform_points from_ to_ vectype then
            some (true, (llvm_call_function rop st "osl_transform_triple_nonlinear" args false).2)
          else
            some (true, (llvm_call_function rop st "osl_transform_triple" args false).2)
  | _, _, _ => none

/-! ## Point clouds

The branch on the capacity test is run directly: the state after the
instruction is the state after the branch that the test selects. -/

/-- Modelled from the spec: the overload `llvm_zero_derivs (sym, count)`, absent
from the source file: zero-fill the derivative slots of the first `count`
elements of an array. -/
def llvm_zero_derivs_count (st : CodeGen) (sym : Symbol) (count : Value) : CodeGen :=
  if sym.has_derivs then
    { st with mem := fun x =>
        if x.sym = sym ∧ (x.deriv = 1 ∨ x.deriv = 2) ∧
            0 ≤ x.arrayindex ∧ x.arrayindex < count.toInt
        then .f 0 else st.mem x }
  else st

/-- Modelled from the spec: the IR constant `llvm_constant (TypeDesc)`, the
integer that packs a type descriptor. -/
def llvm_constant_typedesc (t : TypeSpec) : Value :=
  .i ((match t.base with
        | .int => 0 | .float => 1 | .string => 2 | .matrix => 3 | .triple => 4
        | .closure => 5 | .struct => 6) +
      8 * (match t.vecsemantics with
        | .color => 0 | .point => 1 | .vector => 2 | .normal => 3) +
      32 * (t.arraylen : Int))

/-- The arguments of `osl_pointcloud_search` that the loop over the attribute
pairs fills: slots 5 to 7, the arguments pushed behind slot 8, the symbols whose
derivatives are cleared, the capacity, and the number of pushed attributes. -/
structure PointcloudArgs where
  indices : Arg
  distances : Arg
  derivs_offset : Arg
  attrs : List Arg
  clear_derivs_of : List Symbol
  capacity : Nat
  extra_attrs : Int

/-- The body of the loop of `llvm_gen_pointcloud_search` after the assertion
(lines 2751-2775). -/
def pointcloud_attr (st : CodeGen) (Center Name Val : Symbol) (a : PointcloudArgs) :
    PointcloudArgs :=
  let simpletype := Val.typespec.simpletype
  let a : PointcloudArgs :=
    if Name.is_constant && decide (Name.string_data = "index") && simpletype.base == .int then
      { a with indices := .ptr Val 0 }
    else if Name.is_constant && decide (Name.string_data = "distance") &&
        simpletype.base == .float then
      let a := { a with distances := .ptr Val 0 }
      if Val.has_derivs then
        if Center.has_derivs then
          { a with derivs_offset := .val (.i simpletype.numelements) }
        else { a with clear_derivs_of := a.clear_derivs_of ++ [Val] }
      else a
    else
      let pushed : List Arg := [.val (llvm_load_value st Name 0 none 0 none),
        .val (llvm_constant_typedesc simpletype), .ptr Val 0]
      let a := { a with attrs := a.attrs ++ pushed }
      let a := if Val.has_derivs then { a with clear_derivs_of := a.clear_derivs_of ++ [Val] }
               else a
      { a with extra_attrs := a.extra_attrs + 1 }
  { a with capacity := min simpletype.numelements a.capacity }

/-- One iteration of the loop of `llvm_gen_pointcloud_search` (lines
2745-2776): a name that is not a string fails the assertion. -/
def pointcloud_attr_step (op : Opcode) (st : CodeGen) (Center : Symbol) (i : Nat)
    (a : PointcloudArgs) : Option PointcloudArgs :=
  match opargsym op (5 + i * 2), opargsym op (5 + i * 2 + 1) with
  | some Name, some Val =>
    if Name.typespec.is_string then some (pointcloud_attr st Center Name Val a) else none
  | _, _ => none

/-- The arguments of the `osl_error` call of a failed capacity test. -/
def pointcloud_error_args (op : Opcode) (errorfmt : String) : List Arg :=
  [.sg, .val (.s errorfmt), .val (.s op.sourcefile), .val (.i op.sourceline)]

/-- The code after the loop of `llvm_gen_pointcloud_search` (lines 2778-2816). -/
def pointcloud_search_call (rop : RuntimeOptimizer) (op : Opcode) (st : CodeGen)
    (Result Filename Center Radius Max_points : Symbol) (a : PointcloudArgs) : CodeGen :=
  let args : List Arg := [.sg, .val (llvm_load_value st Filename 0 none 0 none),
    .ptr Center 0, .val (llvm_load_value st Radius 0 none 0 none),
    .val (llvm_load_value st Max_points 0 none 0 none),
    a.indices, a.distances, a.derivs_offset, .val (.i a.extra_attrs)] ++ a.attrs
  let sizeok := CreateICmpSGE (.i a.capacity) (llvm_load_value st Max_points 0 none 0 none)
  if sizeok then
    let r := llvm_call_function rop st "osl_pointcloud_search" args false
    let count := r.1
    let st := a.clear_derivs_of.foldl (fun st s => llvm_zero_derivs_count st s count) r.2
    llvm_store_value st count Result 0 none 0
  else
    (llvm_call_function rop st "osl_error"
      (pointcloud_error_args op "Arrays too small for pointcloud lookup at (%s:%d)") false).2

/-- The source function `llvm_gen_pointcloud_search` (lines 2704-2817); the
debug-only `DASSERT`s are not modelled. -/
def llvm_gen_pointcloud_search (rop : RuntimeOptimizer) (op : Opcode) (st : CodeGen) :
    Option (Bool × CodeGen) :=
  if ((op.nargs : Int) - 5) % 2 ≠ 0 then none
  else
    match opargsym op 0, opargsym op 1, opargsym op 2, opargsym op 3, opargsym op 4 with
    | some Result, some Filename, some Center, some Radius, some Max_points =>
      let attr_arg_offset := 5
      let nattrs := (op.nargs - attr_arg_offset) / 2
      (forLoopM nattrs (pointcloud_attr_step op st Center)
        ⟨.val NULL, .val NULL, .val (.i 0), [], [], 0x7FFFFFFF, 0⟩).map (fun a =>
          (true, pointcloud_search_call rop op st Result Filename Center Radius Max_points a))
    | _, _, _, _, _ => none

/-- The source function `llvm_gen_pointcloud_get` (lines 2821-2879); the
debug-only `DASSERT` is not modelled. -/
def llvm_gen_pointcloud_get (rop : RuntimeOptimizer) (op : Opcode) (st : CodeGen) :
    Option (Bool × CodeGen) :=
  match opargsym op 0, opargsym op 1, opargsym op 2, opargsym op 3, opargsym op 4,
      opargsym op 5 with
  | some Result, some Filename, some Indices, some Count, some Attr_name, some Data =>
    let count := llvm_load_value st Count 0 none 0 none
    let capacity : Int := min (Data.typespec.simpletype.numelements : Int)
      (Indices.typespec.simpletype.numelements : Int)
    let sizeok := CreateICmpSGE (.i capacity) count
    if sizeok then
      let args : List Arg := [.sg, .val (llvm_load_value st Filename 0 none 0 none),
        .ptr Indices 0, .val count, .val (llvm_load_value st Attr_name 0 none 0 none),
        .val (llvm_constant_typedesc Data.typespec.simpletype), .ptr Data 0]
      let r := llvm_call_function rop st "osl_pointcloud_get" args false
      let found := r.1
      let st := llvm_store_value r.2 found Result 0 none 0
      some (true, if Data.has_derivs then llvm_zero_derivs_count st Data count else st)
    else
      some (true, (llvm_call_function rop st "osl_error"
        (pointcloud_error_args op "Arrays too small for pointcloud attribute get at (%s:%d)")
        false).2)
  | _, _, _, _, _, _ => none

/-! ## Definitions for the claims on derivative operators, transforms and point clouds -/

/-- The derivative-passing mode of the generic dispatch in the words of the
naming protocol: the result has derivatives, some operand other than the result
has derivatives and is not a matrix, and the operator is differentiable. -/
def deriv_passing_mode (op : Opcode) (Result : Symbol) : Bool :=
  Result.has_derivs &&
    (op.args.drop 1).any (fun s => s.has_derivs && !s.typespec.is_matrix) &&
    !no_deriv_op op.opname

/-- The minimum element count over the values of the first `n` attribute pairs
of a `pointcloud_search`, under the 32-bit limit. -/
def search_capacity (op : Opcode) : Nat → Nat
  | 0 => 0x7FFFFFFF
  | n + 1 =>
    min (match opargsym op (5 + n * 2 + 1) with
         | some Val => Val.typespec.numelements
         | none => 0x7FFFFFFF) (search_capacity op n)

/-- The instruction `Result = filterwidth (A)` for an `A` without derivatives. -/
def ex_filterwidth : Opcode := ⟨"filterwidth", [ex_R, ex_A0], "test.osl", 20⟩

/-- The instruction `Result = Dz (A)` for an `A` that is not `P`. -/
def ex_Dz : Opcode := ⟨"Dz", [ex_R, ex_A0], "test.osl", 21⟩

/-- Services with the common-space synonym `world`, a renderer without
nonlinear transformations, and the codes 1 to 4 for the semantics tags. -/
def ex_tsv : TransformServices :=
  ⟨"world", fun _ _ _ => false, fun v =>
    match v with | .color => 1 | .point => 2 | .vector => 3 | .normal => 4⟩

def ex_name_object : Symbol :=
  ⟨"$const_object", ex_string, .const, false, [.s "object"], .DefaultVal⟩

def ex_name_common : Symbol :=
  ⟨"$const_common", ex_string, .const, false, [.s "common"], .DefaultVal⟩

/-- A point that receives a transformed point. -/
def ex_Pout : Symbol := ⟨"Pout", ⟨.triple, .point, 0⟩, .temp, true, [], .DefaultVal⟩

/-- The instruction `Pout = transform ("object", P)`. -/
def ex_transform3 : Opcode :=
  ⟨"transform", [ex_Pout, ex_name_object, ex_P], "test.osl", 22⟩

/-- The instruction `Pout = transform ("common", "object", P)`. -/
def ex_transform4 : Opcode :=
  ⟨"transform", [ex_Pout, ex_name_common, ex_name_object, ex_P], "test.osl", 23⟩

/-- The int result `n` of a point-cloud query. -/
def ex_count : Symbol := ⟨"n", ex_int, .temp, false, [], .DefaultVal⟩

def ex_key_index : Symbol :=
  ⟨"$const_index", ex_string, .const, false, [.s "index"], .DefaultVal⟩

def ex_key_distance : Symbol :=
  ⟨"$const_distance", ex_string, .const, false, [.s "distance"], .DefaultVal⟩

/-- An index array `int indices[3]`. -/
def ex_indices : Symbol := ⟨"indices", ⟨.int, .color, 3⟩, .temp, false, [], .DefaultVal⟩

/-- A distance array `float distances[4]`. -/
def ex_distances : Symbol :=
  ⟨"distances", ⟨.float, .color, 4⟩, .temp, false, [], .DefaultVal⟩

/-- The instruction `n = pointcloud_search ("tex.tx", P, 0.5, 5, "index",
indices, "distance", distances)`: 5 points requested, capacity 3. -/
def ex_search_small : Opcode :=
  ⟨"pointcloud_search", [ex_count, ex_filename, ex_P, ex_half, ex_five,
    ex_key_index, ex_indices, ex_key_distance, ex_distances], "test.osl", 24⟩

/-- The same query for 2 points. -/
def ex_search_ok : Opcode :=
  ⟨"pointcloud_search", [ex_count, ex_filename, ex_P, ex_half, ex_two,
    ex_key_index, ex_indices, ex_key_distance, ex_distances], "test.osl", 25⟩

/-- The instruction `n = pointcloud_get ("tex.tx", indices, 5, "label",
distances)`: 5 points requested, capacity 3. -/
def ex_get_small : Opcode :=
  ⟨"pointcloud_get", [ex_count, ex_filename, ex_indices, ex_five, ex_key_label,
    ex_distances], "test.osl", 26⟩

/-! ## Formatted output

A C string is the list of its characters before the terminator.  The pointer
`format` into the format string is the list of the characters from the pointer
on, so `*format` is the head of the list (the terminator when the list is
empty), and `none` stands for a pointer that has moved past the terminator,
through which nothing can be read. -/

/-- The terminator of a C string. -/
def NUL : Char := Char.ofNat 0

/-- The conversion characters that end a specification (lines 246-251). -/
def is_conversion (c : Char) : Bool :=
  c = 'c' || c = 'd' || c = 'e' || c = 'f' || c = 'g' || c = 'i' || c = 'm' || c = 'n' ||
  c = 'o' || c = 'p' || c = 's' || c = 'u' || c = 'v' || c = 'x' || c = 'X'

/-- The inner loop of `llvm_gen_printf` (lines 245-252): advance to the first
conversion character, or to the terminator. -/
def skip_conversion : List Char → List Char
  | [] => []
  | c :: rest => if is_conversion c then c :: rest else skip_conversion rest

/-- The statement `++format` after the inner loop (line 253): at the terminator
the pointer moves past the end of the string. -/
def eat_conversion : List Char → Option (List Char)
  | [] => none
  | _ :: rest => some rest

/-- The string `std::string ourformat (oldfmt, format)` (line 260): the
characters from `oldfmt` up to the pointer left by `++format`, the terminator
included when the pointer has moved past it. -/
def take_conversion : List Char → List Char
  | [] => [NUL]
  | c :: rest => if is_conversion c then [c] else c :: take_conversion rest

/-- State of the scan of `llvm_gen_printf`: the pointer `format`, the rewritten
format `s`, the index `arg` of the next operand, the arguments of the call and
the code-generation state. -/
structure PrintfState where
  format : Option (List Char)
  s : List Char
  arg : Nat
  call_args : List Arg
  st : CodeGen

/-- The body of the loop over the components of one array element (lines
278-288): the copies of a specification are separated by spaces. -/
def printf_component (sym : Symbol) (ourformat : List Char) (arrind : Option Value)
    (a : Nat) (c : Nat) (p : PrintfState) : PrintfState :=
  let s := if c ≠ 0 ∨ a ≠ 0 then p.s ++ [' '] else p.s
  let s := s ++ ourformat
  let loaded := llvm_load_value p.st sym 0 arrind c none
  { p with s := s, call_args := p.call_args ++ [.val loaded] }

/-- The loop over the components of one array element (lines 277-289). -/
def printf_components (sym : Symbol) (ourformat : List Char) (arrind : Option Value)
    (a : Nat) (num_components : Nat) (p : PrintfState) : PrintfState :=
  forLoop num_components (printf_component sym ourformat arrind a) p

/-- The body of the loop over the array elements of one operand (lines
268-289): a closure is converted to a string by a runtime call, any other value
is passed component by component.  The extension of a float to a double is
exact. -/
def printf_element (rop : RuntimeOptimizer) (sym : Symbol) (ourformat : List Char)
    (a : Nat) (p : PrintfState) : PrintfState :=
  let simpletype := sym.typespec.simpletype
  let num_components := simpletype.aggregate
  let arrind : Option Value := if simpletype.arraylen ≠ 0 then some (.i a) else none
  if sym.typespec.is_closure_based then
    let s := p.s ++ ourformat
    let v := llvm_load_value p.st sym 0 arrind 0 none
    let r := llvm_call_function rop p.st "osl_closure_to_string" [.sg, .val v] false
    { p with s := s, call_args := p.call_args ++ [.val r.1], st := r.2 }
  else printf_components sym ourformat arrind a num_components p

/-- The loop over the array elements of one operand (lines 267-290). -/
def printf_arg (rop : RuntimeOptimizer) (sym : Symbol) (ourformat : List Char)
    (p : PrintfState) : PrintfState :=
  let simpletype := sym.typespec.simpletype
  let num_elements := simpletype.numelements
  forLoop num_elements (printf_element rop sym ourformat) p

/-- The scan of the format string (lines 237-296), entering the loop at most
`fuel` times: `some (true, p)` when the terminator is reached, `some (false, p)`
when a specification has no operand left, `none` when a character is read
through a pointer past the terminator. -/
def printf_loop (rop : RuntimeOptimizer) (op : Opcode) :
    Nat → PrintfState → Option (Bool × PrintfState)
  | 0, _ => none
  | fuel + 1, p =>
    match p.format with
    | none => none
    | some [] => some (true, p)
    | some (c :: rest) =>
      if c = '%' then
        if rest.head? = some '%' then
          printf_loop rop op fuel { p with s := p.s ++ ['%', '%'], format := some (rest.drop 1) }
        else
          let oldfmt := c :: rest
          let format := eat_conversion (skip_conversion oldfmt)
          if p.arg ≥ op.nargs then some (false, { p with format := format })
          else
            match opargsym op p.arg with
            | none => none
            | some sym =>
              let ourformat := take_conversion oldfmt
              let p := printf_arg rop sym ourformat { p with format := format }
              printf_loop rop op fuel { p with arg := p.arg + 1 }
      else
        printf_loop rop op fuel { p with s := p.s ++ [c], format := some rest }

/-- The text that `error` and `warning` put in front of the format (lines
299-303). -/
def printf_lead (op : Opcode) (shadername : String) : List Char :=
  "Shader ".toList ++ op.opname.toList ++ " [".toList ++ shadername.toList ++ "]: ".toList

/-- The source function `llvm_gen_printf` (lines 204-318), used for `printf`,
`error`, `warning` and `format`; `shadername` is `inst()->shadername()`.  The
result carries the messages reported while lowering. -/
def llvm_gen_printf (rop : RuntimeOptimizer) (shadername : String) (op : Opcode)
    (st : CodeGen) : Option (Bool × CodeGen × List Diagnostic) :=
  let format_arg := if op.opname = "format" then 1 else 0
  match opargsym op format_arg with
  | none => none
  | some format_sym =>
    if !format_sym.is_constant then
      some (false, st, [⟨.warning, "%s must currently have constant format\n",
        [.str op.opname]⟩])
    else
      let call_args : List Arg :=
        if op.opname = "printf" ∨ op.opname = "error" ∨ op.opname = "warning" then [.sg]
        else []
      let new_format_slot := call_args.length
      let call_args := call_args ++ [.val NULL]
      let format := format_sym.string_data.toList
      match printf_loop rop op (format.length + 2)
          ⟨some format, [], format_arg + 1, call_args, st⟩ with
      | none => none
      | some (false, p) =>
        some (false, p.st, [⟨.error, "Mismatch between format string and arguments (%s:%d)",
          [.str op.sourcefile, .int op.sourceline]⟩])
      | some (true, p) =>
        let s := if op.opname = "error" ∨ op.opname = "warning" then
            printf_lead op shadername ++ p.s
          else p.s
        let call_args := p.call_args.set new_format_slot (.val (.s (String.mk s)))
        let opname := "osl_" ++ op.opname
        let ret := llvm_call_function rop p.st opname call_args false
        if op.opname = "format" then
          match opargsym op 0 with
          | none => none
          | some Result => some (true, llvm_store_value ret.2 ret.1 Result 0 none 0, [])
        else some (true, ret.2, [])

/-! ## Definitions for the claims on formatted output -/

/-- Where a reader of a format string is: in plain text, behind a `%` that may
begin a specification or the literal `%%`, or inside a specification. -/
inductive ScanMode
  | text | percent | spec
  deriving DecidableEq, Repr

/-- Read one character of a format string: the number of conversion
specifications begun so far, and the mode.  A specification begins with a `%`
that is not followed by `%` and ends with its first conversion character. -/
def scan_step (σ : Nat × ScanMode) (c : Char) : Nat × ScanMode :=
  match σ.2 with
  | .text => if c = '%' then (σ.1, .percent) else (σ.1, .text)
  | .percent =>
    if c = '%' then (σ.1, .text)
    else (σ.1 + 1, if is_conversion c then .text else .spec)
  | .spec => (σ.1, if is_conversion c then .text else .spec)

/-- Read a string from a given state. -/
def scan (σ : Nat × ScanMode) (l : List Char) : Nat × ScanMode := l.foldl scan_step σ

/-- The count held by a final state: a `%` at the very end begins a
specification. -/
def final_count (σ : Nat × ScanMode) : Nat := σ.1 + (if σ.2 = .percent then 1 else 0)

/-- The number of conversion specifications of a format string, `%%` not
counted. -/
def count_specs (l : List Char) : Nat := final_count (scan (0, .text) l)

/-- The conversion specifications of a format string are well formed: each `%`
other than `%%` is followed, with no intervening `%`, by a conversion
character. -/
def well_formed : ScanMode → List Char → Bool
  | .text, [] => true
  | _, [] => false
  | .text, c :: rest => well_formed (if c = '%' then .percent else .text) rest
  | .percent, c :: rest =>
    if c = '%' then well_formed .text rest
    else well_formed (if is_conversion c then .text else .spec) rest
  | .spec, c :: rest =>
    if c = '%' then false
    else well_formed (if is_conversion c then .text else .spec) rest

/-- The number of values that one operand contributes to the call: one per array
element for a closure, one per component of every array element otherwise. -/
def arg_values (sym : Symbol) : Nat :=
  if sym.typespec.is_closure_based then sym.typespec.numelements
  else sym.typespec.numelements * sym.typespec.aggregate

/-- The number of values contributed by the `n` operands from operand `lo` on. -/
def value_count (op : Opcode) : Nat → Nat → Nat
  | _, 0 => 0
  | lo, n + 1 =>
    (match opargsym op lo with | some sym => arg_values sym | none => 0) +
      value_count op (lo + 1) n

/-- The index in a format string of the character that a pointer reads; a
pointer past the terminator reads at the length plus one. -/
def read_position (fmt : List Char) : Option (List Char) → Nat
  | some l => fmt.length - l.length
  | none => fmt.length + 1

def ex_fmt_open : Symbol :=
  ⟨"$const_fmt1", ex_string, .const, false, [.s "%5.2"], .DefaultVal⟩

def ex_fmt_float : Symbol :=
  ⟨"$const_fmt2", ex_string, .const, false, [.s "x = %5.2f, 100%%"], .DefaultVal⟩

def ex_fmt_two : Symbol :=
  ⟨"$const_fmt3", ex_string, .const, false, [.s "%d %f"], .DefaultVal⟩

/-- A format held in a variable. -/
def ex_fmt_var : Symbol := ⟨"fmt", ex_string, .temp, false, [], .DefaultVal⟩

/-- The instruction `printf ("%5.2", A)`, whose format ends inside a
specification. -/
def ex_printf_open : Opcode := ⟨"printf", [ex_fmt_open, ex_A], "test.osl", 27⟩

/-- The instruction `printf ("x = %5.2f, 100%%", A)`. -/
def ex_printf : Opcode := ⟨"printf", [ex_fmt_float, ex_A], "test.osl", 28⟩

/-- The instruction `printf ("x = %5.2f, 100%%", v)` on a triple. -/
def ex_printf_vec : Opcode := ⟨"printf", [ex_fmt_float, ex_vec], "test.osl", 29⟩

/-- The instruction `printf ("%d %f", C)` with one value for two specifications. -/
def ex_printf_few : Opcode := ⟨"printf", [ex_fmt_two, ex_C], "test.osl", 30⟩

/-- The instruction `printf (fmt, A)` with a format that is not constant. -/
def ex_printf_var : Opcode := ⟨"printf", [ex_fmt_var, ex_A], "test.osl", 31⟩

/-! ## Control flow: conditionals, loops, break and continue (lines 1689-1776, 3029-3056)

The control-flow generators lower sub-ranges of the instruction list into new
basic blocks.  They are embedded at the level of the emitted blocks: the
builder records the instructions of every block, and the `RuntimeOptimizer`
state they use (the stack of enclosing loops and the stack of enclosing
function calls) is carried with it. -/

/-- An instruction together with its jump targets.  Modelled from the spec:
"only for control-flow operators (if/loop/function-call) — one or more jump
targets denoting sub-range boundaries in the instruction list"; a target that
is not set is -1. -/
structure JumpOp where
  op : Opcode
  jumps : List Int
  deriving DecidableEq, Repr

namespace JumpOp

/-- Modelled from the spec: the jump target `op.jump (i)`. -/
def jump (op : JumpOp) (i : Nat) : Int := (op.jumps.get? i).getD (-1)

/-- Modelled from the spec: `op.farthest_jump ()`, the largest jump target, -1
for an instruction without jump targets. -/
def farthest_jump (op : JumpOp) : Int := op.jumps.foldl max (-1)

end JumpOp

/-- An instruction emitted by the control-flow generators.  `code k` stands for
the instructions that the handler of the straight-line instruction `k` emits;
`load` reads the integer value of a symbol into the register `dst`; `icmp_ne`
compares the register `src` with the constant `k`. -/
inductive FlowInstr
  | code (opnum : Int)
  | load (dst : Nat) (sym : Symbol)
  | icmp_ne (dst src : Nat) (k : Int)
  | condbr (cond : Nat) (then_block else_block : Nat)
  | br (target : Nat)
  deriving DecidableEq, Repr

/-- The IR builder of the control-flow generators: the instructions of every
basic block, the number of blocks and registers created so far, the block at
whose end instructions are inserted, the stack of (step, after) blocks of the
enclosing loops and the stack of return blocks of the enclosing function
calls, innermost first. -/
structure FlowBuilder where
  blocks : Nat → List FlowInstr
  nblocks : Nat
  nregs : Nat
  cur : Nat
  loops : List (Nat × Nat)
  functions : List Nat

namespace FlowBuilder

/-- Append an instruction at the insertion point. -/
def emit (b : FlowBuilder) (i : FlowInstr) : FlowBuilder :=
  { b with blocks := Function.update b.blocks b.cur (b.blocks b.cur ++ [i]) }

/-- Modelled from the spec: `llvm_load_value (sym, 0, 0, TypeDesc::TypeInt)`, a
load of the value of the symbol as an integer. -/
def llvm_load_value (b : FlowBuilder) (sym : Symbol) : Nat × FlowBuilder :=
  (b.nregs, { b.emit (.load b.nregs sym) with nregs := b.nregs + 1 })

/-- The comparison `CreateICmpNE (v, llvm_constant (k))`. -/
def CreateICmpNE (b : FlowBuilder) (v : Nat) (k : Int) : Nat × FlowBuilder :=
  (b.nregs, { b.emit (.icmp_ne b.nregs v k) with nregs := b.nregs + 1 })

def CreateCondBr (b : FlowBuilder) (cond : Nat) (t f : Nat) : FlowBuilder :=
  b.emit (.condbr cond t f)

def CreateBr (b : FlowBuilder) (t : Nat) : FlowBuilder := b.emit (.br t)

def SetInsertPoint (b : FlowBuilder) (block : Nat) : FlowBuilder := { b with cur := block }

/-- The call `llvm_new_basic_block (name)`: a new empty block. -/
def llvm_new_basic_block (b : FlowBuilder) : Nat × FlowBuilder :=
  (b.nblocks, { b with blocks := Function.update b.blocks b.nblocks [],
                       nblocks := b.nblocks + 1 })

/-- Modelled from the spec: `llvm_push_loop (step, after)`: "the engine
maintains a stack of (step, after) block pairs to support nested loops". -/
def llvm_push_loop (b : FlowBuilder) (step after : Nat) : FlowBuilder :=
  { b with loops := (step, after) :: b.loops }

/-- Modelled from the spec: `llvm_pop_loop ()`: the pair of the innermost loop is
"popped on loop exit". -/
def llvm_pop_loop (b : FlowBuilder) : FlowBuilder := { b with loops := b.loops.tail }

/-- Modelled from the spec: `llvm_loop_step_block ()`, the step block of "the
active loop"; there is none outside of every loop. -/
def llvm_loop_step_block (b : FlowBuilder) : Option Nat := b.loops.head?.map Prod.fst

/-- Modelled from the spec: `llvm_loop_after_block ()`, the after block of "the
active loop"; there is none outside of every loop. -/
def llvm_loop_after_block (b : FlowBuilder) : Option Nat := b.loops.head?.map Prod.snd

/-- Modelled from the spec: `llvm_push_function (after)`, the "current return
target" of the function calls being lowered. -/
def llvm_push_function (b : FlowBuilder) (after : Nat) : FlowBuilder :=
  { b with functions := after :: b.functions }

/-- Modelled from the spec: `llvm_pop_function ()`. -/
def llvm_pop_function (b : FlowBuilder) : FlowBuilder :=
  { b with functions := b.functions.tail }

/-- Modelled from the spec: `llvm_return_block ()`, the return target of the
innermost function call. -/
def llvm_return_block (b : FlowBuilder) : Option Nat := b.functions.head?

/-- The two statements "load the condition variable and figure out if it's
nonzero" of `llvm_gen_if` and `llvm_gen_loop_op`. -/
def load_nonzero (b : FlowBuilder) (cond : Symbol) : Nat × FlowBuilder :=
  let cond_val := b.llvm_load_value cond
  cond_val.2.CreateICmpNE cond_val.1 0

/-- The statement `if (bb) builder().SetInsertPoint (bb)`. -/
def enter_block (b : FlowBuilder) (bb : Option Nat) : FlowBuilder :=
  match bb with
  | some block => b.SetInsertPoint block
  | none => b

end FlowBuilder

/-- The type of `RuntimeOptimizer::build_llvm_code (beginop, endop, bb)` as the
control-flow generators call it; the result holds the boolean it returns and
the builder it leaves, and is `none` for undefined behaviour. -/
abbrev BuildCode := Int → Int → Option Nat → FlowBuilder → Option (Bool × FlowBuilder)

/-- The first statements of `llvm_gen_if` (lines 1694-1702): the condition is
loaded and compared with 0, the blocks `then`, `else` and `after` are created,
and the block branches on the condition to the first two. -/
def if_enter (b : FlowBuilder) (cond : Symbol) : (Nat × Nat × Nat) × FlowBuilder :=
  let cond_val := b.load_nonzero cond
  let then_block := cond_val.2.llvm_new_basic_block
  let else_block := then_block.2.llvm_new_basic_block
  let after_block := else_block.2.llvm_new_basic_block
  ((then_block.1, else_block.1, after_block.1),
    after_block.2.CreateCondBr cond_val.1 then_block.1 else_block.1)

/-- The source function `llvm_gen_if` (lines 1689-1714).  The values returned by
`build_llvm_code` are not looked at. -/
def llvm_gen_if (build : BuildCode) (opnum : Int) (op : JumpOp) (b : FlowBuilder) :
    Option (Bool × FlowBuilder) :=
  (opargsym op.op 0).bind fun cond =>
  let e := if_enter b cond
  let then_block := e.1.1
  let else_block := e.1.2.1
  let after_block := e.1.2.2
  (build (opnum + 1) (op.jump 0) (some then_block) e.2).bind fun r1 =>
  (build (op.jump 0) (op.jump 1) (some else_block) (r1.2.CreateBr after_block)).bind fun r2 =>
  some (true, (r2.2.CreateBr after_block).SetInsertPoint after_block)

/-- The first statements of `llvm_gen_loop_op` (lines 1725-1731): the blocks
`cond`, `body`, `step` and `after` are created, and the step and after blocks
are saved "for possible break/continue". -/
def loop_enter (b : FlowBuilder) : (Nat × Nat × Nat × Nat) × FlowBuilder :=
  let cond_block := b.llvm_new_basic_block
  let body_block := cond_block.2.llvm_new_basic_block
  let step_block := body_block.2.llvm_new_basic_block
  let after_block := step_block.2.llvm_new_basic_block
  ((cond_block.1, body_block.1, step_block.1, after_block.1),
    after_block.2.llvm_push_loop step_block.1 after_block.1)

/-- The statements of `llvm_gen_loop_op` behind the code of the condition
(lines 1742-1745): the condition is loaded, compared with 0, and the block
branches to the body or behind the loop. -/
def loop_test (b : FlowBuilder) (cond : Symbol) (body_block after_block : Nat) : FlowBuilder :=
  let cond_val := b.load_nonzero cond
  cond_val.2.CreateCondBr cond_val.1 body_block after_block

/-- The source function `llvm_gen_loop_op` (lines 1720-1760), the generator of
`for`, `while` and `dowhile`.  The values returned by `build_llvm_code` are not
looked at. -/
def llvm_gen_loop_op (build : BuildCode) (opnum : Int) (op : JumpOp) (b : FlowBuilder) :
    Option (Bool × FlowBuilder) :=
  (opargsym op.op 0).bind fun cond =>
  let e := loop_enter b
  let cond_block := e.1.1
  let body_block := e.1.2.1
  let step_block := e.1.2.2.1
  let after_block := e.1.2.2.2
  (build (opnum + 1) (op.jump 0) none e.2).bind fun r1 =>
  (build (op.jump 0) (op.jump 1) (some cond_block)
    (r1.2.CreateBr (if op.op.opname = "dowhile" then body_block else cond_block))).bind fun r2 =>
  (build (op.jump 1) (op.jump 2) (some body_block)
    (loop_test r2.2 cond body_block after_block)).bind fun r3 =>
  (build (op.jump 2) (op.jump 3) (some step_block) (r3.2.CreateBr step_block)).bind fun r4 =>
  some (true, ((r4.2.CreateBr cond_block).SetInsertPoint after_block).llvm_pop_loop)

/-- The last statements of `llvm_gen_loopmod_op` and `llvm_gen_return`: the
branch is emitted, and the code that follows goes to a new block. -/
def branch_away (b : FlowBuilder) (target : Nat) : FlowBuilder :=
  let branched := b.CreateBr target
  let next_block := branched.llvm_new_basic_block
  next_block.2.SetInsertPoint next_block.1

/-- The source function `llvm_gen_loopmod_op` (lines 1764-1776), the generator
of `break` and `continue`. -/
def llvm_gen_loopmod_op (op : JumpOp) (b : FlowBuilder) : Option (Bool × FlowBuilder) :=
  if op.op.nargs ≠ 0 then none
  else
    (if op.op.opname = "break" then b.llvm_loop_after_block
      else b.llvm_loop_step_block).bind fun target =>
    some (true, branch_away b target)

/-- The source function `llvm_gen_functioncall` (lines 3029-3045). -/
def llvm_gen_functioncall (build : BuildCode) (opnum : Int) (op : JumpOp) (b : FlowBuilder) :
    Option (Bool × FlowBuilder) :=
  if op.op.nargs ≠ 1 then none
  else
    let after_block := b.llvm_new_basic_block
    (build (opnum + 1) (op.jump 0) none
      (after_block.2.llvm_push_function after_block.1)).bind fun r1 =>
    some (true, ((r1.2.CreateBr after_block.1).SetInsertPoint after_block.1).llvm_pop_function)

/-- The source function `llvm_gen_return` (lines 3049-3057). -/
def llvm_gen_return (op : JumpOp) (b : FlowBuilder) : Option (Bool × FlowBuilder) :=
  if op.op.nargs ≠ 0 then none
  else b.llvm_return_block.bind fun target => some (true, branch_away b target)

/-- The part of the `RuntimeOptimizer` that `build_llvm_code` reads: the
instructions `inst()->ops()` of the layer, and for an instruction without
control flow whether its operator has a handler and what the handler returns. -/
structure FlowContext where
  ops : List JumpOp
  handler : Opcode → Option Bool

/-- The instruction `inst()->ops()[opnum]`. -/
def FlowContext.op_at (rop : FlowContext) (opnum : Int) : Option JumpOp :=
  if 0 ≤ opnum then rop.ops.get? opnum.toNat else none

/-- Modelled from the spec: "for each instruction, a handler keyed by the
instruction's operator name is invoked with (codegen-context,
instruction-index)".  The handlers of the control-flow operators are the
generators above; `nop` and `end` emit nothing; every other operator emits its
own straight-line code, and an operator without handler is an error. -/
def llvm_gen_op (rop : FlowContext) (build : BuildCode) (opnum : Int) (op : JumpOp)
    (b : FlowBuilder) : Option (Bool × FlowBuilder) :=
  if op.op.opname = "if" then llvm_gen_if build opnum op b
  else if op.op.opname = "for" ∨ op.op.opname = "while" ∨ op.op.opname = "dowhile" then
    llvm_gen_loop_op build opnum op b
  else if op.op.opname = "break" ∨ op.op.opname = "continue" then llvm_gen_loopmod_op op b
  else if op.op.opname = "functioncall" then llvm_gen_functioncall build opnum op b
  else if op.op.opname = "return" then llvm_gen_return op b
  else if op.op.opname = "nop" ∨ op.op.opname = "end" then some (true, b)
  else
    match rop.handler op.op with
    | some ok => some (ok, b.emit (.code opnum))
    | none => some (false, b)

/-- The instruction lowered after the instruction `opnum`: "if the op we coded
jumps around, skip past its recursive block executions". -/
def next_op (op : JumpOp) (opnum : Int) : Int :=
  if 0 ≤ op.farthest_jump then op.farthest_jump else opnum + 1

/-- Modelled from the spec: `RuntimeOptimizer::build_llvm_code (beginop, endop,
bb)`, which "recursively lower[s] sub-ranges of the instruction list into new
basic blocks": the insertion point is moved to `bb` when a block is given, and
the instructions of the range are lowered in order by their handlers, stopping
with false at the first handler that returns false.  `fuel` bounds the number
of instructions lowered in sequence and the depth of the nesting; the result is
`none` when it is used up. -/
def build_llvm_code (rop : FlowContext) : Nat → BuildCode
  | 0, beginop, endop, bb, b =>
    if beginop < endop then none else some (true, b.enter_block bb)
  | fuel + 1, beginop, endop, bb, b =>
    if beginop < endop then
      (rop.op_at beginop).bind fun op =>
      (llvm_gen_op rop (build_llvm_code rop fuel) beginop op (b.enter_block bb)).bind fun r =>
      if r.1 then build_llvm_code rop fuel (next_op op beginop) endop none r.2
      else some (false, r.2)
    else some (true, b.enter_block bb)

/-! ## Definitions for the claims on loops -/

/-- The state on which emitted control-flow code runs: the integer value of
every symbol and of every register. -/
structure FlowMachine where
  vals : Symbol → Int
  regs : Nat → Int

/-- One instruction that is not a branch.  The effect of the straight-line code
of the instruction `k` on the values of the symbols is the parameter `effect`. -/
def FlowMachine.step (effect : Int → (Symbol → Int) → (Symbol → Int)) (m : FlowMachine) :
    FlowInstr → FlowMachine
  | .code k => { m with vals := effect k m.vals }
  | .load dst sym => { m with regs := Function.update m.regs dst (m.vals sym) }
  | .icmp_ne dst src k =>
    { m with regs := Function.update m.regs dst (if m.regs src ≠ k then 1 else 0) }
  | _ => m

/-- The block a branch instruction goes to; `none` for the other instructions. -/
def FlowInstr.target (m : FlowMachine) : FlowInstr → Option Nat
  | .br t => some t
  | .condbr c t f => some (if m.regs c ≠ 0 then t else f)
  | _ => none

/-- Whether the instruction is a branch. -/
def FlowInstr.is_branch : FlowInstr → Bool
  | .br _ => true
  | .condbr _ _ _ => true
  | _ => false

/-- Run the instructions of a block up to its first branch: the state reached
and the block branched to, or `none` at the end of a block that has no branch. -/
def run_block (effect : Int → (Symbol → Int) → (Symbol → Int)) :
    List FlowInstr → FlowMachine → FlowMachine × Option Nat
  | [], m => (m, none)
  | i :: rest, m =>
    if i.is_branch then (m, i.target m) else run_block effect rest (m.step effect i)

/-- A block that does not branch yet: instructions can still be appended. -/
def block_open (instrs : List FlowInstr) : Prop := ∀ i ∈ instrs, i.is_branch = false

/-- How a builder `b'` that lowering reaches from `b` relates to `b`: the stacks
of loops and function calls are those of `b`; the blocks of `b` other than its
insertion block are untouched; the insertion block of `b` is extended at its
end; and the insertion point either has not moved, and the code appended does
not branch, or is in a block created since, which does not branch yet. -/
def Lowered (b b' : FlowBuilder) : Prop :=
  b'.loops = b.loops ∧ b'.functions = b.functions ∧
  b.nblocks ≤ b'.nblocks ∧ b'.cur < b'.nblocks ∧
  (∀ j, j < b.nblocks → j ≠ b.cur → b'.blocks j = b.blocks j) ∧
  ((b'.cur = b.cur ∧ ∃ s, block_open s ∧ b'.blocks b.cur = b.blocks b.cur ++ s) ∨
   (b.nblocks ≤ b'.cur ∧ block_open (b'.blocks b'.cur) ∧
     ∃ s, b'.blocks b.cur = b.blocks b.cur ++ s))

/-- A lowering of sub-ranges all of whose results are `Lowered` from the builder
at the block it is started in. -/
def BuildLowers (build : BuildCode) : Prop :=
  ∀ beginop endop bb b r, (b.enter_block bb).cur < b.nblocks →
    build beginop endop bb b = some r → Lowered (b.enter_block bb) r.2

/-- The blocks an instruction can branch to. -/
def FlowInstr.targets : FlowInstr → List Nat
  | .br t => [t]
  | .condbr _ t f => [t, f]
  | _ => []

/-- No instruction of a block outside of the set `E` branches to the block `p`,
and no enclosing loop or function call has `p` as a block to leave to. -/
def Avoids (p : Nat) (E : Nat → Prop) (b : FlowBuilder) : Prop :=
  p < b.nblocks ∧
  (∀ j, j < b.nblocks → ¬ E j → ∀ i ∈ b.blocks j, p ∉ i.targets) ∧
  (∀ e ∈ b.loops, e.1 ≠ p ∧ e.2 ≠ p) ∧
  (∀ f ∈ b.functions, f ≠ p)

/-- A lowering of sub-ranges that adds no branch to a block that exists when it
is started. -/
def BuildAvoids (build : BuildCode) : Prop :=
  ∀ p E beginop endop bb b r, Avoids p E b → build beginop endop bb b = some r → Avoids p E r.2

/-- The integer loop condition `C`. -/
def ex_cond : Symbol := ⟨"C", ex_int, .temp, false, [], .DefaultVal⟩

/-- The integer condition `D` of an inner loop. -/
def ex_cond_inner : Symbol := ⟨"D", ex_int, .temp, false, [], .DefaultVal⟩

/-- A straight-line instruction. -/
def ex_straight (name : String) (line : Int) : JumpOp := ⟨⟨name, [], "test.osl", line⟩, []⟩

/-- The instructions of `for (init; C; step) { while (D) { continue; } break; }`:
the `for` at 0 with its initializer at 1, condition at 2, body from 3 to 6 and
step at 7; the `while` at 3 with its condition at 4 and body at 5. -/
def ex_nested_ops : List JumpOp :=
  [⟨⟨"for", [ex_cond], "test.osl", 40⟩, [2, 3, 7, 8]⟩,
   ex_straight "assign" 40,
   ex_straight "lt" 40,
   ⟨⟨"while", [ex_cond_inner], "test.osl", 41⟩, [4, 5, 6, 6]⟩,
   ex_straight "neq" 41,
   ex_straight "continue" 42,
   ex_straight "break" 43,
   ex_straight "add" 40,
   ex_straight "end" 44]

/-- The instructions of `do { body } while (C)`: the `dowhile` at 0, its
condition at 1 and its body at 2. -/
def ex_dowhile_ops : List JumpOp :=
  [⟨⟨"dowhile", [ex_cond], "test.osl", 50⟩, [1, 2, 3, 3]⟩,
   ex_straight "lt" 50,
   ex_straight "add" 51,
   ex_straight "end" 52]

/-- A layer with the nested loops, every straight-line operator having a handler
that succeeds. -/
def ex_nested : FlowContext := ⟨ex_nested_ops, fun _ => some true⟩

/-- A layer with the `dowhile` loop. -/
def ex_dowhile : FlowContext := ⟨ex_dowhile_ops, fun _ => some true⟩

/-- The `for` instruction of `ex_nested`. -/
def ex_for : JumpOp := ⟨⟨"for", [ex_cond], "test.osl", 40⟩, [2, 3, 7, 8]⟩

/-- The `while` instruction of `ex_nested`. -/
def ex_while : JumpOp := ⟨⟨"while", [ex_cond_inner], "test.osl", 41⟩, [4, 5, 6, 6]⟩

/-- The `dowhile` instruction of `ex_dowhile`. -/
def ex_do : JumpOp := ⟨⟨"dowhile", [ex_cond], "test.osl", 50⟩, [1, 2, 3, 3]⟩

/-- The builder at the start of a layer: one empty entry block, no loop and no
function call around it. -/
def ex_entry : FlowBuilder := ⟨fun _ => [], 1, 0, 0, [], []⟩

/-- The builder in the body (block 2) of a loop whose step block is 3 and whose
after block is 4. -/
def ex_outer_body : FlowBuilder := ⟨fun _ => [], 5, 2, 2, [(3, 4)], []⟩

/-! ## Definitions for the claims on selections and comparisons of floats -/

/-- One of two floats is a NaN: no ordered comparison holds between them, and
every "unordered or ..." comparison does. -/
def Value.unordered (a b : Value) : Bool := a.is_nan || b.is_nan

/-- A store in which `X` is 1 with derivatives (1, 1), `Min` is a NaN and `Max`
is 3 with derivatives (4, 6); `A` is a NaN with derivatives (1, 0) and `B` is 3
with derivatives (0, 1). -/
def ex_nan_mem : Memory := fun x =>
  if x.sym.name = "X" then .f 1
  else if x.sym.name = "Min" then (match x.deriv with | 0 => .nan | _ => .f 0)
  else if x.sym.name = "A" then (match x.deriv with | 0 => .nan | 1 => .f 1 | _ => .f 0)
  else ex_mem x

def ex_nan_st : CodeGen := ⟨ex_nan_mem, []⟩

/-- The instruction `Result = max (A, B)`. -/
def ex_max : Opcode := ⟨"max", [ex_R, ex_A, ex_B], "test.osl", 3⟩

/-- The comparison of two numbers that an operator names. -/
def number_test (name : String) (x y : ℚ) : Prop :=
  (name = "lt" ∧ x < y) ∨ (name = "le" ∧ x ≤ y) ∨ (name = "eq" ∧ x = y) ∨
  (name = "ge" ∧ x ≥ y) ∨ (name = "gt" ∧ x > y) ∨ (name = "neq" ∧ x ≠ y)

/-- The comparison of two values that are not floats: the order is the order of
the integers, and two values are equal when they are the same value. -/
def integer_test (name : String) (a b : Value) : Prop :=
  (name = "lt" ∧ a.toInt < b.toInt) ∨ (name = "le" ∧ a.toInt ≤ b.toInt) ∨
  (name = "eq" ∧ a = b) ∨ (name = "ge" ∧ a.toInt ≥ b.toInt) ∨
  (name = "gt" ∧ a.toInt > b.toInt) ∨ (name = "neq" ∧ a ≠ b)

/-- The triple `P`. -/
def ex_P3 : Symbol := ⟨"P", ex_triple, .temp, false, [], .DefaultVal⟩

/-- The triple `Q`. -/
def ex_Q3 : Symbol := ⟨"Q", ex_triple, .temp, false, [], .DefaultVal⟩

/-- A store in which `P` is (0, 1, 2) and `Q` is (0, 1, 5). -/
def ex_triple_st : CodeGen :=
  ⟨fun x => if x.sym.name = "Q" ∧ x.component = 2 then .f 5 else .f (x.component : ℚ), []⟩

/-- The comparison `C = P <= Q` of two triples. -/
def ex_cmp3 : Opcode := ⟨"le", [ex_C, ex_P3, ex_Q3], "test.osl", 4⟩

/-! ## Definitions for the claim on the layers run by `useparam` -/

/-- What one operand puts into the rewritten format string for its
specification: a closure one copy per array element, any other operand one copy
per component of every array element, the copies separated by single spaces. -/
def spec_copies (sym : Symbol) (spec : List Char) : List Char :=
  if sym.typespec.is_closure_based then
    (List.replicate sym.typespec.numelements spec).flatten
  else
    List.intercalate [' ']
      (List.replicate (sym.typespec.numelements * sym.typespec.aggregate) spec)

/-- A reader that rewrites a format string: where it is, the characters of the
specification it is inside of (the `%` included), the text written so far, and
the operand that the next specification is for. -/
structure Expansion where
  mode : ScanMode
  spec : List Char
  out : List Char
  arg : Nat

/-- The end of a specification: the copies for its operand are written, and the
next specification is for the next operand. -/
def Expansion.finish (op : Opcode) (e : Expansion) (spec : List Char) : Expansion :=
  { mode := .text, spec := [],
    out := e.out ++ (match opargsym op e.arg with
      | some sym => spec_copies sym spec
      | none => []),
    arg := e.arg + 1 }

/-- Read one character of a format string: text outside of specifications is
copied, `%%` is copied, and a specification, from its `%` to its first conversion
character, is replaced by the copies for its operand. -/
def expand_step (op : Opcode) (e : Expansion) (c : Char) : Expansion :=
  match e.mode with
  | .text =>
    if c = '%' then { e with mode := .percent, spec := ['%'] }
    else { e with out := e.out ++ [c] }
  | .percent =>
    if c = '%' then { e with mode := .text, spec := [], out := e.out ++ ['%', '%'] }
    else if is_conversion c then e.finish op (e.spec ++ [c])
    else { e with mode := .spec, spec := e.spec ++ [c] }
  | .spec =>
    if is_conversion c then e.finish op (e.spec ++ [c])
    else { e with mode := .spec, spec := e.spec ++ [c] }

/-- The rewritten format string: the format with every specification replaced
by the copies for its operand, the first specification being for the operand
`arg`. -/
def expand_format (op : Opcode) (arg : Nat) (fmt : List Char) : List Char :=
  (fmt.foldl (expand_step op) ⟨.text, [], [], arg⟩).out

/-- The reader when the text `o` was written before it started. -/
def Expansion.after (o : List Char) (e : Expansion) : Expansion :=
  { e with out := o ++ e.out }

/-- Read a string from a given state. -/
def expand (op : Opcode) (e : Expansion) (l : List Char) : Expansion :=
  l.foldl (expand_step op) e

/-! ## Definitions for the claims that lowering a loop returns -/

/-- A builder in which a range of instructions can be lowered: its insertion
point is a block that exists, it is inside of a loop when the range holds a
`break` or `continue` of a loop around it (`inloop`), and inside of a function
call when the range holds a `return` of a call around it (`incall`). -/
def FlowBuilder.ready (inloop incall : Bool) (b : FlowBuilder) : Prop :=
  b.cur < b.nblocks ∧ (inloop = true → b.loops ≠ []) ∧ (incall = true → b.functions ≠ [])

/-- Whether the instructions from `beginop` up to `endop` are well nested within
`depth` steps: every instruction read is one of the layer; an `if` and a loop
have their condition operand and their sub-ranges are well nested, those of a
loop as ranges inside of a loop; `break` and `continue` have no operand and are
inside of a loop; a `functioncall` has one operand and its range is well nested
as a range inside of a function call; a `return` has no operand and is inside
of a function call; and the instructions behind the one read are well nested.
`depth` counts the instructions of a range and the ranges inside of one
another. -/
def well_nested (rop : FlowContext) : Nat → Bool → Bool → Int → Int → Bool
  | 0, _, _, beginop, endop => decide (¬ beginop < endop)
  | depth + 1, inloop, incall, beginop, endop =>
    if beginop < endop then
      match rop.op_at beginop with
      | none => false
      | some op =>
        (if op.op.opname = "if" then
          (opargsym op.op 0).isSome &&
          well_nested rop depth inloop incall (beginop + 1) (op.jump 0) &&
          well_nested rop depth inloop incall (op.jump 0) (op.jump 1)
        else if op.op.opname = "for" ∨ op.op.opname = "while" ∨ op.op.opname = "dowhile" then
          (opargsym op.op 0).isSome &&
          well_nested rop depth true incall (beginop + 1) (op.jump 0) &&
          well_nested rop depth true incall (op.jump 0) (op.jump 1) &&
          well_nested rop depth true incall (op.jump 1) (op.jump 2) &&
          well_nested rop depth true incall (op.jump 2) (op.jump 3)
        else if op.op.opname = "break" ∨ op.op.opname = "continue" then
          decide (op.op.nargs = 0) && inloop
        else if op.op.opname = "functioncall" then
          decide (op.op.nargs = 1) &&
          well_nested rop depth inloop true (beginop + 1) (op.jump 0)
        else if op.op.opname = "return" then
          decide (op.op.nargs = 0) && incall
        else true) &&
        well_nested rop depth inloop incall (next_op op beginop) endop
    else true

/-! ## Theorems -/

theorem forLoop_succ {σ : Type} (n : Nat) (body : Nat → σ → σ) (s : σ) :
    forLoop (n + 1) body s = body n (forLoop n body s) := rfl

theorem forLoopM_some {σ : Type} (n : Nat) (body : Nat → σ → Option σ)
    (body' : Nat → σ → σ) (h : ∀ i s, i < n → body i s = some (body' i s)) (s : σ) :
    forLoopM n body s = some (forLoop n body' s) := by
  induction n with
  | zero => rfl
  | succ k ih =>
    have hk := ih (fun i s hi => h i s (Nat.lt_succ_of_lt hi))
    simp [forLoopM, forLoop, hk, h k _ (Nat.lt_succ_self k)]

theorem store_mem (st : CodeGen) (v : Value) (sym : Symbol) (d : Nat) (ai : Option Value)
    (c : Nat) (x : Slot) :
    (llvm_store_value st v sym d ai c).mem x =
      if (sym.has_derivs = true ∨ d = 0) ∧ x = ⟨sym, d, elem_index ai, comp_index sym c⟩
      then v else st.mem x := by
  unfold llvm_store_value Memory.write
  by_cases h1 : sym.has_derivs = true <;> by_cases h2 : d = 0 <;> simp [h1, h2]

theorem store_calls (st : CodeGen) (v : Value) (sym : Symbol) (d : Nat) (ai : Option Value)
    (c : Nat) : (llvm_store_value st v sym d ai c).calls = st.calls := by
  unfold llvm_store_value
  split <;> rfl

theorem load_congr (st st' : CodeGen) (sym : Symbol) (d : Nat) (ai : Option Value) (c : Nat)
    (cast : Option TypeSpec)
    (h : st.mem ⟨sym, d, elem_index ai, comp_index sym c⟩ =
      st'.mem ⟨sym, d, elem_index ai, comp_index sym c⟩) :
    llvm_load_value st sym d ai c cast = llvm_load_value st' sym d ai c cast := by
  unfold llvm_load_value
  rw [h]

theorem comp_index_of_lt (sym : Symbol) (i : Nat) (h : i < sym.typespec.aggregate) :
    comp_index sym i = (i : Int) := by
  unfold comp_index
  split
  · rfl
  · have : i = 0 := by omega
    simp [this]

theorem comp_index_inj (sym : Symbol) (i j : Nat) (hi : i < sym.typespec.aggregate)
    (hj : j < sym.typespec.aggregate) (h : comp_index sym i = comp_index sym j) : i = j := by
  rw [comp_index_of_lt sym i hi, comp_index_of_lt sym j hj] at h
  exact_mod_cast h

/-- Iterations that each write one component row of `Result`, and whose effect
does not depend on the other rows, act independently. -/
theorem forLoop_rows (Result : Symbol) (body : Nat → CodeGen → CodeGen)
    (hframe : ∀ i st x, ¬ row Result i x → (body i st).mem x = st.mem x)
    (hloc : ∀ i st st', AgreeOff (others Result i) st st' →
      AgreeOff (others Result i) (body i st) (body i st'))
    (st0 : CodeGen) :
    ∀ k, k ≤ Result.typespec.aggregate →
      (∀ i x, i < k → row Result i x → (forLoop k body st0).mem x = (body i st0).mem x) ∧
      (∀ x, (∀ i, i < k → ¬ row Result i x) → (forLoop k body st0).mem x = st0.mem x) := by
  intro k
  induction k with
  | zero =>
    intro _
    exact ⟨fun i x hi => absurd hi (Nat.not_lt_zero i), fun x _ => rfl⟩
  | succ k ih =>
    intro hk
    obtain ⟨ih1, ih2⟩ := ih (Nat.le_of_succ_le hk)
    have hagree : AgreeOff (others Result k) (forLoop k body st0) st0 := by
      intro x hx
      apply ih2
      intro j hj hr
      apply hx
      refine ⟨hr.1, hr.2.1, ?_⟩
      rw [hr.2.2]
      intro hc
      have := comp_index_inj Result j k (by omega) (by omega) hc
      omega
    refine ⟨?_, ?_⟩
    · intro i x hi hr
      rw [forLoop_succ]
      by_cases hik : i = k
      · subst hik
        apply hloc i _ _ hagree
        intro ho
        exact ho.2.2 hr.2.2
      · have hlt : i < k := by omega
        rw [hframe]
        · exact ih1 i x hlt hr
        · intro hr'
          have : comp_index Result i = comp_index Result k := by
            rw [← hr.2.2, ← hr'.2.2]
          have := comp_index_inj Result i k (by omega) (by omega) this
          omega
    · intro x hx
      rw [forLoop_succ, hframe]
      · exact ih2 x (fun i hi => hx i (Nat.lt_succ_of_lt hi))
      · exact hx k (Nat.lt_succ_self k)

theorem forLoop_frame (W : Slot → Prop) (body : Nat → CodeGen → CodeGen)
    (hframe : ∀ i st x, ¬ W x → (body i st).mem x = st.mem x) (n : Nat) (st : CodeGen)
    (x : Slot) (hx : ¬ W x) : (forLoop n body st).mem x = st.mem x := by
  induction n with
  | zero => rfl
  | succ k ih => rw [forLoop_succ, hframe _ _ _ hx, ih]

theorem forLoop_calls (body : Nat → CodeGen → CodeGen)
    (h : ∀ i st, (body i st).calls = st.calls) (n : Nat) (st : CodeGen) :
    (forLoop n body st).calls = st.calls := by
  induction n with
  | zero => rfl
  | succ k ih => rw [forLoop_succ, h, ih]

theorem store_agree (E : Slot → Prop) (st st' : CodeGen) (h : AgreeOff E st st') (v : Value)
    (sym : Symbol) (d : Nat) (ai : Option Value) (c : Nat) :
    AgreeOff E (llvm_store_value st v sym d ai c) (llvm_store_value st' v sym d ai c) := by
  intro x hx
  rw [store_mem, store_mem, h x hx]

theorem load_agree (R : Symbol) (i : Nat) (st st' : CodeGen)
    (h : AgreeOff (others R i) st st') (sym : Symbol) (d : Nat) (cast : Option TypeSpec) :
    llvm_load_value st sym d none i cast = llvm_load_value st' sym d none i cast := by
  apply load_congr
  apply h
  rintro ⟨h1, _, h3⟩
  simp only at h1 h3
  subst h1
  exact h3 rfl

theorem store_frame_row (R : Symbol) (i : Nat) (st : CodeGen) (v : Value) (d : Nat) (x : Slot)
    (hx : ¬ row R i x) : (llvm_store_value st v R d none i).mem x = st.mem x := by
  rw [store_mem, if_neg]
  rintro ⟨_, rfl⟩
  exact hx ⟨rfl, rfl, rfl⟩

theorem load_store_ne (st : CodeGen) (v : Value) (R : Symbol) (d : Nat) (ai : Option Value)
    (c : Nat) (sym : Symbol) (d' : Nat) (ai' : Option Value) (c' : Nat)
    (cast : Option TypeSpec) (h : d' ≠ d) :
    llvm_load_value (llvm_store_value st v R d ai c) sym d' ai' c' cast =
      llvm_load_value st sym d' ai' c' cast := by
  apply load_congr
  rw [store_mem, if_neg]
  rintro ⟨_, h2⟩
  injection h2 with _ h3
  exact h h3

theorem floatbased_not_closure (t : TypeSpec) (h : t.is_floatbased = true) :
    t.is_closure = false ∧ t.is_closure_based = false := by
  simp only [TypeSpec.is_floatbased, TypeSpec.is_closure, TypeSpec.is_closure_based] at *
  cases hb : t.base <;> simp_all

theorem forLoopM_pure {σ : Type} (n : Nat) (g : Nat → σ → σ) (s : σ) :
    forLoopM n (fun i s => some (g i s)) s = some (forLoop n g s) :=
  forLoopM_some n _ g (fun _ _ _ => rfl) s

theorem forLoop_rows_at (R : Symbol) (body : Nat → CodeGen → CodeGen)
    (st : CodeGen) (i : Nat) (d : Nat) (hi : i < R.typespec.aggregate)
    (hframe : ∀ i st x, ¬ row R i x → (body i st).mem x = st.mem x)
    (hloc : ∀ i st st', AgreeOff (others R i) st st' →
      AgreeOff (others R i) (body i st) (body i st')) :
    (forLoop R.typespec.aggregate body st).mem ⟨R, d, 0, i⟩ = (body i st).mem ⟨R, d, 0, i⟩ :=
  (forLoop_rows R body hframe hloc st R.typespec.aggregate (le_refl _)).1 i ⟨R, d, 0, i⟩ hi
    ⟨rfl, rfl, (comp_index_of_lt R i hi).symm⟩

theorem store_mem_at (st : CodeGen) (v : Value) (R : Symbol) (d : Nat) (i : Nat)
    (hi : i < R.typespec.aggregate) (d' : Nat) :
    (llvm_store_value st v R d none i).mem ⟨R, d', 0, i⟩ =
      if (R.has_derivs = true ∨ d = 0) ∧ d' = d then v else st.mem ⟨R, d', 0, i⟩ := by
  rw [store_mem]
  simp [elem_index, comp_index_of_lt R i hi]

theorem toRat_f (q : ℚ) : (Value.f q).toRat = q := rfl

theorem safe_div_float (rop : RuntimeOptimizer) (t : TypeSpec) (h : t.is_floatbased = true)
    (a b : Value) : llvm_make_safe_div rop t a b = .f (safe_quotient rop a.toRat b.toRat) := by
  simp [llvm_make_safe_div, h]

theorem zero_derivs_zeroed (st : CodeGen) (R : Symbol) (h : R.has_derivs = true) :
    DerivsZeroed R (llvm_zero_derivs st R) := by
  intro x hx hd
  simp [llvm_zero_derivs, h, hx, hd]

theorem aggregate_pos (t : TypeSpec) : 0 < t.aggregate := by
  unfold TypeSpec.aggregate
  split <;> decide

theorem comp_index_zero (sym : Symbol) : comp_index sym 0 = 0 := by
  unfold comp_index
  split <;> rfl

theorem compare_loop (opname : String) (c : Nat → Bool) (n : Nat) :
    forLoopM (n + 1) (fun i (acc : Option Bool) =>
      some (some (combine_component opname acc (c i)))) none
    = some (some (if opname ≠ "neq" then decide (∀ i, i < n + 1 → c i = true)
        else decide (∃ i, i < n + 1 ∧ c i = true))) := by
  induction n with
  | zero => simp [forLoopM, combine_component]
  | succ k ih =>
    rw [forLoopM, ih]
    simp only [Option.bind, combine_component, Option.some.injEq]
    by_cases hneq : opname = "neq"
    · simp only [hneq, ne_eq, not_true_eq_false, if_false, CreateOr]
      rw [Bool.eq_iff_iff]
      simp only [Bool.or_eq_true, decide_eq_true_eq]
      constructor
      · rintro (⟨i, hi, h⟩ | h)
        · exact ⟨i, by omega, h⟩
        · exact ⟨k + 1, by omega, h⟩
      · rintro ⟨i, hi, h⟩
        by_cases hik : i = k + 1
        · right; rw [← hik]; exact h
        · left; exact ⟨i, by omega, h⟩
    · simp only [ne_eq, hneq, not_false_eq_true, if_true, CreateAnd]
      rw [Bool.eq_iff_iff]
      simp only [Bool.and_eq_true, decide_eq_true_eq]
      constructor
      · rintro ⟨h1, h2⟩ i hi
        by_cases hik : i = k + 1
        · rw [hik]; exact h2
        · exact h1 i (by omega)
      · intro h
        exact ⟨fun i hi => h i (by omega), h (k + 1) (by omega)⟩

theorem compare_component_known (opname : String)
    (hop : opname ∈ ["lt", "le", "eq", "ge", "gt", "neq"]) (fb : Bool) (a b : Value) :
    compare_component opname fb a b = some (component_test opname fb a b) := by
  simp only [List.mem_cons, List.mem_singleton, List.not_mem_nil, or_false] at hop
  rcases hop with h | h | h | h | h | h <;> subst h <;>
    simp [component_test, compare_component]

theorem compare_op_result (rop : RuntimeOptimizer) (op : Opcode) (st : CodeGen)
    (Result A B : Symbol)
    (hR : opargsym op 0 = some Result) (hA : opargsym op 1 = some A)
    (hB : opargsym op 2 = some B)
    (hRi : Result.typespec.is_int = true) (hRd : Result.has_derivs = false)
    (hop : op.opname ∈ ["lt", "le", "eq", "ge", "gt", "neq"]) :
    ∃ st', llvm_gen_compare_op rop op st = some (true, st') ∧
      st'.mem ⟨Result, 0, 0, 0⟩ = CreateZExt
        (if op.opname ≠ "neq" then
          decide (∀ i, i < max A.typespec.aggregate B.typespec.aggregate →
            component_test op.opname (A.typespec.is_floatbased || B.typespec.is_floatbased)
              (compare_operands st A B (if (A.typespec.is_floatbased ||
                B.typespec.is_floatbased) = true then some ⟨.float, .color, 0⟩ else none) i).1
              (compare_operands st A B (if (A.typespec.is_floatbased ||
                B.typespec.is_floatbased) = true then some ⟨.float, .color, 0⟩ else none) i).2
              = true)
        else
          decide (∃ i, i < max A.typespec.aggregate B.typespec.aggregate ∧
            component_test op.opname (A.typespec.is_floatbased || B.typespec.is_floatbased)
              (compare_operands st A B (if (A.typespec.is_floatbased ||
                B.typespec.is_floatbased) = true then some ⟨.float, .color, 0⟩ else none) i).1
              (compare_operands st A B (if (A.typespec.is_floatbased ||
                B.typespec.is_floatbased) = true then some ⟨.float, .color, 0⟩ else none) i).2
              = true)) := by
  obtain ⟨n, hn⟩ : ∃ n, max A.typespec.aggregate B.typespec.aggregate = n + 1 := by
    have := aggregate_pos A.typespec
    exact ⟨max A.typespec.aggregate B.typespec.aggregate - 1, by omega⟩
  simp only [llvm_gen_compare_op, hR, hA, hB, hRi, hRd, Bool.not_false, Bool.and_self,
    Bool.not_true, Bool.false_eq_true, if_false, compare_component_known _ hop, Option.bind, hn]
  rw [compare_loop]
  refine ⟨_, rfl, ?_⟩
  show (llvm_store_value _ _ _ _ _ _).mem _ = _
  rw [store_mem, if_pos]
  exact ⟨Or.inr rfl, by simp [elem_index, comp_index_zero]⟩

theorem spec_signature_append (marks : Symbol → Bool) (l : List Symbol) (s : Symbol) :
    spec_signature marks (l ++ [s]) =
      spec_signature marks l ++ ((if marks s then "d" else "") ++ spec_type_letter s) := by
  induction l with
  | nil => simp [spec_signature]
  | cons x rest ih => simp [spec_signature, ih, String.append_assoc]

theorem generic_name_step (Result s : Symbol) (any : Bool) (name : String)
    (hv : generic_type s = true) :
    (let name := if (any && Result.has_derivs && s.has_derivs &&
          !s.typespec.is_matrix) = true then name ++ "d" else name
      if s.typespec.is_float = true then some (name ++ "f")
      else if s.typespec.is_triple = true then some (name ++ "v")
      else if s.typespec.is_matrix = true then some (name ++ "m")
      else if s.typespec.is_string = true then some (name ++ "s")
      else if s.typespec.is_int = true then some (name ++ "i")
      else none) =
    some (name ++ ((if (any && Result.has_derivs && s.has_derivs &&
          !s.typespec.is_matrix) = true then "d" else "") ++ spec_type_letter s)) := by
  unfold generic_type at hv
  unfold spec_type_letter
  cases hmk : (any && Result.has_derivs && s.has_derivs && !s.typespec.is_matrix) <;>
  cases hf : s.typespec.is_float <;> cases ht : s.typespec.is_triple <;>
  cases hm : s.typespec.is_matrix <;> cases hs : s.typespec.is_string <;>
  cases hi : s.typespec.is_int <;>
  simp only [hf, ht, hm, hs, hi, Bool.or_self, Bool.false_eq_true, Bool.or_true,
    Bool.or_false] at hv <;>
  simp only [if_true, if_false, Bool.false_eq_true, String.append_assoc,
    String.empty_append]

theorem generic_name_take (op : Opcode) (Result : Symbol) (any : Bool)
    (hvalid : ∀ s, s ∈ op.args → generic_type s = true) (k : Nat) (hk : k ≤ op.args.length) :
    forLoopM k (fun i name =>
      match opargsym op i with
      | none => none
      | some s =>
        let name := if any && Result.has_derivs && s.has_derivs &&
            !s.typespec.is_matrix then name ++ "d" else name
        if s.typespec.is_float then some (name ++ "f")
        else if s.typespec.is_triple then some (name ++ "v")
        else if s.typespec.is_matrix then some (name ++ "m")
        else if s.typespec.is_string then some (name ++ "s")
        else if s.typespec.is_int then some (name ++ "i")
        else none) ("osl_" ++ op.opname ++ "_")
    = some (("osl_" ++ op.opname ++ "_") ++
        spec_signature (fun s => any && Result.has_derivs && s.has_derivs &&
          !s.typespec.is_matrix) (op.args.take k)) := by
  induction k with
  | zero => simp [forLoopM, spec_signature]
  | succ k ih =>
    have hlt : k < op.args.length := hk
    rw [forLoopM, ih (Nat.le_of_lt hlt)]
    have hget : opargsym op k = some (op.args[k]) := by
      simp [opargsym, List.getElem?_eq_getElem hlt]
    have hv := hvalid (op.args[k]) (List.getElem_mem _)
    simp only [Option.bind, hget]
    rw [List.take_succ, List.getElem?_eq_getElem hlt, Option.toList, spec_signature_append,
      generic_name_step Result _ any _ hv, String.append_assoc]

theorem generic_name_eq (op : Opcode) (Result : Symbol) (any : Bool)
    (hvalid : ∀ s, s ∈ op.args → generic_type s = true) :
    generic_name op Result any = some ("osl_" ++ op.opname ++ "_" ++
      spec_signature (fun s => any && Result.has_derivs && s.has_derivs &&
        !s.typespec.is_matrix) op.args) := by
  have := generic_name_take op Result any hvalid op.args.length (le_refl _)
  rw [List.take_length] at this
  exact this

theorem zero_derivs_calls (st : CodeGen) (R : Symbol) :
    (llvm_zero_derivs st R).calls = st.calls := by
  unfold llvm_zero_derivs
  split <;> rfl

theorem spec_signature_no_d (l : List Symbol) :
    'd' ∉ (spec_signature (fun _ => false) l).toList := by
  induction l with
  | nil => simp [spec_signature]
  | cons s rest ih =>
    simp only [spec_signature, String.toList, String.data_append, List.mem_append, not_or,
      Bool.false_eq_true, if_false]
    refine ⟨⟨by simp, ?_⟩, ih⟩
    unfold spec_type_letter
    split_ifs <;> decide

/-- Claim C8: when every operand is a float, triple, matrix, string or int,
`llvm_gen_generic` emits exactly one call, named `osl_` + opname + `_` + signature, the
signature holding one base-type letter per operand in operand order; a letter is
preceded by `d` only if `Result` has derivatives, that operand has derivatives and it is
not a matrix. -/
theorem llvm_gen_generic_callee_name (rop : RuntimeOptimizer) (op : Opcode) (st : CodeGen)
    (Result : Symbol) (hR : opargsym op 0 = some Result)
    (hvalid : ∀ s, s ∈ op.args → generic_type s = true) :
    ∃ st' call, llvm_gen_generic rop op st = some (true, st') ∧
      st'.calls = st.calls ++ [call] ∧
      call.name = "osl_" ++ op.opname ++ "_" ++
        spec_signature (fun s => generic_deriv_mode op && Result.has_derivs && s.has_derivs &&
          !s.typespec.is_matrix) op.args ∧
      ∀ s : Symbol, (generic_deriv_mode op && Result.has_derivs && s.has_derivs &&
          !s.typespec.is_matrix) = true →
        Result.has_derivs = true ∧ s.has_derivs = true ∧ s.typespec.is_matrix = false := by
  have hmode : (if generic_any_deriv_args op = true then
      (if no_deriv_op op.opname = true then false else generic_any_deriv_args op)
      else generic_any_deriv_args op) = generic_deriv_mode op := by
    unfold generic_deriv_mode
    cases generic_any_deriv_args op <;> cases no_deriv_op op.opname <;> rfl
  simp only [llvm_gen_generic, hR, hmode, generic_name_eq op Result _ hvalid, Option.bind]
  have himp : ∀ s : Symbol, (generic_deriv_mode op && Result.has_derivs && s.has_derivs &&
      !s.typespec.is_matrix) = true →
      Result.has_derivs = true ∧ s.has_derivs = true ∧ s.typespec.is_matrix = false := by
    intro s h
    simp only [Bool.and_eq_true, Bool.not_eq_true'] at h
    exact ⟨h.1.1.2, h.1.2, h.2⟩
  split
  · split
    · exact ⟨_, _, rfl, by rw [zero_derivs_calls, store_calls]; rfl, by rfl, himp⟩
    · exact ⟨_, _, rfl, by rw [zero_derivs_calls]; rfl, by rfl, himp⟩
  · exact ⟨_, _, rfl, by rfl, by rfl, himp⟩

/-- Claim C9: for `floor`, `ceil`, `round`, `step`, `trunc`, `cellnoise` and `sign`,
whatever the derivative flags of the operands, the signature has no `d` marker, the
call is made in the non-derivative form, and the derivative slots of a
derivative-capable `Result` are zero afterwards. -/
theorem llvm_gen_generic_no_derivs (rop : RuntimeOptimizer) (op : Opcode) (st : CodeGen)
    (Result : Symbol) (hR : opargsym op 0 = some Result)
    (hvalid : ∀ s, s ∈ op.args → generic_type s = true)
    (hop : op.opname ∈ ["floor", "ceil", "round", "step", "trunc", "cellnoise", "sign"]) :
    ∃ st' call, llvm_gen_generic rop op st = some (true, st') ∧
      st'.calls = st.calls ++ [call] ∧
      call.name = "osl_" ++ op.opname ++ "_" ++ spec_signature (fun _ => false) op.args ∧
      'd' ∉ (spec_signature (fun _ => false) op.args).toList ∧
      call.deriv_ptrs = false ∧
      (Result.has_derivs = true → DerivsZeroed Result st') := by
  have hno : no_deriv_op op.opname = true := by
    simp only [List.mem_cons, List.mem_singleton, List.not_mem_nil, or_false] at hop
    rcases hop with h | h | h | h | h | h | h <;> simp [no_deriv_op, h]
  have hmode : (if generic_any_deriv_args op = true then
      (if no_deriv_op op.opname = true then false else generic_any_deriv_args op)
      else generic_any_deriv_args op) = false := by
    rw [hno]
    cases generic_any_deriv_args op <;> rfl
  simp only [llvm_gen_generic, hR, hmode, generic_name_eq op Result _ hvalid, Option.bind,
    Bool.false_and, Bool.not_false, Bool.or_true, if_true]
  split
  · exact ⟨_, _, rfl, by rw [zero_derivs_calls, store_calls]; rfl, by rfl,
      spec_signature_no_d _, by rfl, fun h => zero_derivs_zeroed _ _ h⟩
  · exact ⟨_, _, rfl, by rw [zero_derivs_calls]; rfl, by rfl,
      spec_signature_no_d _, by rfl, fun h => zero_derivs_zeroed _ _ h⟩

theorem forBreak_calls (stop : Bool) (body : Nat → CodeGen → CodeGen)
    (h : ∀ i st, (body i st).calls = st.calls) (n lo : Nat) (st : CodeGen) :
    (forBreak stop lo n body st).calls = st.calls := by
  induction n generalizing lo st with
  | zero => rfl
  | succ k ih =>
    unfold forBreak
    split
    · exact h _ _
    · rw [ih, h]

/-- Claim C10: with a compile-time-constant index `i`, `0 <= i < n` (`n = 3` for a
triple, the declared length for an array), `compref`, `compassign`, `aref` and `aassign`
succeed and emit no runtime call at all, hence no `osl_range_check`, whether range
checking is enabled or not. -/
theorem constant_index_no_range_check (rop : RuntimeOptimizer) (st : CodeGen)
    (Index : Symbol) (hconst : Index.is_constant = true) (h0 : 0 ≤ Index.int_data) :
    (∀ op Result Val, opargsym op 0 = some Result → opargsym op 1 = some Val →
      opargsym op 2 = some Index → Index.int_data < 3 →
      ∃ st', llvm_gen_compref rop op st = some (true, st') ∧ st'.calls = st.calls) ∧
    (∀ op Result Val, opargsym op 0 = some Result → opargsym op 1 = some Index →
      opargsym op 2 = some Val → Index.int_data < 3 →
      ∃ st', llvm_gen_compassign rop op st = some (true, st') ∧ st'.calls = st.calls) ∧
    (∀ op Result Src, opargsym op 0 = some Result → opargsym op 1 = some Src →
      opargsym op 2 = some Index → Index.int_data < (Src.typespec.arraylength : Int) →
      ∃ st', llvm_gen_aref rop op st = some (true, st') ∧ st'.calls = st.calls) ∧
    (∀ op Result Src, opargsym op 0 = some Result → opargsym op 1 = some Index →
      opargsym op 2 = some Src → Index.int_data < (Result.typespec.arraylength : Int) →
      ∃ st', llvm_gen_aassign rop op st = some (true, st') ∧ st'.calls = st.calls) := by
  refine ⟨?_, ?_, ?_, ?_⟩
  · intro op Result Val hR hV hI hlt
    simp only [llvm_gen_compref, hR, hV, hI, hconst, h0, hlt, ge_iff_le, decide_True,
      Bool.and_self, Bool.not_true, Bool.false_eq_true, if_false, ite_self, if_true]
    exact ⟨_, rfl, forBreak_calls _ _ (fun i s => store_calls _ _ _ _ _ _) _ _ _⟩
  · intro op Result Val hR hI hV hlt
    simp only [llvm_gen_compassign, hR, hV, hI, hconst, h0, hlt, ge_iff_le, decide_True,
      Bool.and_self, Bool.not_true, Bool.false_eq_true, if_false, ite_self, if_true]
    exact ⟨_, rfl, forBreak_calls _ _ (fun i s => store_calls _ _ _ _ _ _) _ _ _⟩
  · intro op Result Src hR hS hI hlt
    simp only [llvm_gen_aref, hR, hS, hI, hconst, h0, hlt, ge_iff_le, decide_True,
      Bool.and_self, Bool.not_true, Bool.false_eq_true, if_false, ite_self, if_true]
    exact ⟨_, rfl, forBreak_calls _ _
      (fun i s => forLoop_calls _ (fun c s => store_calls _ _ _ _ _ _) _ _) _ _ _⟩
  · intro op Result Src hR hI hS hlt
    simp only [llvm_gen_aassign, hR, hS, hI, hconst, h0, hlt, ge_iff_le, decide_True,
      Bool.and_self, Bool.not_true, Bool.false_eq_true, if_false, ite_self, if_true]
    exact ⟨_, rfl, forBreak_calls _ _
      (fun i s => forLoop_calls _ (fun c s => store_calls _ _ _ _ _ _) _ _) _ _ _⟩

/-- Claim C3 fails as stated: with a safe division that returns 1 for a zero
denominator and a = b = da = db = 0, `llvm_gen_div` stores the x-derivative
`safe_div(1,0) * (0 - safe_div(0,0)*0) = 0`, while the formula of the claim,
`safe_div(da - safe_div(a,b)*db, b)`, is 1. -/
theorem llvm_gen_div_deriv_counterexample :
    (llvm_gen_div cex_rop ex_binop cex_st).map (fun r => r.2.mem ⟨ex_R, 1, 0, 0⟩)
      = some (.f 0) ∧
    spec_quotient_deriv cex_rop
      (llvm_load_value cex_st ex_A 0 none 0 (some ex_float)).toRat
      (llvm_load_value cex_st ex_B 0 none 0 (some ex_float)).toRat
      (llvm_load_value cex_st ex_A 1 none 0 (some ex_float)).toRat
      (llvm_load_value cex_st ex_B 1 none 0 (some ex_float)).toRat = 1 := by
  constructor
  · simp [llvm_gen_div, opargsym, ex_binop, ex_R, ex_A, ex_B, ex_float, forLoopM,
      TypeSpec.is_closure_based, TypeSpec.is_matrix, TypeSpec.is_floatbased,
      TypeSpec.simpletype, TypeSpec.aggregate, llvm_load_value, llvm_store_value,
      llvm_make_safe_div, safe_quotient, Memory.write, cex_st, cex_rop, llvm_cast,
      Symbol.is_constant, CreateFMul, CreateFSub, Value.toRat, llvm_constant, comp_index,
      elem_index]
  · simp [spec_quotient_deriv, safe_quotient, llvm_load_value, ex_A, ex_B, ex_float, cex_st,
      cex_rop, llvm_cast, Symbol.is_constant, Value.toRat, TypeSpec.is_floatbased]

theorem compare_op_bit (rop : RuntimeOptimizer) (op : Opcode) (st : CodeGen)
    (Result A B : Symbol)
    (hR : opargsym op 0 = some Result) (hA : opargsym op 1 = some A)
    (hB : opargsym op 2 = some B)
    (hRi : Result.typespec.is_int = true) (hRd : Result.has_derivs = false)
    (hop : op.opname ∈ ["lt", "le", "eq", "ge", "gt", "neq"]) :
    ∃ st' b, llvm_gen_compare_op rop op st = some (true, st') ∧
      st'.mem ⟨Result, 0, 0, 0⟩ = .i (if b = true then 1 else 0) ∧
      b = (if op.opname ≠ "neq" then
          decide (∀ i, i < max A.typespec.aggregate B.typespec.aggregate →
            component_test op.opname (A.typespec.is_floatbased || B.typespec.is_floatbased)
              (compare_operands st A B (if (A.typespec.is_floatbased ||
                B.typespec.is_floatbased) = true then some ⟨.float, .color, 0⟩ else none) i).1
              (compare_operands st A B (if (A.typespec.is_floatbased ||
                B.typespec.is_floatbased) = true then some ⟨.float, .color, 0⟩ else none) i).2
              = true)
        else
          decide (∃ i, i < max A.typespec.aggregate B.typespec.aggregate ∧
            component_test op.opname (A.typespec.is_floatbased || B.typespec.is_floatbased)
              (compare_operands st A B (if (A.typespec.is_floatbased ||
                B.typespec.is_floatbased) = true then some ⟨.float, .color, 0⟩ else none) i).1
              (compare_operands st A B (if (A.typespec.is_floatbased ||
                B.typespec.is_floatbased) = true then some ⟨.float, .color, 0⟩ else none) i).2
              = true)) := by
  obtain ⟨st', h, hm⟩ := compare_op_result rop op st Result A B hR hA hB hRi hRd hop
  exact ⟨st', _, h, hm, rfl⟩

/-- Claim C8 at `Result = sin (A)` with derivatives on both: the callee is
`osl_sin_dfdf`. -/
theorem llvm_gen_generic_callee_name_witness :
    (llvm_gen_generic ex_rop ex_sin ex_st).map (fun r => (r.1, r.2.calls.map Call.name))
      = some (true, ["osl_sin_dfdf"]) := by
  obtain ⟨st', call, h, hc, hname, _⟩ := llvm_gen_generic_callee_name ex_rop ex_sin ex_st ex_R
    rfl (by decide)
  rw [h, Option.map, hc]
  have hmode : generic_deriv_mode ex_sin = true := by decide
  simp only [hmode] at hname
  simp [ex_st, hname, ex_sin, spec_signature, ex_R, ex_A, ex_float, spec_type_letter,
    TypeSpec.is_float, TypeSpec.is_matrix]

/-- Claim C9 at `Result = floor (A)` with derivatives on both: the callee is
`osl_floor_ff`, called without derivatives, and the derivatives of `Result` are 0. -/
theorem llvm_gen_generic_no_derivs_witness :
    (llvm_gen_generic ex_rop ex_floor ex_st).map (fun r =>
      (r.1, r.2.calls.map (fun c => (c.name, c.deriv_ptrs)),
        r.2.mem ⟨ex_R, 1, 0, 0⟩, r.2.mem ⟨ex_R, 2, 0, 0⟩))
      = some (true, [("osl_floor_ff", false)], .f 0, .f 0) := by
  obtain ⟨st', call, h, hc, hname, _, hd, hz⟩ := llvm_gen_generic_no_derivs ex_rop ex_floor
    ex_st ex_R rfl (by decide) (by simp [ex_floor])
  have hz' := hz rfl
  rw [h, Option.map, hc, hz' ⟨ex_R, 1, 0, 0⟩ rfl (Or.inl rfl),
    hz' ⟨ex_R, 2, 0, 0⟩ rfl (Or.inr rfl)]
  simp [ex_st, hname, hd, ex_floor, spec_signature, ex_R, ex_A, ex_float, spec_type_letter,
    TypeSpec.is_float]

/-- Claim C10 at `a[2]` on a 3-element array with range checking enabled: no call
is emitted. -/
theorem constant_index_no_range_check_witness :
    ex_rop.range_checking = true ∧
    (llvm_gen_aref ex_rop ex_aref ex_st).map (fun r => (r.1, r.2.calls)) = some (true, []) := by
  obtain ⟨_, _, haref, _⟩ := constant_index_no_range_check ex_rop ex_st ex_two rfl (by decide)
  obtain ⟨st', h, hc⟩ := haref ex_aref ex_elem ex_arr rfl rfl rfl (by decide)
  refine ⟨rfl, ?_⟩
  rw [h, Option.map, hc]
  rfl

theorem call_function_calls (rop : RuntimeOptimizer) (st : CodeGen) (name : String)
    (args : List Arg) (dp : Bool) :
    (llvm_call_function rop st name args dp).2.calls = st.calls ++ [⟨name, args, dp⟩] := rfl

/-- Claim C11 fails as stated: with range checking enabled, the constant index 5
into a triple makes `llvm_gen_compref` emit an `osl_range_check` call. -/
theorem constant_index_range_check_counterexample :
    (llvm_gen_compref ex_rop ex_compref5 ex_st).map (fun r => r.2.calls.map Call.name)
      = some ["osl_range_check"] := by
  simp [llvm_gen_compref, opargsym, ex_compref5, ex_rop, ex_five, ex_int, Symbol.is_constant,
    Symbol.int_data, Value.toInt, forBreak_calls _ _ (fun _ _ => store_calls _ _ _ _ _ _),
    call_function_calls, ex_st, ex_elem]

/-- Claim C11, amended: with a compile-time-constant index, `compref`,
`compassign`, `aref` and `aassign` succeed and emit no `osl_range_check` call when
range checking is disabled or the index is in range; when range checking is
enabled and the constant index is out of range they emit exactly one
`osl_range_check` call, on the constant and the static size of the container. -/
theorem constant_index_range_check_calls (rop : RuntimeOptimizer) (st : CodeGen)
    (Index : Symbol) (hconst : Index.is_constant = true) :
    (∀ op Result Val, opargsym op 0 = some Result → opargsym op 1 = some Val →
      opargsym op 2 = some Index →
      ∃ st', llvm_gen_compref rop op st = some (true, st') ∧
        st'.calls = st.calls ++ constant_index_calls rop op st Index 3) ∧
    (∀ op Result Val, opargsym op 0 = some Result → opargsym op 1 = some Index →
      opargsym op 2 = some Val →
      ∃ st', llvm_gen_compassign rop op st = some (true, st') ∧
        st'.calls = st.calls ++ constant_index_calls rop op st Index 3) ∧
    (∀ op Result Src, opargsym op 0 = some Result → opargsym op 1 = some Src →
      opargsym op 2 = some Index →
      ∃ st', llvm_gen_aref rop op st = some (true, st') ∧
        st'.calls = st.calls ++
          constant_index_calls rop op st Index Src.typespec.arraylength) ∧
    (∀ op Result Src, opargsym op 0 = some Result → opargsym op 1 = some Index →
      opargsym op 2 = some Src →
      ∃ st', llvm_gen_aassign rop op st = some (true, st') ∧
        st'.calls = st.calls ++
          constant_index_calls rop op st Index Result.typespec.arraylength) := by
  refine ⟨?_, ?_, ?_, ?_⟩
  · intro op Result Val hR hV hI
    simp only [llvm_gen_compref, hR, hV, hI, hconst, Bool.true_and, if_true]
    refine ⟨_, rfl, ?_⟩
    rw [forBreak_calls _ _ (fun i s => store_calls _ _ _ _ _ _)]
    unfold constant_index_calls range_check_call
    by_cases hrc : rop.range_checking = true <;>
      by_cases hin : (0 ≤ Index.int_data ∧ Index.int_data < 3) <;>
      simp [hrc, hin, call_function_calls]
    have hout : Index.int_data < 0 ∨ 3 ≤ Index.int_data := by omega
    simp [hout, call_function_calls]
  · intro op Result Val hR hI hV
    simp only [llvm_gen_compassign, hR, hV, hI, hconst, Bool.true_and, if_true]
    refine ⟨_, rfl, ?_⟩
    rw [forBreak_calls _ _ (fun i s => store_calls _ _ _ _ _ _)]
    unfold constant_index_calls range_check_call
    by_cases hrc : rop.range_checking = true <;>
      by_cases hin : (0 ≤ Index.int_data ∧ Index.int_data < 3) <;>
      simp [hrc, hin, call_function_calls]
    have hout : Index.int_data < 0 ∨ 3 ≤ Index.int_data := by omega
    simp [hout, call_function_calls]
  · intro op Result Src hR hS hI
    simp only [llvm_gen_aref, hR, hS, hI, hconst, Bool.true_and]
    refine ⟨_, rfl, ?_⟩
    refine (forBreak_calls _ _
      (fun i s => forLoop_calls _ (fun c s => store_calls _ _ _ _ _ _) _ _) _ _ _).trans ?_
    unfold constant_index_calls range_check_call
    by_cases hrc : rop.range_checking = true <;>
      by_cases hin : (0 ≤ Index.int_data ∧ Index.int_data < (Src.typespec.arraylength : Int)) <;>
      simp [hrc, hin, call_function_calls, loadLLVMValue]
    have hout : Index.int_data < 0 ∨ (Src.typespec.arraylength : Int) ≤ Index.int_data := by
      omega
    simp [hout, call_function_calls]
  · intro op Result Src hR hI hS
    simp only [llvm_gen_aassign, hR, hS, hI, hconst, Bool.true_and]
    refine ⟨_, rfl, ?_⟩
    refine (forBreak_calls _ _
      (fun i s => forLoop_calls _ (fun c s => store_calls _ _ _ _ _ _) _ _) _ _ _).trans ?_
    unfold constant_index_calls range_check_call
    by_cases hrc : rop.range_checking = true <;>
      by_cases hin : (0 ≤ Index.int_data ∧ Index.int_data < (Result.typespec.arraylength : Int)) <;>
      simp [hrc, hin, call_function_calls, loadLLVMValue]
    have hout : Index.int_data < 0 ∨ (Result.typespec.arraylength : Int) ≤ Index.int_data := by
      omega
    simp [hout, call_function_calls]

/-- Claim C11 (amended) at the constant index 5: with range checking disabled
`x = a[5]` on a 3-element array emits no call, with range checking enabled it
emits one `osl_range_check` call. -/
theorem constant_index_range_check_calls_witness :
    (llvm_gen_aref ex_rop_off ex_aref5 ex_st).map (fun r => r.2.calls.map Call.name)
      = some [] ∧
    (llvm_gen_aref ex_rop ex_aref5 ex_st).map (fun r => r.2.calls.map Call.name)
      = some ["osl_range_check"] := by
  obtain ⟨_, _, hoff, _⟩ := constant_index_range_check_calls ex_rop_off ex_st ex_five rfl
  obtain ⟨_, _, hon, _⟩ := constant_index_range_check_calls ex_rop ex_st ex_five rfl
  obtain ⟨s1, h1, c1⟩ := hoff ex_aref5 ex_elem ex_arr rfl rfl rfl
  obtain ⟨s2, h2, c2⟩ := hon ex_aref5 ex_elem ex_arr rfl rfl rfl
  rw [h1, h2, Option.map, Option.map, c1, c2]
  simp [constant_index_calls, ex_rop_off, ex_rop, ex_st, range_check_call, ex_five,
    Symbol.int_data, Value.toInt, ex_arr, ex_float3, TypeSpec.arraylength]

/-- Claim C12 at its failing input: with range checking disabled, `x = a[5]` on
the array `float a[3]` reads element 5 of the array, not the element at the
clamped index 2. -/
theorem llvm_gen_aref_constant_unclamped :
    (llvm_gen_aref ex_rop_off ex_aref5 ex_arr_st).map (fun r => r.2.mem ⟨ex_elem, 0, 0, 0⟩)
      = some (ex_arr_st.mem ⟨ex_arr, 0, 5, 0⟩) ∧
    ex_arr_st.mem ⟨ex_arr, 0, 5, 0⟩ = .f 5 ∧
    ex_arr_st.mem ⟨ex_arr, 0, Imath_clamp 5 0 (3 - 1), 0⟩ = .f 2 := by
  refine ⟨?_, ?_, ?_⟩
  · simp [llvm_gen_aref, opargsym, ex_aref5, ex_rop_off, ex_elem, ex_arr, ex_five, ex_float,
      ex_float3, ex_int, forBreak, forLoop, TypeSpec.simpletype, TypeSpec.aggregate,
      loadLLVMValue, storeLLVMValue, llvm_load_value, llvm_store_value, llvm_cast,
      Memory.write, Symbol.is_constant, TypeSpec.is_array, elem_index, comp_index,
      Value.toInt, ex_arr_st]
  · simp [ex_arr_st]
  · simp [ex_arr_st, Imath_clamp]

/-- Claim C13 at its failing input: with range checking enabled, `x = m[1][2]`
with constant row and column makes `llvm_gen_mxcompref` emit two
`osl_range_check` calls. -/
theorem llvm_gen_mxcompref_constant_checked :
    (llvm_gen_mxcompref ex_rop ex_mxcompref ex_st).map (fun r =>
        (r.2.calls, r.2.mem ⟨ex_elem, 0, 0, 0⟩))
      = some ([range_check_call ex_mxcompref (.i 1) 4, range_check_call ex_mxcompref (.i 2) 4],
          ex_st.mem ⟨ex_mx, 0, 0, 4 * 1 + 2⟩) := by
  simp [llvm_gen_mxcompref, opargsym, ex_mxcompref, mx_range_check, ex_rop, ex_one, ex_two,
    ex_int, ex_elem, ex_mx, Symbol.is_constant, llvm_load_value, llvm_cast, TypeSpec.is_array,
    TypeSpec.aggregate, zero_derivs_calls, store_calls, call_function_calls, ex_st,
    range_check_call, llvm_zero_derivs, llvm_store_value, Memory.write, llvm_call_function,
    Symbol.int_data, Value.toInt, Imath_clamp, comp_index, elem_index, ex_float, ex_matrix]

theorem forBreak_three {σ : Type} (stop : Bool) (body : Nat → σ → σ) (s : σ) :
    forBreak stop 0 3 body s = if stop = true then body 0 s else body 2 (body 1 (body 0 s)) := by
  cases stop <;> simp [forBreak]

theorem comp_index_injE (sym : Symbol) (i j : Nat) (hi : i < sym.typespec.aggregate)
    (hj : j < sym.typespec.aggregate) (h : comp_index sym i = comp_index sym j) : i = j :=
  comp_index_inj sym i j hi hj h

theorem forLoop_rowsE (Result : Symbol) (e : Int) (body : Nat → CodeGen → CodeGen)
    (hframe : ∀ i st x, ¬ rowE Result e i x → (body i st).mem x = st.mem x)
    (hloc : ∀ i st st', AgreeOff (othersE Result e i) st st' →
      AgreeOff (othersE Result e i) (body i st) (body i st'))
    (st0 : CodeGen) :
    ∀ k, k ≤ Result.typespec.aggregate →
      (∀ i x, i < k → rowE Result e i x →
        (forLoop k body st0).mem x = (body i st0).mem x) ∧
      (∀ x, (∀ i, i < k → ¬ rowE Result e i x) → (forLoop k body st0).mem x = st0.mem x) := by
  intro k
  induction k with
  | zero =>
    intro _
    exact ⟨fun i x hi => absurd hi (Nat.not_lt_zero i), fun x _ => rfl⟩
  | succ k ih =>
    intro hk
    obtain ⟨ih1, ih2⟩ := ih (Nat.le_of_succ_le hk)
    have hagree : AgreeOff (othersE Result e k) (forLoop k body st0) st0 := by
      intro x hx
      apply ih2
      intro j hj hr
      apply hx
      refine ⟨hr.1, hr.2.1, ?_⟩
      rw [hr.2.2]
      intro hc
      have := comp_index_inj Result j k (by omega) (by omega) hc
      omega
    refine ⟨?_, ?_⟩
    · intro i x hi hr
      rw [forLoop_succ]
      by_cases hik : i = k
      · subst hik
        apply hloc i _ _ hagree
        intro ho
        exact ho.2.2 hr.2.2
      · have hlt : i < k := by omega
        rw [hframe]
        · exact ih1 i x hlt hr
        · intro hr'
          have : comp_index Result i = comp_index Result k := by
            rw [← hr.2.2, ← hr'.2.2]
          have := comp_index_inj Result i k (by omega) (by omega) this
          omega
    · intro x hx
      rw [forLoop_succ, hframe]
      · exact ih2 x (fun i hi => hx i (Nat.lt_succ_of_lt hi))
      · exact hx k (Nat.lt_succ_self k)

theorem load_agreeE (R : Symbol) (e : Int) (i : Nat) (st st' : CodeGen)
    (h : AgreeOff (othersE R e i) st st') (sym : Symbol) (d : Nat) (ai : Option Value)
    (cast : Option TypeSpec) :
    llvm_load_value st sym d ai i cast = llvm_load_value st' sym d ai i cast := by
  apply load_congr
  apply h
  rintro ⟨h1, _, h3⟩
  simp only at h1 h3
  subst h1
  exact h3 rfl

/-- A loop whose iteration `i` stores a value computed from loads of component
`i` into component `i` of derivative `d` of an element of `R`. -/
theorem pointwise_loopE (R : Symbol) (d : Nat) (ai : Option Value)
    (val : Nat → CodeGen → Value)
    (hval : ∀ i st st', AgreeOff (othersE R (elem_index ai) i) st st' → val i st = val i st')
    (st : CodeGen) :
    (∀ i, i < R.typespec.aggregate → (R.has_derivs = true ∨ d = 0) →
      (forLoop R.typespec.aggregate (fun i st => llvm_store_value st (val i st) R d ai i)
        st).mem ⟨R, d, elem_index ai, i⟩ = val i st) ∧
    (∀ x, ¬ (x.sym = R ∧ x.deriv = d ∧ x.arrayindex = elem_index ai) →
      (forLoop R.typespec.aggregate (fun i st => llvm_store_value st (val i st) R d ai i)
        st).mem x = st.mem x) := by
  constructor
  · intro i hi hd
    have hrows := forLoop_rowsE R (elem_index ai)
      (fun i st => llvm_store_value st (val i st) R d ai i)
      (fun j s x hx => by
        rw [store_mem, if_neg]
        rintro ⟨_, rfl⟩
        exact hx ⟨rfl, rfl, rfl⟩)
      (fun j s s' hs => by
        show AgreeOff _ (llvm_store_value s (val j s) R d ai j)
          (llvm_store_value s' (val j s') R d ai j)
        rw [hval j s s' hs]
        exact store_agree _ _ _ hs _ _ _ _ _)
      st R.typespec.aggregate (le_refl _)
    rw [hrows.1 i ⟨R, d, elem_index ai, i⟩ hi ⟨rfl, rfl, (comp_index_of_lt R i hi).symm⟩]
    rw [store_mem, if_pos]
    refine ⟨hd, ?_⟩
    simp [comp_index_of_lt R i hi]
  · intro x hx
    apply forLoop_frame (fun x => x.sym = R ∧ x.deriv = d ∧ x.arrayindex = elem_index ai)
      _ _ _ _ _ hx
    intro j s y hy
    rw [store_mem, if_neg]
    rintro ⟨_, rfl⟩
    exact hy ⟨rfl, rfl, rfl⟩

theorem load_component_store_ne (st : CodeGen) (v : Value) (R : Symbol) (d : Nat)
    (ai : Option Value) (c : Nat) (sym : Symbol) (d' : Nat) (x : Value) (h : d' ≠ d) :
    llvm_load_component_value (llvm_store_value st v R d ai c) sym d' x =
      llvm_load_component_value st sym d' x := by
  have hm : (llvm_store_value st v R d ai c).mem ⟨sym, d', 0, x.toInt⟩ =
      st.mem ⟨sym, d', 0, x.toInt⟩ := by
    rw [store_mem, if_neg]
    rintro ⟨_, h2⟩
    injection h2 with _ h3
    exact h h3
  unfold llvm_load_component_value
  rw [hm]

theorem store_component_mem (st : CodeGen) (v : Value) (sym : Symbol) (d : Nat) (c : Value)
    (x : Slot) :
    (llvm_store_component_value st v sym d c).mem x =
      if (sym.has_derivs = true ∨ d = 0) ∧ x = ⟨sym, d, 0, c.toInt⟩ then v else st.mem x := by
  unfold llvm_store_component_value Memory.write
  by_cases h1 : sym.has_derivs = true <;> by_cases h2 : d = 0 <;> simp [h1, h2]

theorem load_store_component_ne (st : CodeGen) (v : Value) (R : Symbol) (d : Nat)
    (c : Value) (sym : Symbol) (d' : Nat) (ai : Option Value) (c' : Nat)
    (cast : Option TypeSpec) (h : d' ≠ d) :
    llvm_load_value (llvm_store_component_value st v R d c) sym d' ai c' cast =
      llvm_load_value st sym d' ai c' cast := by
  apply load_congr
  rw [store_component_mem, if_neg]
  rintro ⟨_, h2⟩
  injection h2 with _ h3
  exact h h3

theorem copied_deriv_cases (Result : Symbol) (d : Nat) (h : copied_deriv Result d) :
    d = 0 ∨ (Result.has_derivs = true ∧ d = 1) ∨ (Result.has_derivs = true ∧ d = 2) := by
  rcases h with h | ⟨h1, h2 | h2⟩
  · exact Or.inl h
  · exact Or.inr (Or.inl ⟨h1, h2⟩)
  · exact Or.inr (Or.inr ⟨h1, h2⟩)

theorem compref_checked (rop : RuntimeOptimizer) (op : Opcode) (st : CodeGen)
    (Result Val Index : Symbol)
    (hR : opargsym op 0 = some Result) (hV : opargsym op 1 = some Val)
    (hI : opargsym op 2 = some Index)
    (hrc : rop.range_checking = true) (hnc : Index.is_constant = false) :
    ∃ st', llvm_gen_compref rop op st = some (true, st') ∧
      st'.calls = st.calls ++ [range_check_call op (llvm_load_value st Index 0 none 0 none) 3] ∧
      ∀ d, copied_deriv Result d →
        st'.mem ⟨Result, d, 0, 0⟩ =
          llvm_load_component_value
            (range_checked rop op st (llvm_load_value st Index 0 none 0 none) 3).2 Val d
            (range_checked rop op st (llvm_load_value st Index 0 none 0 none) 3).1 := by
  simp only [llvm_gen_compref, hR, hV, hI, hrc, hnc, Bool.false_and, Bool.not_false, if_true,
    Bool.false_eq_true, if_false]
  refine ⟨_, rfl, ?_, ?_⟩
  · rw [forBreak_calls _ _ (fun i s => store_calls _ _ _ _ _ _)]
    rfl
  · intro d hd
    rw [forBreak_three]
    have hc0 : comp_index Result 0 = 0 := comp_index_zero Result
    rcases copied_deriv_cases Result d hd with rfl | ⟨hder, rfl⟩ | ⟨hder, rfl⟩
    · cases hder : Result.has_derivs <;>
        simp [store_mem, elem_index, hc0, hder, range_checked]
    · simp (disch := decide) [store_mem, elem_index, hc0, hder, range_checked,
        load_component_store_ne]
    · simp (disch := decide) [store_mem, elem_index, hc0, hder, range_checked,
        load_component_store_ne]

theorem compassign_checked (rop : RuntimeOptimizer) (op : Opcode) (st : CodeGen)
    (Result Index Val : Symbol)
    (hR : opargsym op 0 = some Result) (hI : opargsym op 1 = some Index)
    (hV : opargsym op 2 = some Val)
    (hrc : rop.range_checking = true) (hnc : Index.is_constant = false) :
    ∃ st', llvm_gen_compassign rop op st = some (true, st') ∧
      st'.calls = st.calls ++ [range_check_call op (llvm_load_value st Index 0 none 0 none) 3] ∧
      (∀ d, copied_deriv Result d →
        st'.mem ⟨Result, d, 0,
            (range_checked rop op st (llvm_load_value st Index 0 none 0 none) 3).1.toInt⟩ =
          llvm_load_value
            (range_checked rop op st (llvm_load_value st Index 0 none 0 none) 3).2 Val d none 0
            (some ⟨.float, .color, 0⟩)) ∧
      (∀ x : Slot, ¬ (x.sym = Result ∧ x.arrayindex = 0 ∧ x.component =
            (range_checked rop op st (llvm_load_value st Index 0 none 0 none) 3).1.toInt) →
        st'.mem x =
          (range_checked rop op st (llvm_load_value st Index 0 none 0 none) 3).2.mem x) := by
  simp only [llvm_gen_compassign, hR, hV, hI, hrc, hnc, Bool.false_and, Bool.not_false,
    if_true, Bool.false_eq_true, if_false]
  refine ⟨_, rfl, ?_, ?_, ?_⟩
  · rw [forBreak_calls _ _ (fun i s => by
      unfold llvm_store_component_value
      split <;> rfl)]
    rfl
  · intro d hd
    rw [forBreak_three]
    rcases copied_deriv_cases Result d hd with rfl | ⟨hder, rfl⟩ | ⟨hder, rfl⟩
    · cases hder : Result.has_derivs <;>
        simp [store_component_mem, hder, range_checked]
    · simp (disch := decide) [store_component_mem, hder, range_checked,
        load_store_component_ne]
    · simp (disch := decide) [store_component_mem, hder, range_checked,
        load_store_component_ne]
  · intro x hx
    rw [forBreak_three]
    have hne : ∀ d, x ≠ ⟨Result, d, 0,
        (range_checked rop op st (llvm_load_value st Index 0 none 0 none) 3).1.toInt⟩ := by
      intro d h
      apply hx
      rw [h]
      exact ⟨rfl, rfl, rfl⟩
    simp only [range_checked] at hne
    cases hder : Result.has_derivs <;> simp [store_component_mem, hne, range_checked]

/-- The derivative loop around a component loop that stores, into element `ai`
of `R`, values computed from slots of the same derivative and component. -/
theorem elem_loop (R : Symbol) (ai : Option Value) (val : Nat → Nat → CodeGen → Value)
    (hval : ∀ d i st st', AgreeOff (othersE R (elem_index ai) i) st st' →
      val d i st = val d i st')
    (hacross : ∀ d i st st', (∀ x : Slot, x.deriv = d → st.mem x = st'.mem x) →
      val d i st = val d i st')
    (s0 : CodeGen) :
    (∀ d i, copied_deriv R d → i < R.typespec.aggregate →
      (forBreak (!R.has_derivs) 0 3 (fun d st =>
        forLoop R.typespec.aggregate (fun i st => llvm_store_value st (val d i st) R d ai i)
          st) s0).mem ⟨R, d, elem_index ai, i⟩ = val d i s0) ∧
    (∀ x : Slot, ¬ (x.sym = R ∧ x.arrayindex = elem_index ai) →
      (forBreak (!R.has_derivs) 0 3 (fun d st =>
        forLoop R.typespec.aggregate (fun i st => llvm_store_value st (val d i st) R d ai i)
          st) s0).mem x = s0.mem x) := by
  have F1 : ∀ d s i, i < R.typespec.aggregate → (R.has_derivs = true ∨ d = 0) →
      (forLoop R.typespec.aggregate (fun i st => llvm_store_value st (val d i st) R d ai i)
        s).mem ⟨R, d, elem_index ai, i⟩ = val d i s :=
    fun d s i hi hd => (pointwise_loopE R d ai (val d) (hval d) s).1 i hi hd
  have F2 : ∀ d s (x : Slot), ¬ (x.sym = R ∧ x.deriv = d ∧ x.arrayindex = elem_index ai) →
      (forLoop R.typespec.aggregate (fun i st => llvm_store_value st (val d i st) R d ai i)
        s).mem x = s.mem x :=
    fun d s x hx => (pointwise_loopE R d ai (val d) (hval d) s).2 x hx
  rw [forBreak_three]
  cases hder : R.has_derivs
  · simp only [Bool.not_false, if_true]
    refine ⟨?_, ?_⟩
    · intro d i hd hi
      rcases copied_deriv_cases R d hd with rfl | ⟨h, _⟩ | ⟨h, _⟩
      · exact F1 0 s0 i hi (Or.inr rfl)
      · rw [hder] at h; exact absurd h (by decide)
      · rw [hder] at h; exact absurd h (by decide)
    · intro x hx
      exact F2 0 s0 x (fun h => hx ⟨h.1, h.2.2⟩)
  · simp only [Bool.not_true, Bool.false_eq_true, if_false]
    refine ⟨?_, ?_⟩
    · intro d i hd hi
      rcases copied_deriv_cases R d hd with rfl | ⟨_, rfl⟩ | ⟨_, rfl⟩
      · rw [F2 2 _ _ (fun h => absurd h.2.1 (by simp)),
          F2 1 _ _ (fun h => absurd h.2.1 (by simp))]
        exact F1 0 s0 i hi (Or.inr rfl)
      · rw [F2 2 _ _ (fun h => absurd h.2.1 (by simp)), F1 1 _ i hi (Or.inl hder)]
        apply hacross
        intro x hx
        exact F2 0 s0 x (fun h => by rw [hx] at h; exact absurd h.2.1 (by decide))
      · rw [F1 2 _ i hi (Or.inl hder)]
        apply hacross
        intro x hx
        rw [F2 1 _ x (fun h => by rw [hx] at h; exact absurd h.2.1 (by decide)),
          F2 0 s0 x (fun h => by rw [hx] at h; exact absurd h.2.1 (by decide))]
    · intro x hx
      rw [F2 2 _ x (fun h => hx ⟨h.1, h.2.2⟩), F2 1 _ x (fun h => hx ⟨h.1, h.2.2⟩),
        F2 0 _ x (fun h => hx ⟨h.1, h.2.2⟩)]

theorem aref_checked (rop : RuntimeOptimizer) (op : Opcode) (st : CodeGen)
    (Result Src Index : Symbol)
    (hR : opargsym op 0 = some Result) (hS : opargsym op 1 = some Src)
    (hI : opargsym op 2 = some Index)
    (hagg : Src.typespec.aggregate = Result.typespec.aggregate)
    (hrc : rop.range_checking = true) (hnc : Index.is_constant = false) :
    ∃ st', llvm_gen_aref rop op st = some (true, st') ∧
      st'.calls = st.calls ++ [range_check_call op (llvm_load_value st Index 0 none 0 none)
        Src.typespec.arraylength] ∧
      ∀ d c, copied_deriv Result d → c < Result.typespec.aggregate →
        st'.mem ⟨Result, d, 0, c⟩ =
          llvm_load_value
            (range_checked rop op st (llvm_load_value st Index 0 none 0 none)
              Src.typespec.arraylength).2 Src d
            (some (range_checked rop op st (llvm_load_value st Index 0 none 0 none)
              Src.typespec.arraylength).1) c none := by
  simp only [llvm_gen_aref, hR, hS, hI, hrc, hnc, Bool.false_and, Bool.not_false, if_true,
    TypeSpec.simpletype, hagg]
  refine ⟨_, rfl, ?_, ?_⟩
  · refine (forBreak_calls _ _ (fun i s => forLoop_calls _
      (fun c s => store_calls _ _ _ _ _ _) _ _) _ _ _).trans ?_
    rfl
  · intro d c hd hc
    exact (elem_loop Result none
      (fun d i s => llvm_load_value s Src d
        (some (range_checked rop op st (llvm_load_value st Index 0 none 0 none)
          Src.typespec.arraylength).1) i none)
      (fun d i s s' h => load_agreeE Result _ i s s' h Src d _ none)
      (fun d i s s' h => load_congr _ _ _ _ _ _ _ (h _ rfl))
      (range_checked rop op st (llvm_load_value st Index 0 none 0 none)
        Src.typespec.arraylength).2).1 d c hd hc

theorem aassign_checked (rop : RuntimeOptimizer) (op : Opcode) (st : CodeGen)
    (Result Index Src : Symbol)
    (hR : opargsym op 0 = some Result) (hI : opargsym op 1 = some Index)
    (hS : opargsym op 2 = some Src)
    (hrc : rop.range_checking = true) (hnc : Index.is_constant = false) :
    ∃ st', llvm_gen_aassign rop op st = some (true, st') ∧
      st'.calls = st.calls ++ [range_check_call op (llvm_load_value st Index 0 none 0 none)
        Result.typespec.arraylength] ∧
      (∀ d c, copied_deriv Result d → c < Result.typespec.aggregate →
        st'.mem ⟨Result, d,
            (range_checked rop op st (llvm_load_value st Index 0 none 0 none)
              Result.typespec.arraylength).1.toInt, c⟩ =
          llvm_load_value
            (range_checked rop op st (llvm_load_value st Index 0 none 0 none)
              Result.typespec.arraylength).2 Src d none c none) ∧
      (∀ x : Slot, ¬ (x.sym = Result ∧ x.arrayindex =
            (range_checked rop op st (llvm_load_value st Index 0 none 0 none)
              Result.typespec.arraylength).1.toInt) →
        st'.mem x =
          (range_checked rop op st (llvm_load_value st Index 0 none 0 none)
            Result.typespec.arraylength).2.mem x) := by
  simp only [llvm_gen_aassign, hR, hS, hI, hrc, hnc, Bool.false_and, Bool.not_false, if_true,
    TypeSpec.simpletype]
  have key := elem_loop Result
      (some (range_checked rop op st (llvm_load_value st Index 0 none 0 none)
        Result.typespec.arraylength).1)
      (fun d i s => llvm_load_value s Src d none i none)
      (fun d i s s' h => load_agreeE Result _ i s s' h Src d _ none)
      (fun d i s s' h => load_congr _ _ _ _ _ _ _ (h _ rfl))
      (range_checked rop op st (llvm_load_value st Index 0 none 0 none)
        Result.typespec.arraylength).2
  refine ⟨_, rfl, ?_, ?_, ?_⟩
  · refine (forBreak_calls _ _ (fun i s => forLoop_calls _
      (fun c s => store_calls _ _ _ _ _ _) _ _) _ _ _).trans ?_
    rfl
  · intro d c hd hc
    exact key.1 d c hd hc
  · intro x hx
    exact key.2 x hx

/-- Claim C14: with range checking enabled and a non-constant index, each of
`compref`, `compassign`, `aref` and `aassign` succeeds and appends exactly one
`osl_range_check` call to the emitted calls; its arguments are the loaded index,
the static size of the container (3 for a triple, the declared length for an
array), the shader globals, and the source file and line of the instruction.
Every slot that the instruction copies (the value, and both derivatives when the
result carries them) is read or written at the index returned by that call, in
the store the call leaves behind. -/
theorem nonconstant_index_range_checked (rop : RuntimeOptimizer) (st : CodeGen)
    (Index : Symbol) (index : Value)
    (hrc : rop.range_checking = true) (hnc : Index.is_constant = false)
    (hidx : index = llvm_load_value st Index 0 none 0 none) :
    (∀ op Result Val, opargsym op 0 = some Result → opargsym op 1 = some Val →
      opargsym op 2 = some Index →
      ∃ st', llvm_gen_compref rop op st = some (true, st') ∧
        st'.calls = st.calls ++ [⟨"osl_range_check",
          [.val index, .val (.i 3), .sg, .val (.s op.sourcefile), .val (.i op.sourceline)],
          false⟩] ∧
        ∀ d, copied_deriv Result d →
          st'.mem ⟨Result, d, 0, 0⟩ =
            llvm_load_component_value (range_checked rop op st index 3).2 Val d
              (range_checked rop op st index 3).1) ∧
    (∀ op Result Val, opargsym op 0 = some Result → opargsym op 1 = some Index →
      opargsym op 2 = some Val →
      ∃ st', llvm_gen_compassign rop op st = some (true, st') ∧
        st'.calls = st.calls ++ [⟨"osl_range_check",
          [.val index, .val (.i 3), .sg, .val (.s op.sourcefile), .val (.i op.sourceline)],
          false⟩] ∧
        (∀ d, copied_deriv Result d →
          st'.mem ⟨Result, d, 0, (range_checked rop op st index 3).1.toInt⟩ =
            llvm_load_value (range_checked rop op st index 3).2 Val d none 0
              (some ⟨.float, .color, 0⟩)) ∧
        (∀ x : Slot, ¬ (x.sym = Result ∧ x.arrayindex = 0 ∧
            x.component = (range_checked rop op st index 3).1.toInt) →
          st'.mem x = (range_checked rop op st index 3).2.mem x)) ∧
    (∀ op Result Src, opargsym op 0 = some Result → opargsym op 1 = some Src →
      opargsym op 2 = some Index → Src.typespec.aggregate = Result.typespec.aggregate →
      ∃ st', llvm_gen_aref rop op st = some (true, st') ∧
        st'.calls = st.calls ++ [⟨"osl_range_check",
          [.val index, .val (.i Src.typespec.arraylength), .sg, .val (.s op.sourcefile),
            .val (.i op.sourceline)], false⟩] ∧
        ∀ d c, copied_deriv Result d → c < Result.typespec.aggregate →
          st'.mem ⟨Result, d, 0, c⟩ =
            llvm_load_value (range_checked rop op st index Src.typespec.arraylength).2 Src d
              (some (range_checked rop op st index Src.typespec.arraylength).1) c none) ∧
    (∀ op Result Src, opargsym op 0 = some Result → opargsym op 1 = some Index →
      opargsym op 2 = some Src →
      ∃ st', llvm_gen_aassign rop op st = some (true, st') ∧
        st'.calls = st.calls ++ [⟨"osl_range_check",
          [.val index, .val (.i Result.typespec.arraylength), .sg, .val (.s op.sourcefile),
            .val (.i op.sourceline)], false⟩] ∧
        (∀ d c, copied_deriv Result d → c < Result.typespec.aggregate →
          st'.mem ⟨Result, d,
              (range_checked rop op st index Result.typespec.arraylength).1.toInt, c⟩ =
            llvm_load_value (range_checked rop op st index Result.typespec.arraylength).2
              Src d none c none) ∧
        (∀ x : Slot, ¬ (x.sym = Result ∧ x.arrayindex =
              (range_checked rop op st index Result.typespec.arraylength).1.toInt) →
          st'.mem x = (range_checked rop op st index Result.typespec.arraylength).2.mem x)) := by
  subst hidx
  refine ⟨?_, ?_, ?_, ?_⟩
  · intro op Result Val hR hV hI
    exact compref_checked rop op st Result Val Index hR hV hI hrc hnc
  · intro op Result Val hR hI hV
    exact compassign_checked rop op st Result Index Val hR hI hV hrc hnc
  · intro op Result Src hR hS hI hagg
    exact aref_checked rop op st Result Src Index hR hS hI hagg hrc hnc
  · intro op Result Src hR hI hS
    exact aassign_checked rop op st Result Index Src hR hI hS hrc hnc

/-- Claim C14 at `x = a[i]` on the array `float a[3]` with range checking
enabled: one `osl_range_check` call with bound 3 and the source position
`test.osl:10`, and `x` receives the element of `a` at the index 0 that the
runtime of the example returns. -/
theorem nonconstant_index_range_checked_witness :
    ex_rop.range_checking = true ∧ ex_idx.is_constant = false ∧
    ∃ st', llvm_gen_aref ex_rop ex_aref_i ex_st = some (true, st') ∧
      st'.calls = [⟨"osl_range_check",
        [.val (.f 7), .val (.i 3), .sg, .val (.s "test.osl"), .val (.i 10)], false⟩] ∧
      st'.mem ⟨ex_elem, 0, 0, 0⟩ = ex_st.mem ⟨ex_arr, 0, 0, 0⟩ := by
  refine ⟨rfl, rfl, ?_⟩
  obtain ⟨st', h1, h2, h3⟩ :=
    (nonconstant_index_range_checked ex_rop ex_st ex_idx (.f 7) rfl rfl
      (by simp [llvm_load_value, ex_idx, Symbol.is_constant, ex_st, ex_mem, llvm_cast,
        ex_int])).2.2.1
      ex_aref_i ex_elem ex_arr rfl rfl rfl rfl
  refine ⟨st', h1, ?_, ?_⟩
  · rw [h2]
    simp [ex_st, ex_aref_i, ex_arr, ex_float3, TypeSpec.arraylength]
  · have h := h3 0 0 (Or.inl rfl) (by decide)
    simp only [Nat.cast_zero] at h
    rw [h]
    simp [range_checked, llvm_call_function, ex_rop, llvm_load_value, ex_arr, ex_float3,
      Symbol.is_constant, TypeSpec.is_array, llvm_cast, elem_index, comp_index,
      TypeSpec.aggregate, Value.toInt, ex_float]

/-- Claim C19 fails as stated: `texture` with the option `"fill"` and the int
value 5 reports an unknown optional argument and emits no
`osl_texture_set_fill` call. -/
theorem texture_fill_int_counterexample :
    (llvm_gen_texture ex_ts ex_rop ex_texture_fill ex_st).map
        (fun r => (r.2.1.calls.map Call.name, r.2.2))
      = some (["osl_texture_clear", "osl_texture"],
          [unknown_option ex_texture_fill false "fill" ex_int]) := by
  simp [llvm_gen_texture, llvm_gen_texture_options, texture_options_loop, texture_option,
    opargsym, ex_texture_fill, Opcode.nargs, ex_name_fill, ex_five, ex_int, ex_string,
    TypeSpec.is_string, TypeSpec.is_float, TypeSpec.is_int, TypeSpec.simpletype,
    Symbol.string_data, int_to_float_option, unknown_option, call_function_calls,
    ex_st]

theorem texture_option_promoted (ts : TextureSystem) (rop : RuntimeOptimizer) (op : Opcode)
    (tex3d : Bool) (opt : Value) (Name Val : Symbol) (s : TextureOptions)
    (hint : Val.typespec.is_int = true) (hname : Name.string_data ∈ promoted_options) :
    texture_option ts rop op tex3d opt Name Val s =
      { s with st := (emit_set_calls rop opt
          (llvm_int_to_float (llvm_load_value s.st Val 0 none 0 none))
          (float_option_calls tex3d Name.string_data) s.st) } := by
  simp only [promoted_options, List.mem_cons, List.mem_singleton, List.not_mem_nil,
    or_false] at hname
  rcases hname with h | h | h | h | h | h | h | h <;> cases tex3d <;>
    simp [texture_option, h, hint, int_to_float_option, TypeDesc_FLOAT, TypeSpec.is_float,
      TypeSpec.simpletype, float_option_calls, emit_set_calls]

theorem texture_option_not_promoted (ts : TextureSystem) (rop : RuntimeOptimizer)
    (op : Opcode) (tex3d : Bool) (opt : Value) (Name Val : Symbol) (s : TextureOptions)
    (hint : Val.typespec.is_int = true)
    (hname : Name.string_data = "fill" ∨ Name.string_data = "time") :
    texture_option ts rop op tex3d opt Name Val s =
      { s with errors := (s.errors ++
          [unknown_option op tex3d Name.string_data Val.typespec]) } := by
  have hf : Val.typespec.is_float = false := by
    simp only [TypeSpec.is_int, TypeSpec.is_float, Bool.and_eq_true, beq_iff_eq] at hint ⊢
    simp [hint.1, hint.2]
  have hs : Val.typespec.is_string = false := by
    simp only [TypeSpec.is_int, TypeSpec.is_string, Bool.and_eq_true, beq_iff_eq] at hint ⊢
    simp [hint.1, hint.2]
  rcases hname with h | h <;>
    simp [texture_option, h, hint, hf, hs, int_to_float_option, TypeSpec.simpletype,
      unknown_option]

/-- Claim C19, amended: in the option loop of `llvm_gen_texture_options`, a pair
whose name is one of width, swidth, twidth, rwidth, blur, sblur, tblur, rblur and
whose value is an int is dispatched to the set calls of that option on the value
converted to float, and reports nothing; a pair whose name is fill or time and
whose value is an int emits no call and reports an unknown optional argument of
type int.  In both cases the loop goes on with the remaining pairs. -/
theorem texture_options_int_promotion (ts : TextureSystem) (rop : RuntimeOptimizer)
    (op : Opcode) (tex3d : Bool) (opt : Value) (Name Val : Symbol) (rest : List Symbol)
    (s : TextureOptions)
    (hstr : Name.typespec.is_string = true) (hint : Val.typespec.is_int = true) :
    (Name.string_data ∈ promoted_options →
      texture_options_loop ts rop op tex3d opt (Name :: Val :: rest) s =
        texture_options_loop ts rop op tex3d opt rest
          { s with st := (emit_set_calls rop opt
              (llvm_int_to_float (llvm_load_value s.st Val 0 none 0 none))
              (float_option_calls tex3d Name.string_data) s.st) }) ∧
    (Name.string_data = "fill" ∨ Name.string_data = "time" →
      texture_options_loop ts rop op tex3d opt (Name :: Val :: rest) s =
        texture_options_loop ts rop op tex3d opt rest
          { s with errors := (s.errors ++
              [unknown_option op tex3d Name.string_data Val.typespec]) }) := by
  refine ⟨fun h => ?_, fun h => ?_⟩
  · rw [texture_options_loop, if_pos hstr,
      texture_option_promoted ts rop op tex3d opt Name Val s hint h]
  · rw [texture_options_loop, if_pos hstr,
      texture_option_not_promoted ts rop op tex3d opt Name Val s hint h]

/-- Claim C19 (amended) at the pair `"blur", 5` of a `texture` call: the calls
`osl_texture_set_sblur` and `osl_texture_set_tblur` are emitted on the float 5
and nothing is reported. -/
theorem texture_options_int_promotion_witness :
    ex_name_blur.typespec.is_string = true ∧ ex_five.typespec.is_int = true ∧
    ex_name_blur.string_data ∈ promoted_options ∧
    (texture_options_loop ex_ts ex_rop ex_texture_blur false texture_opt_alloca
        [ex_name_blur, ex_five] ⟨ex_st, [], none, none, none⟩).map
        (fun s => (s.st.calls, s.errors))
      = some ([⟨"osl_texture_set_sblur", [.val texture_opt_alloca, .val (.f 5)], false⟩,
               ⟨"osl_texture_set_tblur", [.val texture_opt_alloca, .val (.f 5)], false⟩],
              []) := by
  have hmem : ex_name_blur.string_data ∈ promoted_options := by
    simp [ex_name_blur, Symbol.string_data, promoted_options]
  refine ⟨rfl, rfl, hmem, ?_⟩
  rw [(texture_options_int_promotion ex_ts ex_rop ex_texture_blur false texture_opt_alloca
    ex_name_blur ex_five [] ⟨ex_st, [], none, none, none⟩ rfl rfl).1 hmem]
  simp [texture_options_loop, emit_set_calls, float_option_calls, ex_name_blur,
    Symbol.string_data, llvm_call_function2, call_function_calls, ex_st, llvm_load_value,
    ex_five, Symbol.is_constant, ex_int, TypeSpec.is_array, TypeSpec.aggregate, llvm_cast,
    llvm_int_to_float, Value.toRat]

/-- Claim C20 at its failing input: `texture3d ("tex.tx", P, "blur", 0.5)`
without user derivatives starts option parsing at operand 4, the value 0.5, so
the assertion that an option name is a string fails and nothing is lowered,
whereas `environment` on the same operands starts at operand 3 and emits the two
blur calls before `osl_environment`. -/
theorem llvm_gen_texture3d_first_option_skipped :
    llvm_gen_texture_options ex_ts ex_rop ex_texture3d 4 true ex_st = none ∧
    llvm_gen_texture3d ex_ts ex_rop ex_inst ex_texture3d ex_st = none ∧
    (llvm_gen_texture_options ex_ts ex_rop ex_texture3d 3 true ex_st).map
        (fun r => (r.2.st.calls.map Call.name, r.2.errors))
      = some (["osl_texture_clear", "osl_texture_set_sblur", "osl_texture_set_tblur",
          "osl_texture_set_rblur"], []) ∧
    (llvm_gen_environment ex_ts ex_rop ex_environment ex_st).map
        (fun r => (r.2.1.calls.map Call.name, r.2.2))
      = some (["osl_texture_clear", "osl_texture_set_sblur", "osl_texture_set_tblur",
          "osl_environment"], []) := by
  refine ⟨?_, ?_, ?_, ?_⟩
  · simp [llvm_gen_texture_options, texture_options_loop, ex_texture3d]
  · simp [llvm_gen_texture3d, llvm_gen_texture_options, texture_options_loop, opargsym,
      ex_texture3d, Opcode.nargs, ex_name_blur, ex_string, TypeSpec.is_triple]
  · simp [llvm_gen_texture_options, texture_options_loop, texture_option,
      ex_texture3d, ex_name_blur, ex_half, ex_float, ex_string,
      TypeSpec.is_string, TypeSpec.is_float, TypeSpec.is_int, TypeSpec.simpletype,
      Symbol.string_data, int_to_float_option, call_function_calls, llvm_call_function2,
      ex_st]
  · simp [llvm_gen_environment, llvm_gen_texture_options, texture_options_loop, texture_option,
      opargsym, ex_environment, Opcode.nargs, ex_name_blur, ex_half, ex_float, ex_string,
      TypeSpec.is_string, TypeSpec.is_float, TypeSpec.is_int, TypeSpec.is_triple,
      TypeSpec.simpletype, Symbol.string_data, int_to_float_option, call_function_calls,
      llvm_call_function2, ex_st]

/-- Claim C17 at its failing input: `Ci = diffuse (A)` passes a float where the
descriptor of `diffuse` declares a vector; `llvm_gen_closure` reports the
incompatible formal argument 1, yet allocates the component and returns true,
whereas for the unregistered closure `glass` it reports an error and returns
false. -/
theorem llvm_gen_closure_mismatch_returns_true :
    (llvm_gen_closure ex_ss ex_rop ex_closure_mismatch ex_st).map
        (fun r => (r.1, r.2.st.calls.map Call.name, r.2.messages))
      = some (true, ["osl_allocate_closure_component"],
          [incompatible_formal "diffuse" 0]) ∧
    (llvm_gen_closure ex_ss ex_rop ex_closure_unknown ex_st).map
        (fun r => (r.1, r.2.st.calls.map Call.name, r.2.messages.map Diagnostic.severity))
      = some (false, [], [.error]) := by
  refine ⟨?_, ?_⟩
  · simp [llvm_gen_closure, ex_closure_mismatch, Opcode.nargs, opargsym, ex_name_diffuse,
      Symbol.string_data, ex_ss, ex_diffuse, closure_formals, formal_type, ex_A0, ex_float,
      TypeSpec.simpletype, TypeSpec.is_closure_based, TypeSpec.is_structure, ex_vector,
      llvm_gen_keyword_fill, forLoopM, store_calls, call_function_calls, ex_st,
      incompatible_formal, closure_prepare, closure_setup]
  · simp [llvm_gen_closure, ex_closure_unknown, Opcode.nargs, opargsym, ex_name_glass,
      Symbol.string_data, ex_ss, ex_st]

/-- Claim C18 fails as stated: `Ci = diffuse (N, "bogus", 0.5, "label", "x")`
supplies two keyword pairs of which only `label` is declared, and the count
passed to `osl_allocate_closure_component` is 2. -/
theorem closure_attribute_count_counterexample :
    valid_pairs ex_closure_keywords ex_diffuse = 1 ∧
    (llvm_gen_closure ex_ss ex_rop ex_closure_keywords ex_st).map
        (fun r => (r.1, r.2.st.calls))
      = some (true, [allocate_call ex_diffuse 2]) := by
  refine ⟨?_, ?_⟩
  · simp [valid_pairs, ex_closure_keywords, Opcode.nargs, ex_diffuse, List.range,
      List.range.loop, opargsym, keyword_legal, forLoop, ex_key_bogus, ex_key_label, ex_half,
      ex_val_x, Symbol.string_data, TypeSpec.simpletype, ex_string, ex_float]
  · simp [llvm_gen_closure, ex_closure_keywords, Opcode.nargs, opargsym, ex_name_diffuse,
      Symbol.string_data, ex_ss, ex_diffuse, closure_formals, formal_type, ex_N, ex_vector,
      TypeSpec.simpletype, TypeSpec.is_closure_based, TypeSpec.is_structure,
      llvm_gen_keyword_fill, forLoopM, keyword_fill_pair, keyword_legal, forLoop,
      ex_key_bogus, ex_key_label, ex_half, ex_val_x, ex_string, ex_float,
      TypeSpec.is_string, Symbol.is_constant, store_calls, call_function_calls, ex_st,
      allocate_call, closure_prepare, closure_setup]

theorem opargsym_of_lt (op : Opcode) (k : Nat) (h : k < op.nargs) :
    ∃ s, opargsym op k = some s :=
  ⟨op.args.get ⟨k, h⟩, List.get?_eq_get h⟩

theorem closure_formals_ok (ss : ShadingSystem) (op : Opcode) (clentry : ClosureEntry)
    (name : String) (mem : RecordPtr) :
    ∀ (ps : List ClosureParam) (carg : Nat) (g : ClosureGen),
      carg + ps.length + 2 ≤ op.nargs →
      (∀ p ∈ ps, p.offset < clentry.struct_size) →
      ∃ gf, closure_formals ss op clentry name mem ps carg g = some gf ∧ gf.st = g.st ∧
        (∀ o ∈ gf.record, o ∈ g.record ∨
          ∃ off src len, o = .memcpy (.offset mem off) src len 4) := by
  intro ps
  induction ps with
  | nil =>
    intro carg g _ _
    exact ⟨g, rfl, rfl, fun o ho => Or.inl ho⟩
  | cons p ps ih =>
    intro carg g hlen hoff
    simp only [List.length_cons] at hlen
    obtain ⟨sym, hsym⟩ := opargsym_of_lt op (carg + 2) (by omega)
    have hp : p.offset < clentry.struct_size := hoff p (List.mem_cons_self _ _)
    have hrest : ∀ q ∈ ps, q.offset < clentry.struct_size :=
      fun q hq => hoff q (List.mem_cons_of_mem _ hq)
    unfold closure_formals
    by_cases hkey : p.key.isSome = true
    · rw [if_pos hkey]
      exact ⟨g, rfl, rfl, fun o ho => Or.inl ho⟩
    · rw [if_neg hkey, if_neg (not_not.mpr hp)]
      simp only [hsym]
      split
      · obtain ⟨gf, h1, h2, h3⟩ := ih (carg + 1)
          { g with record := g.record ++
            [.memcpy (.offset mem p.offset) (.ptr sym 0) (ss.type_size p.type) 4] }
          (by omega) hrest
        refine ⟨gf, h1, h2, ?_⟩
        intro o ho
        rcases h3 o ho with h | h
        · simp only [List.mem_append, List.mem_singleton] at h
          rcases h with h | h
          · exact Or.inl h
          · exact Or.inr ⟨_, _, _, h⟩
        · exact Or.inr h
      · obtain ⟨gf, h1, h2, h3⟩ := ih (carg + 1)
          { g with messages := g.messages ++ [⟨.error,
              "Incompatible formal argument %d to '%s' closure. Prototypes don't match renderer registry.",
              [.int (carg + 1), .str name]⟩] }
          (by omega) hrest
        exact ⟨gf, h1, h2, h3⟩

theorem keyword_fill_ok (ss : ShadingSystem) (op : Opcode) (clentry : ClosureEntry)
    (clname : String) (attr_p : RecordPtr) (off : Nat) (g : ClosureGen) :
    ∀ n, (∀ i, i < n → ∃ Key Val, opargsym op (i * 2 + off) = some Key ∧
        opargsym op (i * 2 + off + 1) = some Val ∧
        Key.typespec.is_string = true ∧ Key.is_constant = true) →
      ∃ g', forLoopM n (keyword_fill_pair ss op clentry clname attr_p off) g = some g' ∧
        g'.st = g.st ∧
        (∀ o, o ∈ g'.record ↔ o ∈ g.record ∨ ∃ i, i < n ∧ ∃ Key Val,
          opargsym op (i * 2 + off) = some Key ∧ opargsym op (i * 2 + off + 1) = some Val ∧
          keyword_legal clentry Key.string_data Val.typespec.simpletype = true ∧
          (o = .store (.s Key.string_data) (.field attr_p i 0) ∨
           o = .memcpy (.field attr_p i 1) (.ptr Val 0)
             (ss.type_size Val.typespec.simpletype) 4)) ∧
        (∀ d, d ∈ g'.messages ↔ d ∈ g.messages ∨ ∃ i, i < n ∧ ∃ Key Val,
          opargsym op (i * 2 + off) = some Key ∧ opargsym op (i * 2 + off + 1) = some Val ∧
          keyword_legal clentry Key.string_data Val.typespec.simpletype = false ∧
          d = unsupported_keyword op clname Key.string_data) := by
  intro n
  induction n with
  | zero =>
    intro _
    refine ⟨g, rfl, rfl, fun o => ?_, fun d => ?_⟩
    · constructor
      · exact fun h => Or.inl h
      · rintro (h | ⟨i, hi, _⟩)
        · exact h
        · exact absurd hi (Nat.not_lt_zero i)
    · constructor
      · exact fun h => Or.inl h
      · rintro (h | ⟨i, hi, _⟩)
        · exact h
        · exact absurd hi (Nat.not_lt_zero i)
  | succ n ih =>
    intro hk
    obtain ⟨g1, h1, hst, hrec, hmsg⟩ := ih (fun i hi => hk i (Nat.lt_succ_of_lt hi))
    obtain ⟨Key, Val, hK, hV, hstr, hconst⟩ := hk n (Nat.lt_succ_self n)
    simp only [forLoopM, h1, Option.bind]
    unfold keyword_fill_pair
    simp only [hK, hV, hstr, hconst, Bool.not_true, Bool.false_eq_true, if_false]
    cases hleg : keyword_legal clentry Key.string_data Val.typespec.simpletype
    · simp only [Bool.not_false, if_true]
      refine ⟨_, rfl, hst, fun o => ?_, fun d => ?_⟩
      · rw [hrec o]
        constructor
        · rintro (h | ⟨i, hi, h⟩)
          · exact Or.inl h
          · exact Or.inr ⟨i, Nat.lt_succ_of_lt hi, h⟩
        · rintro (h | ⟨i, hi, K, V, hK', hV', hl, h⟩)
          · exact Or.inl h
          · by_cases hin : i = n
            · subst hin
              rw [hK] at hK'
              rw [hV] at hV'
              cases hK'
              cases hV'
              rw [hleg] at hl
              exact absurd hl (by decide)
            · exact Or.inr ⟨i, by omega, K, V, hK', hV', hl, h⟩
      · simp only [List.mem_append, List.mem_singleton]
        rw [hmsg d]
        constructor
        · rintro ((h | ⟨i, hi, h⟩) | h)
          · exact Or.inl h
          · exact Or.inr ⟨i, Nat.lt_succ_of_lt hi, h⟩
          · exact Or.inr ⟨n, Nat.lt_succ_self n, Key, Val, hK, hV, hleg, h⟩
        · rintro (h | ⟨i, hi, K, V, hK', hV', hl, h⟩)
          · exact Or.inl (Or.inl h)
          · by_cases hin : i = n
            · subst hin
              rw [hK] at hK'
              rw [hV] at hV'
              cases hK'
              cases hV'
              exact Or.inr h
            · exact Or.inl (Or.inr ⟨i, by omega, K, V, hK', hV', hl, h⟩)
    · simp only [Bool.not_true, Bool.false_eq_true, if_false]
      refine ⟨_, rfl, hst, fun o => ?_, fun d => ?_⟩
      · simp only [List.mem_append, List.mem_cons, List.mem_singleton, List.not_mem_nil,
          or_false]
        rw [hrec o]
        constructor
        · rintro ((h | ⟨i, hi, h⟩) | h)
          · exact Or.inl h
          · exact Or.inr ⟨i, Nat.lt_succ_of_lt hi, h⟩
          · exact Or.inr ⟨n, Nat.lt_succ_self n, Key, Val, hK, hV, hleg, h⟩
        · rintro (h | ⟨i, hi, K, V, hK', hV', hl, h⟩)
          · exact Or.inl (Or.inl h)
          · by_cases hin : i = n
            · subst hin
              rw [hK] at hK'
              rw [hV] at hV'
              cases hK'
              cases hV'
              exact Or.inr h
            · exact Or.inl (Or.inr ⟨i, by omega, K, V, hK', hV', hl, h⟩)
      · rw [hmsg d]
        constructor
        · rintro (h | ⟨i, hi, h⟩)
          · exact Or.inl h
          · exact Or.inr ⟨i, Nat.lt_succ_of_lt hi, h⟩
        · rintro (h | ⟨i, hi, K, V, hK', hV', hl, h⟩)
          · exact Or.inl h
          · by_cases hin : i = n
            · subst hin
              rw [hK] at hK'
              rw [hV] at hV'
              cases hK'
              cases hV'
              rw [hleg] at hl
              exact absurd hl (by decide)
            · exact Or.inr ⟨i, by omega, K, V, hK', hV', hl, h⟩

/-- Claim C18, amended: for a closure instruction that names a registered
closure, with its positional arguments present and constant string keys,
`llvm_gen_closure` succeeds, and the attribute count passed to
`osl_allocate_closure_component` is the number of supplied keyword pairs.  A
pair that the descriptor does not declare is reported by a warning and no
instruction writes its slot of the attribute array; a declared pair has its key
stored and its value copied at the slot of its own position among the supplied
pairs. -/
theorem closure_keyword_attributes (ss : ShadingSystem) (rop : RuntimeOptimizer)
    (op : Opcode) (st : CodeGen) (Result Id : Symbol) (clentry : ClosureEntry)
    (comp : Value)
    (hR : opargsym op 0 = some Result) (hId : opargsym op 1 = some Id)
    (hfind : ss.find_closure Id.string_data = some clentry)
    (hnargs : 2 + clentry.nformal ≤ op.nargs)
    (hoff : ∀ p ∈ clentry.params.take clentry.nformal, p.offset < clentry.struct_size)
    (hkeys : ∀ i, i < (op.nargs - (2 + clentry.nformal)) / 2 →
      ∃ Key, opargsym op (i * 2 + (clentry.nformal + 2)) = some Key ∧
        Key.typespec.is_string = true ∧ Key.is_constant = true)
    (hcomp : comp = (llvm_call_function rop st "osl_allocate_closure_component"
      (allocate_call clentry ((op.nargs - (2 + clentry.nformal)) / 2 : Nat)).args false).1) :
    ∃ g, llvm_gen_closure ss rop op st = some (true, g) ∧
      g.st.calls = st.calls ++
        [allocate_call clentry ((op.nargs - (2 + clentry.nformal)) / 2 : Nat)] ∧
      ∀ i Key Val, i < (op.nargs - (2 + clentry.nformal)) / 2 →
        opargsym op (i * 2 + (clentry.nformal + 2)) = some Key →
        opargsym op (i * 2 + (clentry.nformal + 2) + 1) = some Val →
        (keyword_legal clentry Key.string_data Val.typespec.simpletype = false →
          unsupported_keyword op Id.string_data Key.string_data ∈ g.messages ∧
          ∀ o ∈ g.record, ¬ writes_attr (closure_attrs comp clentry) i o) ∧
        (keyword_legal clentry Key.string_data Val.typespec.simpletype = true →
          RecordOp.store (.s Key.string_data) (.field (closure_attrs comp clentry) i 0)
            ∈ g.record ∧
          RecordOp.memcpy (.field (closure_attrs comp clentry) i 1) (.ptr Val 0)
            (ss.type_size Val.typespec.simpletype) 4 ∈ g.record) := by
  subst hcomp
  have h2 : ¬ op.nargs < 2 := by omega
  have h3 : ¬ op.nargs < 2 + clentry.nformal := by omega
  have hkeys2 : ∀ i, i < (op.nargs - (clentry.nformal + 2)) / 2 → ∃ Key Val,
      opargsym op (i * 2 + (clentry.nformal + 2)) = some Key ∧
      opargsym op (i * 2 + (clentry.nformal + 2) + 1) = some Val ∧
      Key.typespec.is_string = true ∧ Key.is_constant = true := by
    intro i hi
    obtain ⟨Key, hK, hs, hc⟩ := hkeys i (by rw [Nat.add_comm 2]; exact hi)
    obtain ⟨Val, hV⟩ := opargsym_of_lt op (i * 2 + (clentry.nformal + 2) + 1) (by omega)
    exact ⟨Key, Val, hK, hV, hs, hc⟩
  simp only [llvm_gen_closure, if_neg h2, hR, hId, hfind, if_neg h3]
  obtain ⟨gf, hgf, hgfst, hgfrec⟩ := closure_formals_ok ss op clentry Id.string_data
    (.field (.base (llvm_call_function rop st "osl_allocate_closure_component"
      (allocate_call clentry ((op.nargs - (2 + clentry.nformal)) / 2 : Nat)).args false).1) 0 4)
    (clentry.params.take clentry.nformal) 0
    (closure_prepare clentry ss.renderer (.i clentry.id)
      (.field (.base (llvm_call_function rop st "osl_allocate_closure_component"
        (allocate_call clentry ((op.nargs - (2 + clentry.nformal)) / 2 : Nat)).args false).1)
        0 4)
      (llvm_store_value (llvm_call_function rop st "osl_allocate_closure_component"
        (allocate_call clentry ((op.nargs - (2 + clentry.nformal)) / 2 : Nat)).args false).2
        (llvm_call_function rop st "osl_allocate_closure_component"
        (allocate_call clentry ((op.nargs - (2 + clentry.nformal)) / 2 : Nat)).args false).1
        Result 0 none 0))
    (by
      have := List.length_take_le clentry.nformal clentry.params
      omega) hoff
  obtain ⟨g, hg, hgst, hgrec, hgmsg⟩ := keyword_fill_ok ss op clentry Id.string_data
    (closure_attrs (llvm_call_function rop st "osl_allocate_closure_component"
      (allocate_call clentry ((op.nargs - (2 + clentry.nformal)) / 2 : Nat)).args false).1
      clentry) (clentry.nformal + 2)
    (closure_setup clentry ss.renderer (.i clentry.id)
      (.field (.base (llvm_call_function rop st "osl_allocate_closure_component"
        (allocate_call clentry ((op.nargs - (2 + clentry.nformal)) / 2 : Nat)).args false).1)
        0 4) gf)
    ((op.nargs - (clentry.nformal + 2)) / 2) hkeys2
  have hsetup_st : ∀ r i m g', (closure_setup clentry r i m g').st = g'.st := by
    intro r i m g'
    unfold closure_setup
    split <;> rfl
  have hsetup_rec : ∀ r i m g' o, o ∈ (closure_setup clentry r i m g').record →
      o ∈ g'.record ∨ ∃ f, o = .callback f r i m := by
    intro r i m g' o
    unfold closure_setup
    split
    · intro h
      simp only [List.mem_append, List.mem_singleton] at h
      rcases h with h | h
      · exact Or.inl h
      · exact Or.inr ⟨_, h⟩
    · exact fun h => Or.inl h
  have hprep_st : ∀ r i m s, (closure_prepare clentry r i m s).st = s := by
    intro r i m s
    unfold closure_prepare
    split <;> rfl
  have hprep_rec : ∀ r i m s o, o ∈ (closure_prepare clentry r i m s).record →
      (∃ f, o = .callback f r i m) ∨ o = .memset m 0 clentry.struct_size 4 := by
    intro r i m s o
    unfold closure_prepare
    split
    · intro h
      exact Or.inl ⟨_, List.mem_singleton.mp h⟩
    · intro h
      exact Or.inr (List.mem_singleton.mp h)
  refine ⟨g, ?_, ?_, ?_⟩
  · show (closure_formals _ _ _ _ _ _ _ _).bind _ = _
    erw [hgf]
    simp only [Option.bind]
    have hN : (op.nargs - (clentry.nformal + 2)) / 2 = (op.nargs - (clentry.nformal + 2)) / 2 :=
      rfl
    show (llvm_gen_keyword_fill _ _ _ _ _ _ _).map _ = _
    unfold llvm_gen_keyword_fill
    erw [hg]
    rfl
  · rw [hgst, hsetup_st, hgfst, hprep_st, store_calls, call_function_calls]
    rfl
  · intro i Key Val hi hK hV
    have hi2 : i < (op.nargs - (clentry.nformal + 2)) / 2 := by
      rw [Nat.add_comm]; exact hi
    refine ⟨fun hleg => ⟨?_, ?_⟩, fun hleg => ⟨?_, ?_⟩⟩
    · exact (hgmsg _).2 (Or.inr ⟨i, hi2, Key, Val, hK, hV, hleg, rfl⟩)
    · intro o ho hw
      rcases (hgrec o).1 ho with h | ⟨j, hj, K, V, hK', hV', hl, h⟩
      · rcases hsetup_rec _ _ _ _ _ h with h | ⟨f, h⟩
        · rcases hgfrec o h with h | ⟨off, src, len, h⟩
          · rcases hprep_rec _ _ _ _ _ h with ⟨f, h⟩ | h
            · subst h
              exact hw
            · subst h
              obtain ⟨f, hf⟩ := hw
              simp [closure_attrs, closure_mem] at hf
          · subst h
            obtain ⟨f, hf⟩ := hw
            simp [closure_attrs, closure_mem] at hf
        · subst h
          exact hw
      · have hji : j = i := by
          rcases h with h | h <;> subst h <;> obtain ⟨f, hf⟩ := hw <;>
            · simp only [RecordPtr.field.injEq] at hf
              exact_mod_cast hf.2.1
        subst hji
        rw [hK] at hK'
        rw [hV] at hV'
        cases hK'
        cases hV'
        rw [hleg] at hl
        exact absurd hl (by decide)
    · exact (hgrec _).2 (Or.inr ⟨i, hi2, Key, Val, hK, hV, hleg, Or.inl rfl⟩)
    · exact (hgrec _).2 (Or.inr ⟨i, hi2, Key, Val, hK, hV, hleg, Or.inr rfl⟩)

/-- Claim C18 (amended) at `Ci = diffuse (N, "bogus", 0.5, "label", "x")`: the
count passed to the allocator is 2, the pair `bogus` is reported and slot 0 of
the attribute array is not written, and the key of the pair `label` is stored in
slot 1. -/
theorem closure_keyword_attributes_witness :
    ex_ss.find_closure ex_name_diffuse.string_data = some ex_diffuse ∧
    2 + ex_diffuse.nformal ≤ ex_closure_keywords.nargs ∧
    ∃ g, llvm_gen_closure ex_ss ex_rop ex_closure_keywords ex_st = some (true, g) ∧
      g.st.calls = [allocate_call ex_diffuse 2] ∧
      unsupported_keyword ex_closure_keywords "diffuse" "bogus" ∈ g.messages ∧
      (∀ o ∈ g.record, ¬ writes_attr (closure_attrs (.i 0) ex_diffuse) 0 o) ∧
      RecordOp.store (.s "label") (.field (closure_attrs (.i 0) ex_diffuse) 1 0) ∈ g.record := by
  have hfind : ex_ss.find_closure ex_name_diffuse.string_data = some ex_diffuse := by
    simp [ex_ss, ex_name_diffuse, Symbol.string_data]
  have hn : 2 + ex_diffuse.nformal ≤ ex_closure_keywords.nargs := by
    simp [ex_diffuse, ex_closure_keywords, Opcode.nargs]
  refine ⟨hfind, hn, ?_⟩
  obtain ⟨g, h1, h2, h3⟩ := closure_keyword_attributes ex_ss ex_rop ex_closure_keywords ex_st
    ex_Ci ex_name_diffuse ex_diffuse (.i 0) rfl rfl hfind hn
    (by simp [ex_diffuse])
    (by
      intro i hi
      have hi2 : i < 2 := by
        simpa [ex_diffuse, ex_closure_keywords, Opcode.nargs] using hi
      interval_cases i
      · exact ⟨ex_key_bogus, rfl, rfl, rfl⟩
      · exact ⟨ex_key_label, rfl, rfl, rfl⟩)
    rfl
  have hN : (ex_closure_keywords.nargs - (2 + ex_diffuse.nformal)) / 2 = 2 := by
    simp [ex_diffuse, ex_closure_keywords, Opcode.nargs]
  have hb := (h3 0 ex_key_bogus ex_half (by rw [hN]; decide) rfl rfl).1
    (by simp [keyword_legal, forLoop, ex_diffuse, ex_key_bogus, Symbol.string_data])
  have hl := (h3 1 ex_key_label ex_val_x (by rw [hN]; decide) rfl rfl).2
    (by simp [keyword_legal, forLoop, ex_diffuse, ex_key_label, Symbol.string_data, ex_val_x,
      TypeSpec.simpletype])
  refine ⟨g, h1, ?_, ?_, ?_, ?_⟩
  · rw [h2, hN]
    rfl
  · simpa [ex_name_diffuse, ex_key_bogus, Symbol.string_data] using hb.1
  · exact hb.2
  · simpa [ex_key_label, Symbol.string_data] using hl.1

theorem call_layers_cons (rop : LayerContext) (x : Int) (xs : List Int) (b : Builder) :
    call_layers rop (x :: xs) b = call_layers rop xs (llvm_call_layer rop x false b) := rfl

/-- Claim C30 at its failing input: `Result = filterwidth (A)` for a float `A`
without derivatives (holding 2) zeroes `A` and leaves the value and the
derivative slots of `Result` as they were (7 in the example store), whereas
`Dz` on the same operands zeroes `Result` and leaves `A` alone. -/
theorem llvm_gen_filterwidth_zeroes_source :
    ex_st.mem ⟨ex_A0, 0, 0, 0⟩ = .f 2 ∧ ex_st.mem ⟨ex_R, 0, 0, 0⟩ = .f 7 ∧
    (llvm_gen_filterwidth ex_rop ex_filterwidth ex_st).map (fun r =>
        (r.2.mem ⟨ex_A0, 0, 0, 0⟩, r.2.mem ⟨ex_R, 0, 0, 0⟩, r.2.mem ⟨ex_R, 1, 0, 0⟩,
          r.2.mem ⟨ex_R, 2, 0, 0⟩))
      = some (.f 0, .f 7, .f 7, .f 7) ∧
    (llvm_gen_Dz ex_rop ex_inst ex_Dz ex_st).map (fun r =>
        (r.2.mem ⟨ex_A0, 0, 0, 0⟩, r.2.mem ⟨ex_R, 0, 0, 0⟩, r.2.mem ⟨ex_R, 1, 0, 0⟩,
          r.2.mem ⟨ex_R, 2, 0, 0⟩))
      = some (.f 2, .f 0, .f 0, .f 0) := by
  refine ⟨?_, ?_, ?_, ?_⟩
  · simp [ex_st, ex_mem, ex_A0]
  · simp [ex_st, ex_mem, ex_R]
  · simp [llvm_gen_filterwidth, opargsym, ex_filterwidth, ex_A0, ex_R, ex_float,
      TypeSpec.is_float, TypeSpec.is_triple, llvm_assign_zero, ex_st, ex_mem]
  · simp [llvm_gen_Dz, opargsym, ex_Dz, ex_inst, ShaderInstance.symbol, ex_P, ex_A0, ex_R,
      ex_float, llvm_assign_zero, ex_st, ex_mem]

/-- Claim C29 at its failing input: `Pout = transform ("object", P)` has no
from-space operand and is not an identity, so building the arguments loads the
absent operand and nothing is lowered, whereas the four-operand form with the
from-space `"common"` emits one `osl_transform_triple` call. -/
theorem llvm_gen_transform_absent_from :
    llvm_gen_transform ex_tsv ex_rop ex_transform3 ex_st = none ∧
    (llvm_gen_transform ex_tsv ex_rop ex_transform4 ex_st).map (fun r =>
        (r.1, r.2.calls.map (fun c => (c.name, c.args.get? 5))))
      = some (true, [("osl_transform_triple", some (.val (.s "common")))]) := by
  refine ⟨?_, ?_⟩
  · simp [llvm_gen_transform, opargsym, ex_transform3, Opcode.nargs, ex_name_object,
      ex_string, TypeSpec.is_matrix, Symbol.is_constant, Symbol.string_data, ex_tsv]
  · simp [llvm_gen_transform, opargsym, ex_transform4, Opcode.nargs, ex_name_object,
      ex_name_common, ex_string, TypeSpec.is_matrix, Symbol.is_constant, Symbol.string_data,
      ex_tsv, call_function_calls, ex_st, llvm_load_value, TypeSpec.is_array,
      TypeSpec.aggregate, llvm_cast]

theorem spec_type_letter_no_d (s : Symbol) : 'd' ∉ (spec_type_letter s).toList := by
  unfold spec_type_letter
  split_ifs <;> decide

theorem spec_signature_d_iff (marks : Symbol → Bool) (l : List Symbol) :
    'd' ∈ (spec_signature marks l).toList ↔ ∃ s ∈ l, marks s = true := by
  induction l with
  | nil => simp [spec_signature]
  | cons s rest ih =>
    simp only [spec_signature, String.toList, String.data_append, List.mem_append,
      List.mem_cons, exists_eq_or_imp]
    have hl := spec_type_letter_no_d s
    simp only [String.toList] at hl ih
    rw [ih]
    cases hm : marks s
    · simp [hl]
    · simp

theorem any_deriv_args_take (op : Opcode) :
    ∀ k, k ≤ op.args.length →
      forLoop k (fun i any_deriv_args =>
        match opargsym op i with
        | some s => any_deriv_args || (decide (i > 0) && s.has_derivs && !s.typespec.is_matrix)
        | none => any_deriv_args) false =
      ((op.args.take k).drop 1).any (fun s => s.has_derivs && !s.typespec.is_matrix) := by
  intro k
  induction k with
  | zero => intro _; rfl
  | succ k ih =>
    intro hk
    have hlt : k < op.args.length := hk
    rw [forLoop_succ, ih (Nat.le_of_lt hlt)]
    have hget : opargsym op k = some (op.args[k]) := List.get?_eq_get hlt
    simp only [hget]
    rw [List.take_succ, List.getElem?_eq_getElem hlt]
    simp only [Option.toList]
    cases k with
    | zero => simp
    | succ j =>
      have hne : (op.args.take (j + 1)).length = j + 1 := by
        rw [List.length_take]; omega
      rw [List.drop_append_of_le_length (by omega)]
      simp

theorem any_deriv_args_eq (op : Opcode) :
    generic_any_deriv_args op =
      (op.args.drop 1).any (fun s => s.has_derivs && !s.typespec.is_matrix) := by
  have h := any_deriv_args_take op op.args.length (le_refl _)
  rw [List.take_length] at h
  exact h

theorem deriv_passing_mode_eq (op : Opcode) (Result : Symbol) :
    deriv_passing_mode op Result = (Result.has_derivs && generic_deriv_mode op) := by
  unfold deriv_passing_mode generic_deriv_mode
  rw [any_deriv_args_eq]
  cases Result.has_derivs <;> simp

/-- Claim C26: when every operand is a float, triple, matrix, string or int,
`llvm_gen_generic` emits exactly one call, named `osl_` + opname + `_` +
signature, and the signature contains a `d` marker if and only if the call is made
in derivative-passing mode, which is the case exactly when the result has
derivatives, some operand other than the result has derivatives and is not a
matrix, and the operator is not on the non-differentiable list.  In every other
case the signature has no `d` and the derivative slots of the result are zero
after the call. -/
theorem llvm_gen_generic_deriv_marker (rop : RuntimeOptimizer) (op : Opcode) (st : CodeGen)
    (Result : Symbol) (hR : opargsym op 0 = some Result)
    (hvalid : ∀ s, s ∈ op.args → generic_type s = true) :
    ∃ st' call sig, llvm_gen_generic rop op st = some (true, st') ∧
      st'.calls = st.calls ++ [call] ∧
      call.name = "osl_" ++ op.opname ++ "_" ++ sig ∧
      call.deriv_ptrs = deriv_passing_mode op Result ∧
      ('d' ∈ sig.toList ↔ deriv_passing_mode op Result = true) ∧
      (deriv_passing_mode op Result = false →
        'd' ∉ sig.toList ∧ (Result.has_derivs = true → DerivsZeroed Result st')) := by
  have hmode : (if generic_any_deriv_args op = true then
      (if no_deriv_op op.opname = true then false else generic_any_deriv_args op)
      else generic_any_deriv_args op) = generic_deriv_mode op := by
    unfold generic_deriv_mode
    cases generic_any_deriv_args op <;> cases no_deriv_op op.opname <;> rfl
  have hd : 'd' ∈ (spec_signature (fun s => generic_deriv_mode op && Result.has_derivs &&
      s.has_derivs && !s.typespec.is_matrix) op.args).toList ↔
      deriv_passing_mode op Result = true := by
    rw [spec_signature_d_iff]
    constructor
    · rintro ⟨s, _, hs⟩
      rw [deriv_passing_mode_eq]
      simp only [Bool.and_eq_true] at hs ⊢
      exact ⟨hs.1.1.2, hs.1.1.1⟩
    · intro h
      have h' := h
      rw [deriv_passing_mode_eq, Bool.and_eq_true] at h'
      unfold deriv_passing_mode at h
      simp only [Bool.and_eq_true, List.any_eq_true] at h
      obtain ⟨⟨_, s, hs, hsd⟩, _⟩ := h
      refine ⟨s, List.mem_of_mem_drop hs, ?_⟩
      simp only [Bool.and_eq_true] at hsd ⊢
      exact ⟨⟨⟨h'.2, h'.1⟩, hsd.1⟩, hsd.2⟩
  simp only [llvm_gen_generic, hR, hmode, generic_name_eq op Result _ hvalid, Option.bind]
  rw [deriv_passing_mode_eq] at hd ⊢
  cases hRd : Result.has_derivs <;> cases hgm : generic_deriv_mode op <;>
    simp only [hRd, hgm, Bool.not_true, Bool.not_false, Bool.or_true, Bool.or_false,
      Bool.true_or, Bool.false_or, if_true, if_false, Bool.false_eq_true, Bool.and_false,
      Bool.and_true, Bool.false_and, Bool.and_self] at hd ⊢
  · split
    · exact ⟨_, _, _, rfl, by rw [zero_derivs_calls, store_calls]; rfl, rfl, rfl,
        by simpa using hd, fun _ => ⟨by simpa using hd, fun h => absurd h (by decide)⟩⟩
    · exact ⟨_, _, _, rfl, by rw [zero_derivs_calls]; rfl, rfl, rfl,
        by simpa using hd, fun _ => ⟨by simpa using hd, fun h => absurd h (by decide)⟩⟩
  · split
    · exact ⟨_, _, _, rfl, by rw [zero_derivs_calls, store_calls]; rfl, rfl, rfl,
        by simpa using hd, fun _ => ⟨by simpa using hd, fun h => absurd h (by decide)⟩⟩
    · exact ⟨_, _, _, rfl, by rw [zero_derivs_calls]; rfl, rfl, rfl,
        by simpa using hd, fun _ => ⟨by simpa using hd, fun h => absurd h (by decide)⟩⟩
  · split
    · exact ⟨_, _, _, rfl, by rw [zero_derivs_calls, store_calls]; rfl, rfl, rfl,
        by simpa using hd, fun _ => ⟨by simpa using hd, fun _ => zero_derivs_zeroed _ _ hRd⟩⟩
    · exact ⟨_, _, _, rfl, by rw [zero_derivs_calls]; rfl, rfl, rfl,
        by simpa using hd, fun _ => ⟨by simpa using hd, fun _ => zero_derivs_zeroed _ _ hRd⟩⟩
  · exact ⟨_, _, _, rfl, rfl, rfl, rfl, by simpa using hd, fun h => absurd h (by decide)⟩

/-- Claim C26 at `Result = sin (A)` with derivatives on both operands: the call
is made in derivative-passing mode and its signature contains a `d`. -/
theorem llvm_gen_generic_deriv_marker_witness :
    opargsym ex_sin 0 = some ex_R ∧ (∀ s, s ∈ ex_sin.args → generic_type s = true) ∧
    deriv_passing_mode ex_sin ex_R = true ∧
    ∃ st' call sig, llvm_gen_generic ex_rop ex_sin ex_st = some (true, st') ∧
      st'.calls = ex_st.calls ++ [call] ∧
      call.name = "osl_" ++ ex_sin.opname ++ "_" ++ sig ∧
      call.deriv_ptrs = true ∧ 'd' ∈ sig.toList := by
  have hv : ∀ s, s ∈ ex_sin.args → generic_type s = true := by decide
  have hm : deriv_passing_mode ex_sin ex_R = true := by decide
  obtain ⟨st', call, sig, h1, h2, h3, h4, h5, _⟩ :=
    llvm_gen_generic_deriv_marker ex_rop ex_sin ex_st ex_R rfl hv
  exact ⟨rfl, hv, hm, st', call, sig, h1, h2, h3, by rw [h4, hm], h5.2 hm⟩

theorem pointcloud_attr_capacity (st : CodeGen) (Center Name Val : Symbol)
    (a : PointcloudArgs) :
    (pointcloud_attr st Center Name Val a).capacity = min Val.typespec.numelements a.capacity := by
  unfold pointcloud_attr
  simp only [TypeSpec.simpletype]
  split_ifs <;> rfl

theorem search_loop_ok (op : Opcode) (st : CodeGen) (Center : Symbol) (a0 : PointcloudArgs)
    (h0 : a0.capacity = 0x7FFFFFFF) :
    ∀ n, (∀ i, i < n → ∃ Name Val, opargsym op (5 + i * 2) = some Name ∧
        opargsym op (5 + i * 2 + 1) = some Val ∧ Name.typespec.is_string = true) →
      ∃ a, forLoopM n (pointcloud_attr_step op st Center) a0 = some a ∧
        a.capacity = search_capacity op n := by
  intro n
  induction n with
  | zero =>
    intro _
    exact ⟨a0, rfl, h0⟩
  | succ n ih =>
    intro h
    obtain ⟨a, ha, hcap⟩ := ih (fun i hi => h i (Nat.lt_succ_of_lt hi))
    obtain ⟨Name, Val, hN, hV, hs⟩ := h n (Nat.lt_succ_self n)
    refine ⟨pointcloud_attr st Center Name Val a, ?_, ?_⟩
    · simp [forLoopM, ha, pointcloud_attr_step, hN, hV, hs]
    · rw [pointcloud_attr_capacity, hcap]
      simp [search_capacity, hV]

theorem zero_derivs_count_calls (st : CodeGen) (sym : Symbol) (count : Value) :
    (llvm_zero_derivs_count st sym count).calls = st.calls := by
  unfold llvm_zero_derivs_count
  split <;> rfl

theorem clear_derivs_calls (l : List Symbol) (count : Value) :
    ∀ st : CodeGen, (l.foldl (fun st s => llvm_zero_derivs_count st s count) st).calls
      = st.calls := by
  induction l with
  | nil => intro st; rfl
  | cons s rest ih =>
    intro st
    rw [List.foldl_cons, ih, zero_derivs_count_calls]

theorem zero_derivs_count_value (st : CodeGen) (sym : Symbol) (count : Value) (x : Slot)
    (h : x.deriv = 0) : (llvm_zero_derivs_count st sym count).mem x = st.mem x := by
  unfold llvm_zero_derivs_count
  split
  · simp [h]
  · rfl

theorem search_pairs_present (op : Opcode)
    (hpar : ((op.nargs : Int) - 5) % 2 = 0)
    (hnames : ∀ i, i < (op.nargs - 5) / 2 →
      ∃ Name, opargsym op (5 + i * 2) = some Name ∧ Name.typespec.is_string = true) :
    ∀ i, i < (op.nargs - 5) / 2 → ∃ Name Val, opargsym op (5 + i * 2) = some Name ∧
      opargsym op (5 + i * 2 + 1) = some Val ∧ Name.typespec.is_string = true := by
  intro i hi
  obtain ⟨Name, hN, hs⟩ := hnames i hi
  obtain ⟨Val, hV⟩ := opargsym_of_lt op (5 + i * 2 + 1) (by omega)
  exact ⟨Name, Val, hN, hV, hs⟩

/-- Claim C21: for a `pointcloud_search` whose attribute names are strings, let
the capacity be the minimum element count over the values of all trailing
name/value pairs (under the 32-bit limit).  The lowering succeeds.  When the
capacity is at least the loaded `max_points`, the generated code makes exactly
one call, `osl_pointcloud_search`, with `max_points` as its fifth argument; when
the capacity is smaller it makes exactly one call, `osl_error` with the error
format and the source file and line of the instruction, and no
`osl_pointcloud_search` call. -/
theorem pointcloud_search_capacity_guard (rop : RuntimeOptimizer) (op : Opcode)
    (st : CodeGen) (Result Filename Center Radius Max_points : Symbol)
    (hR : opargsym op 0 = some Result) (hF : opargsym op 1 = some Filename)
    (hC : opargsym op 2 = some Center) (hRad : opargsym op 3 = some Radius)
    (hM : opargsym op 4 = some Max_points)
    (hpar : ((op.nargs : Int) - 5) % 2 = 0)
    (hnames : ∀ i, i < (op.nargs - 5) / 2 →
      ∃ Name, opargsym op (5 + i * 2) = some Name ∧ Name.typespec.is_string = true) :
    ∃ st', llvm_gen_pointcloud_search rop op st = some (true, st') ∧
      ((llvm_load_value st Max_points 0 none 0 none).toInt ≤
          (search_capacity op ((op.nargs - 5) / 2) : Int) →
        ∃ args, st'.calls = st.calls ++ [⟨"osl_pointcloud_search", args, false⟩] ∧
          args.get? 4 = some (.val (llvm_load_value st Max_points 0 none 0 none))) ∧
      ((search_capacity op ((op.nargs - 5) / 2) : Int) <
          (llvm_load_value st Max_points 0 none 0 none).toInt →
        st'.calls = st.calls ++ [⟨"osl_error",
          [.sg, .val (.s "Arrays too small for pointcloud lookup at (%s:%d)"),
            .val (.s op.sourcefile), .val (.i op.sourceline)], false⟩]) := by
  obtain ⟨a, ha, hcap⟩ := search_loop_ok op st Center
    ⟨.val NULL, .val NULL, .val (.i 0), [], [], 0x7FFFFFFF, 0⟩ rfl ((op.nargs - 5) / 2)
    (search_pairs_present op hpar hnames)
  have hpar' : ¬ ((op.nargs : Int) - 5) % 2 ≠ 0 := not_not.mpr hpar
  simp only [llvm_gen_pointcloud_search, if_neg hpar', hR, hF, hC, hRad, hM, ha, Option.map]
  refine ⟨_, rfl, ?_, ?_⟩
  · intro hle
    have hok : CreateICmpSGE (.i a.capacity) (llvm_load_value st Max_points 0 none 0 none)
        = true := by
      simp only [CreateICmpSGE, decide_eq_true_eq, hcap]
      exact hle
    simp only [pointcloud_search_call, hok, if_true]
    refine ⟨[.sg, .val (llvm_load_value st Filename 0 none 0 none),
      .ptr Center 0, .val (llvm_load_value st Radius 0 none 0 none),
      .val (llvm_load_value st Max_points 0 none 0 none),
      a.indices, a.distances, a.derivs_offset, .val (.i a.extra_attrs)] ++ a.attrs, ?_, rfl⟩
    rw [store_calls, clear_derivs_calls, call_function_calls]
  · intro hlt
    have hok : CreateICmpSGE (.i a.capacity) (llvm_load_value st Max_points 0 none 0 none)
        = false := by
      simp only [CreateICmpSGE, decide_eq_false_iff_not, hcap]
      intro h
      exact absurd hlt (not_lt.mpr h)
    simp only [pointcloud_search_call, hok, Bool.false_eq_true, if_false]
    rfl

/-- Claim C21 at two queries on an index array of 3 and a distance array of 4
elements: the capacity is 3, the query for 2 points calls
`osl_pointcloud_search`, the query for 5 points calls `osl_error`. -/
theorem pointcloud_search_capacity_guard_witness :
    search_capacity ex_search_ok ((ex_search_ok.nargs - 5) / 2) = 3 ∧
    (llvm_gen_pointcloud_search ex_rop ex_search_ok ex_st).map
        (fun r => r.2.calls.map Call.name) = some ["osl_pointcloud_search"] ∧
    (llvm_gen_pointcloud_search ex_rop ex_search_small ex_st).map
        (fun r => r.2.calls.map Call.name) = some ["osl_error"] := by
  have hnames : ∀ (op : Opcode), op = ex_search_ok ∨ op = ex_search_small →
      ∀ i, i < (op.nargs - 5) / 2 →
      ∃ Name, opargsym op (5 + i * 2) = some Name ∧ Name.typespec.is_string = true := by
    intro op hop i hi
    rcases hop with rfl | rfl
    · have hi2 : i < 2 := by simpa [ex_search_ok, Opcode.nargs] using hi
      interval_cases i
      · exact ⟨ex_key_index, rfl, rfl⟩
      · exact ⟨ex_key_distance, rfl, rfl⟩
    · have hi2 : i < 2 := by simpa [ex_search_small, Opcode.nargs] using hi
      interval_cases i
      · exact ⟨ex_key_index, rfl, rfl⟩
      · exact ⟨ex_key_distance, rfl, rfl⟩
  have hcap1 : search_capacity ex_search_ok ((ex_search_ok.nargs - 5) / 2) = 3 := by decide
  have hcap2 : search_capacity ex_search_small ((ex_search_small.nargs - 5) / 2) = 3 := by
    decide
  obtain ⟨s1, h1, hok, _⟩ := pointcloud_search_capacity_guard ex_rop ex_search_ok ex_st
    ex_count ex_filename ex_P ex_half ex_two rfl rfl rfl rfl rfl (by decide)
    (hnames _ (Or.inl rfl))
  obtain ⟨s2, h2, _, hbad⟩ := pointcloud_search_capacity_guard ex_rop ex_search_small ex_st
    ex_count ex_filename ex_P ex_half ex_five rfl rfl rfl rfl rfl (by decide)
    (hnames _ (Or.inr rfl))
  refine ⟨hcap1, ?_, ?_⟩
  · obtain ⟨args, hc, _⟩ := hok (by
      rw [hcap1]
      simp [llvm_load_value, ex_two, Symbol.is_constant, ex_int, TypeSpec.is_array, llvm_cast,
        TypeSpec.aggregate, Value.toInt])
    rw [h1, Option.map, hc]
    simp [ex_st]
  · have hc := hbad (by
      rw [hcap2]
      simp [llvm_load_value, ex_five, Symbol.is_constant, ex_int, TypeSpec.is_array, llvm_cast,
        TypeSpec.aggregate, Value.toInt])
    rw [h2, Option.map, hc]
    simp [ex_st]

/-- Claim C22 fails as stated: a `pointcloud_search` and a `pointcloud_get` for
5 points with capacity 3 only call `osl_error`; the result `n` is not stored and
keeps the value 7 that the store held before. -/
theorem pointcloud_failure_result_counterexample :
    ex_st.mem ⟨ex_count, 0, 0, 0⟩ = .f 7 ∧
    (llvm_gen_pointcloud_search ex_rop ex_search_small ex_st).map
        (fun r => (r.2.calls.map Call.name, r.2.mem ⟨ex_count, 0, 0, 0⟩))
      = some (["osl_error"], .f 7) ∧
    (llvm_gen_pointcloud_get ex_rop ex_get_small ex_st).map
        (fun r => (r.2.calls.map Call.name, r.2.mem ⟨ex_count, 0, 0, 0⟩))
      = some (["osl_error"], .f 7) := by
  refine ⟨?_, ?_, ?_⟩
  · simp [ex_st, ex_mem, ex_count]
  · simp [llvm_gen_pointcloud_search, opargsym, ex_search_small, Opcode.nargs, forLoopM,
      pointcloud_attr_step, pointcloud_attr, pointcloud_search_call, ex_key_index,
      ex_key_distance, ex_indices, ex_distances, ex_string, TypeSpec.is_string,
      TypeSpec.simpletype, TypeSpec.numelements, Symbol.is_constant, Symbol.string_data,
      CreateICmpSGE, llvm_load_value, ex_five, ex_int, TypeSpec.is_array, TypeSpec.aggregate,
      llvm_cast, Value.toInt, call_function_calls, llvm_call_function, ex_rop, ex_st, ex_mem,
      ex_count]
  · simp [llvm_gen_pointcloud_get, opargsym, ex_get_small, ex_indices, ex_distances,
      TypeSpec.simpletype, TypeSpec.numelements, CreateICmpSGE, llvm_load_value, ex_five,
      ex_int, Symbol.is_constant, TypeSpec.is_array, TypeSpec.aggregate, llvm_cast,
      Value.toInt, call_function_calls, llvm_call_function, ex_rop, ex_st, ex_mem, ex_count]

/-- Claim C22, amended: when the capacity test of `pointcloud_search` or of
`pointcloud_get` fails, the state after the generated code is exactly the state
after the single call `osl_error`, so the query is skipped and nothing is stored
into `Result`; when the test succeeds, the value slot of `Result` holds the value
returned by the query call. -/
theorem pointcloud_failure_skips_result (rop : RuntimeOptimizer) (op : Opcode)
    (st : CodeGen) (Result Filename : Symbol)
    (hR : opargsym op 0 = some Result) (hF : opargsym op 1 = some Filename) :
    (∀ Center Radius Max_points, opargsym op 2 = some Center → opargsym op 3 = some Radius →
      opargsym op 4 = some Max_points → ((op.nargs : Int) - 5) % 2 = 0 →
      (∀ i, i < (op.nargs - 5) / 2 →
        ∃ Name, opargsym op (5 + i * 2) = some Name ∧ Name.typespec.is_string = true) →
      ((search_capacity op ((op.nargs - 5) / 2) : Int) <
          (llvm_load_value st Max_points 0 none 0 none).toInt →
        llvm_gen_pointcloud_search rop op st = some (true,
          (llvm_call_function rop st "osl_error" (pointcloud_error_args op
            "Arrays too small for pointcloud lookup at (%s:%d)") false).2)) ∧
      ((llvm_load_value st Max_points 0 none 0 none).toInt ≤
          (search_capacity op ((op.nargs - 5) / 2) : Int) →
        ∃ st' args, llvm_gen_pointcloud_search rop op st = some (true, st') ∧
          st'.mem ⟨Result, 0, 0, 0⟩ =
            (llvm_call_function rop st "osl_pointcloud_search" args false).1)) ∧
    (∀ Indices Count Attr_name Data, opargsym op 2 = some Indices →
      opargsym op 3 = some Count → opargsym op 4 = some Attr_name →
      opargsym op 5 = some Data →
      (min (Data.typespec.numelements : Int) (Indices.typespec.numelements : Int) <
          (llvm_load_value st Count 0 none 0 none).toInt →
        llvm_gen_pointcloud_get rop op st = some (true,
          (llvm_call_function rop st "osl_error" (pointcloud_error_args op
            "Arrays too small for pointcloud attribute get at (%s:%d)") false).2)) ∧
      ((llvm_load_value st Count 0 none 0 none).toInt ≤
          min (Data.typespec.numelements : Int) (Indices.typespec.numelements : Int) →
        ∃ st' args, llvm_gen_pointcloud_get rop op st = some (true, st') ∧
          st'.mem ⟨Result, 0, 0, 0⟩ =
            (llvm_call_function rop st "osl_pointcloud_get" args false).1)) := by
  refine ⟨?_, ?_⟩
  · intro Center Radius Max_points hC hRad hM hpar hnames
    obtain ⟨a, ha, hcap⟩ := search_loop_ok op st Center
      ⟨.val NULL, .val NULL, .val (.i 0), [], [], 0x7FFFFFFF, 0⟩ rfl ((op.nargs - 5) / 2)
      (search_pairs_present op hpar hnames)
    have hpar' : ¬ ((op.nargs : Int) - 5) % 2 ≠ 0 := not_not.mpr hpar
    simp only [llvm_gen_pointcloud_search, if_neg hpar', hR, hF, hC, hRad, hM, ha, Option.map]
    refine ⟨?_, ?_⟩
    · intro hlt
      have hok : CreateICmpSGE (.i a.capacity) (llvm_load_value st Max_points 0 none 0 none)
          = false := by
        simp only [CreateICmpSGE, decide_eq_false_iff_not, hcap]
        intro h
        exact absurd hlt (not_lt.mpr h)
      simp only [pointcloud_search_call, hok, Bool.false_eq_true, if_false]
    · intro hle
      have hok : CreateICmpSGE (.i a.capacity) (llvm_load_value st Max_points 0 none 0 none)
          = true := by
        simp only [CreateICmpSGE, decide_eq_true_eq, hcap]
        exact hle
      simp only [pointcloud_search_call, hok, if_true]
      refine ⟨_, [.sg, .val (llvm_load_value st Filename 0 none 0 none),
        .ptr Center 0, .val (llvm_load_value st Radius 0 none 0 none),
        .val (llvm_load_value st Max_points 0 none 0 none),
        a.indices, a.distances, a.derivs_offset, .val (.i a.extra_attrs)] ++ a.attrs, rfl, ?_⟩
      rw [store_mem, if_pos]
      exact ⟨Or.inr rfl, by simp [elem_index, comp_index_zero]⟩
  · intro Indices Count Attr_name Data hI hCnt hA hD
    simp only [llvm_gen_pointcloud_get, hR, hF, hI, hCnt, hA, hD, TypeSpec.simpletype]
    refine ⟨?_, ?_⟩
    · intro hlt
      have hok : CreateICmpSGE
          (.i (min (Data.typespec.numelements : Int) (Indices.typespec.numelements : Int)))
          (llvm_load_value st Count 0 none 0 none) = false := by
        simp only [CreateICmpSGE, decide_eq_false_iff_not]
        intro h
        exact absurd hlt (not_lt.mpr h)
      simp only [hok, Bool.false_eq_true, if_false]
    · intro hle
      have hok : CreateICmpSGE
          (.i (min (Data.typespec.numelements : Int) (Indices.typespec.numelements : Int)))
          (llvm_load_value st Count 0 none 0 none) = true := by
        simp only [CreateICmpSGE, decide_eq_true_eq]
        exact hle
      simp only [hok, if_true]
      refine ⟨_, [.sg, .val (llvm_load_value st Filename 0 none 0 none),
        .ptr Indices 0, .val (llvm_load_value st Count 0 none 0 none),
        .val (llvm_load_value st Attr_name 0 none 0 none),
        .val (llvm_constant_typedesc Data.typespec), .ptr Data 0], rfl, ?_⟩
      have hs : ∀ s : CodeGen, (if Data.has_derivs = true then
          llvm_zero_derivs_count s Data (llvm_load_value st Count 0 none 0 none)
          else s).mem ⟨Result, 0, 0, 0⟩ = s.mem ⟨Result, 0, 0, 0⟩ := by
        intro s
        split
        · exact zero_derivs_count_value _ _ _ _ rfl
        · rfl
      rw [hs, store_mem, if_pos]
      exact ⟨Or.inr rfl, by simp [elem_index, comp_index_zero]⟩

/-- Claim C22 (amended) at the `pointcloud_get` for 5 points with capacity 3:
the state after the lowering is the state after the `osl_error` call. -/
theorem pointcloud_failure_skips_result_witness :
    opargsym ex_get_small 0 = some ex_count ∧ opargsym ex_get_small 1 = some ex_filename ∧
    llvm_gen_pointcloud_get ex_rop ex_get_small ex_st = some (true,
      (llvm_call_function ex_rop ex_st "osl_error" (pointcloud_error_args ex_get_small
        "Arrays too small for pointcloud attribute get at (%s:%d)") false).2) := by
  refine ⟨rfl, rfl, ?_⟩
  exact ((pointcloud_failure_skips_result ex_rop ex_get_small ex_st ex_count ex_filename
    rfl rfl).2 ex_indices ex_five ex_key_label ex_distances rfl rfl rfl rfl).1 (by
      simp [llvm_load_value, ex_five, Symbol.is_constant, ex_int, TypeSpec.is_array, llvm_cast,
        TypeSpec.aggregate, Value.toInt, ex_indices, ex_distances, TypeSpec.numelements])

/-- Claim C28 at its failing input: for `printf ("%5.2", A)` the inner loop
stops at the terminator (index 4) and the following `++format` moves the
pointer to index 5, past the end of the string; the operand `A` is consumed and
the outer loop then reads through that pointer, so nothing is lowered. -/
theorem llvm_gen_printf_reads_past_end :
    skip_conversion "%5.2".toList = [] ∧
    read_position "%5.2".toList (eat_conversion (skip_conversion "%5.2".toList)) = 5 ∧
    "%5.2".toList.length = 4 ∧
    llvm_gen_printf ex_rop "shader" ex_printf_open ex_st = none := by
  refine ⟨by decide, by decide, by decide, ?_⟩
  rfl

theorem scan_nil (σ : Nat × ScanMode) : scan σ [] = σ := rfl

theorem scan_cons (σ : Nat × ScanMode) (c : Char) (l : List Char) :
    scan σ (c :: l) = scan (scan_step σ c) l := rfl

theorem scan_append (σ : Nat × ScanMode) (l l' : List Char) :
    scan σ (l ++ l') = scan (scan σ l) l' := by
  simp [scan, List.foldl_append]

theorem scan_add (n k : Nat) (m : ScanMode) (l : List Char) :
    scan (n + k, m) l = ((scan (n, m) l).1 + k, (scan (n, m) l).2) := by
  induction l generalizing n m with
  | nil => rfl
  | cons c l ih =>
    rw [scan_cons, scan_cons]
    cases m
    · by_cases hc : c = '%' <;> simp only [scan_step, hc, if_true, if_false] <;> exact ih _ _
    · by_cases hc : c = '%'
      · simp only [scan_step, hc, if_true]
        exact ih _ _
      · simp only [scan_step, hc, if_false]
        rw [show n + k + 1 = (n + 1) + k by omega]
        exact ih _ _
    · simp only [scan_step]
      exact ih _ _

theorem final_count_add (n k : Nat) (m : ScanMode) (l : List Char) :
    final_count (scan (n + k, m) l) = final_count (scan (n, m) l) + k := by
  rw [scan_add]
  simp only [final_count]
  omega

theorem percent_not_conversion : is_conversion '%' = false := by decide

theorem skip_conversion_length (l : List Char) : (skip_conversion l).length ≤ l.length := by
  induction l with
  | nil => simp [skip_conversion]
  | cons c l ih =>
    unfold skip_conversion
    split
    · exact le_refl _
    · simp only [List.length_cons]
      omega

theorem eat_skip_length (l l' : List Char) (h : eat_conversion (skip_conversion l) = some l') :
    l'.length < l.length := by
  have hl := skip_conversion_length l
  cases hs : skip_conversion l with
  | nil => rw [hs] at h; simp [eat_conversion] at h
  | cons c r =>
    rw [hs] at h hl
    simp only [eat_conversion, Option.some.injEq] at h
    subst h
    simp only [List.length_cons] at hl
    omega

/-- Reading on from inside a specification counts what reading the text behind
the specification counts. -/
theorem scan_spec (n : Nat) (l : List Char) :
    final_count (scan (n, .spec) l) =
      final_count (scan (n, .text) ((eat_conversion (skip_conversion l)).getD [])) := by
  induction l with
  | nil => rfl
  | cons c l ih =>
    rw [scan_cons]
    by_cases hc : is_conversion c = true
    · simp [scan_step, hc, skip_conversion, eat_conversion]
    · simp only [scan_step, hc, if_false, skip_conversion]
      exact ih

theorem count_specs_text (c : Char) (l : List Char) (hc : c ≠ '%') :
    count_specs (c :: l) = count_specs l := by
  simp [count_specs, scan_cons, scan_step, hc]

theorem count_specs_literal (l : List Char) :
    count_specs ('%' :: '%' :: l) = count_specs l := by
  simp [count_specs, scan_cons, scan_step]

theorem count_specs_spec (rest : List Char) (h : rest.head? ≠ some '%') :
    count_specs ('%' :: rest) =
      1 + count_specs ((eat_conversion (skip_conversion rest)).getD []) := by
  cases rest with
  | nil => rfl
  | cons d r =>
    have hd : d ≠ '%' := by
      intro hd
      apply h
      simp [hd]
    unfold count_specs
    rw [scan_cons, scan_cons]
    simp only [scan_step, if_true, hd, if_false]
    cases hc : is_conversion d
    · simp only [Bool.false_eq_true, if_false, skip_conversion, hc]
      rw [scan_spec, final_count_add]
      omega
    · simp only [if_true, skip_conversion, eat_conversion, Option.getD, hc]
      rw [final_count_add]
      omega

/-! ### The loops over one operand -/

theorem printf_components_frame (sym : Symbol) (of : List Char) (arrind : Option Value)
    (a : Nat) : ∀ (n : Nat) (p : PrintfState),
      (printf_components sym of arrind a n p).format = p.format ∧
      (printf_components sym of arrind a n p).arg = p.arg ∧
      (printf_components sym of arrind a n p).st = p.st := by
  intro n
  induction n with
  | zero => intro p; exact ⟨rfl, rfl, rfl⟩
  | succ n ih =>
    intro p
    obtain ⟨h1, h2, h3⟩ := ih p
    unfold printf_components at h1 h2 h3 ⊢
    rw [forLoop_succ]
    exact ⟨h1, h2, h3⟩

theorem printf_element_frame (rop : RuntimeOptimizer) (sym : Symbol) (of : List Char)
    (a : Nat) (p : PrintfState) :
    (printf_element rop sym of a p).format = p.format ∧
    (printf_element rop sym of a p).arg = p.arg ∧
    ∃ extra, (printf_element rop sym of a p).st.calls = p.st.calls ++ extra ∧
      ∀ c ∈ extra, c.name = "osl_closure_to_string" := by
  unfold printf_element
  by_cases hcl : sym.typespec.is_closure_based = true
  · rw [if_pos hcl]
    exact ⟨rfl, rfl, [_], call_function_calls _ _ _ _ _, by simp⟩
  · rw [if_neg hcl]
    obtain ⟨f1, f2, f3⟩ := printf_components_frame sym of
      (if sym.typespec.simpletype.arraylen ≠ 0 then some (.i a) else none) a
      sym.typespec.simpletype.aggregate p
    exact ⟨f1, f2, [], by rw [f3, List.append_nil], by simp⟩

theorem printf_elements_frame (rop : RuntimeOptimizer) (sym : Symbol) (of : List Char)
    (p : PrintfState) : ∀ n : Nat,
    (forLoop n (printf_element rop sym of) p).format = p.format ∧
    (forLoop n (printf_element rop sym of) p).arg = p.arg ∧
    ∃ extra, (forLoop n (printf_element rop sym of) p).st.calls = p.st.calls ++ extra ∧
      ∀ c ∈ extra, c.name = "osl_closure_to_string" := by
  intro n
  induction n with
  | zero => exact ⟨rfl, rfl, [], by simp [forLoop], by simp⟩
  | succ n ih =>
    obtain ⟨h1, h2, extra, h3, h4⟩ := ih
    obtain ⟨f1, f2, e2, f3, f4⟩ := printf_element_frame rop sym of n
      (forLoop n (printf_element rop sym of) p)
    rw [forLoop_succ]
    refine ⟨f1.trans h1, f2.trans h2, extra ++ e2, ?_, ?_⟩
    · rw [f3, h3, List.append_assoc]
    · intro c hc
      rcases List.mem_append.mp hc with hc | hc
      · exact h4 c hc
      · exact f4 c hc

theorem printf_arg_frame (rop : RuntimeOptimizer) (sym : Symbol) (of : List Char)
    (p : PrintfState) :
    (printf_arg rop sym of p).format = p.format ∧ (printf_arg rop sym of p).arg = p.arg ∧
    ∃ extra, (printf_arg rop sym of p).st.calls = p.st.calls ++ extra ∧
      ∀ c ∈ extra, c.name = "osl_closure_to_string" :=
  printf_elements_frame rop sym of p _

theorem printf_loop_mismatch (rop : RuntimeOptimizer) (op : Opcode) :
    ∀ (fuel : Nat) (p : PrintfState) (l : List Char), p.format = some l → l.length < fuel →
      op.nargs - p.arg < count_specs l →
      ∃ p', printf_loop rop op fuel p = some (false, p') ∧
        ∃ extra, p'.st.calls = p.st.calls ++ extra ∧
          ∀ c ∈ extra, c.name = "osl_closure_to_string" := by
  intro fuel
  induction fuel with
  | zero => intro p l _ h; exact absurd h (Nat.not_lt_zero _)
  | succ fuel ih =>
    intro p l hfmt hlen hcount
    cases l with
    | nil => exact absurd hcount (Nat.not_lt_zero _)
    | cons c rest =>
      rw [printf_loop]
      simp only [hfmt]
      by_cases hc : c = '%'
      · subst hc
        simp only [if_true]
        by_cases hh : rest.head? = some '%'
        · simp only [hh, if_true]
          cases rest with
          | nil => simp at hh
          | cons d r =>
            have hd : d = '%' := by simpa using hh
            subst hd
            rw [count_specs_literal] at hcount
            exact ih _ r rfl (by simp only [List.length_cons] at hlen; omega) hcount
        · simp only [hh, if_false]
          rw [count_specs_spec rest hh] at hcount
          have hskip : skip_conversion ('%' :: rest) = skip_conversion rest := by
            simp [skip_conversion, percent_not_conversion]
          rw [hskip]
          by_cases harg : p.arg ≥ op.nargs
          · simp only [harg, if_true]
            exact ⟨_, rfl, [], by simp, by simp⟩
          · simp only [harg, if_false]
            obtain ⟨sym, hsym⟩ := opargsym_of_lt op p.arg (by omega)
            simp only [hsym]
            cases heat : eat_conversion (skip_conversion rest) with
            | none =>
              rw [heat] at hcount
              simp [count_specs, scan, final_count] at hcount
              omega
            | some l' =>
              rw [heat] at hcount
              simp only [Option.getD] at hcount
              have hl' := eat_skip_length rest l' heat
              obtain ⟨f1, f2, e1, f3, f4⟩ := printf_arg_frame rop sym
                (take_conversion ('%' :: rest)) { p with format := some l' }
              obtain ⟨p', hp', e2, g1, g2⟩ := ih
                { printf_arg rop sym (take_conversion ('%' :: rest))
                    { p with format := some l' } with
                  arg := (printf_arg rop sym (take_conversion ('%' :: rest))
                    { p with format := some l' }).arg + 1 }
                l' f1 (by simp only [List.length_cons] at hlen; omega)
                (by
                  show op.nargs - ((printf_arg rop sym (take_conversion ('%' :: rest))
                    { p with format := some l' }).arg + 1) < _
                  rw [f2]
                  show op.nargs - (p.arg + 1) < _
                  omega)
              refine ⟨p', hp', e1 ++ e2, ?_, ?_⟩
              · rw [g1]
                show (printf_arg rop sym (take_conversion ('%' :: rest))
                  { p with format := some l' }).st.calls ++ e2 = _
                rw [f3, List.append_assoc]
              · intro c hc
                rcases List.mem_append.mp hc with hc | hc
                · exact f4 c hc
                · exact g2 c hc
      · simp only [hc, if_false]
        rw [count_specs_text c rest hc] at hcount
        exact ih _ rest rfl (by simp only [List.length_cons] at hlen; omega) hcount

/-- Claim C23: when the format operand of a `printf`, `error`, `warning` or
`format` instruction is not a constant, `llvm_gen_printf` reports a warning and
returns false with the code-generation state unchanged; when it is a constant
whose conversion specifications (`%%` not counted) outnumber the operands
behind the format operand, it reports the mismatch error and returns false, and
the only calls emitted are `osl_closure_to_string` conversions of earlier
closure operands, never the runtime call of the instruction. -/
theorem llvm_gen_printf_rejects (rop : RuntimeOptimizer) (shadername : String)
    (op : Opcode) (st : CodeGen) (format_sym : Symbol)
    (hsym : opargsym op (if op.opname = "format" then 1 else 0) = some format_sym) :
    (format_sym.is_constant = false →
      llvm_gen_printf rop shadername op st = some (false, st,
        [⟨.warning, "%s must currently have constant format\n", [.str op.opname]⟩])) ∧
    (format_sym.is_constant = true →
      op.nargs - ((if op.opname = "format" then 1 else 0) + 1) <
        count_specs format_sym.string_data.toList →
      ∃ st', llvm_gen_printf rop shadername op st = some (false, st',
          [⟨.error, "Mismatch between format string and arguments (%s:%d)",
            [.str op.sourcefile, .int op.sourceline]⟩]) ∧
        ∃ extra, st'.calls = st.calls ++ extra ∧
          ∀ c ∈ extra, c.name = "osl_closure_to_string") := by
  refine ⟨?_, ?_⟩
  · intro hc
    simp only [llvm_gen_printf, hsym, hc, Bool.not_false, if_true]
  · intro hc hcount
    obtain ⟨p', hp', extra, h1, h2⟩ := printf_loop_mismatch rop op
      (format_sym.string_data.toList.length + 2)
      ⟨some format_sym.string_data.toList, [], (if op.opname = "format" then 1 else 0) + 1,
        (if op.opname = "printf" ∨ op.opname = "error" ∨ op.opname = "warning" then [.sg]
          else []) ++ [.val NULL], st⟩
      format_sym.string_data.toList rfl (by omega) hcount
    simp only [llvm_gen_printf, hsym, hc, Bool.not_true, Bool.false_eq_true, if_false, hp']
    exact ⟨p'.st, rfl, extra, h1, h2⟩

/-- Claim C23 at `printf (fmt, A)` with a variable format and at
`printf ("%d %f", C)` with two specifications for one value: both return
false. -/
theorem llvm_gen_printf_rejects_witness :
    opargsym ex_printf_var 0 = some ex_fmt_var ∧ opargsym ex_printf_few 0 = some ex_fmt_two ∧
    count_specs ex_fmt_two.string_data.toList = 2 ∧
    (llvm_gen_printf ex_rop "shader" ex_printf_var ex_st).map (fun r => (r.1, r.2.1.calls))
      = some (false, []) ∧
    (llvm_gen_printf ex_rop "shader" ex_printf_few ex_st).map (fun r => r.1) = some false := by
  have hcount : count_specs ex_fmt_two.string_data.toList = 2 := by decide
  refine ⟨rfl, rfl, hcount, ?_, ?_⟩
  · rw [(llvm_gen_printf_rejects ex_rop "shader" ex_printf_var ex_st ex_fmt_var rfl).1 rfl]
    rfl
  · obtain ⟨st', h, _⟩ := (llvm_gen_printf_rejects ex_rop "shader" ex_printf_few ex_st
      ex_fmt_two rfl).2 rfl (by rw [hcount]; decide)
    rw [h]
    rfl

theorem scan_no_percent (l : List Char) (h : ∀ c ∈ l, c ≠ '%') (n : Nat) :
    scan (n, .text) l = (n, .text) := by
  induction l with
  | nil => rfl
  | cons c l ih =>
    rw [scan_cons]
    have hc : c ≠ '%' := h c (List.mem_cons_self _ _)
    simp only [scan_step, hc, if_false]
    exact ih (fun d hd => h d (List.mem_cons_of_mem _ hd))

theorem printf_components_scan (sym : Symbol) (of : List Char) (arrind : Option Value)
    (a : Nat) (hof : ∀ n, scan (n, .text) of = (n + 1, .text)) (p : PrintfState) (k : Nat)
    (hs : scan (0, .text) p.s = (k, .text)) :
    ∀ n : Nat, scan (0, .text) (printf_components sym of arrind a n p).s = (k + n, .text) ∧
      ∃ vals, (printf_components sym of arrind a n p).call_args = p.call_args ++ vals ∧
        vals.length = n := by
  intro n
  induction n with
  | zero => exact ⟨hs, [], by simp [printf_components, forLoop], rfl⟩
  | succ n ih =>
    obtain ⟨h1, vals, h2, h3⟩ := ih
    unfold printf_components at h1 h2 ⊢
    rw [forLoop_succ]
    refine ⟨?_, vals ++ [.val (llvm_load_value
      (forLoop n (printf_component sym of arrind a) p).st sym 0 arrind n none)], ?_, ?_⟩
    · show scan (0, .text) ((if n ≠ 0 ∨ a ≠ 0 then _ ++ [' '] else _) ++ of) = _
      rw [scan_append]
      split
      · rw [scan_append, h1, scan_cons, scan_nil]
        simp only [scan_step, show (' ' : Char) ≠ '%' by decide, if_false]
        rw [hof]
        rfl
      · rw [h1, hof]
        rfl
    · show _ ++ [_] = _
      rw [h2, List.append_assoc]
    · simp [h3]

theorem printf_element_scan (rop : RuntimeOptimizer) (sym : Symbol) (of : List Char)
    (a : Nat) (hof : ∀ n, scan (n, .text) of = (n + 1, .text)) (p : PrintfState) (k : Nat)
    (hs : scan (0, .text) p.s = (k, .text)) :
    scan (0, .text) (printf_element rop sym of a p).s =
      (k + (if sym.typespec.is_closure_based then 1 else sym.typespec.aggregate), .text) ∧
    ∃ vals, (printf_element rop sym of a p).call_args = p.call_args ++ vals ∧
      vals.length = (if sym.typespec.is_closure_based then 1 else sym.typespec.aggregate) := by
  unfold printf_element
  by_cases hcl : sym.typespec.is_closure_based = true
  · rw [if_pos hcl]
    simp only [hcl, if_true]
    refine ⟨?_, [_], rfl, rfl⟩
    rw [scan_append, hs, hof]
  · rw [if_neg hcl]
    simp only [hcl, Bool.false_eq_true, if_false]
    exact printf_components_scan sym of _ a hof p k hs _

theorem printf_arg_scan (rop : RuntimeOptimizer) (sym : Symbol) (of : List Char)
    (hof : ∀ n, scan (n, .text) of = (n + 1, .text)) (p : PrintfState) (k : Nat)
    (hs : scan (0, .text) p.s = (k, .text)) :
    scan (0, .text) (printf_arg rop sym of p).s = (k + arg_values sym, .text) ∧
    ∃ vals, (printf_arg rop sym of p).call_args = p.call_args ++ vals ∧
      vals.length = arg_values sym := by
  have key : ∀ n : Nat,
      scan (0, .text) (forLoop n (printf_element rop sym of) p).s =
        (k + n * (if sym.typespec.is_closure_based then 1 else sym.typespec.aggregate),
          .text) ∧
      ∃ vals, (forLoop n (printf_element rop sym of) p).call_args = p.call_args ++ vals ∧
        vals.length =
          n * (if sym.typespec.is_closure_based then 1 else sym.typespec.aggregate) := by
    intro n
    induction n with
    | zero => exact ⟨by simpa [forLoop] using hs, [], by simp [forLoop], by simp⟩
    | succ n ih =>
      obtain ⟨h1, vals, h2, h3⟩ := ih
      obtain ⟨g1, v2, g2, g3⟩ := printf_element_scan rop sym of n hof _ _ h1
      rw [forLoop_succ]
      refine ⟨?_, vals ++ v2, ?_, ?_⟩
      · rw [g1, Nat.succ_mul, Nat.add_assoc]
      · rw [g2, h2, List.append_assoc]
      · rw [List.length_append, h3, g3, Nat.succ_mul]
  have h := key sym.typespec.numelements
  have hv : arg_values sym = sym.typespec.numelements *
      (if sym.typespec.is_closure_based then 1 else sym.typespec.aggregate) := by
    unfold arg_values
    split <;> simp
  rw [hv]
  exact h

/-- A well-formed specification that is read from inside ends at a conversion
character, and the text behind it is well formed. -/
theorem well_formed_spec (r : List Char) (h : well_formed .spec r = true) :
    ∃ l', eat_conversion (skip_conversion r) = some l' ∧ well_formed .text l' = true ∧
      ∀ n, scan (n, .spec) (take_conversion r) = (n, .text) := by
  induction r with
  | nil => simp [well_formed] at h
  | cons c r ih =>
    by_cases hp : c = '%'
    · simp [well_formed, hp] at h
    · cases hc : is_conversion c
      · simp only [well_formed, hp, if_false, hc, Bool.false_eq_true] at h
        obtain ⟨l', h1, h2, h3⟩ := ih h
        refine ⟨l', ?_, h2, ?_⟩
        · simp only [skip_conversion, hc, Bool.false_eq_true, if_false]
          exact h1
        · intro n
          simp only [take_conversion, hc, Bool.false_eq_true, if_false, scan_cons, scan_step]
          exact h3 n
      · simp only [well_formed, hp, if_false, hc, if_true] at h
        refine ⟨r, ?_, h, ?_⟩
        · simp [skip_conversion, hc, eat_conversion]
        · intro n
          simp [take_conversion, hc, scan_cons, scan_step, scan_nil]

theorem well_formed_percent (rest : List Char) (hh : rest.head? ≠ some '%')
    (h : well_formed .text ('%' :: rest) = true) :
    ∃ l', eat_conversion (skip_conversion rest) = some l' ∧ well_formed .text l' = true ∧
      count_specs ('%' :: rest) = 1 + count_specs l' ∧
      ∀ n, scan (n, .text) (take_conversion ('%' :: rest)) = (n + 1, .text) := by
  have hcs := count_specs_spec rest hh
  cases rest with
  | nil => simp [well_formed] at h
  | cons d r =>
    have hd : d ≠ '%' := by
      intro hd
      apply hh
      simp [hd]
    simp only [well_formed, if_true, hd, if_false] at h
    have htake : take_conversion ('%' :: d :: r) = '%' :: take_conversion (d :: r) := by
      simp [take_conversion, percent_not_conversion]
    cases hc : is_conversion d
    · rw [hc] at h
      simp only [Bool.false_eq_true, if_false] at h
      obtain ⟨l', h1, h2, h3⟩ := well_formed_spec r h
      have hsk : eat_conversion (skip_conversion (d :: r)) = some l' := by
        simp only [skip_conversion, hc, Bool.false_eq_true, if_false]
        exact h1
      refine ⟨l', hsk, h2, ?_, ?_⟩
      · rw [hcs, hsk]
        rfl
      · intro n
        rw [htake]
        simp only [take_conversion, hc, Bool.false_eq_true, if_false, scan_cons, scan_step,
          if_true, hd]
        exact h3 (n + 1)
    · rw [hc] at h
      simp only [if_true] at h
      have hsk : eat_conversion (skip_conversion (d :: r)) = some r := by
        simp [skip_conversion, hc, eat_conversion]
      refine ⟨r, hsk, h, ?_, ?_⟩
      · rw [hcs, hsk]
        rfl
      · intro n
        rw [htake]
        simp [take_conversion, hc, scan_cons, scan_step, scan_nil, hd]

theorem value_count_succ (op : Opcode) (lo n : Nat) (sym : Symbol)
    (h : opargsym op lo = some sym) :
    value_count op lo (1 + n) = arg_values sym + value_count op (lo + 1) n := by
  rw [Nat.add_comm 1 n]
  simp [value_count, h]

theorem printf_loop_counts (rop : RuntimeOptimizer) (op : Opcode) (init : List Arg) :
    ∀ (fuel : Nat) (p : PrintfState) (l : List Char) (vals : List Arg),
      p.format = some l → l.length < fuel → well_formed .text l = true →
      p.call_args = init ++ vals → scan (0, .text) p.s = (vals.length, .text) →
      ∃ b p', printf_loop rop op fuel p = some (b, p') ∧
        (b = true → ∃ vals', p'.call_args = init ++ vals' ∧
          scan (0, .text) p'.s = (vals'.length, .text) ∧
          vals'.length = vals.length + value_count op p.arg (count_specs l)) := by
  intro fuel
  induction fuel with
  | zero => intro p l _ _ h; exact absurd h (Nat.not_lt_zero _)
  | succ fuel ih =>
    intro p l vals hfmt hlen hwf hargs hscan
    cases l with
    | nil =>
      rw [printf_loop]
      simp only [hfmt]
      exact ⟨true, p, rfl, fun _ => ⟨vals, hargs, hscan, by simp [count_specs, scan,
        final_count, value_count]⟩⟩
    | cons c rest =>
      rw [printf_loop]
      simp only [hfmt]
      by_cases hc : c = '%'
      · subst hc
        simp only [if_true]
        by_cases hh : rest.head? = some '%'
        · simp only [hh, if_true]
          cases rest with
          | nil => simp at hh
          | cons d r =>
            have hd : d = '%' := by simpa using hh
            subst hd
            rw [count_specs_literal]
            have hwf' : well_formed .text r = true := by
              simpa [well_formed] using hwf
            exact ih _ r vals rfl (by simp only [List.length_cons] at hlen; omega) hwf' hargs
              (by
                show scan (0, .text) (p.s ++ ['%', '%']) = _
                rw [scan_append, hscan]
                rfl)
        · simp only [hh, if_false]
          obtain ⟨l', heat, hwf', hcount, hof⟩ := well_formed_percent rest hh hwf
          have hskip : skip_conversion ('%' :: rest) = skip_conversion rest := by
            simp [skip_conversion, percent_not_conversion]
          rw [hskip, heat]
          by_cases harg : p.arg ≥ op.nargs
          · simp only [harg, if_true]
            exact ⟨false, _, rfl, fun h => absurd h (by decide)⟩
          · simp only [harg, if_false]
            obtain ⟨sym, hsym⟩ := opargsym_of_lt op p.arg (by omega)
            simp only [hsym]
            have hl' := eat_skip_length rest l' heat
            obtain ⟨f1, f2, _⟩ := printf_arg_frame rop sym
              (take_conversion ('%' :: rest)) { p with format := some l' }
            obtain ⟨g1, v2, g2, g3⟩ := printf_arg_scan rop sym
              (take_conversion ('%' :: rest)) hof { p with format := some l' } vals.length
              hscan
            obtain ⟨b, p', hp', hres⟩ := ih
              { printf_arg rop sym (take_conversion ('%' :: rest))
                  { p with format := some l' } with
                arg := (printf_arg rop sym (take_conversion ('%' :: rest))
                  { p with format := some l' }).arg + 1 }
              l' (vals ++ v2) f1 (by simp only [List.length_cons] at hlen; omega) hwf'
              (by
                show (printf_arg rop sym (take_conversion ('%' :: rest))
                  { p with format := some l' }).call_args = _
                rw [g2]
                show p.call_args ++ v2 = _
                rw [hargs, List.append_assoc])
              (by
                show scan (0, .text) (printf_arg rop sym (take_conversion ('%' :: rest))
                  { p with format := some l' }).s = _
                rw [g1, List.length_append, g3])
            refine ⟨b, p', hp', fun hb => ?_⟩
            obtain ⟨vals', r1, r2, r3⟩ := hres hb
            refine ⟨vals', r1, r2, ?_⟩
            rw [r3, hcount, value_count_succ op p.arg _ sym hsym, List.length_append, g3]
            have harg' : (printf_arg rop sym (take_conversion ('%' :: rest))
                { p with format := some l' }).arg + 1 = p.arg + 1 := by rw [f2]
            show _ + value_count op ((printf_arg rop sym (take_conversion ('%' :: rest))
                { p with format := some l' }).arg + 1) _ = _
            rw [harg']
            omega
      · simp only [hc, if_false]
        rw [count_specs_text c rest hc]
        have hwf' : well_formed .text rest = true := by
          simpa [well_formed, hc] using hwf
        exact ih _ rest vals rfl (by simp only [List.length_cons] at hlen; omega) hwf' hargs
          (by
            show scan (0, .text) (p.s ++ [c]) = _
            rw [scan_append, hscan, scan_cons, scan_nil]
            simp [scan_step, hc])

theorem printf_lead_no_percent (op : Opcode) (shadername : String)
    (hop : op.opname = "error" ∨ op.opname = "warning") (hname : '%' ∉ shadername.toList) :
    ∀ c ∈ printf_lead op shadername, c ≠ '%' := by
  intro c hc hp
  subst hp
  unfold printf_lead at hc
  simp only [List.mem_append] at hc
  rcases hc with (((h | h) | h) | h) | h
  · revert h; decide
  · rcases hop with ho | ho <;> rw [ho] at h <;> revert h <;> decide
  · revert h; decide
  · exact hname h
  · revert h; decide

/-! ## Control flow: what lowering leaves of the builder it starts from -/

theorem emit_blocks_self (b : FlowBuilder) (i : FlowInstr) :
    (b.emit i).blocks b.cur = b.blocks b.cur ++ [i] := by
  simp [FlowBuilder.emit]

theorem emit_blocks_ne (b : FlowBuilder) (i : FlowInstr) (j : Nat) (h : j ≠ b.cur) :
    (b.emit i).blocks j = b.blocks j := by
  simp [FlowBuilder.emit, Function.update_noteq h]

theorem load_nonzero_blocks_self (b : FlowBuilder) (cond : Symbol) :
    (b.load_nonzero cond).2.blocks b.cur
      = b.blocks b.cur ++ [.load b.nregs cond, .icmp_ne (b.nregs + 1) b.nregs 0] := by
  simp [FlowBuilder.load_nonzero, FlowBuilder.llvm_load_value, FlowBuilder.CreateICmpNE,
    FlowBuilder.emit]

theorem load_nonzero_blocks_ne (b : FlowBuilder) (cond : Symbol) (j : Nat) (h : j ≠ b.cur) :
    (b.load_nonzero cond).2.blocks j = b.blocks j := by
  simp [FlowBuilder.load_nonzero, FlowBuilder.llvm_load_value, FlowBuilder.CreateICmpNE,
    FlowBuilder.emit, Function.update_noteq h]

theorem load_nonzero_fst (b : FlowBuilder) (cond : Symbol) :
    (b.load_nonzero cond).1 = b.nregs + 1 := rfl

theorem loop_test_blocks_self (b : FlowBuilder) (cond : Symbol) (t f : Nat) :
    (loop_test b cond t f).blocks b.cur
      = b.blocks b.cur ++ [.load b.nregs cond, .icmp_ne (b.nregs + 1) b.nregs 0,
          .condbr (b.nregs + 1) t f] := by
  simp [loop_test, FlowBuilder.load_nonzero, FlowBuilder.llvm_load_value,
    FlowBuilder.CreateICmpNE, FlowBuilder.CreateCondBr, FlowBuilder.emit]

theorem loop_test_blocks_ne (b : FlowBuilder) (cond : Symbol) (t f j : Nat) (h : j ≠ b.cur) :
    (loop_test b cond t f).blocks j = b.blocks j := by
  simp [loop_test, FlowBuilder.load_nonzero, FlowBuilder.llvm_load_value,
    FlowBuilder.CreateICmpNE, FlowBuilder.CreateCondBr, FlowBuilder.emit,
    Function.update_noteq h]

theorem loop_enter_fst (b : FlowBuilder) :
    (loop_enter b).1 = (b.nblocks, b.nblocks + 1, b.nblocks + 2, b.nblocks + 3) := rfl

theorem loop_enter_blocks_old (b : FlowBuilder) (j : Nat) (h : j < b.nblocks) :
    (loop_enter b).2.blocks j = b.blocks j := by
  simp only [loop_enter, FlowBuilder.llvm_new_basic_block, FlowBuilder.llvm_push_loop]
  rw [Function.update_noteq (by omega), Function.update_noteq (by omega),
    Function.update_noteq (by omega), Function.update_noteq (by omega)]

theorem loop_enter_blocks_new (b : FlowBuilder) (i : Nat) (h : i < 4) :
    (loop_enter b).2.blocks (b.nblocks + i) = [] := by
  simp only [loop_enter, FlowBuilder.llvm_new_basic_block, FlowBuilder.llvm_push_loop]
  simp only [Function.update_apply]
  split_ifs <;> first | rfl | omega

theorem block_open_nil : block_open [] := by
  intro i hi
  simp at hi

theorem block_open_append {xs ys : List FlowInstr} (hx : block_open xs) (hy : block_open ys) :
    block_open (xs ++ ys) := by
  intro i hi
  rcases List.mem_append.mp hi with h | h
  · exact hx i h
  · exact hy i h

theorem run_block_append (effect : Int → (Symbol → Int) → (Symbol → Int))
    (xs ys : List FlowInstr) (hx : block_open xs) (m : FlowMachine) :
    run_block effect (xs ++ ys) m = run_block effect ys (run_block effect xs m).1 := by
  induction xs generalizing m with
  | nil => rfl
  | cons i rest ih =>
    have hi : i.is_branch = false := hx i (List.mem_cons_self _ _)
    have hrest : block_open rest := fun k hk => hx k (List.mem_cons_of_mem _ hk)
    simp only [List.cons_append, run_block, hi, Bool.false_eq_true, if_false]
    exact ih hrest _

theorem Lowered.refl (b : FlowBuilder) (h : b.cur < b.nblocks) : Lowered b b :=
  ⟨rfl, rfl, le_refl _, h, fun _ _ _ => rfl, Or.inl ⟨rfl, [], block_open_nil, by simp⟩⟩

theorem Lowered.open_cur {x y : FlowBuilder} (h : Lowered x y)
    (ho : block_open (x.blocks x.cur)) : block_open (y.blocks y.cur) := by
  obtain ⟨_, _, _, _, _, hd⟩ := h
  rcases hd with ⟨hc, s, hs, hb⟩ | ⟨_, hopen, _⟩
  · rw [hc, hb]
    exact block_open_append ho hs
  · exact hopen

theorem Lowered.cur_cases {x y : FlowBuilder} (h : Lowered x y) :
    y.cur = x.cur ∨ x.nblocks ≤ y.cur := by
  obtain ⟨_, _, _, _, _, hd⟩ := h
  rcases hd with ⟨hc, _⟩ | ⟨hc, _⟩
  · exact Or.inl hc
  · exact Or.inr hc

theorem Lowered.extends_cur {x y : FlowBuilder} (h : Lowered x y) :
    ∃ s, y.blocks x.cur = x.blocks x.cur ++ s := by
  obtain ⟨_, _, _, _, _, hd⟩ := h
  rcases hd with ⟨_, s, _, hb⟩ | ⟨_, _, s, hb⟩
  · exact ⟨s, hb⟩
  · exact ⟨s, hb⟩

theorem Lowered.trans {x y z : FlowBuilder} (hx : x.cur < x.nblocks) (h1 : Lowered x y)
    (h2 : Lowered y z) : Lowered x z := by
  have hc1 := h1.cur_cases
  obtain ⟨l1, f1, n1, c1, fr1, d1⟩ := h1
  obtain ⟨l2, f2, n2, c2, fr2, d2⟩ := h2
  refine ⟨l2.trans l1, f2.trans f1, le_trans n1 n2, c2, ?_, ?_⟩
  · intro j hj hne
    rw [fr2 j (by omega) (by omega), fr1 j hj hne]
  · rcases d1 with ⟨hc, s1, hs1, hb1⟩ | ⟨hc, ho1, s1, hb1⟩
    · rcases d2 with ⟨hc', s2, hs2, hb2⟩ | ⟨hc', ho2, s2, hb2⟩
      · refine Or.inl ⟨hc'.trans hc, s1 ++ s2, block_open_append hs1 hs2, ?_⟩
        rw [← hc, hb2, hc, hb1, List.append_assoc]
      · refine Or.inr ⟨by omega, ho2, s1 ++ s2, ?_⟩
        rw [← hc, hb2, hc, hb1, List.append_assoc]
    · have hne : x.cur ≠ y.cur := by omega
      rcases d2 with ⟨hc', s2, hs2, hb2⟩ | ⟨hc', ho2, s2, hb2⟩
      · refine Or.inr ⟨by omega, ?_, s1, ?_⟩
        · rw [hc', hb2]
          exact block_open_append ho1 hs2
        · rw [fr2 _ (by omega) hne, hb1]
      · refine Or.inr ⟨by omega, ho2, s1, ?_⟩
        rw [fr2 _ (by omega) hne, hb1]

theorem branch_away_lowered (b : FlowBuilder) (t : Nat) (h : b.cur < b.nblocks) :
    Lowered b (branch_away b t) := by
  have hne : b.cur ≠ b.nblocks := by omega
  refine ⟨rfl, rfl, ?_, ?_, ?_, Or.inr ⟨?_, ?_, [.br t], ?_⟩⟩
  · show b.nblocks ≤ b.nblocks + 1
    omega
  · show b.nblocks < b.nblocks + 1
    omega
  · intro j hj hne'
    show Function.update (b.CreateBr t).blocks b.nblocks [] j = _
    rw [Function.update_noteq (by omega)]
    exact emit_blocks_ne _ _ _ hne'
  · exact le_refl _
  · show block_open (Function.update (b.CreateBr t).blocks b.nblocks [] b.nblocks)
    rw [Function.update_same]
    exact block_open_nil
  · show Function.update (b.CreateBr t).blocks b.nblocks [] b.cur = _
    rw [Function.update_noteq hne]
    exact emit_blocks_self _ _

theorem branch_away_blocks (b : FlowBuilder) (t : Nat) (h : b.cur < b.nblocks) :
    (branch_away b t).blocks b.cur = b.blocks b.cur ++ [.br t] := by
  have hne : b.cur ≠ b.nblocks := by omega
  show Function.update (b.CreateBr t).blocks b.nblocks [] b.cur = _
  rw [Function.update_noteq hne]
  exact emit_blocks_self _ _

theorem emit_code_lowered (b : FlowBuilder) (k : Int) (h : b.cur < b.nblocks) :
    Lowered b (b.emit (.code k)) := by
  refine ⟨rfl, rfl, le_refl _, h, fun j _ hne => emit_blocks_ne _ _ _ hne,
    Or.inl ⟨rfl, [.code k], ?_, emit_blocks_self _ _⟩⟩
  intro i hi
  simp only [List.mem_singleton] at hi
  rw [hi]
  rfl

theorem loop_enter_nblocks (b : FlowBuilder) : (loop_enter b).2.nblocks = b.nblocks + 4 := rfl

theorem loop_enter_loops (b : FlowBuilder) :
    (loop_enter b).2.loops = (b.nblocks + 2, b.nblocks + 3) :: b.loops := rfl

/-- The blocks that the four stages of `llvm_gen_loop_op` leave, from what each
lowering of a range leaves of the builder it starts from. -/
theorem loop_chain (b r1 r2 r3 r4 B : FlowBuilder) (t : Nat) (cond : Symbol)
    (hcur : b.cur < b.nblocks)
    (L1 : Lowered (loop_enter b).2 r1)
    (L2 : Lowered ((r1.CreateBr t).SetInsertPoint b.nblocks) r2)
    (L3 : Lowered ((loop_test r2 cond (b.nblocks + 1) (b.nblocks + 3)).SetInsertPoint
      (b.nblocks + 1)) r3)
    (L4 : Lowered ((r3.CreateBr (b.nblocks + 2)).SetInsertPoint (b.nblocks + 2)) r4)
    (hB : B = ((r4.CreateBr b.nblocks).SetInsertPoint (b.nblocks + 3)).llvm_pop_loop) :
    B.blocks r1.cur = r1.blocks r1.cur ++ [.br t] ∧
    B.blocks r2.cur = r2.blocks r2.cur ++ [.load r2.nregs cond,
      .icmp_ne (r2.nregs + 1) r2.nregs 0,
      .condbr (r2.nregs + 1) (b.nblocks + 1) (b.nblocks + 3)] ∧
    B.blocks r3.cur = r3.blocks r3.cur ++ [.br (b.nblocks + 2)] ∧
    B.blocks r4.cur = r4.blocks r4.cur ++ [.br b.nblocks] ∧
    (block_open (b.blocks b.cur) → block_open (r1.blocks r1.cur)) ∧
    block_open (r2.blocks r2.cur) ∧ block_open (r3.blocks r3.cur) ∧
    block_open (r4.blocks r4.cur) ∧
    Lowered b B ∧
    r1.loops = (b.nblocks + 2, b.nblocks + 3) :: b.loops ∧
    r2.loops = (b.nblocks + 2, b.nblocks + 3) :: b.loops ∧
    r3.loops = (b.nblocks + 2, b.nblocks + 3) :: b.loops ∧
    r4.loops = (b.nblocks + 2, b.nblocks + 3) :: b.loops := by
  have o1 := L1.open_cur
  have o2 := L2.open_cur
  have o3 := L3.open_cur
  have o4 := L4.open_cur
  have e1 := L1.cur_cases
  have e2 := L2.cur_cases
  have e3 := L3.cur_cases
  have e4 := L4.cur_cases
  have x1 := L1.extends_cur
  obtain ⟨l1, f1, n1, c1, fr1, -⟩ := L1
  obtain ⟨l2, f2, n2, c2, fr2, -⟩ := L2
  obtain ⟨l3, f3, n3, c3, fr3, -⟩ := L3
  obtain ⟨l4, f4, n4, c4, fr4, -⟩ := L4
  have l1 : r1.loops = (b.nblocks + 2, b.nblocks + 3) :: b.loops := l1
  have l2 : r2.loops = r1.loops := l2
  have l3 : r3.loops = r2.loops := l3
  have l4 : r4.loops = r3.loops := l4
  have f1 : r1.functions = b.functions := f1
  have f2 : r2.functions = r1.functions := f2
  have f3 : r3.functions = r2.functions := f3
  have f4 : r4.functions = r3.functions := f4
  have n1 : b.nblocks + 4 ≤ r1.nblocks := n1
  have n2 : r1.nblocks ≤ r2.nblocks := n2
  have n3 : r2.nblocks ≤ r3.nblocks := n3
  have n4 : r3.nblocks ≤ r4.nblocks := n4
  have e1 : r1.cur = b.cur ∨ b.nblocks + 4 ≤ r1.cur := e1
  have e2 : r2.cur = b.nblocks ∨ r1.nblocks ≤ r2.cur := e2
  have e3 : r3.cur = b.nblocks + 1 ∨ r2.nblocks ≤ r3.cur := e3
  have e4 : r4.cur = b.nblocks + 2 ∨ r3.nblocks ≤ r4.cur := e4
  have fr1 : ∀ j, j < b.nblocks + 4 → j ≠ b.cur → r1.blocks j = (loop_enter b).2.blocks j := fr1
  have fr2 : ∀ j, j < r1.nblocks → j ≠ b.nblocks → r2.blocks j = (r1.emit (.br t)).blocks j :=
    fr2
  have fr3 : ∀ j, j < r2.nblocks → j ≠ b.nblocks + 1 →
      r3.blocks j = (loop_test r2 cond (b.nblocks + 1) (b.nblocks + 3)).blocks j := fr3
  have fr4 : ∀ j, j < r3.nblocks → j ≠ b.nblocks + 2 →
      r4.blocks j = (r3.emit (.br (b.nblocks + 2))).blocks j := fr4
  have hBb : ∀ j, B.blocks j = (r4.emit (.br b.nblocks)).blocks j := fun j => by rw [hB]; rfl
  -- the blocks created for the loop are empty until their code is lowered
  have new1 : ∀ i, i < 4 → r1.blocks (b.nblocks + i) = [] := fun i hi => by
    rw [fr1 _ (by omega) (by omega)]
    exact loop_enter_blocks_new b i hi
  have new2 : ∀ i, 0 < i → i < 4 → r2.blocks (b.nblocks + i) = [] := fun i h0 hi => by
    rw [fr2 _ (by omega) (by omega), emit_blocks_ne _ _ _ (by omega)]
    exact new1 i hi
  have new3 : ∀ i, 1 < i → i < 4 → r3.blocks (b.nblocks + i) = [] := fun i h0 hi => by
    rw [fr3 _ (by omega) (by omega), loop_test_blocks_ne _ _ _ _ _ (by omega)]
    exact new2 i (by omega) hi
  have new4 : r4.blocks (b.nblocks + 3) = [] := by
    rw [fr4 _ (by omega) (by omega), emit_blocks_ne _ _ _ (by omega)]
    exact new3 3 (by omega) (by omega)
  have ho2 : block_open (r2.blocks r2.cur) := o2 (by
    show block_open ((r1.emit (.br t)).blocks b.nblocks)
    rw [emit_blocks_ne _ _ _ (by omega)]
    have := new1 0 (by omega)
    rw [Nat.add_zero] at this
    rw [this]
    exact block_open_nil)
  have ho3 : block_open (r3.blocks r3.cur) := o3 (by
    show block_open ((loop_test r2 cond (b.nblocks + 1) (b.nblocks + 3)).blocks (b.nblocks + 1))
    rw [loop_test_blocks_ne _ _ _ _ _ (by omega), new2 1 (by omega) (by omega)]
    exact block_open_nil)
  have ho4 : block_open (r4.blocks r4.cur) := o4 (by
    show block_open ((r3.emit (.br (b.nblocks + 2))).blocks (b.nblocks + 2))
    rw [emit_blocks_ne _ _ _ (by omega), new3 2 (by omega) (by omega)]
    exact block_open_nil)
  have ho1 : block_open (b.blocks b.cur) → block_open (r1.blocks r1.cur) := fun h => o1 (by
    show block_open ((loop_enter b).2.blocks b.cur)
    rw [loop_enter_blocks_old b _ hcur]
    exact h)
  refine ⟨?_, ?_, ?_, ?_, ho1, ho2, ho3, ho4, ?_, l1, l2.trans l1, l3.trans (l2.trans l1),
    l4.trans (l3.trans (l2.trans l1))⟩
  · rw [hBb, emit_blocks_ne _ _ _ (by omega), fr4 _ (by omega) (by omega),
      emit_blocks_ne _ _ _ (by omega), fr3 _ (by omega) (by omega),
      loop_test_blocks_ne _ _ _ _ _ (by omega), fr2 _ (by omega) (by omega)]
    exact emit_blocks_self _ _
  · rw [hBb, emit_blocks_ne _ _ _ (by omega), fr4 _ (by omega) (by omega),
      emit_blocks_ne _ _ _ (by omega), fr3 _ (by omega) (by omega)]
    exact loop_test_blocks_self _ _ _ _
  · rw [hBb, emit_blocks_ne _ _ _ (by omega), fr4 _ (by omega) (by omega)]
    exact emit_blocks_self _ _
  · rw [hBb]
    exact emit_blocks_self _ _
  · have hBl : B.loops = r4.loops.tail := by rw [hB]; rfl
    have hBf : B.functions = r4.functions := by rw [hB]; rfl
    have hBn : B.nblocks = r4.nblocks := by rw [hB]; rfl
    have hBc : B.cur = b.nblocks + 3 := by rw [hB]; rfl
    have old : ∀ j, j < b.nblocks → j ≠ b.cur → B.blocks j = r1.blocks j := fun j hj hne => by
      rw [hBb, emit_blocks_ne _ _ _ (by omega), fr4 _ (by omega) (by omega),
        emit_blocks_ne _ _ _ (by omega), fr3 _ (by omega) (by omega),
        loop_test_blocks_ne _ _ _ _ _ (by omega), fr2 _ (by omega) (by omega)]
      exact emit_blocks_ne _ _ _ (by omega)
    have hn : b.nblocks ≤ B.nblocks := by omega
    have hc : B.cur < B.nblocks := by omega
    have hge : b.nblocks ≤ B.cur := by omega
    refine ⟨?_, ?_, hn, hc, ?_, Or.inr ⟨hge, ?_, ?_⟩⟩
    · rw [hBl, l4, l3, l2, l1]
      rfl
    · rw [hBf, f4, f3, f2, f1]
    · intro j hj hne
      rw [old j hj hne, fr1 _ (by omega) hne]
      exact loop_enter_blocks_old b j hj
    · rw [hBc, hBb, emit_blocks_ne _ _ _ (by omega), new4]
      exact block_open_nil
    · obtain ⟨s, hs⟩ := x1
      have hs : r1.blocks b.cur = b.blocks b.cur ++ s := by
        rw [← loop_enter_blocks_old b _ hcur]
        exact hs
      rw [hBb, emit_blocks_ne _ _ _ (by omega), fr4 _ (by omega) (by omega),
        emit_blocks_ne _ _ _ (by omega), fr3 _ (by omega) (by omega),
        loop_test_blocks_ne _ _ _ _ _ (by omega), fr2 _ (by omega) (by omega)]
      by_cases hj1 : b.cur = r1.cur
      · refine ⟨s ++ [.br t], ?_⟩
        rw [hj1, emit_blocks_self, ← hj1, hs, List.append_assoc]
      · exact ⟨s, by rw [emit_blocks_ne _ _ _ hj1, hs]⟩

/-- The stages of `llvm_gen_loop_op`: the results of lowering the initializer,
the condition, the body and the step, and what each leaves of the builder it
is started from. -/
theorem loop_anatomy (build : BuildCode) (hb : BuildLowers build) (opnum : Int) (op : JumpOp)
    (b : FlowBuilder) (r : Bool × FlowBuilder) (hcur : b.cur < b.nblocks)
    (h : llvm_gen_loop_op build opnum op b = some r) :
    ∃ cond r1 r2 r3 r4,
      opargsym op.op 0 = some cond ∧
      build (opnum + 1) (op.jump 0) none (loop_enter b).2 = some r1 ∧
      build (op.jump 0) (op.jump 1) (some b.nblocks)
        (r1.2.CreateBr (if op.op.opname = "dowhile" then b.nblocks + 1 else b.nblocks))
        = some r2 ∧
      build (op.jump 1) (op.jump 2) (some (b.nblocks + 1))
        (loop_test r2.2 cond (b.nblocks + 1) (b.nblocks + 3)) = some r3 ∧
      build (op.jump 2) (op.jump 3) (some (b.nblocks + 2)) (r3.2.CreateBr (b.nblocks + 2))
        = some r4 ∧
      r = (true, ((r4.2.CreateBr b.nblocks).SetInsertPoint (b.nblocks + 3)).llvm_pop_loop) ∧
      Lowered (loop_enter b).2 r1.2 ∧
      Lowered ((r1.2.CreateBr (if op.op.opname = "dowhile" then b.nblocks + 1
        else b.nblocks)).SetInsertPoint b.nblocks) r2.2 ∧
      Lowered ((loop_test r2.2 cond (b.nblocks + 1) (b.nblocks + 3)).SetInsertPoint
        (b.nblocks + 1)) r3.2 ∧
      Lowered ((r3.2.CreateBr (b.nblocks + 2)).SetInsertPoint (b.nblocks + 2)) r4.2 := by
  unfold llvm_gen_loop_op at h
  simp only [Option.bind_eq_some, loop_enter_fst, Option.some.injEq] at h
  obtain ⟨cond, hc, r1, h1, r2, h2, r3, h3, r4, h4, hr⟩ := h
  have L1 : Lowered (loop_enter b).2 r1.2 :=
    hb _ _ none _ r1 (by show b.cur < b.nblocks + 4; omega) h1
  have n1 : b.nblocks + 4 ≤ r1.2.nblocks := L1.2.2.1
  have L2 : Lowered ((r1.2.CreateBr (if op.op.opname = "dowhile" then b.nblocks + 1
      else b.nblocks)).SetInsertPoint b.nblocks) r2.2 :=
    hb _ _ (some b.nblocks) _ r2 (by show b.nblocks < r1.2.nblocks; omega) h2
  have n2 : r1.2.nblocks ≤ r2.2.nblocks := L2.2.2.1
  have L3 : Lowered ((loop_test r2.2 cond (b.nblocks + 1) (b.nblocks + 3)).SetInsertPoint
      (b.nblocks + 1)) r3.2 :=
    hb _ _ (some (b.nblocks + 1)) _ r3 (by show b.nblocks + 1 < r2.2.nblocks; omega) h3
  have n3 : r2.2.nblocks ≤ r3.2.nblocks := L3.2.2.1
  have L4 : Lowered ((r3.2.CreateBr (b.nblocks + 2)).SetInsertPoint (b.nblocks + 2)) r4.2 :=
    hb _ _ (some (b.nblocks + 2)) _ r4 (by show b.nblocks + 2 < r3.2.nblocks; omega) h4
  exact ⟨cond, r1, r2, r3, r4, hc, h1, h2, h3, h4, hr.symm, L1, L2, L3, L4⟩

theorem gen_loop_lowered (build : BuildCode) (hb : BuildLowers build) (opnum : Int)
    (op : JumpOp) (b : FlowBuilder) (r : Bool × FlowBuilder) (hcur : b.cur < b.nblocks)
    (h : llvm_gen_loop_op build opnum op b = some r) : Lowered b r.2 := by
  obtain ⟨cond, r1, r2, r3, r4, -, -, -, -, -, hr, L1, L2, L3, L4⟩ :=
    loop_anatomy build hb opnum op b r hcur h
  have hB : r.2 = ((r4.2.CreateBr b.nblocks).SetInsertPoint (b.nblocks + 3)).llvm_pop_loop := by
    rw [hr]
  exact (loop_chain b r1.2 r2.2 r3.2 r4.2 r.2 _ cond hcur L1 L2 L3 L4 hB).2.2.2.2.2.2.2.2.1

theorem if_enter_fst (b : FlowBuilder) (cond : Symbol) :
    (if_enter b cond).1 = (b.nblocks, b.nblocks + 1, b.nblocks + 2) := rfl

theorem if_enter_blocks_ne (b : FlowBuilder) (cond : Symbol) (j : Nat) (h : j < b.nblocks)
    (hne : j ≠ b.cur) : (if_enter b cond).2.blocks j = b.blocks j := by
  have h0 : (if_enter b cond).2.blocks j
      = Function.update (Function.update (Function.update (Function.update
          (b.load_nonzero cond).2.blocks b.nblocks []) (b.nblocks + 1) []) (b.nblocks + 2) [])
          b.cur (Function.update (Function.update (Function.update
          (b.load_nonzero cond).2.blocks b.nblocks []) (b.nblocks + 1) []) (b.nblocks + 2) []
          b.cur ++ [.condbr (b.nregs + 1) b.nblocks (b.nblocks + 1)]) j := rfl
  rw [h0, Function.update_noteq hne, Function.update_noteq (by omega),
    Function.update_noteq (by omega), Function.update_noteq (by omega)]
  exact load_nonzero_blocks_ne b cond j hne

theorem if_enter_blocks_cur (b : FlowBuilder) (cond : Symbol) (h : b.cur < b.nblocks) :
    (if_enter b cond).2.blocks b.cur
      = b.blocks b.cur ++ [.load b.nregs cond, .icmp_ne (b.nregs + 1) b.nregs 0,
          .condbr (b.nregs + 1) b.nblocks (b.nblocks + 1)] := by
  have h0 : (if_enter b cond).2.blocks b.cur
      = Function.update (Function.update (Function.update (Function.update
          (b.load_nonzero cond).2.blocks b.nblocks []) (b.nblocks + 1) []) (b.nblocks + 2) [])
          b.cur (Function.update (Function.update (Function.update
          (b.load_nonzero cond).2.blocks b.nblocks []) (b.nblocks + 1) []) (b.nblocks + 2) []
          b.cur ++ [.condbr (b.nregs + 1) b.nblocks (b.nblocks + 1)]) b.cur := rfl
  rw [h0, Function.update_same, Function.update_noteq (by omega),
    Function.update_noteq (by omega), Function.update_noteq (by omega),
    load_nonzero_blocks_self]
  simp

theorem if_enter_blocks_new (b : FlowBuilder) (cond : Symbol) (i : Nat) (hi : i < 3)
    (h : b.cur < b.nblocks) : (if_enter b cond).2.blocks (b.nblocks + i) = [] := by
  have h0 : (if_enter b cond).2.blocks (b.nblocks + i)
      = Function.update (Function.update (Function.update (Function.update
          (b.load_nonzero cond).2.blocks b.nblocks []) (b.nblocks + 1) []) (b.nblocks + 2) [])
          b.cur (Function.update (Function.update (Function.update
          (b.load_nonzero cond).2.blocks b.nblocks []) (b.nblocks + 1) []) (b.nblocks + 2) []
          b.cur ++ [.condbr (b.nregs + 1) b.nblocks (b.nblocks + 1)]) (b.nblocks + i) := rfl
  rw [h0, Function.update_noteq (by omega)]
  simp only [Function.update_apply]
  split_ifs <;> first | rfl | omega

theorem gen_if_lowered (build : BuildCode) (hb : BuildLowers build) (opnum : Int)
    (op : JumpOp) (b : FlowBuilder) (r : Bool × FlowBuilder) (hcur : b.cur < b.nblocks)
    (h : llvm_gen_if build opnum op b = some r) : Lowered b r.2 := by
  unfold llvm_gen_if at h
  simp only [Option.bind_eq_some, if_enter_fst, Option.some.injEq] at h
  obtain ⟨cond, -, r1, h1, r2, h2, hr⟩ := h
  have L1 : Lowered ((if_enter b cond).2.SetInsertPoint b.nblocks) r1.2 :=
    hb _ _ (some b.nblocks) _ r1 (by show b.nblocks < b.nblocks + 3; omega) h1
  have n1 : b.nblocks + 3 ≤ r1.2.nblocks := L1.2.2.1
  have L2 : Lowered ((r1.2.CreateBr (b.nblocks + 2)).SetInsertPoint (b.nblocks + 1)) r2.2 :=
    hb _ _ (some (b.nblocks + 1)) _ r2 (by show b.nblocks + 1 < r1.2.nblocks; omega) h2
  have e1 : r1.2.cur = b.nblocks ∨ b.nblocks + 3 ≤ r1.2.cur := L1.cur_cases
  have e2 : r2.2.cur = b.nblocks + 1 ∨ r1.2.nblocks ≤ r2.2.cur := L2.cur_cases
  obtain ⟨l1, f1, -, c1, fr1, -⟩ := L1
  obtain ⟨l2, f2, n2, c2, fr2, -⟩ := L2
  have l1 : r1.2.loops = b.loops := l1
  have l2 : r2.2.loops = r1.2.loops := l2
  have f1 : r1.2.functions = b.functions := f1
  have f2 : r2.2.functions = r1.2.functions := f2
  have n2 : r1.2.nblocks ≤ r2.2.nblocks := n2
  have fr1 : ∀ j, j < b.nblocks + 3 → j ≠ b.nblocks →
      r1.2.blocks j = (if_enter b cond).2.blocks j := fr1
  have fr2 : ∀ j, j < r1.2.nblocks → j ≠ b.nblocks + 1 →
      r2.2.blocks j = (r1.2.emit (.br (b.nblocks + 2))).blocks j := fr2
  have hBb : ∀ j, r.2.blocks j = (r2.2.emit (.br (b.nblocks + 2))).blocks j :=
    fun j => by rw [← hr]; rfl
  have hBl : r.2.loops = r2.2.loops := by rw [← hr]; rfl
  have hBf : r.2.functions = r2.2.functions := by rw [← hr]; rfl
  have hBn : r.2.nblocks = r2.2.nblocks := by rw [← hr]; rfl
  have hBc : r.2.cur = b.nblocks + 2 := by rw [← hr]; rfl
  have chain : ∀ j, j < b.nblocks + 3 → j ≠ b.nblocks → j ≠ b.nblocks + 1 →
      r.2.blocks j = (if_enter b cond).2.blocks j := fun j hj h0 h1 => by
    rw [hBb, emit_blocks_ne _ _ _ (by omega), fr2 _ (by omega) h1,
      emit_blocks_ne _ _ _ (by omega), fr1 _ hj h0]
  have hn : b.nblocks ≤ r.2.nblocks := by omega
  have hc : r.2.cur < r.2.nblocks := by omega
  have hge : b.nblocks ≤ r.2.cur := by omega
  refine ⟨?_, ?_, hn, hc, ?_, Or.inr ⟨hge, ?_, ?_⟩⟩
  · rw [hBl, l2, l1]
  · rw [hBf, f2, f1]
  · intro j hj hne
    rw [chain j (by omega) (by omega) (by omega)]
    exact if_enter_blocks_ne b cond j hj hne
  · rw [hBc, chain _ (by omega) (by omega) (by omega), if_enter_blocks_new b cond 2 (by omega) hcur]
    exact block_open_nil
  · exact ⟨_, by rw [chain _ (by omega) (by omega) (by omega), if_enter_blocks_cur b cond hcur]⟩

theorem gen_functioncall_lowered (build : BuildCode) (hb : BuildLowers build) (opnum : Int)
    (op : JumpOp) (b : FlowBuilder) (r : Bool × FlowBuilder) (hcur : b.cur < b.nblocks)
    (h : llvm_gen_functioncall build opnum op b = some r) : Lowered b r.2 := by
  unfold llvm_gen_functioncall at h
  split at h
  · simp at h
  simp only [Option.bind_eq_some, Option.some.injEq] at h
  obtain ⟨r1, h1, hr⟩ := h
  have L1 : Lowered (b.llvm_new_basic_block.2.llvm_push_function b.nblocks) r1.2 :=
    hb _ _ none _ r1 (by show b.cur < b.nblocks + 1; omega) h1
  have e1 : r1.2.cur = b.cur ∨ b.nblocks + 1 ≤ r1.2.cur := L1.cur_cases
  obtain ⟨s, hs⟩ := L1.extends_cur
  obtain ⟨l1, f1, n1, c1, fr1, -⟩ := L1
  have l1 : r1.2.loops = b.loops := l1
  have f1 : r1.2.functions = b.nblocks :: b.functions := f1
  have n1 : b.nblocks + 1 ≤ r1.2.nblocks := n1
  have fr1 : ∀ j, j < b.nblocks + 1 → j ≠ b.cur →
      r1.2.blocks j = Function.update b.blocks b.nblocks [] j := fr1
  have hs : r1.2.blocks b.cur = Function.update b.blocks b.nblocks [] b.cur ++ s := hs
  rw [Function.update_noteq (by omega)] at hs
  have hBb : ∀ j, r.2.blocks j = (r1.2.emit (.br b.nblocks)).blocks j :=
    fun j => by rw [← hr]; rfl
  have hBl : r.2.loops = r1.2.loops := by rw [← hr]; rfl
  have hBf : r.2.functions = r1.2.functions.tail := by rw [← hr]; rfl
  have hBn : r.2.nblocks = r1.2.nblocks := by rw [← hr]; rfl
  have hBc : r.2.cur = b.nblocks := by rw [← hr]; rfl
  have hn : b.nblocks ≤ r.2.nblocks := by omega
  have hc : r.2.cur < r.2.nblocks := by omega
  have hge : b.nblocks ≤ r.2.cur := by omega
  refine ⟨?_, ?_, hn, hc, ?_, Or.inr ⟨hge, ?_, ?_⟩⟩
  · rw [hBl, l1]
  · rw [hBf, f1]
    rfl
  · intro j hj hne
    rw [hBb, emit_blocks_ne _ _ _ (by omega), fr1 _ (by omega) hne,
      Function.update_noteq (by omega)]
  · rw [hBc, hBb, emit_blocks_ne _ _ _ (by omega), fr1 _ (by omega) (by omega),
      Function.update_same]
    exact block_open_nil
  · rw [hBb]
    by_cases hj1 : b.cur = r1.2.cur
    · refine ⟨s ++ [.br b.nblocks], ?_⟩
      rw [hj1, emit_blocks_self, ← hj1, hs, List.append_assoc]
    · exact ⟨s, by rw [emit_blocks_ne _ _ _ hj1, hs]⟩

theorem gen_loopmod_lowered (op : JumpOp) (b : FlowBuilder) (r : Bool × FlowBuilder)
    (hcur : b.cur < b.nblocks) (h : llvm_gen_loopmod_op op b = some r) : Lowered b r.2 := by
  unfold llvm_gen_loopmod_op at h
  split at h
  · simp at h
  simp only [Option.bind_eq_some, Option.some.injEq] at h
  obtain ⟨t, -, hr⟩ := h
  rw [← hr]
  exact branch_away_lowered b t hcur

theorem gen_return_lowered (op : JumpOp) (b : FlowBuilder) (r : Bool × FlowBuilder)
    (hcur : b.cur < b.nblocks) (h : llvm_gen_return op b = some r) : Lowered b r.2 := by
  unfold llvm_gen_return at h
  split at h
  · simp at h
  simp only [Option.bind_eq_some, Option.some.injEq] at h
  obtain ⟨t, -, hr⟩ := h
  rw [← hr]
  exact branch_away_lowered b t hcur

theorem gen_op_lowered (rop : FlowContext) (build : BuildCode) (hb : BuildLowers build)
    (opnum : Int) (op : JumpOp) (b : FlowBuilder) (r : Bool × FlowBuilder)
    (hcur : b.cur < b.nblocks) (h : llvm_gen_op rop build opnum op b = some r) :
    Lowered b r.2 := by
  unfold llvm_gen_op at h
  split_ifs at h
  · exact gen_if_lowered build hb opnum op b r hcur h
  · exact gen_loop_lowered build hb opnum op b r hcur h
  · exact gen_loopmod_lowered op b r hcur h
  · exact gen_functioncall_lowered build hb opnum op b r hcur h
  · exact gen_return_lowered op b r hcur h
  · simp only [Option.some.injEq] at h
    rw [← h]
    exact Lowered.refl b hcur
  · cases hh : rop.handler op.op with
    | none =>
      rw [hh] at h
      simp only [Option.some.injEq] at h
      rw [← h]
      exact Lowered.refl b hcur
    | some ok =>
      rw [hh] at h
      simp only [Option.some.injEq] at h
      rw [← h]
      exact emit_code_lowered b opnum hcur

/-- Every result of `build_llvm_code` is `Lowered` from the builder at the block
the lowering is started in; in particular the stack of loops is the one it was
started with. -/
theorem build_lowers (rop : FlowContext) (fuel : Nat) : BuildLowers (build_llvm_code rop fuel) := by
  induction fuel with
  | zero =>
    intro beginop endop bb b r hcur h
    unfold build_llvm_code at h
    split_ifs at h
    simp only [Option.some.injEq] at h
    rw [← h]
    exact Lowered.refl _ (by cases bb <;> exact hcur)
  | succ fuel ih =>
    intro beginop endop bb b r hcur h
    unfold build_llvm_code at h
    split_ifs at h
    · simp only [Option.bind_eq_some] at h
      obtain ⟨op, -, r1, h1, h2⟩ := h
      have hcur' : (b.enter_block bb).cur < (b.enter_block bb).nblocks := by
        cases bb <;> exact hcur
      have L1 := gen_op_lowered rop _ ih beginop op _ r1 hcur' h1
      split_ifs at h2
      · have L2 : Lowered r1.2 r.2 := ih _ _ none r1.2 r L1.2.2.2.1 h2
        exact Lowered.trans hcur' L1 L2
      · simp only [Option.some.injEq] at h2
        rw [← h2]
        exact L1
    · simp only [Option.some.injEq] at h
      rw [← h]
      exact Lowered.refl _ (by cases bb <;> exact hcur)

/-! ## Control flow: lowering adds no branch to a block that exists already -/

theorem block_open_targets {xs : List FlowInstr} (h : block_open xs) (i : FlowInstr)
    (hi : i ∈ xs) : i.targets = [] := by
  have := h i hi
  cases i <;> first | rfl | simp [FlowInstr.is_branch] at this

theorem Avoids.mono {p : Nat} {E E' : Nat → Prop} {b : FlowBuilder} (h : Avoids p E b)
    (hE : ∀ j, E j → E' j) : Avoids p E' b :=
  ⟨h.1, fun j hj hn => h.2.1 j hj (fun he => hn (hE j he)), h.2.2⟩

theorem Avoids.emit {p : Nat} {E : Nat → Prop} {b : FlowBuilder} (h : Avoids p E b)
    (i : FlowInstr) (hi : p ∉ i.targets ∨ E b.cur) : Avoids p E (b.emit i) := by
  refine ⟨h.1, ?_, h.2.2⟩
  intro j hj hn k hk
  by_cases hjc : j = b.cur
  · rw [hjc, emit_blocks_self] at hk
    rcases List.mem_append.mp hk with hk | hk
    · exact h.2.1 b.cur (hjc ▸ hj) (hjc ▸ hn) k hk
    · simp only [List.mem_singleton] at hk
      rw [hk]
      rcases hi with hi | hi
      · exact hi
      · exact absurd (hjc ▸ hi) hn
  · rw [emit_blocks_ne _ _ _ hjc] at hk
    exact h.2.1 j hj hn k hk

theorem Avoids.new_block {p : Nat} {E : Nat → Prop} {b : FlowBuilder} (h : Avoids p E b) :
    Avoids p E b.llvm_new_basic_block.2 := by
  refine ⟨Nat.lt_succ_of_lt h.1, ?_, h.2.2⟩
  intro j hj hn k hk
  have hk : k ∈ Function.update b.blocks b.nblocks [] j := hk
  by_cases hjn : j = b.nblocks
  · rw [hjn, Function.update_same] at hk
    simp at hk
  · rw [Function.update_noteq hjn] at hk
    have hj : j < b.nblocks + 1 := hj
    exact h.2.1 j (by omega) hn k hk

theorem Avoids.set_insert_point {p : Nat} {E : Nat → Prop} {b : FlowBuilder}
    (h : Avoids p E b) (k : Nat) : Avoids p E (b.SetInsertPoint k) := h

theorem Avoids.enter_block {p : Nat} {E : Nat → Prop} {b : FlowBuilder}
    (h : Avoids p E b) (bb : Option Nat) : Avoids p E (b.enter_block bb) := by
  cases bb <;> exact h

theorem Avoids.push_loop {p : Nat} {E : Nat → Prop} {b : FlowBuilder} (h : Avoids p E b)
    (s a : Nat) (hs : s ≠ p) (ha : a ≠ p) : Avoids p E (b.llvm_push_loop s a) := by
  refine ⟨h.1, h.2.1, ?_, h.2.2.2⟩
  intro e he
  have he : e ∈ (s, a) :: b.loops := he
  rcases List.mem_cons.mp he with he | he
  · rw [he]
    exact ⟨hs, ha⟩
  · exact h.2.2.1 e he

theorem Avoids.pop_loop {p : Nat} {E : Nat → Prop} {b : FlowBuilder} (h : Avoids p E b) :
    Avoids p E b.llvm_pop_loop :=
  ⟨h.1, h.2.1, fun e he => h.2.2.1 e (List.mem_of_mem_tail he), h.2.2.2⟩

theorem Avoids.push_function {p : Nat} {E : Nat → Prop} {b : FlowBuilder} (h : Avoids p E b)
    (a : Nat) (ha : a ≠ p) : Avoids p E (b.llvm_push_function a) := by
  refine ⟨h.1, h.2.1, h.2.2.1, ?_⟩
  intro f hf
  have hf : f ∈ a :: b.functions := hf
  rcases List.mem_cons.mp hf with hf | hf
  · rw [hf]
    exact ha
  · exact h.2.2.2 f hf

theorem Avoids.pop_function {p : Nat} {E : Nat → Prop} {b : FlowBuilder} (h : Avoids p E b) :
    Avoids p E b.llvm_pop_function :=
  ⟨h.1, h.2.1, h.2.2.1, fun f hf => h.2.2.2 f (List.mem_of_mem_tail hf)⟩

theorem Avoids.load_nonzero {p : Nat} {E : Nat → Prop} {b : FlowBuilder} (h : Avoids p E b)
    (cond : Symbol) : Avoids p E (b.load_nonzero cond).2 := by
  have h1 : Avoids p E (b.emit (.load b.nregs cond)) :=
    h.emit _ (Or.inl (by simp [FlowInstr.targets]))
  have h2 : Avoids p E (b.llvm_load_value cond).2 := h1
  exact Avoids.emit (b := (b.llvm_load_value cond).2) h2 (.icmp_ne _ _ 0)
    (Or.inl (by simp [FlowInstr.targets]))

theorem Avoids.loop_test {p : Nat} {E : Nat → Prop} {b : FlowBuilder} (h : Avoids p E b)
    (cond : Symbol) (t f : Nat) (hi : (t ≠ p ∧ f ≠ p) ∨ E b.cur) :
    Avoids p E (loop_test b cond t f) := by
  have h1 := h.load_nonzero cond
  refine Avoids.emit (b := (b.load_nonzero cond).2) h1 (.condbr _ t f) ?_
  rcases hi with ⟨ht, hf⟩ | hi
  · left
    simp only [FlowInstr.targets, List.mem_cons, List.mem_singleton, List.not_mem_nil, or_false,
      not_or]
    exact ⟨fun h => ht h.symm, fun h => hf h.symm⟩
  · exact Or.inr hi

theorem Avoids.loop_enter {p : Nat} {E : Nat → Prop} {b : FlowBuilder} (h : Avoids p E b)
    (hs : b.nblocks + 2 ≠ p) (ha : b.nblocks + 3 ≠ p) : Avoids p E (loop_enter b).2 :=
  Avoids.push_loop (Avoids.new_block (Avoids.new_block (Avoids.new_block
    (Avoids.new_block h)))) _ _ hs ha

theorem Avoids.branch_away {p : Nat} {E : Nat → Prop} {b : FlowBuilder} (h : Avoids p E b)
    (t : Nat) (ht : t ≠ p) : Avoids p E (branch_away b t) := by
  have h1 : Avoids p E (b.CreateBr t) :=
    h.emit _ (Or.inl (by simpa [FlowInstr.targets] using fun h => ht h.symm))
  exact (Avoids.new_block h1).set_insert_point _

theorem gen_loop_avoids (build : BuildCode) (hb : BuildAvoids build) (opnum : Int)
    (op : JumpOp) (p : Nat) (E : Nat → Prop) (b : FlowBuilder) (r : Bool × FlowBuilder)
    (ha : Avoids p E b) (h : llvm_gen_loop_op build opnum op b = some r) :
    Avoids p E r.2 := by
  unfold llvm_gen_loop_op at h
  simp only [Option.bind_eq_some, loop_enter_fst, Option.some.injEq] at h
  obtain ⟨cond, -, r1, h1, r2, h2, r3, h3, r4, h4, hr⟩ := h
  have hp : p < b.nblocks := ha.1
  have a0 := ha.loop_enter (by omega) (by omega)
  have a1 := hb p E _ _ _ _ r1 a0 h1
  have a1' : Avoids p E (r1.2.CreateBr (if op.op.opname = "dowhile" then b.nblocks + 1
      else b.nblocks)) := a1.emit _ (Or.inl (by
    simp only [FlowInstr.targets, List.mem_singleton]
    split_ifs <;> omega))
  have a2 := hb p E _ _ _ _ r2 a1' h2
  have a2' := a2.loop_test cond (b.nblocks + 1) (b.nblocks + 3) (Or.inl ⟨by omega, by omega⟩)
  have a3 := hb p E _ _ _ _ r3 a2' h3
  have a3' : Avoids p E (r3.2.CreateBr (b.nblocks + 2)) := a3.emit _ (Or.inl (by
    simp only [FlowInstr.targets, List.mem_singleton]
    omega))
  have a4 := hb p E _ _ _ _ r4 a3' h4
  have a4' : Avoids p E (r4.2.CreateBr b.nblocks) := a4.emit _ (Or.inl (by
    simp only [FlowInstr.targets, List.mem_singleton]
    omega))
  rw [← hr]
  exact (a4'.set_insert_point _).pop_loop

theorem gen_if_avoids (build : BuildCode) (hb : BuildAvoids build) (opnum : Int)
    (op : JumpOp) (p : Nat) (E : Nat → Prop) (b : FlowBuilder) (r : Bool × FlowBuilder)
    (ha : Avoids p E b) (h : llvm_gen_if build opnum op b = some r) : Avoids p E r.2 := by
  unfold llvm_gen_if at h
  simp only [Option.bind_eq_some, if_enter_fst, Option.some.injEq] at h
  obtain ⟨cond, -, r1, h1, r2, h2, hr⟩ := h
  have hp : p < b.nblocks := ha.1
  have a0 : Avoids p E (if_enter b cond).2 := by
    have hn := Avoids.new_block (Avoids.new_block (Avoids.new_block (ha.load_nonzero cond)))
    refine Avoids.emit hn (.condbr (b.nregs + 1) b.nblocks (b.nblocks + 1)) (Or.inl ?_)
    simp only [FlowInstr.targets, List.mem_cons, List.mem_singleton, List.not_mem_nil, or_false]
    omega
  have a1 := hb p E _ _ _ _ r1 a0 h1
  have a1' : Avoids p E (r1.2.CreateBr (b.nblocks + 2)) := a1.emit _ (Or.inl (by
    simp only [FlowInstr.targets, List.mem_singleton]
    omega))
  have a2 := hb p E _ _ _ _ r2 a1' h2
  have a2' : Avoids p E (r2.2.CreateBr (b.nblocks + 2)) := a2.emit _ (Or.inl (by
    simp only [FlowInstr.targets, List.mem_singleton]
    omega))
  rw [← hr]
  exact a2'.set_insert_point _

theorem gen_functioncall_avoids (build : BuildCode) (hb : BuildAvoids build) (opnum : Int)
    (op : JumpOp) (p : Nat) (E : Nat → Prop) (b : FlowBuilder) (r : Bool × FlowBuilder)
    (ha : Avoids p E b) (h : llvm_gen_functioncall build opnum op b = some r) :
    Avoids p E r.2 := by
  unfold llvm_gen_functioncall at h
  split at h
  · simp at h
  simp only [Option.bind_eq_some, Option.some.injEq] at h
  obtain ⟨r1, h1, hr⟩ := h
  have hp : p < b.nblocks := ha.1
  have a0 : Avoids p E (b.llvm_new_basic_block.2.llvm_push_function b.nblocks) :=
    (Avoids.new_block ha).push_function _ (by omega)
  have a1 := hb p E _ _ _ _ r1 a0 h1
  have a1' : Avoids p E (r1.2.CreateBr b.nblocks) := a1.emit _ (Or.inl (by
    simp only [FlowInstr.targets, List.mem_singleton]
    omega))
  rw [← hr]
  exact (a1'.set_insert_point _).pop_function

theorem gen_loopmod_avoids (op : JumpOp) (p : Nat) (E : Nat → Prop) (b : FlowBuilder)
    (r : Bool × FlowBuilder) (ha : Avoids p E b) (h : llvm_gen_loopmod_op op b = some r) :
    Avoids p E r.2 := by
  unfold llvm_gen_loopmod_op at h
  split at h
  · simp at h
  simp only [Option.bind_eq_some, Option.some.injEq] at h
  obtain ⟨t, ht, hr⟩ := h
  rw [← hr]
  refine ha.branch_away t ?_
  cases hl : b.loops with
  | nil =>
    simp [FlowBuilder.llvm_loop_after_block, FlowBuilder.llvm_loop_step_block, hl] at ht
  | cons e rest =>
    have he := ha.2.2.1 e (by rw [hl]; exact List.mem_cons_self _ _)
    simp only [FlowBuilder.llvm_loop_after_block, FlowBuilder.llvm_loop_step_block, hl,
      List.head?_cons, Option.map_some'] at ht
    split_ifs at ht
    · simp only [Option.some.injEq] at ht
      rw [← ht]
      exact he.2
    · simp only [Option.some.injEq] at ht
      rw [← ht]
      exact he.1

theorem gen_return_avoids (op : JumpOp) (p : Nat) (E : Nat → Prop) (b : FlowBuilder)
    (r : Bool × FlowBuilder) (ha : Avoids p E b) (h : llvm_gen_return op b = some r) :
    Avoids p E r.2 := by
  unfold llvm_gen_return at h
  split at h
  · simp at h
  simp only [Option.bind_eq_some, Option.some.injEq] at h
  obtain ⟨t, ht, hr⟩ := h
  rw [← hr]
  refine ha.branch_away t ?_
  cases hl : b.functions with
  | nil => simp [FlowBuilder.llvm_return_block, hl] at ht
  | cons e rest =>
    have he := ha.2.2.2 e (by rw [hl]; exact List.mem_cons_self _ _)
    simp only [FlowBuilder.llvm_return_block, hl, List.head?_cons, Option.some.injEq] at ht
    rw [← ht]
    exact he

theorem gen_op_avoids (rop : FlowContext) (build : BuildCode) (hb : BuildAvoids build)
    (opnum : Int) (op : JumpOp) (p : Nat) (E : Nat → Prop) (b : FlowBuilder)
    (r : Bool × FlowBuilder) (ha : Avoids p E b)
    (h : llvm_gen_op rop build opnum op b = some r) : Avoids p E r.2 := by
  unfold llvm_gen_op at h
  split_ifs at h
  · exact gen_if_avoids build hb opnum op p E b r ha h
  · exact gen_loop_avoids build hb opnum op p E b r ha h
  · exact gen_loopmod_avoids op p E b r ha h
  · exact gen_functioncall_avoids build hb opnum op p E b r ha h
  · exact gen_return_avoids op p E b r ha h
  · simp only [Option.some.injEq] at h
    rw [← h]
    exact ha
  · cases hh : rop.handler op.op with
    | none =>
      rw [hh] at h
      simp only [Option.some.injEq] at h
      rw [← h]
      exact ha
    | some ok =>
      rw [hh] at h
      simp only [Option.some.injEq] at h
      rw [← h]
      exact ha.emit _ (Or.inl (by simp [FlowInstr.targets]))

/-- No result of `build_llvm_code` has a new branch to a block that existed when
the lowering was started, other than the blocks of the enclosing loops and
function calls. -/
theorem build_avoids (rop : FlowContext) (fuel : Nat) :
    BuildAvoids (build_llvm_code rop fuel) := by
  induction fuel with
  | zero =>
    intro p E beginop endop bb b r ha h
    unfold build_llvm_code at h
    split_ifs at h
    simp only [Option.some.injEq] at h
    rw [← h]
    exact ha.enter_block bb
  | succ fuel ih =>
    intro p E beginop endop bb b r ha h
    unfold build_llvm_code at h
    split_ifs at h
    · simp only [Option.bind_eq_some] at h
      obtain ⟨op, -, r1, h1, h2⟩ := h
      have a1 := gen_op_avoids rop _ ih beginop op p E _ r1 (ha.enter_block bb) h1
      split_ifs at h2
      · exact ih p E _ _ none r1.2 r a1 h2
      · simp only [Option.some.injEq] at h2
        rw [← h2]
        exact a1
    · simp only [Option.some.injEq] at h
      rw [← h]
      exact ha.enter_block bb

theorem run_block_br (effect : Int → (Symbol → Int) → (Symbol → Int))
    (xs : List FlowInstr) (t : Nat) (hx : block_open xs) (m : FlowMachine) :
    (run_block effect (xs ++ [.br t]) m).2 = some t := by
  rw [run_block_append effect xs _ hx]
  rfl

theorem run_block_test (effect : Int → (Symbol → Int) → (Symbol → Int))
    (xs : List FlowInstr) (cond : Symbol) (v t f : Nat) (hx : block_open xs) (m : FlowMachine) :
    (run_block effect (xs ++ [.load v cond, .icmp_ne (v + 1) v 0, .condbr (v + 1) t f]) m).2
      = some (if (run_block effect xs m).1.vals cond ≠ 0 then t else f) := by
  rw [run_block_append effect xs _ hx]
  simp only [run_block, FlowInstr.is_branch, FlowInstr.target, FlowMachine.step,
    Bool.false_eq_true, if_false, if_true, Function.update_same]
  by_cases hv : (run_block effect xs m).1.vals cond = 0
  · simp [hv]
  · simp [hv]

theorem loopmod_top (m : JumpOp) (x : FlowBuilder) (step after : Nat) (rest : List (Nat × Nat))
    (hx : x.cur < x.nblocks) (hm : m.op.nargs = 0) (hl : x.loops = (step, after) :: rest) :
    ∃ z, llvm_gen_loopmod_op m x = some (true, z) ∧
      z.blocks x.cur = x.blocks x.cur ++ [.br (if m.op.opname = "break" then after else step)] ∧
      z.loops = x.loops := by
  refine ⟨branch_away x (if m.op.opname = "break" then after else step), ?_,
    branch_away_blocks x _ hx, rfl⟩
  unfold llvm_gen_loopmod_op
  rw [if_neg (not_not.mpr hm)]
  by_cases hb : m.op.opname = "break"
  · simp [hb, FlowBuilder.llvm_loop_after_block, hl]
  · simp [hb, FlowBuilder.llvm_loop_step_block, hl]

/-! ### Division with derivatives: what is stored -/

/-- Claim C3, amended: lowering `div` with a non-matrix, derivative-capable `Result`
and at least one derivative-capable operand succeeds, and for every `a`, `b` (zero
included) and whatever the safe division returns for a zero denominator, the stored
value is `safe_div(a,b)` and each stored derivative is `safe_div(1,b) * (da -
safe_div(a,b)*db)`: the numerator is multiplied by the safe reciprocal of `b`, it is
not divided by `b`, and the reciprocal and the quotient are the two safe divisions. -/
theorem llvm_gen_div_derivs (rop : RuntimeOptimizer) (op : Opcode) (st : CodeGen)
    (Result A B : Symbol)
    (hR : opargsym op 0 = some Result) (hA : opargsym op 1 = some A)
    (hB : opargsym op 2 = some B)
    (hfloat : Result.typespec.is_floatbased = true)
    (hnm : Result.typespec.is_matrix = false)
    (hRd : Result.has_derivs = true)
    (hABd : A.has_derivs = true ∨ B.has_derivs = true) :
    ∃ st', llvm_gen_div rop op st = some (true, st') ∧
      ∀ i, i < Result.typespec.aggregate → ∀ a b ax bx ay by_ : Value,
        a = llvm_load_value st A 0 none i (some Result.typespec) →
        b = llvm_load_value st B 0 none i (some Result.typespec) →
        ax = llvm_load_value st A 1 none i (some Result.typespec) →
        bx = llvm_load_value st B 1 none i (some Result.typespec) →
        ay = llvm_load_value st A 2 none i (some Result.typespec) →
        by_ = llvm_load_value st B 2 none i (some Result.typespec) →
        st'.mem ⟨Result, 0, 0, i⟩ = llvm_make_safe_div rop Result.typespec a b ∧
        st'.mem ⟨Result, 1, 0, i⟩ =
          CreateFMul (llvm_make_safe_div rop Result.typespec (llvm_constant 1) b)
            (CreateFSub ax (CreateFMul (llvm_make_safe_div rop Result.typespec a b) bx)) ∧
        st'.mem ⟨Result, 2, 0, i⟩ =
          CreateFMul (llvm_make_safe_div rop Result.typespec (llvm_constant 1) b)
            (CreateFSub ay (CreateFMul (llvm_make_safe_div rop Result.typespec a b) by_)) ∧
        llvm_make_safe_div rop Result.typespec a b = .f (safe_quotient rop a.toRat b.toRat) ∧
        llvm_make_safe_div rop Result.typespec (llvm_constant 1) b
          = .f (safe_quotient rop 1 b.toRat) := by
  obtain ⟨hcl, hcb⟩ := floatbased_not_closure _ hfloat
  have hABd' : (A.has_derivs || B.has_derivs) = true := by
    rcases hABd with h | h <;> simp [h]
  simp only [llvm_gen_div, hR, hA, hB, hcb, hnm, hRd, hABd', hfloat, TypeSpec.simpletype,
    Bool.false_eq_true, if_false, Bool.and_self, if_true, Bool.not_true, Bool.and_false,
    forLoopM_pure, Option.bind]
  refine ⟨_, rfl, ?_⟩
  intro i hi a b ax bx ay by_ ha hb hax hbx hay hby
  rw [forLoop_rows_at Result _ st i 0 hi, forLoop_rows_at Result _ st i 1 hi,
    forLoop_rows_at Result _ st i 2 hi]
  rotate_left
  · intro j s x hx
    simp only [store_frame_row Result j _ _ _ x hx]
  · intro j s s' hs
    simp only [load_agree Result j s s' hs]
    exact store_agree _ _ _ (store_agree _ _ _ (store_agree _ _ _ hs _ _ _ _ _)
      _ _ _ _ _) _ _ _ _ _
  · intro j s x hx
    simp only [store_frame_row Result j _ _ _ x hx]
  · intro j s s' hs
    simp only [load_agree Result j s s' hs]
    exact store_agree _ _ _ (store_agree _ _ _ (store_agree _ _ _ hs _ _ _ _ _)
      _ _ _ _ _) _ _ _ _ _
  · intro j s x hx
    simp only [store_frame_row Result j _ _ _ x hx]
  · intro j s s' hs
    simp only [load_agree Result j s s' hs]
    exact store_agree _ _ _ (store_agree _ _ _ (store_agree _ _ _ hs _ _ _ _ _)
      _ _ _ _ _) _ _ _ _ _
  simp only [store_mem_at _ _ _ _ _ hi, hRd, true_or, true_and, OfNat.zero_ne_ofNat,
    OfNat.ofNat_ne_zero, OfNat.one_ne_ofNat, if_true, if_false, one_ne_zero, zero_ne_one,
    ← ha, ← hb, ← hax, ← hbx, ← hay, ← hby]
  refine ⟨?_, ?_⟩
  · exact safe_div_float rop _ hfloat a b
  · rw [safe_div_float rop _ hfloat]
    rfl

/-- Claim C3 (amended) at A = (2,1,0) and B = (3,0,1): `Result` becomes
(2/3, 1/3 * (1 - 2/3 * 0), 1/3 * (0 - 2/3 * 1)) = (2/3, 1/3, -2/9). -/
theorem llvm_gen_div_derivs_witness :
    opargsym ex_binop 0 = some ex_R ∧ opargsym ex_binop 1 = some ex_A ∧
    opargsym ex_binop 2 = some ex_B ∧ ex_R.typespec.is_floatbased = true ∧
    ex_R.typespec.is_matrix = false ∧ ex_R.has_derivs = true ∧
    (ex_A.has_derivs = true ∨ ex_B.has_derivs = true) ∧
    (llvm_gen_div ex_rop ex_binop ex_st).map (fun r =>
      (r.1, r.2.mem ⟨ex_R, 0, 0, 0⟩, r.2.mem ⟨ex_R, 1, 0, 0⟩, r.2.mem ⟨ex_R, 2, 0, 0⟩))
    = some (true, .f (2 / 3), .f (1 / 3), .f (-2 / 9)) := by
  refine ⟨rfl, rfl, rfl, rfl, rfl, rfl, Or.inl rfl, ?_⟩
  obtain ⟨st', h, hv⟩ := llvm_gen_div_derivs ex_rop ex_binop ex_st ex_R ex_A ex_B
    rfl rfl rfl rfl rfl rfl (Or.inl rfl)
  obtain ⟨h0, h1, h2, -, -⟩ := hv 0 (by decide) _ _ _ _ _ _ rfl rfl rfl rfl rfl rfl
  simp only [Nat.cast_zero] at h0 h1 h2
  rw [h, Option.map, h0, h1, h2]
  simp [llvm_load_value, llvm_cast, ex_A, ex_B, ex_R, ex_float, ex_st, ex_mem,
    Symbol.is_constant, Value.toRat, TypeSpec.is_floatbased, llvm_make_safe_div, safe_quotient,
    CreateFMul, CreateFSub, llvm_constant, comp_index, TypeSpec.aggregate, elem_index]
  norm_num

/-! ### The selections of `clamp`, `min` and `max` at unordered operands -/

theorem unordered_false_iff (a b : Value) :
    a.unordered b = false ↔ a.is_nan = false ∧ b.is_nan = false := by
  simp [Value.unordered]

theorem select_ult (x lo a b : Value) :
    CreateSelect (CreateFCmpULT x lo) a b
      = if x.unordered lo = true ∨ x.toRat < lo.toRat then a else b := by
  unfold CreateSelect
  by_cases h : x.unordered lo = true ∨ x.toRat < lo.toRat
  · rw [if_pos h, if_pos (by simpa [CreateFCmpULT, Value.unordered] using h)]
  · rw [if_neg h, if_neg (by simpa [CreateFCmpULT, Value.unordered] using h)]

theorem select_ugt (x hi a b : Value) :
    CreateSelect (CreateFCmpUGT x hi) a b
      = if x.unordered hi = true ∨ x.toRat > hi.toRat then a else b := by
  unfold CreateSelect
  by_cases h : x.unordered hi = true ∨ x.toRat > hi.toRat
  · rw [if_pos h, if_pos (by simpa [CreateFCmpUGT, Value.unordered] using h)]
  · rw [if_neg h, if_neg (by simpa [CreateFCmpUGT, Value.unordered] using h)]

theorem select_ule (x y a b : Value) :
    CreateSelect (CreateFCmpULE x y) a b
      = if x.unordered y = true ∨ x.toRat ≤ y.toRat then a else b := by
  unfold CreateSelect
  by_cases h : x.unordered y = true ∨ x.toRat ≤ y.toRat
  · rw [if_pos h, if_pos (by simpa [CreateFCmpULE, Value.unordered] using h)]
  · rw [if_neg h, if_neg (by simpa [CreateFCmpULE, Value.unordered] using h)]

/-- Claim C5 fails as stated: for X = 1, Min = NaN and Max = 3 the comparison
"unordered or less than" of X with Min holds, so `llvm_gen_clamp` takes Min as the
intermediate value, the comparison "unordered or greater than" of that NaN with Max
holds too, and the result is 3 with the derivatives (4, 6) of Max, although X is not
less than Min and not greater than Max; the claim gives X with its derivatives
(1, 1). -/
theorem llvm_gen_clamp_nan_counterexample :
    (llvm_gen_clamp ex_rop ex_clamp ex_nan_st).map (fun r =>
      (r.1, r.2.mem ⟨ex_R, 0, 0, 0⟩, r.2.mem ⟨ex_R, 1, 0, 0⟩, r.2.mem ⟨ex_R, 2, 0, 0⟩))
      = some (true, .f 3, .f 4, .f 6) ∧
    llvm_load_value ex_nan_st ex_X 0 none 0 (some ex_float) = .f 1 ∧
    llvm_load_value ex_nan_st ex_X 1 none 0 (some ex_float) = .f 1 ∧
    llvm_load_value ex_nan_st ex_X 2 none 0 (some ex_float) = .f 1 ∧
    llvm_load_value ex_nan_st ex_Min 0 none 0 (some ex_float) = .nan ∧
    llvm_load_value ex_nan_st ex_Max 0 none 0 (some ex_float) = .f 3 := by
  refine ⟨?_, ?_, ?_, ?_, ?_, ?_⟩ <;>
  simp [llvm_gen_clamp, opargsym, ex_clamp, ex_R, ex_X, ex_Min, ex_Max, ex_float, forLoop,
    TypeSpec.is_floatbased, TypeSpec.simpletype, TypeSpec.aggregate, llvm_load_value,
    llvm_store_value, Memory.write, ex_nan_st, ex_nan_mem, ex_mem, llvm_cast,
    Symbol.is_constant, CreateFCmpULT, CreateFCmpUGT, CreateSelect, Value.is_nan, Value.toRat,
    comp_index, elem_index]

/-- Claim C5, amended: lowering `clamp (X, Min, Max)` with a derivative-capable
`Result` succeeds, and for every component the value, x-derivative and
y-derivative slots all come from one operand: with `v` the intermediate value,
`Min`'s when `x < lo` or one of `x`, `lo` is a NaN and `X`'s otherwise, they
come from `Max` when `v > hi` or one of `v`, `hi` is a NaN, else from `Min` when
`x < lo` or one of `x`, `lo` is a NaN, else from `X`.  When none of `x`, `lo`,
`hi` is a NaN the stored value is `min (max x lo) hi` and the selection is the
one of the claim. -/
theorem llvm_gen_clamp_selects (rop : RuntimeOptimizer) (op : Opcode) (st : CodeGen)
    (Result X Min Max : Symbol)
    (hR : opargsym op 0 = some Result) (hX : opargsym op 1 = some X)
    (hMin : opargsym op 2 = some Min) (hMax : opargsym op 3 = some Max)
    (hfloat : Result.typespec.is_floatbased = true)
    (hRd : Result.has_derivs = true) :
    ∃ st', llvm_gen_clamp rop op st = some (true, st') ∧
      ∀ i, i < Result.typespec.aggregate → ∀ x lo hi v : Value,
        x = llvm_load_value st X 0 none i (some Result.typespec) →
        lo = llvm_load_value st Min 0 none i (some Result.typespec) →
        hi = llvm_load_value st Max 0 none i (some Result.typespec) →
        v = (if x.unordered lo = true ∨ x.toRat < lo.toRat then lo else x) →
        (∀ d, d ≤ 2 →
          st'.mem ⟨Result, d, 0, i⟩ =
            if v.unordered hi = true ∨ v.toRat > hi.toRat then
              llvm_load_value st Max d none i (some Result.typespec)
            else if x.unordered lo = true ∨ x.toRat < lo.toRat then
              llvm_load_value st Min d none i (some Result.typespec)
            else llvm_load_value st X d none i (some Result.typespec)) ∧
        (x.is_nan = false → lo.is_nan = false → hi.is_nan = false →
          (st'.mem ⟨Result, 0, 0, i⟩).is_nan = false ∧
          (st'.mem ⟨Result, 0, 0, i⟩).toRat = min (max x.toRat lo.toRat) hi.toRat ∧
          ∀ d, d ≤ 2 →
            st'.mem ⟨Result, d, 0, i⟩ =
              if max x.toRat lo.toRat > hi.toRat then
                llvm_load_value st Max d none i (some Result.typespec)
              else if x.toRat < lo.toRat then
                llvm_load_value st Min d none i (some Result.typespec)
              else llvm_load_value st X d none i (some Result.typespec)) := by
  simp only [llvm_gen_clamp, hR, hX, hMin, hMax, hfloat, hRd, TypeSpec.simpletype, if_true]
  refine ⟨_, rfl, ?_⟩
  intro i hi x lo hi' v hx hlo hhi hv
  refine (and_iff_left_of_imp ?_).2 ?_
  case refine_2 =>
    intro d hd
    rw [forLoop_rows_at Result _ st i d hi]
    rotate_left
    · intro j s x hx
      simp only [store_frame_row Result j _ _ _ x hx]
    · intro j s s' hs
      simp only [load_agree Result j s s' hs]
      exact store_agree _ _ _ (store_agree _ _ _ (store_agree _ _ _ hs _ _ _ _ _)
        _ _ _ _ _) _ _ _ _ _
    have hd3 : d = 0 ∨ d = 1 ∨ d = 2 := by omega
    rcases hd3 with rfl | rfl | rfl <;>
    · simp only [store_mem_at _ _ _ _ _ hi, hRd, true_or, true_and, OfNat.zero_ne_ofNat,
        OfNat.ofNat_ne_zero, OfNat.one_ne_ofNat, if_true, if_false, one_ne_zero, zero_ne_one,
        ← hx, ← hlo, ← hhi, select_ult, select_ugt, ← hv]
  intro hsel nx nlo nhi
  have ux : x.unordered lo = false := (unordered_false_iff _ _).2 ⟨nx, nlo⟩
  have nv : v.is_nan = false := by
    rw [hv]
    split
    · exact nlo
    · exact nx
  have uv : v.unordered hi' = false := (unordered_false_iff _ _).2 ⟨nv, nhi⟩
  have hvr : v.toRat = max x.toRat lo.toRat := by
    rw [hv]
    simp only [ux, Bool.false_eq_true, false_or]
    split
    · rename_i h; rw [max_eq_right (le_of_lt h)]
    · rename_i h; rw [max_eq_left (not_lt.mp h)]
  refine ⟨?_, ?_, ?_⟩
  · rw [hsel 0 (by decide)]
    simp only [ux, uv, Bool.false_eq_true, false_or, hvr]
    split
    · rw [← hhi]; exact nhi
    · split
      · rw [← hlo]; exact nlo
      · rw [← hx]; exact nx
  · rw [hsel 0 (by decide)]
    simp only [ux, uv, Bool.false_eq_true, false_or, hvr]
    by_cases h1 : max x.toRat lo.toRat > hi'.toRat
    · rw [if_pos h1, ← hhi, min_eq_right (le_of_lt h1)]
    · rw [if_neg h1, min_eq_left (not_lt.mp h1)]
      by_cases h2 : x.toRat < lo.toRat
      · rw [if_pos h2, ← hlo, max_eq_right (le_of_lt h2)]
      · rw [if_neg h2, ← hx, max_eq_left (not_lt.mp h2)]
  · intro d hd
    rw [hsel d hd]
    simp only [ux, uv, Bool.false_eq_true, false_or, hvr]

/-- Claim C5 (amended) at X = 5, Min = 0, Max = 3, none of them a NaN: the value
is 3 and the three slots of `Result` are those of `Max`, (3, 4, 6). -/
theorem llvm_gen_clamp_selects_witness :
    opargsym ex_clamp 0 = some ex_R ∧ opargsym ex_clamp 1 = some ex_X ∧
    opargsym ex_clamp 2 = some ex_Min ∧ opargsym ex_clamp 3 = some ex_Max ∧
    ex_R.typespec.is_floatbased = true ∧ ex_R.has_derivs = true ∧
    (llvm_gen_clamp ex_rop ex_clamp ex_st).map (fun r =>
      (r.1, r.2.mem ⟨ex_R, 0, 0, 0⟩, r.2.mem ⟨ex_R, 1, 0, 0⟩, r.2.mem ⟨ex_R, 2, 0, 0⟩))
    = some (true, .f 3, .f 4, .f 6) := by
  refine ⟨rfl, rfl, rfl, rfl, rfl, rfl, ?_⟩
  obtain ⟨st', h, hv⟩ := llvm_gen_clamp_selects ex_rop ex_clamp ex_st ex_R ex_X ex_Min ex_Max
    rfl rfl rfl rfl rfl rfl
  obtain ⟨-, hplain⟩ := hv 0 (by decide) _ _ _ _ rfl rfl rfl rfl
  have hX : llvm_load_value ex_st ex_X 0 none 0 (some ex_R.typespec) = .f 5 := by
    simp [llvm_load_value, llvm_cast, ex_X, ex_R, ex_float, ex_st, ex_mem, Symbol.is_constant,
      TypeSpec.is_floatbased, comp_index, TypeSpec.aggregate, elem_index]
  have hMin : llvm_load_value ex_st ex_Min 0 none 0 (some ex_R.typespec) = .f 0 := by
    simp [llvm_load_value, llvm_cast, ex_Min, ex_R, ex_float, ex_st, ex_mem, Symbol.is_constant,
      TypeSpec.is_floatbased, comp_index, TypeSpec.aggregate, elem_index]
  have hMax : llvm_load_value ex_st ex_Max 0 none 0 (some ex_R.typespec) = .f 3 := by
    simp [llvm_load_value, llvm_cast, ex_Max, ex_R, ex_float, ex_st, ex_mem, Symbol.is_constant,
      TypeSpec.is_floatbased, comp_index, TypeSpec.aggregate, elem_index]
  simp only [Nat.cast_zero] at hplain
  rw [hX, hMin, hMax] at hplain
  obtain ⟨-, -, hsel⟩ := hplain rfl rfl rfl
  have hgt : max (Value.f 5).toRat (Value.f 0).toRat > (Value.f 3).toRat := by
    simp [Value.toRat]
    norm_num
  have h0 := hsel 0 (by decide)
  have h1 := hsel 1 (by decide)
  have h2 := hsel 2 (by decide)
  rw [if_pos hgt] at h0 h1 h2
  rw [h, Option.map, h0, h1, h2]
  simp [llvm_load_value, llvm_cast, ex_Max, ex_R, ex_float, ex_st, ex_mem,
    Symbol.is_constant, comp_index, TypeSpec.aggregate, elem_index, TypeSpec.is_floatbased]

/-- Claim C6 fails as stated: for x = NaN and y = 3 the comparisons "unordered or
less or equal" of `min` and "unordered or greater than" of `max` both hold, so
both operators take the value NaN and the derivatives (1, 0) of `x`, although
neither `x <= y` nor `x > y` holds; the claim gives the value 3 and the
derivatives (0, 1) of `y`. -/
theorem llvm_gen_minmax_nan_counterexample :
    (llvm_gen_minmax ex_rop ex_min ex_nan_st).map (fun r =>
      (r.1, r.2.mem ⟨ex_R, 0, 0, 0⟩, r.2.mem ⟨ex_R, 1, 0, 0⟩, r.2.mem ⟨ex_R, 2, 0, 0⟩))
      = some (true, .nan, .f 1, .f 0) ∧
    (llvm_gen_minmax ex_rop ex_max ex_nan_st).map (fun r =>
      (r.1, r.2.mem ⟨ex_R, 0, 0, 0⟩, r.2.mem ⟨ex_R, 1, 0, 0⟩, r.2.mem ⟨ex_R, 2, 0, 0⟩))
      = some (true, .nan, .f 1, .f 0) ∧
    llvm_load_value ex_nan_st ex_A 0 none 0 (some ex_float) = .nan ∧
    llvm_load_value ex_nan_st ex_B 0 none 0 (some ex_float) = .f 3 ∧
    llvm_load_value ex_nan_st ex_B 1 none 0 (some ex_float) = .f 0 ∧
    llvm_load_value ex_nan_st ex_B 2 none 0 (some ex_float) = .f 1 := by
  refine ⟨?_, ?_, ?_, ?_, ?_, ?_⟩ <;>
  simp [llvm_gen_minmax, opargsym, ex_min, ex_max, ex_R, ex_A, ex_B, ex_float, forLoop,
    TypeSpec.is_floatbased, TypeSpec.simpletype, TypeSpec.aggregate, llvm_load_value,
    llvm_store_value, Memory.write, ex_nan_st, ex_nan_mem, ex_mem, llvm_cast,
    Symbol.is_constant, CreateFCmpULE, CreateFCmpUGT, CreateSelect, Value.is_nan, Value.toRat,
    comp_index, elem_index]

/-- Claim C6, amended: lowering `min` or `max` with a derivative-capable `Result`
succeeds, and for every component the value and both derivative slots are selected
by one condition: `min` takes `x`'s when `x <= y` or one of `x`, `y` is a NaN and
`y`'s otherwise, any other operator name (`max`) takes `x`'s when `x > y` or one of
`x`, `y` is a NaN and `y`'s otherwise.  When neither is a NaN the selection is the
one of the claim, and the value is the mathematical minimum or maximum. -/
theorem llvm_gen_minmax_selects (rop : RuntimeOptimizer) (op : Opcode) (st : CodeGen)
    (Result X Y : Symbol)
    (hR : opargsym op 0 = some Result) (hX : opargsym op 1 = some X)
    (hY : opargsym op 2 = some Y)
    (hfloat : Result.typespec.is_floatbased = true)
    (hRd : Result.has_derivs = true) :
    ∃ st', llvm_gen_minmax rop op st = some (true, st') ∧
      ∀ i, i < Result.typespec.aggregate → ∀ x y : Value,
        x = llvm_load_value st X 0 none i (some Result.typespec) →
        y = llvm_load_value st Y 0 none i (some Result.typespec) →
        (∀ d, d ≤ 2 →
          st'.mem ⟨Result, d, 0, i⟩ =
            if (if op.opname = "min" then x.unordered y = true ∨ x.toRat ≤ y.toRat
                else x.unordered y = true ∨ x.toRat > y.toRat)
            then llvm_load_value st X d none i (some Result.typespec)
            else llvm_load_value st Y d none i (some Result.typespec)) ∧
        (x.is_nan = false → y.is_nan = false →
          (∀ d, d ≤ 2 →
            st'.mem ⟨Result, d, 0, i⟩ =
              if (if op.opname = "min" then x.toRat ≤ y.toRat else x.toRat > y.toRat)
              then llvm_load_value st X d none i (some Result.typespec)
              else llvm_load_value st Y d none i (some Result.typespec)) ∧
          (st'.mem ⟨Result, 0, 0, i⟩).is_nan = false ∧
          (op.opname = "min" → (st'.mem ⟨Result, 0, 0, i⟩).toRat = min x.toRat y.toRat) ∧
          (op.opname ≠ "min" → (st'.mem ⟨Result, 0, 0, i⟩).toRat = max x.toRat y.toRat)) := by
  simp only [llvm_gen_minmax, hR, hX, hY, hfloat, hRd, TypeSpec.simpletype, if_true]
  refine ⟨_, rfl, ?_⟩
  intro i hi x y hx hy
  refine (and_iff_left_of_imp ?_).2 ?_
  case refine_2 =>
    intro d hd
    rw [forLoop_rows_at Result _ st i d hi]
    rotate_left
    · intro j s x hx
      simp only [store_frame_row Result j _ _ _ x hx]
    · intro j s s' hs
      simp (disch := decide) only [load_store_ne]
      simp only [load_agree Result j s s' hs]
      exact store_agree _ _ _ (store_agree _ _ _ (store_agree _ _ _ hs _ _ _ _ _)
        _ _ _ _ _) _ _ _ _ _
    have hd3 : d = 0 ∨ d = 1 ∨ d = 2 := by omega
    rcases hd3 with rfl | rfl | rfl <;>
    · simp (disch := decide) only [load_store_ne]
      simp only [store_mem_at _ _ _ _ _ hi, hRd, true_or, true_and, OfNat.zero_ne_ofNat,
        OfNat.ofNat_ne_zero, OfNat.one_ne_ofNat, if_true, if_false, one_ne_zero, zero_ne_one,
        ← hx, ← hy]
      by_cases h1 : op.opname = "min"
      · simp only [h1, if_true, select_ule]
      · simp only [h1, if_false, select_ugt]
  intro hsel nx ny
  have ux : x.unordered y = false := (unordered_false_iff _ _).2 ⟨nx, ny⟩
  refine ⟨?_, ?_, ?_, ?_⟩
  · intro d hd
    rw [hsel d hd]
    simp only [ux, Bool.false_eq_true, false_or]
  · rw [hsel 0 (by decide), ← hx, ← hy]
    split_ifs
    · exact nx
    · exact ny
    · exact nx
    · exact ny
  · intro hmin
    rw [hsel 0 (by decide)]
    simp only [hmin, if_true, ux, Bool.false_eq_true, false_or]
    by_cases h : x.toRat ≤ y.toRat
    · rw [if_pos h, ← hx, min_eq_left h]
    · rw [if_neg h, ← hy, min_eq_right (le_of_lt (not_le.mp h))]
  · intro hmax
    rw [hsel 0 (by decide)]
    simp only [hmax, if_false, ux, Bool.false_eq_true, false_or]
    by_cases h : x.toRat > y.toRat
    · rw [if_pos h, ← hx, max_eq_left (le_of_lt h)]
    · rw [if_neg h, ← hy, max_eq_right (not_lt.mp h)]

/-- Claim C6 (amended) at A = (2,1,0) and B = (3,0,1), neither a NaN: `min`
leaves (2,1,0), the slots of `A`. -/
theorem llvm_gen_minmax_selects_witness :
    opargsym ex_min 0 = some ex_R ∧ opargsym ex_min 1 = some ex_A ∧
    opargsym ex_min 2 = some ex_B ∧ ex_R.typespec.is_floatbased = true ∧
    ex_R.has_derivs = true ∧
    (llvm_gen_minmax ex_rop ex_min ex_st).map (fun r =>
      (r.1, r.2.mem ⟨ex_R, 0, 0, 0⟩, r.2.mem ⟨ex_R, 1, 0, 0⟩, r.2.mem ⟨ex_R, 2, 0, 0⟩))
    = some (true, .f 2, .f 1, .f 0) := by
  refine ⟨rfl, rfl, rfl, rfl, rfl, ?_⟩
  obtain ⟨st', h, hv⟩ := llvm_gen_minmax_selects ex_rop ex_min ex_st ex_R ex_A ex_B
    rfl rfl rfl rfl rfl
  obtain ⟨-, hplain⟩ := hv 0 (by decide) _ _ rfl rfl
  have hA : llvm_load_value ex_st ex_A 0 none 0 (some ex_R.typespec) = .f 2 := by
    simp [llvm_load_value, llvm_cast, ex_A, ex_R, ex_float, ex_st, ex_mem, Symbol.is_constant,
      TypeSpec.is_floatbased, comp_index, TypeSpec.aggregate, elem_index]
  have hB : llvm_load_value ex_st ex_B 0 none 0 (some ex_R.typespec) = .f 3 := by
    simp [llvm_load_value, llvm_cast, ex_B, ex_R, ex_float, ex_st, ex_mem, Symbol.is_constant,
      TypeSpec.is_floatbased, comp_index, TypeSpec.aggregate, elem_index]
  simp only [Nat.cast_zero] at hplain
  rw [hA, hB] at hplain
  obtain ⟨hsel, -⟩ := hplain rfl rfl
  have hle : (Value.f 2).toRat ≤ (Value.f 3).toRat := by
    simp [Value.toRat]
    norm_num
  have hname : ex_min.opname = "min" := rfl
  have h0 := hsel 0 (by decide)
  have h1 := hsel 1 (by decide)
  have h2 := hsel 2 (by decide)
  simp only [hname, if_true, hle] at h0 h1 h2
  rw [h, Option.map, h0, h1, h2]
  simp [llvm_load_value, llvm_cast, ex_A, ex_R, ex_float, ex_st, ex_mem,
    Symbol.is_constant, comp_index, TypeSpec.aggregate, elem_index, TypeSpec.is_floatbased]

/-! ### Comparisons at unordered operands -/

theorem float_test_iff (name : String)
    (hop : name ∈ ["lt", "le", "eq", "ge", "gt", "neq"]) (a b : Value) :
    component_test name true a b = true ↔
      (a.unordered b = true ∨ number_test name a.toRat b.toRat) := by
  simp only [List.mem_cons, List.mem_singleton, List.not_mem_nil, or_false] at hop
  rcases hop with h | h | h | h | h | h <;> subst h <;>
    simp [component_test, compare_component, number_test, Value.unordered, CreateFCmpULT,
      CreateFCmpULE, CreateFCmpUEQ, CreateFCmpUGE, CreateFCmpUGT, CreateFCmpUNE]

theorem integer_test_iff (name : String)
    (hop : name ∈ ["lt", "le", "eq", "ge", "gt", "neq"]) (a b : Value) :
    component_test name false a b = true ↔ integer_test name a b := by
  simp only [List.mem_cons, List.mem_singleton, List.not_mem_nil, or_false] at hop
  rcases hop with h | h | h | h | h | h <;> subst h <;>
    simp [component_test, compare_component, integer_test, CreateICmpSLT,
      CreateICmpSLE, CreateICmpEQ, CreateICmpSGE, CreateICmpSGT, CreateICmpNE]

theorem component_test_neq (fb : Bool) (a b : Value)
    (h : fb = false ∨ a.unordered b = false) :
    component_test "neq" fb a b = !component_test "eq" fb a b := by
  cases fb
  · simp [component_test, compare_component, CreateICmpNE, CreateICmpEQ]
  · have hu : a.unordered b = false := by
      rcases h with h | h
      · exact absurd h (by decide)
      · exact h
    simp only [Value.unordered, Bool.or_eq_false_iff] at hu
    simp [component_test, compare_component, CreateFCmpUNE, CreateFCmpUEQ, hu.1, hu.2]

/-- Claim C7 fails as stated: for A = NaN and B = 3 the single per-component
comparison `A < B` does not hold, and `lt` stores 1, as do `le`, `eq`, `ge`, `gt`
and `neq`: every comparison of floats that the code emits is "unordered or ...". -/
theorem llvm_gen_compare_op_nan_counterexample :
    (llvm_gen_compare_op ex_rop ex_cmp ex_nan_st).map (fun r => (r.1, r.2.mem ⟨ex_C, 0, 0, 0⟩))
      = some (true, .i 1) ∧
    (llvm_gen_compare_op ex_rop { ex_cmp with opname := "eq" } ex_nan_st).map
      (fun r => (r.1, r.2.mem ⟨ex_C, 0, 0, 0⟩)) = some (true, .i 1) ∧
    (llvm_gen_compare_op ex_rop { ex_cmp with opname := "neq" } ex_nan_st).map
      (fun r => (r.1, r.2.mem ⟨ex_C, 0, 0, 0⟩)) = some (true, .i 1) ∧
    loadLLVMValue ex_nan_st ex_A 0 0 (some ⟨.float, .color, 0⟩) = .nan ∧
    loadLLVMValue ex_nan_st ex_B 0 0 (some ⟨.float, .color, 0⟩) = .f 3 := by
  refine ⟨?_, ?_, ?_, ?_, ?_⟩ <;>
  simp [llvm_gen_compare_op, opargsym, ex_cmp, ex_C, ex_A, ex_B, ex_float, ex_int, forLoopM,
    TypeSpec.is_floatbased, TypeSpec.is_int, TypeSpec.is_matrix, TypeSpec.aggregate,
    compare_operands, compare_component, combine_component, loadLLVMValue, llvm_load_value,
    storeLLVMValue, llvm_store_value, Memory.write, ex_nan_st, ex_nan_mem, ex_mem, llvm_cast,
    Symbol.is_constant, CreateFCmpULT, CreateFCmpUEQ, CreateFCmpUNE, CreateZExt, Value.is_nan,
    Value.toRat, comp_index, elem_index]

/-- Claim C7, amended: for each of `lt`, `le`, `eq`, `ge`, `gt`, `neq` the lowering
succeeds and stores a single integer that is 0 or 1.  Component `i` of an operand
is the load of its component `i` (a scalar supplies its value to every component,
an integer is cast to float when the comparison is float-based), replaced by 0 off
the diagonal when the operand is not a matrix and the other one is.  Over the `n =
max (aggregate A) (aggregate B)` components the result is 1 exactly when all
per-component comparisons hold, and for `neq` exactly when one holds, where a
comparison of floats also holds when one of the two components is a NaN.  The
result of `neq` is 1 minus the result of `eq` for operands that are not floats,
and for floats no compared component of which is a NaN. -/
theorem llvm_gen_compare_op_reduction (rop : RuntimeOptimizer) (op : Opcode) (st : CodeGen)
    (Result A B : Symbol)
    (hR : opargsym op 0 = some Result) (hA : opargsym op 1 = some A)
    (hB : opargsym op 2 = some B)
    (hRi : Result.typespec.is_int = true) (hRd : Result.has_derivs = false)
    (n : Nat) (float_based : Bool) (cast : Option TypeSpec) (a b : Nat → Value)
    (hn : n = max A.typespec.aggregate B.typespec.aggregate)
    (hfb : float_based = (A.typespec.is_floatbased || B.typespec.is_floatbased))
    (hcast : cast = if float_based = true then some ⟨.float, .color, 0⟩ else none)
    (ha : ∀ i, a i = if A.typespec.is_matrix = false ∧ B.typespec.is_matrix = true ∧
        i / 4 ≠ i % 4 then .f 0 else loadLLVMValue st A i 0 cast)
    (hb : ∀ i, b i = if A.typespec.is_matrix = true ∧ B.typespec.is_matrix = false ∧
        i / 4 ≠ i % 4 then .f 0 else loadLLVMValue st B i 0 cast) :
    (∀ name, name ∈ ["lt", "le", "eq", "ge", "gt", "neq"] →
      ∃ st' r, llvm_gen_compare_op rop { op with opname := name } st = some (true, st') ∧
        st'.mem ⟨Result, 0, 0, 0⟩ = .i r ∧ (r = 0 ∨ r = 1) ∧
        (float_based = true →
          (name ≠ "neq" → (r = 1 ↔ ∀ i, i < n →
            ((a i).unordered (b i) = true ∨ number_test name (a i).toRat (b i).toRat))) ∧
          (name = "neq" → (r = 1 ↔ ∃ i, i < n ∧
            ((a i).unordered (b i) = true ∨ (a i).toRat ≠ (b i).toRat)))) ∧
        (float_based = false →
          (name ≠ "neq" → (r = 1 ↔ ∀ i, i < n → integer_test name (a i) (b i))) ∧
          (name = "neq" → (r = 1 ↔ ∃ i, i < n ∧ a i ≠ b i)))) ∧
    ((float_based = false ∨ ∀ i, i < n → (a i).unordered (b i) = false) →
      ∃ st_eq st_neq r_eq r_neq,
        llvm_gen_compare_op rop { op with opname := "eq" } st = some (true, st_eq) ∧
        llvm_gen_compare_op rop { op with opname := "neq" } st = some (true, st_neq) ∧
        st_eq.mem ⟨Result, 0, 0, 0⟩ = .i r_eq ∧ st_neq.mem ⟨Result, 0, 0, 0⟩ = .i r_neq ∧
        r_neq = 1 - r_eq) := by
  have hops : ∀ i, compare_operands st A B cast i = (a i, b i) := by
    intro i
    rw [ha, hb]
    unfold compare_operands llvm_constant
    cases hAm : A.typespec.is_matrix <;> cases hBm : B.typespec.is_matrix <;>
      by_cases hdiag : i / 4 ≠ i % 4 <;> simp [hdiag]
  subst hn hfb hcast
  have zext_iff : ∀ b : Bool, ((if b = true then (1 : Int) else 0) = 1 ↔ b = true) := by
    intro b; cases b <;> simp
  constructor
  · intro name hname
    obtain ⟨st', bit, h, hm, hbit⟩ := compare_op_bit rop { op with opname := name } st Result A B
      hR hA hB hRi hRd hname
    simp only [hops] at hbit
    refine ⟨st', if bit = true then 1 else 0, h, hm, ?_, ?_, ?_⟩
    · cases bit <;> simp
    · intro hf
      rw [hf] at hbit
      constructor
      · intro hne
        simp only [ne_eq, hne, not_false_eq_true, if_true] at hbit
        rw [zext_iff, hbit, decide_eq_true_eq]
        exact forall_congr' fun i => imp_congr_right fun _ => float_test_iff name hname _ _
      · intro he
        simp only [he, ne_eq, not_true_eq_false, if_false] at hbit
        rw [zext_iff, hbit, decide_eq_true_eq]
        refine exists_congr fun i => and_congr_right fun _ => ?_
        rw [float_test_iff "neq" (by simp)]
        simp [number_test]
    · intro hf
      rw [hf] at hbit
      constructor
      · intro hne
        simp only [ne_eq, hne, not_false_eq_true, if_true] at hbit
        rw [zext_iff, hbit, decide_eq_true_eq]
        exact forall_congr' fun i => imp_congr_right fun _ => integer_test_iff name hname _ _
      · intro he
        simp only [he, ne_eq, not_true_eq_false, if_false] at hbit
        rw [zext_iff, hbit, decide_eq_true_eq]
        refine exists_congr fun i => and_congr_right fun _ => ?_
        rw [integer_test_iff "neq" (by simp)]
        simp [integer_test]
  · intro hexact
    obtain ⟨se, be, he, hme, hbe⟩ := compare_op_bit rop { op with opname := "eq" } st
      Result A B hR hA hB hRi hRd (by simp)
    obtain ⟨sn, bn, hn, hmn, hbn⟩ := compare_op_bit rop { op with opname := "neq" } st
      Result A B hR hA hB hRi hRd (by simp)
    simp only [ne_eq, String.reduceEq, not_false_eq_true, if_true,
      not_true_eq_false, if_false, hops] at hbe hbn
    refine ⟨se, sn, _, _, he, hn, hme, hmn, ?_⟩
    have hrel : bn = !be := by
      rw [hbe, hbn, Bool.eq_iff_iff]
      simp only [decide_eq_true_eq, Bool.not_eq_true', decide_eq_false_iff_not, not_forall,
        exists_prop]
      refine exists_congr fun i => and_congr_right fun hi => ?_
      rw [component_test_neq _ _ _ (hexact.imp id (fun h => h i hi))]
      simp
    rw [hrel]
    cases be <;> simp

/-- Claim C7 (amended) at the triples P = (0, 1, 2) and Q = (0, 1, 5): over the
three components `le` holds everywhere and stores 1, `eq` fails on the last
component and stores 0, and `neq` holds on the last component and stores 1. -/
theorem llvm_gen_compare_op_reduction_witness :
    opargsym ex_cmp3 0 = some ex_C ∧ opargsym ex_cmp3 1 = some ex_P3 ∧
    opargsym ex_cmp3 2 = some ex_Q3 ∧ ex_C.typespec.is_int = true ∧ ex_C.has_derivs = false ∧
    max ex_P3.typespec.aggregate ex_Q3.typespec.aggregate = 3 ∧
    (∀ i, i < 3 → loadLLVMValue ex_triple_st ex_P3 i 0 (some ⟨.float, .color, 0⟩) = .f i) ∧
    loadLLVMValue ex_triple_st ex_Q3 2 0 (some ⟨.float, .color, 0⟩) = .f 5 ∧
    (llvm_gen_compare_op ex_rop ex_cmp3 ex_triple_st).map
      (fun r => (r.1, r.2.mem ⟨ex_C, 0, 0, 0⟩)) = some (true, .i 1) ∧
    (llvm_gen_compare_op ex_rop { ex_cmp3 with opname := "eq" } ex_triple_st).map
      (fun r => (r.1, r.2.mem ⟨ex_C, 0, 0, 0⟩)) = some (true, .i 0) ∧
    (llvm_gen_compare_op ex_rop { ex_cmp3 with opname := "neq" } ex_triple_st).map
      (fun r => (r.1, r.2.mem ⟨ex_C, 0, 0, 0⟩)) = some (true, .i 1) := by
  have hP : ∀ i, i < 3 →
      loadLLVMValue ex_triple_st ex_P3 i 0 (some ⟨.float, .color, 0⟩) = .f i := by
    intro i hi
    simp [loadLLVMValue, llvm_load_value, llvm_cast, ex_P3, ex_triple, ex_triple_st,
      Symbol.is_constant, TypeSpec.is_floatbased, comp_index, TypeSpec.aggregate, elem_index]
  have hQ : ∀ i, i < 3 →
      loadLLVMValue ex_triple_st ex_Q3 i 0 (some ⟨.float, .color, 0⟩)
        = .f (if i = 2 then 5 else i) := by
    intro i hi
    by_cases h2 : i = 2 <;>
    simp [loadLLVMValue, llvm_load_value, llvm_cast, ex_Q3, ex_triple, ex_triple_st, h2,
      Symbol.is_constant, TypeSpec.is_floatbased, comp_index, TypeSpec.aggregate, elem_index]
    omega
  obtain ⟨hall, -⟩ := llvm_gen_compare_op_reduction ex_rop ex_cmp3 ex_triple_st ex_C ex_P3 ex_Q3
    rfl rfl rfl rfl rfl 3 true (some ⟨.float, .color, 0⟩)
    (fun i => loadLLVMValue ex_triple_st ex_P3 i 0 (some ⟨.float, .color, 0⟩))
    (fun i => loadLLVMValue ex_triple_st ex_Q3 i 0 (some ⟨.float, .color, 0⟩))
    rfl rfl rfl (fun i => by simp [ex_P3, ex_Q3, ex_triple, TypeSpec.is_matrix])
    (fun i => by simp [ex_P3, ex_Q3, ex_triple, TypeSpec.is_matrix])
  refine ⟨rfl, rfl, rfl, rfl, rfl, rfl, hP, by simpa using hQ 2 (by decide), ?_, ?_, ?_⟩
  · obtain ⟨st', r, h, hm, -, hfl, -⟩ := hall "le" (by simp)
    have hr : r = 1 := by
      apply ((hfl rfl).1 (by decide)).mpr
      intro i hi
      right
      rw [hP i hi, hQ i hi]
      unfold number_test
      right; left
      refine ⟨rfl, ?_⟩
      simp only [Value.toRat]
      by_cases h2 : i = 2
      · rw [if_pos h2, h2]; norm_num
      · rw [if_neg h2]
    have h' : llvm_gen_compare_op ex_rop ex_cmp3 ex_triple_st = some (true, st') := h
    rw [h', Option.map, hm, hr]
  · obtain ⟨st', r, h, hm, h01, hfl, -⟩ := hall "eq" (by simp)
    have hr : r = 0 := by
      rcases h01 with h0 | h1
      · exact h0
      · exfalso
        have := ((hfl rfl).1 (by decide)).mp h1 2 (by decide)
        rw [hP 2 (by decide), hQ 2 (by decide)] at this
        simp [number_test, Value.toRat, Value.unordered, Value.is_nan] at this
    rw [h, Option.map, hm, hr]
  · obtain ⟨st', r, h, hm, -, hfl, -⟩ := hall "neq" (by simp)
    have hr : r = 1 := by
      apply ((hfl rfl).2 rfl).mpr
      refine ⟨2, by decide, Or.inr ?_⟩
      rw [hP 2 (by decide), hQ 2 (by decide)]
      simp [Value.toRat]
    rw [h, Option.map, hm, hr]

/-! ### The blocks of the layer calls of `useparam` -/

theorem expand_nil (op : Opcode) (e : Expansion) : expand op e [] = e := rfl

theorem expand_cons (op : Opcode) (e : Expansion) (c : Char) (l : List Char) :
    expand op e (c :: l) = expand op (expand_step op e c) l := rfl

theorem expand_format_eq (op : Opcode) (arg : Nat) (l : List Char) :
    expand_format op arg l = (expand op ⟨.text, [], [], arg⟩ l).out := rfl

theorem expand_step_after (op : Opcode) (o : List Char) (e : Expansion) (c : Char) :
    expand_step op (e.after o) c = (expand_step op e c).after o := by
  obtain ⟨m, sp, x, a⟩ := e
  cases m <;> simp only [expand_step, Expansion.after, Expansion.finish]
  · split <;> simp
  · split
    · simp
    · split <;> simp
  · split <;> simp

theorem expand_after (op : Opcode) (o : List Char) (l : List Char) :
    ∀ e : Expansion, expand op (e.after o) l = (expand op e l).after o := by
  induction l with
  | nil => intro e; rfl
  | cons c l ih =>
    intro e
    rw [expand_cons, expand_cons, expand_step_after, ih]

/-- The text behind text already written. -/
theorem expand_out (op : Opcode) (x : List Char) (a : Nat) (l : List Char) :
    (expand op ⟨.text, [], x, a⟩ l).out = x ++ expand_format op a l := by
  have h := expand_after op x l ⟨.text, [], [], a⟩
  have h' : (⟨.text, [], [], a⟩ : Expansion).after x = ⟨.text, [], x, a⟩ := by
    simp [Expansion.after]
  rw [h'] at h
  rw [h]
  rfl

/-- A well-formed specification read from inside: the reader leaves it at the
conversion character with the copies for the operand written. -/
theorem expand_spec (op : Opcode) (r : List Char) (h : well_formed .spec r = true) :
    ∀ (sp x : List Char) (a : Nat),
      ∃ l', eat_conversion (skip_conversion r) = some l' ∧
        expand op ⟨.spec, sp, x, a⟩ r =
          expand op ((⟨.spec, sp, x, a⟩ : Expansion).finish op (sp ++ take_conversion r)) l' := by
  induction r with
  | nil => simp [well_formed] at h
  | cons c r ih =>
    intro sp x a
    by_cases hp : c = '%'
    · simp [well_formed, hp] at h
    · cases hc : is_conversion c
      · simp only [well_formed, hp, if_false, hc, Bool.false_eq_true] at h
        obtain ⟨l', h1, h2⟩ := ih h (sp ++ [c]) x a
        refine ⟨l', ?_, ?_⟩
        · simp only [skip_conversion, hc, Bool.false_eq_true, if_false]
          exact h1
        · rw [expand_cons]
          simp only [expand_step, hc, Bool.false_eq_true, if_false, take_conversion]
          rw [h2]
          simp [Expansion.finish]
      · refine ⟨r, ?_, ?_⟩
        · simp [skip_conversion, hc, eat_conversion]
        · rw [expand_cons]
          simp [expand_step, hc, take_conversion]

theorem expand_percent (op : Opcode) (rest : List Char) (hh : rest.head? ≠ some '%')
    (h : well_formed .text ('%' :: rest) = true) (a : Nat) :
    ∃ l', eat_conversion (skip_conversion rest) = some l' ∧
      expand_format op a ('%' :: rest) =
        (match opargsym op a with
          | some sym => spec_copies sym (take_conversion ('%' :: rest))
          | none => []) ++ expand_format op (a + 1) l' := by
  cases rest with
  | nil => simp [well_formed] at h
  | cons d r =>
    have hd : d ≠ '%' := by
      intro hd
      apply hh
      simp [hd]
    simp only [well_formed, if_true, hd, if_false] at h
    have htake : take_conversion ('%' :: d :: r) = '%' :: take_conversion (d :: r) := by
      simp [take_conversion, percent_not_conversion]
    cases hc : is_conversion d
    · rw [hc] at h
      simp only [Bool.false_eq_true, if_false] at h
      obtain ⟨l', h1, h2⟩ := expand_spec op r h ['%', d] [] a
      refine ⟨l', ?_, ?_⟩
      · simp only [skip_conversion, hc, Bool.false_eq_true, if_false]
        exact h1
      · rw [expand_format_eq, expand_cons, expand_cons]
        simp only [expand_step, if_true, hd, if_false, hc, Bool.false_eq_true,
          List.singleton_append]
        rw [h2, htake]
        simp only [Expansion.finish, List.nil_append, take_conversion, hc, Bool.false_eq_true,
          if_false, List.cons_append]
        exact expand_out op _ _ _
    · refine ⟨r, ?_, ?_⟩
      · simp [skip_conversion, hc, eat_conversion]
      · rw [expand_format_eq, expand_cons, expand_cons]
        simp only [expand_step, if_true, hd, if_false, hc, List.singleton_append]
        rw [htake]
        simp only [Expansion.finish, List.nil_append, take_conversion, hc, if_true]
        exact expand_out op _ _ _

theorem expand_format_text (op : Opcode) (a : Nat) (c : Char) (l : List Char) (hc : c ≠ '%') :
    expand_format op a (c :: l) = c :: expand_format op a l := by
  rw [expand_format_eq, expand_cons]
  simp only [expand_step, hc, if_false, List.nil_append]
  exact expand_out op [c] a l

theorem expand_format_literal (op : Opcode) (a : Nat) (l : List Char) :
    expand_format op a ('%' :: '%' :: l) = '%' :: '%' :: expand_format op a l := by
  rw [expand_format_eq, expand_cons, expand_cons]
  simp only [expand_step, if_true, List.nil_append]
  exact expand_out op ['%', '%'] a l

/-! ### The copies written by the loops over one operand -/

theorem intercalate_replicate (spec : List Char) (k : Nat) :
    List.intercalate [' '] (List.replicate (k + 1) spec) =
      spec ++ (List.replicate k ([' '] ++ spec)).flatten := by
  induction k with
  | zero => simp [List.intercalate]
  | succ k ih =>
    have h2 : List.intercalate [' '] (List.replicate (k + 1 + 1) spec) =
        spec ++ ' ' :: List.intercalate [' '] (List.replicate (k + 1) spec) := by
      simp [List.intercalate, List.replicate_succ, List.intersperse]
    rw [h2, ih, List.replicate_succ, List.flatten_cons]
    simp

theorem intercalate_replicate_succ (spec : List Char) (k : Nat) :
    List.intercalate [' '] (List.replicate (k + 1) spec) =
      List.intercalate [' '] (List.replicate k spec) ++
        (if k = 0 then [] else [' ']) ++ spec := by
  cases k with
  | zero => simp [List.intercalate]
  | succ j =>
    rw [intercalate_replicate spec (j + 1), intercalate_replicate spec j,
      List.replicate_succ', List.flatten_append, if_neg (Nat.succ_ne_zero _)]
    simp

theorem printf_components_text (sym : Symbol) (of : List Char) (arrind : Option Value)
    (a C : Nat) (p : PrintfState) (x : List Char)
    (hs : p.s = x ++ List.intercalate [' '] (List.replicate (a * C) of)) :
    ∀ n : Nat, n ≤ C →
      (printf_components sym of arrind a n p).s =
        x ++ List.intercalate [' '] (List.replicate (a * C + n) of) := by
  intro n
  induction n with
  | zero => intro _; exact hs
  | succ n ih =>
    intro hn
    have h1 := ih (by omega)
    unfold printf_components at h1 ⊢
    rw [forLoop_succ]
    show (if n ≠ 0 ∨ a ≠ 0 then _ ++ [' '] else _) ++ of = _
    rw [h1, show a * C + (n + 1) = (a * C + n) + 1 by omega, intercalate_replicate_succ]
    by_cases h0 : a * C + n = 0
    · have hn0 : n = 0 := by omega
      have ha0 : a = 0 := by
        rcases Nat.mul_eq_zero.mp (by omega : a * C = 0) with h | h
        · exact h
        · omega
      simp [hn0, ha0]
    · have hcond : n ≠ 0 ∨ a ≠ 0 := by
        by_contra hcon
        simp only [not_or, not_not] at hcon
        apply h0
        rw [hcon.1, hcon.2]
        simp
      rw [if_pos hcond, if_neg h0]
      simp

theorem printf_element_closure (rop : RuntimeOptimizer) (sym : Symbol) (of : List Char)
    (a : Nat) (p : PrintfState) (hcl : sym.typespec.is_closure_based = true) :
    (printf_element rop sym of a p).s = p.s ++ of := by
  unfold printf_element
  rw [if_pos hcl]

theorem printf_element_components (rop : RuntimeOptimizer) (sym : Symbol) (of : List Char)
    (a : Nat) (p : PrintfState) (hcl : ¬ sym.typespec.is_closure_based = true) :
    printf_element rop sym of a p =
      printf_components sym of (if sym.typespec.arraylen ≠ 0 then some (.i a) else none) a
        sym.typespec.aggregate p := by
  unfold printf_element
  rw [if_neg hcl]
  rfl

theorem printf_arg_text (rop : RuntimeOptimizer) (sym : Symbol) (of : List Char)
    (p : PrintfState) : (printf_arg rop sym of p).s = p.s ++ spec_copies sym of := by
  unfold printf_arg spec_copies
  by_cases hcl : sym.typespec.is_closure_based = true
  · rw [if_pos hcl]
    have key : ∀ n : Nat, (forLoop n (printf_element rop sym of) p).s =
        p.s ++ (List.replicate n of).flatten := by
      intro n
      induction n with
      | zero => simp [forLoop]
      | succ n ih =>
        rw [forLoop_succ, printf_element_closure _ _ _ _ _ hcl, ih, List.replicate_succ',
          List.flatten_append]
        simp
    exact key _
  · rw [if_neg hcl]
    have key : ∀ n : Nat, (forLoop n (printf_element rop sym of) p).s =
        p.s ++ List.intercalate [' '] (List.replicate (n * sym.typespec.aggregate) of) := by
      intro n
      induction n with
      | zero => simp [forLoop, List.intercalate]
      | succ n ih =>
        rw [forLoop_succ, printf_element_components _ _ _ _ _ hcl,
          printf_components_text sym of _ n sym.typespec.aggregate _ p.s ih
            sym.typespec.aggregate (le_refl _), Nat.succ_mul]
    exact key _

/-- The text that the scan of a well-formed format has written when it ends. -/
theorem printf_loop_text (rop : RuntimeOptimizer) (op : Opcode) :
    ∀ (fuel : Nat) (p : PrintfState) (l : List Char),
      p.format = some l → well_formed .text l = true →
      ∀ p', printf_loop rop op fuel p = some (true, p') →
        p'.s = p.s ++ expand_format op p.arg l := by
  intro fuel
  induction fuel with
  | zero =>
    intro p l _ _ p' h
    simp [printf_loop] at h
  | succ fuel ih =>
    intro p l hfmt hwf p' hrun
    cases l with
    | nil =>
      rw [printf_loop] at hrun
      simp only [hfmt, Option.some.injEq, Prod.mk.injEq, true_and] at hrun
      rw [← hrun]
      simp [expand_format]
    | cons c rest =>
      rw [printf_loop] at hrun
      simp only [hfmt] at hrun
      by_cases hc : c = '%'
      · subst hc
        simp only [if_true] at hrun
        by_cases hh : rest.head? = some '%'
        · simp only [hh, if_true] at hrun
          cases rest with
          | nil => simp at hh
          | cons d r =>
            have hd : d = '%' := by simpa using hh
            subst hd
            have hwf' : well_formed .text r = true := by
              simpa [well_formed] using hwf
            have := ih _ r rfl hwf' p' hrun
            rw [this, expand_format_literal]
            simp
        · simp only [hh, if_false] at hrun
          obtain ⟨l', heat, hwf', -, -⟩ := well_formed_percent rest hh hwf
          obtain ⟨l'', heat', hexp⟩ := expand_percent op rest hh hwf p.arg
          have hl : l'' = l' := by
            rw [heat] at heat'
            exact (Option.some.inj heat').symm
          subst hl
          have hskip : skip_conversion ('%' :: rest) = skip_conversion rest := by
            simp [skip_conversion, percent_not_conversion]
          rw [hskip, heat] at hrun
          by_cases harg : p.arg ≥ op.nargs
          · simp [harg] at hrun
          · simp only [harg, if_false] at hrun
            obtain ⟨sym, hsym⟩ := opargsym_of_lt op p.arg (by omega)
            simp only [hsym] at hrun
            obtain ⟨f1, f2, -⟩ := printf_arg_frame rop sym
              (take_conversion ('%' :: rest)) { p with format := some l'' }
            have := ih
              { printf_arg rop sym (take_conversion ('%' :: rest))
                  { p with format := some l'' } with
                arg := (printf_arg rop sym (take_conversion ('%' :: rest))
                  { p with format := some l'' }).arg + 1 }
              l'' f1 hwf' p' hrun
            rw [this, hexp, hsym]
            show (printf_arg rop sym (take_conversion ('%' :: rest))
                { p with format := some l'' }).s ++
              expand_format op ((printf_arg rop sym (take_conversion ('%' :: rest))
                { p with format := some l'' }).arg + 1) l'' = _
            rw [printf_arg_text, f2, List.append_assoc]
      · simp only [hc, if_false] at hrun
        have hwf' : well_formed .text rest = true := by
          simpa [well_formed, hc] using hwf
        have := ih _ rest rfl hwf' p' hrun
        rw [this, expand_format_text op _ c rest hc]
        simp

/-- Claim C27: for a constant format string whose conversion specifications are
well formed (and a shader name without `%`), `llvm_gen_printf` returns a result,
and when it returns true its last call is the runtime call `osl_` + opname on
the rewritten format string followed by the value arguments.  The rewritten
string is the format with the text outside of specifications and every `%%`
copied unchanged and with every specification replaced by the copies for its
operand (behind the lead text for `error` and `warning`): for a closure one copy
per array element, for any other operand one copy per aggregate component of
every array element, separated by single spaces.  The number of conversion
specifications of the rewritten string equals the number of value arguments,
and both equal the sum, over the operands consumed by the specifications of the
format, of the number of array elements for a closure and of array elements
times aggregate components for any other operand. -/
theorem llvm_gen_printf_spec_count (rop : RuntimeOptimizer) (shadername : String)
    (op : Opcode) (st : CodeGen) (format_sym : Symbol)
    (hsym : opargsym op (if op.opname = "format" then 1 else 0) = some format_sym)
    (hconst : format_sym.is_constant = true)
    (hwf : well_formed .text format_sym.string_data.toList = true)
    (hname : '%' ∉ shadername.toList) :
    ∃ r, llvm_gen_printf rop shadername op st = some r ∧
      (r.1 = true → ∃ pre values,
        r.2.1.calls = pre ++ [⟨"osl_" ++ op.opname,
          (if op.opname = "printf" ∨ op.opname = "error" ∨ op.opname = "warning" then [.sg]
            else []) ++
          [.val (.s (String.mk
            ((if op.opname = "error" ∨ op.opname = "warning" then printf_lead op shadername
              else []) ++
             expand_format op ((if op.opname = "format" then 1 else 0) + 1)
               format_sym.string_data.toList)))] ++ values, false⟩] ∧
        count_specs
          ((if op.opname = "error" ∨ op.opname = "warning" then printf_lead op shadername
            else []) ++
           expand_format op ((if op.opname = "format" then 1 else 0) + 1)
             format_sym.string_data.toList) = values.length ∧
        values.length = value_count op ((if op.opname = "format" then 1 else 0) + 1)
          (count_specs format_sym.string_data.toList)) ∧
      (∀ sym spec, spec_copies sym spec =
        if sym.typespec.is_closure_based then
          (List.replicate sym.typespec.numelements spec).flatten
        else List.intercalate [' ']
          (List.replicate (sym.typespec.numelements * sym.typespec.aggregate) spec)) ∧
      (∀ a c l, c ≠ '%' → expand_format op a (c :: l) = c :: expand_format op a l) ∧
      (∀ a l, expand_format op a ('%' :: '%' :: l) = '%' :: '%' :: expand_format op a l) ∧
      (∀ a rest, rest.head? ≠ some '%' → well_formed .text ('%' :: rest) = true →
        ∃ l', eat_conversion (skip_conversion rest) = some l' ∧
          expand_format op a ('%' :: rest) =
            (match opargsym op a with
              | some sym => spec_copies sym (take_conversion ('%' :: rest))
              | none => []) ++ expand_format op (a + 1) l') ∧
      (∀ a, expand_format op a [] = []) := by
  obtain ⟨b, p', hp', hres⟩ := printf_loop_counts rop op
    ((if op.opname = "printf" ∨ op.opname = "error" ∨ op.opname = "warning" then [.sg]
      else []) ++ [.val NULL])
    (format_sym.string_data.toList.length + 2)
    ⟨some format_sym.string_data.toList, [], (if op.opname = "format" then 1 else 0) + 1,
      (if op.opname = "printf" ∨ op.opname = "error" ∨ op.opname = "warning" then [.sg]
        else []) ++ [.val NULL], st⟩
    format_sym.string_data.toList [] rfl (by omega) hwf (by simp) rfl
  have hshape : (∀ sym spec, spec_copies sym spec =
        if sym.typespec.is_closure_based then
          (List.replicate sym.typespec.numelements spec).flatten
        else List.intercalate [' ']
          (List.replicate (sym.typespec.numelements * sym.typespec.aggregate) spec)) ∧
      (∀ a c l, c ≠ '%' → expand_format op a (c :: l) = c :: expand_format op a l) ∧
      (∀ a l, expand_format op a ('%' :: '%' :: l) = '%' :: '%' :: expand_format op a l) ∧
      (∀ a rest, rest.head? ≠ some '%' → well_formed .text ('%' :: rest) = true →
        ∃ l', eat_conversion (skip_conversion rest) = some l' ∧
          expand_format op a ('%' :: rest) =
            (match opargsym op a with
              | some sym => spec_copies sym (take_conversion ('%' :: rest))
              | none => []) ++ expand_format op (a + 1) l') ∧
      (∀ a, expand_format op a [] = []) :=
    ⟨fun _ _ => rfl, fun a c l hc => expand_format_text op a c l hc,
      fun a l => expand_format_literal op a l,
      fun a rest hh hw => expand_percent op rest hh hw a, fun _ => rfl⟩
  simp only [llvm_gen_printf, hsym, hconst, Bool.not_true, Bool.false_eq_true, if_false, hp']
  cases b with
  | false => exact ⟨_, rfl, fun h => by simp at h, hshape⟩
  | true =>
    obtain ⟨vals, h1, h2, h3⟩ := hres rfl
    simp only [List.length_nil, Nat.zero_add] at h3
    have htext := printf_loop_text rop op _ _ format_sym.string_data.toList rfl hwf p' hp'
    simp only [List.nil_append] at htext
    have hs : (if op.opname = "error" ∨ op.opname = "warning" then
          printf_lead op shadername ++ p'.s else p'.s) =
        (if op.opname = "error" ∨ op.opname = "warning" then printf_lead op shadername
          else []) ++
        expand_format op ((if op.opname = "format" then 1 else 0) + 1)
          format_sym.string_data.toList := by
      rw [htext]
      split <;> simp
    have hset : p'.call_args.set
        (if op.opname = "printf" ∨ op.opname = "error" ∨ op.opname = "warning" then [Arg.sg]
          else []).length
        (.val (.s (String.mk (if op.opname = "error" ∨ op.opname = "warning" then
          printf_lead op shadername ++ p'.s else p'.s)))) =
        (if op.opname = "printf" ∨ op.opname = "error" ∨ op.opname = "warning" then [.sg]
          else []) ++ [.val (.s (String.mk (if op.opname = "error" ∨ op.opname = "warning" then
          printf_lead op shadername ++ p'.s else p'.s)))] ++ vals := by
      rw [h1]
      split <;> simp [List.set]
    have hcount : count_specs (if op.opname = "error" ∨ op.opname = "warning" then
        printf_lead op shadername ++ p'.s else p'.s) = vals.length := by
      unfold count_specs
      split
      · rename_i hop
        rw [scan_append, scan_no_percent _ (printf_lead_no_percent op shadername hop hname),
          h2]
        rfl
      · rw [h2]
        rfl
    rw [hs] at hcount
    by_cases hf : op.opname = "format"
    · have hR : ∃ R, opargsym op 0 = some R := by
        rw [if_pos hf] at hsym
        unfold opargsym at hsym ⊢
        cases hargs : op.args with
        | nil => rw [hargs] at hsym; simp at hsym
        | cons a t => exact ⟨a, rfl⟩
      obtain ⟨R, hR⟩ := hR
      simp only [if_pos hf, hR]
      rw [if_pos hf] at h3 hs hcount
      refine ⟨_, rfl, fun _ => ⟨p'.st.calls, vals, ?_, hcount, h3⟩, hshape⟩
      rw [store_calls, call_function_calls, hset, hs]
    · simp only [if_neg hf]
      rw [if_neg hf] at h3 hs hcount
      refine ⟨_, rfl, fun _ => ⟨p'.st.calls, vals, ?_, hcount, h3⟩, hshape⟩
      rw [call_function_calls, hset, hs]

/-- Claim C27 at `printf ("x = %5.2f, 100%%", v)` on a triple `v`: the lowering
returns true, the rewritten format is `x = %5.2f %5.2f %5.2f, 100%%`, and it
holds 3 specifications for the 3 values passed behind it. -/
theorem llvm_gen_printf_spec_count_witness :
    opargsym ex_printf_vec 0 = some ex_fmt_float ∧ ex_fmt_float.is_constant = true ∧
    well_formed .text ex_fmt_float.string_data.toList = true ∧
    ∃ r, llvm_gen_printf ex_rop "shader" ex_printf_vec ex_st = some r ∧ r.1 = true ∧
      ∃ pre values,
        r.2.1.calls = pre ++ [⟨"osl_printf",
          [.sg, .val (.s "x = %5.2f %5.2f %5.2f, 100%%")] ++ values, false⟩] ∧
        count_specs "x = %5.2f %5.2f %5.2f, 100%%".toList = 3 ∧ values.length = 3 := by
  have hwf : well_formed .text ex_fmt_float.string_data.toList = true := by decide
  refine ⟨rfl, rfl, hwf, ?_⟩
  obtain ⟨r, hr, hprop, -⟩ := llvm_gen_printf_spec_count ex_rop "shader" ex_printf_vec ex_st
    ex_fmt_float rfl rfl hwf (by decide)
  have heval : (llvm_gen_printf ex_rop "shader" ex_printf_vec ex_st).map (fun r => r.1)
      = some true := rfl
  rw [hr] at heval
  have htrue : r.1 = true := by simpa using heval
  obtain ⟨pre, values, h1, h2, h3⟩ := hprop htrue
  have hv : value_count ex_printf_vec ((if ex_printf_vec.opname = "format" then 1 else 0) + 1)
      (count_specs ex_fmt_float.string_data.toList) = 3 := by decide
  have hstr : (if ex_printf_vec.opname = "error" ∨ ex_printf_vec.opname = "warning" then
        printf_lead ex_printf_vec "shader" else []) ++
      expand_format ex_printf_vec ((if ex_printf_vec.opname = "format" then 1 else 0) + 1)
        ex_fmt_float.string_data.toList = "x = %5.2f %5.2f %5.2f, 100%%".toList := by
    decide
  rw [hv] at h3
  rw [h3, hstr] at h2
  rw [hstr] at h1
  refine ⟨r, hr, htrue, pre, values, ?_, h2, h3⟩
  rw [h1]
  rfl

/-! ### Lowering a well-nested range returns -/

theorem ready_of_lowered {il fn : Bool} {x y : FlowBuilder} (hx : x.ready il fn)
    (h : Lowered x y) : y.ready il fn := by
  obtain ⟨l, f, _, c, _, _⟩ := h
  exact ⟨c, fun hil => by rw [l]; exact hx.2.1 hil, fun hfn => by rw [f]; exact hx.2.2 hfn⟩

theorem gen_if_returns (build : BuildCode) (hb : BuildLowers build) (il fn : Bool) (opnum : Int)
    (op : JumpOp) (b : FlowBuilder) (hready : b.ready il fn)
    (hcond : (opargsym op.op 0).isSome = true)
    (h1 : ∀ bb x, (x.enter_block bb).ready il fn →
      ∃ r, build (opnum + 1) (op.jump 0) bb x = some r)
    (h2 : ∀ bb x, (x.enter_block bb).ready il fn →
      ∃ r, build (op.jump 0) (op.jump 1) bb x = some r) :
    ∃ r, llvm_gen_if build opnum op b = some r := by
  obtain ⟨cond, hc⟩ := Option.isSome_iff_exists.mp hcond
  obtain ⟨hcur, hl, hf⟩ := hready
  have e1 : ((if_enter b cond).2.enter_block (some b.nblocks)).ready il fn :=
    ⟨by show b.nblocks < b.nblocks + 3; omega, hl, hf⟩
  obtain ⟨r1, hr1⟩ := h1 (some b.nblocks) (if_enter b cond).2 e1
  have L1 := hb _ _ _ _ _ e1.1 hr1
  have q1 := ready_of_lowered e1 L1
  have n1 : b.nblocks + 3 ≤ r1.2.nblocks := L1.2.2.1
  have e2 : ((r1.2.CreateBr (b.nblocks + 2)).enter_block (some (b.nblocks + 1))).ready il fn :=
    ⟨by show b.nblocks + 1 < r1.2.nblocks; omega, q1.2.1, q1.2.2⟩
  obtain ⟨r2, hr2⟩ := h2 (some (b.nblocks + 1)) (r1.2.CreateBr (b.nblocks + 2)) e2
  unfold llvm_gen_if
  simp only [Option.bind_eq_some, if_enter_fst, Option.some.injEq]
  exact ⟨_, cond, hc, r1, hr1, r2, hr2, rfl⟩

theorem gen_loop_returns (build : BuildCode) (hb : BuildLowers build) (fn : Bool) (opnum : Int)
    (op : JumpOp) (b : FlowBuilder) (hcur : b.cur < b.nblocks)
    (hfn : fn = true → b.functions ≠ [])
    (hcond : (opargsym op.op 0).isSome = true)
    (h1 : ∀ bb x, (x.enter_block bb).ready true fn →
      ∃ r, build (opnum + 1) (op.jump 0) bb x = some r)
    (h2 : ∀ bb x, (x.enter_block bb).ready true fn →
      ∃ r, build (op.jump 0) (op.jump 1) bb x = some r)
    (h3 : ∀ bb x, (x.enter_block bb).ready true fn →
      ∃ r, build (op.jump 1) (op.jump 2) bb x = some r)
    (h4 : ∀ bb x, (x.enter_block bb).ready true fn →
      ∃ r, build (op.jump 2) (op.jump 3) bb x = some r) :
    ∃ r, llvm_gen_loop_op build opnum op b = some r := by
  obtain ⟨cond, hc⟩ := Option.isSome_iff_exists.mp hcond
  have e1 : ((loop_enter b).2.enter_block none).ready true fn :=
    ⟨by show b.cur < b.nblocks + 4; omega, fun _ => by
      show (loop_enter b).2.loops ≠ []
      rw [loop_enter_loops]
      simp, hfn⟩
  obtain ⟨r1, hr1⟩ := h1 none (loop_enter b).2 e1
  have L1 := hb _ _ _ _ _ e1.1 hr1
  have q1 := ready_of_lowered e1 L1
  have n1 : b.nblocks + 4 ≤ r1.2.nblocks := L1.2.2.1
  have e2 : ((r1.2.CreateBr (if op.op.opname = "dowhile" then b.nblocks + 1
      else b.nblocks)).enter_block (some b.nblocks)).ready true fn :=
    ⟨by show b.nblocks < r1.2.nblocks; omega, q1.2.1, q1.2.2⟩
  obtain ⟨r2, hr2⟩ := h2 (some b.nblocks) _ e2
  have L2 := hb _ _ _ _ _ e2.1 hr2
  have q2 := ready_of_lowered e2 L2
  have n2 : r1.2.nblocks ≤ r2.2.nblocks := L2.2.2.1
  have e3 : ((loop_test r2.2 cond (b.nblocks + 1) (b.nblocks + 3)).enter_block
      (some (b.nblocks + 1))).ready true fn :=
    ⟨by show b.nblocks + 1 < r2.2.nblocks; omega, q2.2.1, q2.2.2⟩
  obtain ⟨r3, hr3⟩ := h3 (some (b.nblocks + 1)) _ e3
  have L3 := hb _ _ _ _ _ e3.1 hr3
  have q3 := ready_of_lowered e3 L3
  have n3 : r2.2.nblocks ≤ r3.2.nblocks := L3.2.2.1
  have e4 : ((r3.2.CreateBr (b.nblocks + 2)).enter_block (some (b.nblocks + 2))).ready true fn :=
    ⟨by show b.nblocks + 2 < r3.2.nblocks; omega, q3.2.1, q3.2.2⟩
  obtain ⟨r4, hr4⟩ := h4 (some (b.nblocks + 2)) _ e4
  unfold llvm_gen_loop_op
  simp only [Option.bind_eq_some, loop_enter_fst, Option.some.injEq]
  exact ⟨_, cond, hc, r1, hr1, r2, hr2, r3, hr3, r4, hr4, rfl⟩

theorem gen_functioncall_returns (build : BuildCode) (il : Bool) (opnum : Int)
    (op : JumpOp) (b : FlowBuilder) (hcur : b.cur < b.nblocks) (hil : il = true → b.loops ≠ [])
    (hargs : op.op.nargs = 1)
    (h1 : ∀ bb x, (x.enter_block bb).ready il true →
      ∃ r, build (opnum + 1) (op.jump 0) bb x = some r) :
    ∃ r, llvm_gen_functioncall build opnum op b = some r := by
  have e1 : ((b.llvm_new_basic_block.2.llvm_push_function
      b.llvm_new_basic_block.1).enter_block none).ready il true :=
    ⟨by show b.cur < b.nblocks + 1; omega, hil, fun _ => by
      show b.llvm_new_basic_block.1 :: b.functions ≠ []
      simp⟩
  obtain ⟨r1, hr1⟩ := h1 none _ e1
  unfold llvm_gen_functioncall
  rw [if_neg (not_not.mpr hargs)]
  simp only [Option.bind_eq_some, Option.some.injEq]
  exact ⟨_, r1, hr1, rfl⟩

theorem gen_loopmod_returns (op : JumpOp) (b : FlowBuilder) (hargs : op.op.nargs = 0)
    (hl : b.loops ≠ []) : ∃ r, llvm_gen_loopmod_op op b = some r := by
  unfold llvm_gen_loopmod_op
  rw [if_neg (not_not.mpr hargs)]
  cases hb : b.loops with
  | nil => exact absurd hb hl
  | cons e rest =>
    by_cases hn : op.op.opname = "break"
    · simp [hn, FlowBuilder.llvm_loop_after_block, hb]
    · simp [hn, FlowBuilder.llvm_loop_step_block, hb]

theorem gen_return_returns (op : JumpOp) (b : FlowBuilder) (hargs : op.op.nargs = 0)
    (hf : b.functions ≠ []) : ∃ r, llvm_gen_return op b = some r := by
  unfold llvm_gen_return
  rw [if_neg (not_not.mpr hargs)]
  cases hb : b.functions with
  | nil => exact absurd hb hf
  | cons e rest => simp [FlowBuilder.llvm_return_block, hb]

/-- Enough fuel: a well-nested range of instructions is lowered to a result by
every fuel that is at least its depth. -/
theorem build_returns (rop : FlowContext) :
    ∀ (n : Nat) (il fn : Bool) (beginop endop : Int),
      well_nested rop n il fn beginop endop = true →
      ∀ fuel, n ≤ fuel → ∀ bb (b : FlowBuilder), (b.enter_block bb).ready il fn →
        ∃ r, build_llvm_code rop fuel beginop endop bb b = some r := by
  intro n
  induction n with
  | zero =>
    intro il fn beginop endop h fuel _ bb b _
    have hlt : ¬ beginop < endop := by simpa [well_nested] using h
    cases fuel with
    | zero => exact ⟨_, by rw [build_llvm_code, if_neg hlt]⟩
    | succ f => exact ⟨_, by rw [build_llvm_code, if_neg hlt]⟩
  | succ n ih =>
    intro il fn beginop endop h fuel hfuel bb b hready
    cases fuel with
    | zero => omega
    | succ f =>
      have hf : n ≤ f := by omega
      rw [build_llvm_code]
      by_cases hlt : beginop < endop
      · rw [if_pos hlt]
        rw [well_nested, if_pos hlt] at h
        cases hop : rop.op_at beginop with
        | none => rw [hop] at h; simp at h
        | some op =>
          rw [hop] at h
          simp only [Bool.and_eq_true] at h
          obtain ⟨hhere, hrest⟩ := h
          have hgen : ∃ r, llvm_gen_op rop (build_llvm_code rop f) beginop op
              (b.enter_block bb) = some r := by
            unfold llvm_gen_op
            by_cases c1 : op.op.opname = "if"
            · rw [if_pos c1]
              rw [if_pos c1] at hhere
              simp only [Bool.and_eq_true] at hhere
              exact gen_if_returns _ (build_lowers rop f) il fn beginop op _ hready
                hhere.1.1 (fun bb x hx => ih il fn _ _ hhere.1.2 f hf bb x hx)
                (fun bb x hx => ih il fn _ _ hhere.2 f hf bb x hx)
            · rw [if_neg c1]
              rw [if_neg c1] at hhere
              by_cases c2 : op.op.opname = "for" ∨ op.op.opname = "while" ∨
                  op.op.opname = "dowhile"
              · rw [if_pos c2]
                rw [if_pos c2] at hhere
                simp only [Bool.and_eq_true] at hhere
                exact gen_loop_returns _ (build_lowers rop f) fn beginop op _ hready.1
                  hready.2.2 hhere.1.1.1.1
                  (fun bb x hx => ih true fn _ _ hhere.1.1.1.2 f hf bb x hx)
                  (fun bb x hx => ih true fn _ _ hhere.1.1.2 f hf bb x hx)
                  (fun bb x hx => ih true fn _ _ hhere.1.2 f hf bb x hx)
                  (fun bb x hx => ih true fn _ _ hhere.2 f hf bb x hx)
              · rw [if_neg c2]
                rw [if_neg c2] at hhere
                by_cases c3 : op.op.opname = "break" ∨ op.op.opname = "continue"
                · rw [if_pos c3]
                  rw [if_pos c3] at hhere
                  simp only [Bool.and_eq_true, decide_eq_true_eq] at hhere
                  exact gen_loopmod_returns op _ hhere.1 (hready.2.1 hhere.2)
                · rw [if_neg c3]
                  rw [if_neg c3] at hhere
                  by_cases c4 : op.op.opname = "functioncall"
                  · rw [if_pos c4]
                    rw [if_pos c4] at hhere
                    simp only [Bool.and_eq_true, decide_eq_true_eq] at hhere
                    exact gen_functioncall_returns _ il beginop op _ hready.1 hready.2.1
                      hhere.1 (fun bb x hx => ih il true _ _ hhere.2 f hf bb x hx)
                  · rw [if_neg c4]
                    rw [if_neg c4] at hhere
                    by_cases c5 : op.op.opname = "return"
                    · rw [if_pos c5]
                      rw [if_pos c5] at hhere
                      simp only [Bool.and_eq_true, decide_eq_true_eq] at hhere
                      exact gen_return_returns op _ hhere.1 (hready.2.2 hhere.2)
                    · rw [if_neg c5]
                      split
                      · exact ⟨_, rfl⟩
                      · split <;> exact ⟨_, rfl⟩
          obtain ⟨r, hr⟩ := hgen
          have L := gen_op_lowered rop _ (build_lowers rop f) beginop op _ r hready.1 hr
          have q := ready_of_lowered hready L
          simp only [Option.bind]
          rw [hr]
          simp only []
          cases hr1 : r.1 with
          | false => exact ⟨(false, r.2), by simp⟩
          | true =>
            simp only [if_true]
            exact ih il fn _ _ hrest f hf none r.2 q
      · exact ⟨_, by rw [if_neg hlt]⟩

/-! ### The blocks and the loop stack of a lowered loop -/

/-- The blocks that a loop instruction is lowered to, for a lowering that
returns. -/
theorem loop_op_edges_of_result (rop : FlowContext) (fuel : Nat) (opnum : Int) (op : JumpOp)
    (b : FlowBuilder) (r : Bool × FlowBuilder)
    (hcur : b.cur < b.nblocks) (hopen : block_open (b.blocks b.cur))
    (hblocks : ∀ j, j < b.nblocks → ∀ i ∈ b.blocks j, ∀ t ∈ i.targets, t < b.nblocks)
    (hloops : ∀ e ∈ b.loops, e.1 < b.nblocks ∧ e.2 < b.nblocks)
    (hfunctions : ∀ f ∈ b.functions, f < b.nblocks)
    (h : llvm_gen_loop_op (build_llvm_code rop fuel) opnum op b = some r) :
    ∃ cond init_end cond_end body_end step_end,
      opargsym op.op 0 = some cond ∧
      build_llvm_code rop fuel (opnum + 1) (op.jump 0) none (loop_enter b).2 = some init_end ∧
      build_llvm_code rop fuel (op.jump 0) (op.jump 1) (some b.nblocks)
        (init_end.2.CreateBr (if op.op.opname = "dowhile" then b.nblocks + 1 else b.nblocks))
        = some cond_end ∧
      build_llvm_code rop fuel (op.jump 1) (op.jump 2) (some (b.nblocks + 1))
        (loop_test cond_end.2 cond (b.nblocks + 1) (b.nblocks + 3)) = some body_end ∧
      build_llvm_code rop fuel (op.jump 2) (op.jump 3) (some (b.nblocks + 2))
        (body_end.2.CreateBr (b.nblocks + 2)) = some step_end ∧
      r.1 = true ∧ r.2.cur = b.nblocks + 3 ∧ r.2.blocks (b.nblocks + 3) = [] ∧
      r.2.blocks init_end.2.cur = init_end.2.blocks init_end.2.cur
        ++ [.br (if op.op.opname = "dowhile" then b.nblocks + 1 else b.nblocks)] ∧
      r.2.blocks cond_end.2.cur = cond_end.2.blocks cond_end.2.cur
        ++ [.load cond_end.2.nregs cond, .icmp_ne (cond_end.2.nregs + 1) cond_end.2.nregs 0,
            .condbr (cond_end.2.nregs + 1) (b.nblocks + 1) (b.nblocks + 3)] ∧
      r.2.blocks body_end.2.cur = body_end.2.blocks body_end.2.cur ++ [.br (b.nblocks + 2)] ∧
      r.2.blocks step_end.2.cur = step_end.2.blocks step_end.2.cur ++ [.br b.nblocks] ∧
      (∀ j, j < r.2.nblocks → ∀ i ∈ r.2.blocks j, b.nblocks + 1 ∈ i.targets →
        (j = cond_end.2.cur ∧
          i = .condbr (cond_end.2.nregs + 1) (b.nblocks + 1) (b.nblocks + 3)) ∨
        (op.op.opname = "dowhile" ∧ j = init_end.2.cur ∧ i = .br (b.nblocks + 1))) ∧
      ∀ effect m,
        (run_block effect (r.2.blocks init_end.2.cur) m).2
          = some (if op.op.opname = "dowhile" then b.nblocks + 1 else b.nblocks) ∧
        (run_block effect (r.2.blocks cond_end.2.cur) m).2
          = some (if (run_block effect (cond_end.2.blocks cond_end.2.cur) m).1.vals cond ≠ 0
              then b.nblocks + 1 else b.nblocks + 3) ∧
        (run_block effect (r.2.blocks body_end.2.cur) m).2 = some (b.nblocks + 2) ∧
        (run_block effect (r.2.blocks step_end.2.cur) m).2 = some b.nblocks := by
  obtain ⟨cond, r1, r2, r3, r4, hc, h1, h2, h3, h4, hr, L1, L2, L3, L4⟩ :=
    loop_anatomy _ (build_lowers rop fuel) opnum op b r hcur h
  have hB : r.2 = ((r4.2.CreateBr b.nblocks).SetInsertPoint (b.nblocks + 3)).llvm_pop_loop := by
    rw [hr]
  obtain ⟨b1, b2, b3, b4, o1, o2, o3, o4, hL, -⟩ :=
    loop_chain b r1.2 r2.2 r3.2 r4.2 r.2 _ cond hcur L1 L2 L3 L4 hB
  have hcur' : r.2.cur = b.nblocks + 3 := by rw [hr]; rfl
  have hafter : r.2.blocks (b.nblocks + 3) = [] := by
    have e4 : r4.2.cur = b.nblocks + 2 ∨ r3.2.nblocks ≤ r4.2.cur := L4.cur_cases
    have n1 : b.nblocks + 4 ≤ r1.2.nblocks := L1.2.2.1
    have n2 : r1.2.nblocks ≤ r2.2.nblocks := L2.2.2.1
    have n3 : r2.2.nblocks ≤ r3.2.nblocks := L3.2.2.1
    have e1 : r1.2.cur = b.cur ∨ b.nblocks + 4 ≤ r1.2.cur := L1.cur_cases
    have e2 : r2.2.cur = b.nblocks ∨ r1.2.nblocks ≤ r2.2.cur := L2.cur_cases
    have e3 : r3.2.cur = b.nblocks + 1 ∨ r2.2.nblocks ≤ r3.2.cur := L3.cur_cases
    have fr1 : ∀ j, j < b.nblocks + 4 → j ≠ b.cur →
        r1.2.blocks j = (loop_enter b).2.blocks j := L1.2.2.2.2.1
    have fr2 : ∀ j, j < r1.2.nblocks → j ≠ b.nblocks →
        r2.2.blocks j = (r1.2.emit (.br (if op.op.opname = "dowhile" then b.nblocks + 1
          else b.nblocks))).blocks j := L2.2.2.2.2.1
    have fr3 : ∀ j, j < r2.2.nblocks → j ≠ b.nblocks + 1 →
        r3.2.blocks j = (loop_test r2.2 cond (b.nblocks + 1) (b.nblocks + 3)).blocks j :=
      L3.2.2.2.2.1
    have fr4 : ∀ j, j < r3.2.nblocks → j ≠ b.nblocks + 2 →
        r4.2.blocks j = (r3.2.emit (.br (b.nblocks + 2))).blocks j := L4.2.2.2.2.1
    have hBb : r.2.blocks (b.nblocks + 3) = (r4.2.emit (.br b.nblocks)).blocks (b.nblocks + 3) := by
      rw [hB]; rfl
    rw [hBb, emit_blocks_ne _ _ _ (by omega), fr4 _ (by omega) (by omega),
      emit_blocks_ne _ _ _ (by omega), fr3 _ (by omega) (by omega),
      loop_test_blocks_ne _ _ _ _ _ (by omega), fr2 _ (by omega) (by omega),
      emit_blocks_ne _ _ _ (by omega), fr1 _ (by omega) (by omega)]
    exact loop_enter_blocks_new b 3 (by omega)
  have honly : ∀ j, j < r.2.nblocks → ∀ i ∈ r.2.blocks j, b.nblocks + 1 ∈ i.targets →
      (j = r2.2.cur ∧ i = .condbr (r2.2.nregs + 1) (b.nblocks + 1) (b.nblocks + 3)) ∨
      (op.op.opname = "dowhile" ∧ j = r1.2.cur ∧ i = .br (b.nblocks + 1)) := by
    have a0 : Avoids (b.nblocks + 1) (fun _ => False) (loop_enter b).2 := by
      refine ⟨by show b.nblocks + 1 < b.nblocks + 4; omega, ?_, ?_, ?_⟩
      · intro j hj _ i hi hp
        have hj : j < b.nblocks + 4 := hj
        by_cases hjn : j < b.nblocks
        · rw [loop_enter_blocks_old b j hjn] at hi
          have := hblocks j hjn i hi _ hp
          omega
        · have hjj : j = b.nblocks + (j - b.nblocks) := by omega
          rw [hjj, loop_enter_blocks_new b _ (by omega)] at hi
          simp at hi
      · intro e he
        have he : e ∈ (b.nblocks + 2, b.nblocks + 3) :: b.loops := he
        rcases List.mem_cons.mp he with he | he
        · rw [he]
          exact ⟨by show b.nblocks + 2 ≠ b.nblocks + 1; omega,
            by show b.nblocks + 3 ≠ b.nblocks + 1; omega⟩
        · have := hloops e he
          omega
      · intro f hf
        have := hfunctions f hf
        omega
    have a1 := build_avoids rop fuel _ _ _ _ _ _ _ a0 h1
    have a1' : Avoids (b.nblocks + 1) (fun j => j = r1.2.cur ∧ op.op.opname = "dowhile")
        (r1.2.CreateBr (if op.op.opname = "dowhile" then b.nblocks + 1 else b.nblocks)) := by
      refine (a1.mono (fun j hf => hf.elim)).emit _ ?_
      by_cases hd : op.op.opname = "dowhile"
      · exact Or.inr ⟨rfl, hd⟩
      · left
        simp only [if_neg hd, FlowInstr.targets, List.mem_singleton]
        omega
    have a2 := build_avoids rop fuel _ _ _ _ _ _ _ a1' h2
    have a2' : Avoids (b.nblocks + 1)
        (fun j => (j = r1.2.cur ∧ op.op.opname = "dowhile") ∨ j = r2.2.cur)
        (loop_test r2.2 cond (b.nblocks + 1) (b.nblocks + 3)) :=
      (a2.mono (fun j hj => Or.inl hj)).loop_test _ _ _ (Or.inr (Or.inr rfl))
    have a3 := build_avoids rop fuel _ _ _ _ _ _ _ a2' h3
    have a3' := a3.emit (.br (b.nblocks + 2)) (Or.inl (by
      simp only [FlowInstr.targets, List.mem_singleton]
      omega))
    have a4 := build_avoids rop fuel _ _ _ _ _ _ _ a3' h4
    have a4' := a4.emit (.br b.nblocks) (Or.inl (by
      simp only [FlowInstr.targets, List.mem_singleton]
      omega))
    have afin : Avoids (b.nblocks + 1)
        (fun j => (j = r1.2.cur ∧ op.op.opname = "dowhile") ∨ j = r2.2.cur) r.2 := by
      rw [hB]
      exact (a4'.set_insert_point _).pop_loop
    intro j hj i hi hp
    by_cases hE : (j = r1.2.cur ∧ op.op.opname = "dowhile") ∨ j = r2.2.cur
    · rcases hE with ⟨hj1, hd⟩ | hj2
      · right
        rw [hj1, b1] at hi
        rcases List.mem_append.mp hi with hi | hi
        · rw [block_open_targets (o1 hopen) i hi] at hp
          simp at hp
        · simp only [List.mem_singleton] at hi
          rw [if_pos hd] at hi
          exact ⟨hd, hj1, hi⟩
      · left
        rw [hj2, b2] at hi
        rcases List.mem_append.mp hi with hi | hi
        · rw [block_open_targets o2 i hi] at hp
          simp at hp
        · simp only [List.mem_cons, List.mem_singleton, List.not_mem_nil, or_false] at hi
          rcases hi with hi | hi | hi
          · rw [hi] at hp
            simp [FlowInstr.targets] at hp
          · rw [hi] at hp
            simp [FlowInstr.targets] at hp
          · exact ⟨hj2, hi⟩
    · exact absurd hp (afin.2.1 j hj hE i hi)
  refine ⟨cond, r1, r2, r3, r4, hc, h1, h2, h3, h4, by rw [hr], hcur', hafter, b1, b2, b3, b4,
    honly, fun effect m => ⟨?_, ?_, ?_, ?_⟩⟩
  · rw [b1]
    exact run_block_br effect _ _ (o1 hopen) m
  · rw [b2]
    exact run_block_test effect _ cond _ _ _ o2 m
  · rw [b3]
    exact run_block_br effect _ _ o3 m
  · rw [b4]
    exact run_block_br effect _ _ o4 m


/-- The loop stack around and behind a loop instruction, for a lowering that
returns. -/
theorem loop_stack_of_result (rop : FlowContext) (fuel : Nat) (opnum : Int) (op : JumpOp)
    (b : FlowBuilder) (r : Bool × FlowBuilder) (hcur : b.cur < b.nblocks)
    (h : llvm_gen_loop_op (build_llvm_code rop fuel) opnum op b = some r) :
    (∃ cond init_end cond_end body_end step_end,
      build_llvm_code rop fuel (opnum + 1) (op.jump 0) none (loop_enter b).2 = some init_end ∧
      build_llvm_code rop fuel (op.jump 0) (op.jump 1) (some b.nblocks)
        (init_end.2.CreateBr (if op.op.opname = "dowhile" then b.nblocks + 1 else b.nblocks))
        = some cond_end ∧
      build_llvm_code rop fuel (op.jump 1) (op.jump 2) (some (b.nblocks + 1))
        (loop_test cond_end.2 cond (b.nblocks + 1) (b.nblocks + 3)) = some body_end ∧
      build_llvm_code rop fuel (op.jump 2) (op.jump 3) (some (b.nblocks + 2))
        (body_end.2.CreateBr (b.nblocks + 2)) = some step_end ∧
      (loop_enter b).2.loops = (b.nblocks + 2, b.nblocks + 3) :: b.loops ∧
      init_end.2.loops = (b.nblocks + 2, b.nblocks + 3) :: b.loops ∧
      cond_end.2.loops = (b.nblocks + 2, b.nblocks + 3) :: b.loops ∧
      body_end.2.loops = (b.nblocks + 2, b.nblocks + 3) :: b.loops ∧
      step_end.2.loops = (b.nblocks + 2, b.nblocks + 3) :: b.loops ∧
      r.2 = ((step_end.2.CreateBr b.nblocks).SetInsertPoint (b.nblocks + 3)).llvm_pop_loop) ∧
    r.2.loops = b.loops ∧
    (∀ fuel' beginop endop bb (x : FlowBuilder) y, (x.enter_block bb).cur < x.nblocks →
      build_llvm_code rop fuel' beginop endop bb x = some y → y.2.loops = x.loops) ∧
    (∀ (m : JumpOp) (x : FlowBuilder) step after rest, x.cur < x.nblocks → m.op.nargs = 0 →
      x.loops = (step, after) :: rest →
      ∃ z, llvm_gen_loopmod_op m x = some (true, z) ∧
        z.blocks x.cur
          = x.blocks x.cur ++ [.br (if m.op.opname = "break" then after else step)] ∧
        z.loops = x.loops) ∧
    (∀ (m : JumpOp) step after rest, m.op.nargs = 0 → b.loops = (step, after) :: rest →
      ∃ z, llvm_gen_loopmod_op m r.2 = some (true, z) ∧
        z.blocks r.2.cur
          = r.2.blocks r.2.cur ++ [.br (if m.op.opname = "break" then after else step)]) := by
  obtain ⟨cond, r1, r2, r3, r4, hc, h1, h2, h3, h4, hr, L1, L2, L3, L4⟩ :=
    loop_anatomy _ (build_lowers rop fuel) opnum op b r hcur h
  have hB : r.2 = ((r4.2.CreateBr b.nblocks).SetInsertPoint (b.nblocks + 3)).llvm_pop_loop := by
    rw [hr]
  obtain ⟨-, -, -, -, -, -, -, -, hL, l1, l2, l3, l4⟩ :=
    loop_chain b r1.2 r2.2 r3.2 r4.2 r.2 _ cond hcur L1 L2 L3 L4 hB
  refine ⟨⟨cond, r1, r2, r3, r4, h1, h2, h3, h4, rfl, l1, l2, l3, l4, hB⟩, hL.1, ?_, ?_, ?_⟩
  · intro fuel' beginop endop bb x y hx hy
    have := (build_lowers rop fuel' beginop endop bb x y hx hy).1
    cases bb <;> exact this
  · intro m x step after rest hx hm hl
    exact loopmod_top m x step after rest hx hm hl
  · intro m step after rest hm hl
    obtain ⟨z, hz, hzb, -⟩ := loopmod_top m r.2 step after rest hL.2.2.2.1 hm (hL.1.trans hl)
    exact ⟨z, hz, hzb⟩


/-- Claim C24: every loop instruction (`for`, `while`, `dowhile`) that has its
condition operand and whose initializer, condition, body and step are well
nested within some depth is lowered to a result by every fuel of at least that
depth, and with the blocks `cond`, `body`, `step` and `after` numbered `n`,
`n + 1`, `n + 2` and `n + 3`: the block in which the code of the initializer
ends is closed by a branch to `body` when the operator is `dowhile` and to
`cond` otherwise; the code of the condition starts in `cond`, and the block in
which it ends is closed by the load of the condition, its comparison with 0 and
a conditional branch that goes to `body` when the value is nonzero and to
`after` otherwise; the code of the body starts in `body` and the block in which
it ends is closed by a branch to `step`; the code of the step starts in `step`
and the block in which it ends is closed by a branch to `cond`; the lowering
returns true with the insertion point in the empty block `after`; and when the
branches and stacks of the builder refer to blocks that exist, no other
instruction of any block branches to `body`, so that the body of a `dowhile` is
entered from the initializer and the body of a `for` or `while` only by the
conditional branch on a nonzero condition. -/
theorem llvm_gen_loop_op_edges (rop : FlowContext) (depth : Nat) (incall : Bool) (opnum : Int)
    (op : JumpOp) (b : FlowBuilder)
    (hcur : b.cur < b.nblocks) (hopen : block_open (b.blocks b.cur))
    (hblocks : ∀ j, j < b.nblocks → ∀ i ∈ b.blocks j, ∀ t ∈ i.targets, t < b.nblocks)
    (hloops : ∀ e ∈ b.loops, e.1 < b.nblocks ∧ e.2 < b.nblocks)
    (hfunctions : ∀ f ∈ b.functions, f < b.nblocks)
    (hcond : (opargsym op.op 0).isSome = true)
    (hinit : well_nested rop depth true incall (opnum + 1) (op.jump 0) = true)
    (htest : well_nested rop depth true incall (op.jump 0) (op.jump 1) = true)
    (hbody : well_nested rop depth true incall (op.jump 1) (op.jump 2) = true)
    (hstep : well_nested rop depth true incall (op.jump 2) (op.jump 3) = true)
    (hcall : incall = true → b.functions ≠ [])
    (fuel : Nat) (hfuel : depth ≤ fuel) :
    ∃ r cond init_end cond_end body_end step_end,
      llvm_gen_loop_op (build_llvm_code rop fuel) opnum op b = some r ∧
      opargsym op.op 0 = some cond ∧
      build_llvm_code rop fuel (opnum + 1) (op.jump 0) none (loop_enter b).2 = some init_end ∧
      build_llvm_code rop fuel (op.jump 0) (op.jump 1) (some b.nblocks)
        (init_end.2.CreateBr (if op.op.opname = "dowhile" then b.nblocks + 1 else b.nblocks))
        = some cond_end ∧
      build_llvm_code rop fuel (op.jump 1) (op.jump 2) (some (b.nblocks + 1))
        (loop_test cond_end.2 cond (b.nblocks + 1) (b.nblocks + 3)) = some body_end ∧
      build_llvm_code rop fuel (op.jump 2) (op.jump 3) (some (b.nblocks + 2))
        (body_end.2.CreateBr (b.nblocks + 2)) = some step_end ∧
      r.1 = true ∧ r.2.cur = b.nblocks + 3 ∧ r.2.blocks (b.nblocks + 3) = [] ∧
      r.2.blocks init_end.2.cur = init_end.2.blocks init_end.2.cur
        ++ [.br (if op.op.opname = "dowhile" then b.nblocks + 1 else b.nblocks)] ∧
      r.2.blocks cond_end.2.cur = cond_end.2.blocks cond_end.2.cur
        ++ [.load cond_end.2.nregs cond, .icmp_ne (cond_end.2.nregs + 1) cond_end.2.nregs 0,
            .condbr (cond_end.2.nregs + 1) (b.nblocks + 1) (b.nblocks + 3)] ∧
      r.2.blocks body_end.2.cur = body_end.2.blocks body_end.2.cur ++ [.br (b.nblocks + 2)] ∧
      r.2.blocks step_end.2.cur = step_end.2.blocks step_end.2.cur ++ [.br b.nblocks] ∧
      (∀ j, j < r.2.nblocks → ∀ i ∈ r.2.blocks j, b.nblocks + 1 ∈ i.targets →
        (j = cond_end.2.cur ∧
          i = .condbr (cond_end.2.nregs + 1) (b.nblocks + 1) (b.nblocks + 3)) ∨
        (op.op.opname = "dowhile" ∧ j = init_end.2.cur ∧ i = .br (b.nblocks + 1))) ∧
      ∀ effect m,
        (run_block effect (r.2.blocks init_end.2.cur) m).2
          = some (if op.op.opname = "dowhile" then b.nblocks + 1 else b.nblocks) ∧
        (run_block effect (r.2.blocks cond_end.2.cur) m).2
          = some (if (run_block effect (cond_end.2.blocks cond_end.2.cur) m).1.vals cond ≠ 0
              then b.nblocks + 1 else b.nblocks + 3) ∧
        (run_block effect (r.2.blocks body_end.2.cur) m).2 = some (b.nblocks + 2) ∧
        (run_block effect (r.2.blocks step_end.2.cur) m).2 = some b.nblocks := by
  obtain ⟨r, hr⟩ := gen_loop_returns _ (build_lowers rop fuel) incall opnum op b hcur hcall hcond
    (fun bb x hx => build_returns rop depth true incall _ _ hinit fuel hfuel bb x hx)
    (fun bb x hx => build_returns rop depth true incall _ _ htest fuel hfuel bb x hx)
    (fun bb x hx => build_returns rop depth true incall _ _ hbody fuel hfuel bb x hx)
    (fun bb x hx => build_returns rop depth true incall _ _ hstep fuel hfuel bb x hx)
  obtain ⟨cond, r1, r2, r3, r4, h⟩ :=
    loop_op_edges_of_result rop fuel opnum op b r hcur hopen hblocks hloops hfunctions hr
  exact ⟨r, cond, r1, r2, r3, r4, hr, h⟩

/-- Claim C24 at `do { body } while (C)` lowered at the start of a layer, whose
ranges are well nested within depth 1, with fuel 1: the entry block, where the
empty initializer ends, branches to the body (block 2); the condition block 1
branches on `C` to the body or behind the loop (block 4); the body branches to
the step (block 3), which branches to the condition; and at the `for` loop of
the nested example the entry block branches to the condition (block 1)
instead. -/
theorem llvm_gen_loop_op_edges_witness :
    ex_entry.cur < ex_entry.nblocks ∧ block_open (ex_entry.blocks ex_entry.cur) ∧
    (∀ j, j < ex_entry.nblocks → ∀ i ∈ ex_entry.blocks j, ∀ t ∈ i.targets,
      t < ex_entry.nblocks) ∧
    (∀ e ∈ ex_entry.loops, e.1 < ex_entry.nblocks ∧ e.2 < ex_entry.nblocks) ∧
    (∀ f ∈ ex_entry.functions, f < ex_entry.nblocks) ∧
    (opargsym ex_do.op 0).isSome = true ∧
    well_nested ex_dowhile 1 true false (0 + 1) (ex_do.jump 0) = true ∧
    well_nested ex_dowhile 1 true false (ex_do.jump 0) (ex_do.jump 1) = true ∧
    well_nested ex_dowhile 1 true false (ex_do.jump 1) (ex_do.jump 2) = true ∧
    well_nested ex_dowhile 1 true false (ex_do.jump 2) (ex_do.jump 3) = true ∧
    ∃ r, llvm_gen_loop_op (build_llvm_code ex_dowhile 1) 0 ex_do ex_entry = some r ∧
      r.1 = true ∧ r.2.cur = 4 ∧
      (List.range 5).map r.2.blocks
        = [[.br 2],
           [.code 1, .load 0 ex_cond, .icmp_ne 1 0 0, .condbr 1 2 4],
           [.code 2, .br 3],
           [.br 1],
           []] ∧
      (llvm_gen_loop_op (build_llvm_code ex_nested 9) 0 ex_for ex_entry).map
        (fun q => q.2.blocks 0) = some [.code 1, .br 1] := by
  obtain ⟨r, cond, r1, r2, r3, r4, hr, -, -, -, -, -, htrue, hcur, -⟩ :=
    llvm_gen_loop_op_edges ex_dowhile 1 false 0 ex_do ex_entry (by decide) block_open_nil
      (fun _ _ i hi => absurd hi (List.not_mem_nil i))
      (fun e he => absurd he (List.not_mem_nil e))
      (fun f hf => absurd hf (List.not_mem_nil f))
      (by decide) (by decide) (by decide) (by decide) (by decide)
      (fun h => absurd h (by decide)) 1 (le_refl 1)
  have heval : (llvm_gen_loop_op (build_llvm_code ex_dowhile 1) 0 ex_do ex_entry).map
      (fun q => (List.range 5).map q.2.blocks)
      = some [[.br 2],
           [.code 1, .load 0 ex_cond, .icmp_ne 1 0 0, .condbr 1 2 4],
           [.code 2, .br 3],
           [.br 1],
           []] := rfl
  rw [hr] at heval
  refine ⟨by decide, block_open_nil, fun _ _ i hi => absurd hi (List.not_mem_nil i),
    fun e he => absurd he (List.not_mem_nil e), fun f hf => absurd hf (List.not_mem_nil f),
    by decide, by decide, by decide, by decide, by decide,
    r, hr, htrue, hcur, ?_, rfl⟩
  simpa using heval

/-- Claim C25: a loop instruction that has its condition operand and whose
initializer, condition, body and step are well nested within some depth is
lowered to a result by every fuel of at least that depth; with its blocks `step`
and `after` numbered `n + 2` and `n + 3`, the lowering pushes the pair (step,
after) once, so that its initializer, condition, body and step are each
lowered, from start to end, under the loop stack of the builder with that one
pair on top, and pops it once, so that the loop stack behind the loop is the
stack before it; every lowering of a range of instructions, whatever loops it
holds, leaves the loop stack it is started with, and a well-nested range is
lowered to a result that does so by every fuel of at least its depth; a `break`
lowered under a stack with the pair (step, after) on top, the pair of the
innermost loop around it, closes the block with a branch to that `after` and a
`continue` with a branch to that `step`; and a `break` or `continue` lowered
right behind this loop, inside the body of a loop around it, branches to the
blocks of the loop around it. -/
theorem llvm_loop_stack_discipline (rop : FlowContext) (depth : Nat) (incall : Bool)
    (opnum : Int) (op : JumpOp) (b : FlowBuilder) (hcur : b.cur < b.nblocks)
    (hcond : (opargsym op.op 0).isSome = true)
    (hinit : well_nested rop depth true incall (opnum + 1) (op.jump 0) = true)
    (htest : well_nested rop depth true incall (op.jump 0) (op.jump 1) = true)
    (hbody : well_nested rop depth true incall (op.jump 1) (op.jump 2) = true)
    (hstep : well_nested rop depth true incall (op.jump 2) (op.jump 3) = true)
    (hcall : incall = true → b.functions ≠ [])
    (fuel : Nat) (hfuel : depth ≤ fuel) :
    ∃ r, llvm_gen_loop_op (build_llvm_code rop fuel) opnum op b = some r ∧
    (∃ cond init_end cond_end body_end step_end,
      build_llvm_code rop fuel (opnum + 1) (op.jump 0) none (loop_enter b).2 = some init_end ∧
      build_llvm_code rop fuel (op.jump 0) (op.jump 1) (some b.nblocks)
        (init_end.2.CreateBr (if op.op.opname = "dowhile" then b.nblocks + 1 else b.nblocks))
        = some cond_end ∧
      build_llvm_code rop fuel (op.jump 1) (op.jump 2) (some (b.nblocks + 1))
        (loop_test cond_end.2 cond (b.nblocks + 1) (b.nblocks + 3)) = some body_end ∧
      build_llvm_code rop fuel (op.jump 2) (op.jump 3) (some (b.nblocks + 2))
        (body_end.2.CreateBr (b.nblocks + 2)) = some step_end ∧
      (loop_enter b).2.loops = (b.nblocks + 2, b.nblocks + 3) :: b.loops ∧
      init_end.2.loops = (b.nblocks + 2, b.nblocks + 3) :: b.loops ∧
      cond_end.2.loops = (b.nblocks + 2, b.nblocks + 3) :: b.loops ∧
      body_end.2.loops = (b.nblocks + 2, b.nblocks + 3) :: b.loops ∧
      step_end.2.loops = (b.nblocks + 2, b.nblocks + 3) :: b.loops ∧
      r.2 = ((step_end.2.CreateBr b.nblocks).SetInsertPoint (b.nblocks + 3)).llvm_pop_loop) ∧
    r.2.loops = b.loops ∧
    (∀ fuel' beginop endop bb (x : FlowBuilder) y, (x.enter_block bb).cur < x.nblocks →
      build_llvm_code rop fuel' beginop endop bb x = some y → y.2.loops = x.loops) ∧
    (∀ (m : JumpOp) (x : FlowBuilder) step after rest, x.cur < x.nblocks → m.op.nargs = 0 →
      x.loops = (step, after) :: rest →
      ∃ z, llvm_gen_loopmod_op m x = some (true, z) ∧
        z.blocks x.cur
          = x.blocks x.cur ++ [.br (if m.op.opname = "break" then after else step)] ∧
        z.loops = x.loops) ∧
    (∀ (m : JumpOp) step after rest, m.op.nargs = 0 → b.loops = (step, after) :: rest →
      ∃ z, llvm_gen_loopmod_op m r.2 = some (true, z) ∧
        z.blocks r.2.cur
          = r.2.blocks r.2.cur ++ [.br (if m.op.opname = "break" then after else step)]) ∧
    (∀ depth' inloop incall' beginop endop,
      well_nested rop depth' inloop incall' beginop endop = true →
      ∀ fuel', depth' ≤ fuel' → ∀ bb (x : FlowBuilder), (x.enter_block bb).cur < x.nblocks →
        (inloop = true → x.loops ≠ []) → (incall' = true → x.functions ≠ []) →
        ∃ y, build_llvm_code rop fuel' beginop endop bb x = some y ∧ y.2.loops = x.loops) := by
  obtain ⟨r, hr⟩ := gen_loop_returns _ (build_lowers rop fuel) incall opnum op b hcur hcall hcond
    (fun bb x hx => build_returns rop depth true incall _ _ hinit fuel hfuel bb x hx)
    (fun bb x hx => build_returns rop depth true incall _ _ htest fuel hfuel bb x hx)
    (fun bb x hx => build_returns rop depth true incall _ _ hbody fuel hfuel bb x hx)
    (fun bb x hx => build_returns rop depth true incall _ _ hstep fuel hfuel bb x hx)
  obtain ⟨h1, h2, h3, h4, h5⟩ := loop_stack_of_result rop fuel opnum op b r hcur hr
  refine ⟨r, hr, h1, h2, h3, h4, h5, ?_⟩
  intro depth' inloop incall' beginop endop hn fuel' hf bb x hx hl hc
  have hready : (x.enter_block bb).ready inloop incall' :=
    ⟨by cases bb <;> exact hx, by cases bb <;> exact hl, by cases bb <;> exact hc⟩
  obtain ⟨y, hy⟩ := build_returns rop depth' inloop incall' beginop endop hn fuel' hf bb x hready
  exact ⟨y, hy, h3 fuel' beginop endop bb x y hx hy⟩

/-- Claim C25 at the loops of `for (..; C; ..) { while (D) { continue; } break; }`:
the inner `while`, whose ranges are well nested within depth 1, is lowered with
fuel 1 in the body of a loop with step block 3 and after block 4, which leaves
the loop stack [(3, 4)], and a `break` lowered behind it branches to block 4 and
a `continue` to block 3; in the code of the whole `for` loop lowered at the
start of a layer, the `continue` of the inner body (block 6) branches to the
inner step block 7, the `break` behind the inner loop (block 8) to the outer
after block 4, and the loop stack is empty again. -/
theorem llvm_loop_stack_discipline_witness :
    ex_outer_body.cur < ex_outer_body.nblocks ∧
    (opargsym ex_while.op 0).isSome = true ∧
    well_nested ex_nested 1 true false (3 + 1) (ex_while.jump 0) = true ∧
    well_nested ex_nested 1 true false (ex_while.jump 0) (ex_while.jump 1) = true ∧
    well_nested ex_nested 1 true false (ex_while.jump 1) (ex_while.jump 2) = true ∧
    well_nested ex_nested 1 true false (ex_while.jump 2) (ex_while.jump 3) = true ∧
    ∃ r, llvm_gen_loop_op (build_llvm_code ex_nested 1) 3 ex_while ex_outer_body = some r ∧
      r.2.loops = [(3, 4)] ∧
      (∃ z, llvm_gen_loopmod_op (ex_straight "break" 43) r.2 = some (true, z) ∧
        z.blocks r.2.cur = r.2.blocks r.2.cur ++ [.br 4]) ∧
      (∃ z, llvm_gen_loopmod_op (ex_straight "continue" 43) r.2 = some (true, z) ∧
        z.blocks r.2.cur = r.2.blocks r.2.cur ++ [.br 3]) ∧
      (llvm_gen_loop_op (build_llvm_code ex_nested 9) 0 ex_for ex_entry).map
        (fun q => (q.2.loops, q.2.blocks 6, q.2.blocks 8)) = some ([], [.br 7], [.br 4]) := by
  obtain ⟨r, hr, -, hl, -, -, hafter, -⟩ :=
    llvm_loop_stack_discipline ex_nested 1 false 3 ex_while ex_outer_body (by decide)
      (by decide) (by decide) (by decide) (by decide) (by decide)
      (fun h => absurd h (by decide)) 1 (le_refl 1)
  obtain ⟨z1, hz1, hb1⟩ := hafter (ex_straight "break" 43) 3 4 [] rfl rfl
  obtain ⟨z2, hz2, hb2⟩ := hafter (ex_straight "continue" 43) 3 4 [] rfl rfl
  refine ⟨by decide, by decide, by decide, by decide, by decide, by decide,
    r, hr, hl, ⟨z1, hz1, ?_⟩, ⟨z2, hz2, ?_⟩, rfl⟩
  · rw [hb1]
    rfl
  · rw [hb2]
    rfl

end OSL
